import Mathlib

/-!
# Idefix hyperbolic update loop: a shallow embedding

The kernels of `src/HD/physics.cpp` and `src/MHD/physics.cpp`, and the `Get` of
`src/utils/lookupTableHost.hpp`, are embedded as functions over exact rationals.

* `real` is `ℚ`: the claims are statements of exact arithmetic.
* a C++ `int` is an `ℤ`; an `IdefixArray` is a total function of its indices.
* `idefix_for` is the sequential loop nest in row-major order; a kernel is the
  fold of its lambda over the index list, the state of the fold being the
  arrays the lambda writes. The iterations of the kernels embedded here write
  disjoint entries and read no entry another iteration writes, so the order of
  a parallel execution does not matter.
* the velocity `EXPAND` is taken with three components, the build the state
  conversion claims address; `DIMENSIONS` stays a parameter of the kernels
  that use `D_EXPAND`.
-/

set_option autoImplicit false

/-! ## Scalars, arrays and loops -/

/-- The floating point type of the code, read as an exact rational. -/
abbrev real := ℚ

/-- One-dimensional array view. -/
abbrev IdefixArray1D := ℤ → real

/-- Two-dimensional array view. -/
abbrev IdefixArray2D := ℤ → ℤ → real

/-- Three-dimensional array view, indexed `(k,j,i)`. -/
abbrev IdefixArray3D := ℤ → ℤ → ℤ → real

/-- Four-dimensional array view, indexed `(n,k,j,i)`. -/
abbrev IdefixArray4D := ℤ → ℤ → ℤ → ℤ → real

/-- Assignment `A(n,k,j,i) = v`. -/
def set4 (A : IdefixArray4D) (n k j i : ℤ) (v : real) : IdefixArray4D :=
  fun n' k' j' i' => if n' = n ∧ k' = k ∧ j' = j ∧ i' = i then v else A n' k' j' i'

/-- Assignment `A(k,j,i) = v`. -/
def set3 (A : IdefixArray3D) (k j i : ℤ) (v : real) : IdefixArray3D :=
  fun k' j' i' => if k' = k ∧ j' = j ∧ i' = i then v else A k' j' i'

/-- Assignment `A[n] = v` in a local array. -/
def set1 (A : IdefixArray1D) (n : ℤ) (v : real) : IdefixArray1D :=
  fun n' => if n' = n then v else A n'

/-- The indices `b, b+1, ..., e-1` of `for(int i = b ; i < e ; i++)`. -/
def irange (b e : ℤ) : List ℤ :=
  (List.range (e - b).toNat).map (fun (n : ℕ) => b + (n : ℤ))

/-- The indices `hi, hi-1, ..., lo` of `for(int i = hi ; i >= lo ; i--)`. -/
def irangeDown (hi lo : ℤ) : List ℤ :=
  (irange lo (hi + 1)).reverse

/-- Sequential `for` loop over a list of indices. -/
def forLoop {σ : Type} (l : List ℤ) (body : ℤ → σ → σ) (s : σ) : σ :=
  l.foldl (fun s i => body i s) s

/-- Index list of a two-index `idefix_for`. -/
def box2 (b1 e1 b2 e2 : ℤ) : List (ℤ × ℤ) :=
  List.product (irange b1 e1) (irange b2 e2)

/-- Index list of a three-index `idefix_for`. -/
def box3 (b1 e1 b2 e2 b3 e3 : ℤ) : List (ℤ × ℤ × ℤ) :=
  List.product (irange b1 e1) (box2 b2 e2 b3 e3)

/-- Index list of a four-index `idefix_for`. -/
def box4 (b0 e0 b1 e1 b2 e2 b3 e3 : ℤ) : List (ℤ × ℤ × ℤ × ℤ) :=
  List.product (irange b0 e0) (box3 b1 e1 b2 e2 b3 e3)

/-- Two-index `idefix_for(name, b1, e1, b2, e2, lambda)`. -/
def idefix_for2 {σ : Type} (b1 e1 b2 e2 : ℤ) (body : ℤ → ℤ → σ → σ) (s : σ) : σ :=
  (box2 b1 e1 b2 e2).foldl (fun s p => body p.1 p.2 s) s

/-- Three-index `idefix_for(name, kb, ke, jb, je, ib, ie, lambda)`. -/
def idefix_for3 {σ : Type} (b1 e1 b2 e2 b3 e3 : ℤ) (body : ℤ → ℤ → ℤ → σ → σ)
    (s : σ) : σ :=
  (box3 b1 e1 b2 e2 b3 e3).foldl (fun s p => body p.1 p.2.1 p.2.2 s) s

/-- Four-index `idefix_for(name, nb, ne, kb, ke, jb, je, ib, ie, lambda)`. -/
def idefix_for4 {σ : Type} (b0 e0 b1 e1 b2 e2 b3 e3 : ℤ)
    (body : ℤ → ℤ → ℤ → ℤ → σ → σ) (s : σ) : σ :=
  (box4 b0 e0 b1 e1 b2 e2 b3 e3).foldl (fun s p => body p.1 p.2.1 p.2.2.1 p.2.2.2 s) s

/-! ## Constants of `idefix.hpp` -/

/-- Direction index of the first axis. -/
def IDIR : ℤ := 0

/-- Direction index of the second axis. -/
def JDIR : ℤ := 1

/-- Direction index of the third axis. -/
def KDIR : ℤ := 2

/-- Modelled from the spec: the channel indices of `idefix.hpp` (not under
src/), in the order of the data model: RHO, then the velocities or momenta in
the same slots, then PRS or ENG, then the cell-centred magnetic field. -/
def RHO : ℤ := 0

/-- See `RHO`. -/
def VX1 : ℤ := 1

/-- See `RHO`. -/
def VX2 : ℤ := 2

/-- See `RHO`. -/
def VX3 : ℤ := 3

/-- See `RHO`. -/
def PRS : ℤ := 4

/-- Momenta share the slots of the velocities. -/
def MX1 : ℤ := VX1

/-- See `MX1`. -/
def MX2 : ℤ := VX2

/-- See `MX1`. -/
def MX3 : ℤ := VX3

/-- Total energy shares the slot of the pressure. -/
def ENG : ℤ := PRS

/-- See `RHO`. -/
def BX1 : ℤ := 5

/-- See `RHO`. -/
def BX2 : ℤ := 6

/-- See `RHO`. -/
def BX3 : ℤ := 7

/-- Staggered component normal to direction 1: `V_s(d, ...)` is indexed by the
face-normal direction `d`. -/
def BX1s : ℤ := 0

/-- See `BX1s`. -/
def BX2s : ℤ := 1

/-- See `BX1s`. -/
def BX3s : ℤ := 2

def ZERO_F : real := 0

def HALF_F : real := 1 / 2

def ONE_F : real := 1

def TWO_F : real := 2

def ONE_FOURTH_F : real := 1 / 4

/-- The `fabs` of the C library. -/
def FABS (x : real) : real := |x|

/-- The `fmax` of the C library. -/
def FMAX (x y : real) : real := max x y

/-- The expression `D_EXPAND(a, b, c)`: the terms of the existing dimensions,
`b` and `c` carrying their own sign. Every use in an expression of the source
is enclosed in parentheses, so the expansion is the sum of the terms. -/
def D_EXPAND (DIMENSIONS : ℕ) (a b c : real) : real :=
  if DIMENSIONS ≤ 1 then a else if DIMENSIONS = 2 then a + b else a + b + c

/-- Modelled from the spec: the constant `IOFFSET` of `idefix.hpp` (not under
src/): 1 when the direction exists in the build, so that a loop to
`end + IOFFSET` reaches the closing face of the active range. -/
def IOFFSET (_DIMENSIONS : ℕ) : ℤ := 1

/-- Modelled from the spec: see `IOFFSET`; direction 2 exists from 2D on. -/
def JOFFSET (DIMENSIONS : ℕ) : ℤ := if 2 ≤ DIMENSIONS then 1 else 0

/-- Modelled from the spec: see `IOFFSET`; direction 3 exists in 3D only. -/
def KOFFSET (DIMENSIONS : ℕ) : ℤ := if 3 ≤ DIMENSIONS then 1 else 0

/-! ## The data block -/

/-- Boundary policies of a side. -/
inductive BoundaryType where
  | periodic
  | outflow
  | userdef
  | internal
  deriving DecidableEq, Repr

/-- Face-centred and corner electromotive forces, `data.emf`. -/
structure ElectroMotiveForce where
  ex : IdefixArray3D
  ey : IdefixArray3D
  ez : IdefixArray3D
  exj : IdefixArray3D
  exk : IdefixArray3D
  eyi : IdefixArray3D
  eyk : IdefixArray3D
  ezi : IdefixArray3D
  ezj : IdefixArray3D

/-- The fields of `DataBlock` that the kernels use. -/
structure DataBlock where
  Vc : IdefixArray4D
  Uc : IdefixArray4D
  Vs : IdefixArray4D
  PrimL : IdefixArray4D
  PrimR : IdefixArray4D
  FluxRiemann : IdefixArray4D
  InvDtHyp : IdefixArray3D
  emf : ElectroMotiveForce
  x : ℤ → IdefixArray1D
  xl : ℤ → IdefixArray1D
  dx : ℤ → IdefixArray1D
  np_tot : ℤ → ℤ
  np_int : ℤ → ℤ
  nghost : ℤ → ℤ
  beg : ℤ → ℤ
  end_ : ℤ → ℤ
  lbound : ℤ → BoundaryType
  rbound : ℤ → BoundaryType

/-- Modelled from the spec: the grid extents of the data model along
direction `d`, `np_tot = np_int + 2 nghost`, `beg = nghost` and
`end = nghost + np_int` (set where the block is built, not under src/). -/
def DataBlock.extents (data : DataBlock) (d : ℤ) : Prop :=
  data.np_tot d = data.np_int d + 2 * data.nghost d ∧ data.beg d = data.nghost d
    ∧ data.end_ d = data.nghost d + data.np_int d

/-- A local `real U[NVAR]` of a kernel lambda: every entry is written before
it is read; the model starts it at 0. -/
def localArray : IdefixArray1D := fun _ => 0

/-- Offset of the sweep direction along axis `axis`: `ioffset`, `joffset`,
`koffset` start at 0 and the one of the sweep direction is set to 1. -/
def sweepOffset (dir axis : ℤ) : ℤ := if dir = axis then 1 else 0

/-! ## Hydrodynamics: `src/HD/physics.cpp` -/

namespace HD

/-- Conservative to primitive variables of one cell. The velocity `EXPAND`
carries three components; `kin` encloses its `EXPAND` in parentheses. -/
def K_ConsToPrim (HAVE_ENERGY : Bool) (Vc Uc : IdefixArray1D) (gamma_m1 : real) :
    IdefixArray1D :=
  let Vc := set1 Vc RHO (Uc RHO)
  let Vc := set1 Vc VX1 (Uc MX1 / Uc RHO)
  let Vc := set1 Vc VX2 (Uc MX2 / Uc RHO)
  let Vc := set1 Vc VX3 (Uc MX3 / Uc RHO)
  if HAVE_ENERGY then
    let kin := 0.5 / Uc RHO * (Uc MX1 * Uc MX1 + Uc MX2 * Uc MX2 + Uc MX3 * Uc MX3)
    set1 Vc PRS (gamma_m1 * (Uc ENG - kin))
  else Vc

/-- Primitive to conservative variables of one cell. `EXPAND(a, + b, + c)` is
a preprocessor definition (it also expands the statement lists of this file),
so it is replaced by its arguments as they stand; the source writes
`0.5 * Vc[RHO] * EXPAND(...)` with no parentheses around it, unlike `kin` in
`K_ConsToPrim`, hence the product binds to the first term only:
`0.5 * Vc[RHO] * Vc[VX1]*Vc[VX1] + Vc[VX2]*Vc[VX2] + Vc[VX3]*Vc[VX3]`. -/
def K_PrimToCons (HAVE_ENERGY : Bool) (Uc Vc : IdefixArray1D) (gamma_m1 : real) :
    IdefixArray1D :=
  let Uc := set1 Uc RHO (Vc RHO)
  let Uc := set1 Uc MX1 (Vc VX1 * Vc RHO)
  let Uc := set1 Uc MX2 (Vc VX2 * Vc RHO)
  let Uc := set1 Uc MX3 (Vc VX3 * Vc RHO)
  if HAVE_ENERGY then
    set1 Uc ENG (Vc PRS / gamma_m1
      + 0.5 * Vc RHO * Vc VX1 * Vc VX1 + Vc VX2 * Vc VX2 + Vc VX3 * Vc VX3)
  else Uc

/-- The members of `Physics` that the kernels read. -/
structure Physics where
  gamma : real
  C2Iso : real

/-- The lambda of `ConvertConsToPrim` at cell `(k,j,i)`. -/
def ConsToPrim_body (HAVE_ENERGY : Bool) (NVAR : ℤ) (Uc : IdefixArray4D) (gamma_m1 : real)
    (k j i : ℤ) (Vc : IdefixArray4D) : IdefixArray4D :=
  let U := forLoop (irange 0 NVAR) (fun nv U => set1 U nv (Uc nv k j i)) localArray
  let V := K_ConsToPrim HAVE_ENERGY localArray U gamma_m1
  forLoop (irange 0 NVAR) (fun nv Vc => set4 Vc nv k j i (V nv)) Vc

/-- Method `Physics::ConvertConsToPrim`: a plain loop over the full extent; there is
no test of the sign of density or pressure and no error path. -/
def Physics.ConvertConsToPrim (this : Physics) (HAVE_ENERGY : Bool) (NVAR : ℤ)
    (data : DataBlock) : DataBlock :=
  let gamma_m1 := this.gamma - ONE_F
  { data with
    Vc := idefix_for3 0 (data.np_tot KDIR) 0 (data.np_tot JDIR) 0 (data.np_tot IDIR)
      (ConsToPrim_body HAVE_ENERGY NVAR data.Uc gamma_m1) data.Vc }

/-- The Van Leer limiter of `ExtrapolatePrimVar`:
`dvp*dvm > ZERO_F ? TWO_F*dvp*dvm/(dvp + dvm) : ZERO_F`. -/
def VanLeer (dvp dvm : real) : real :=
  if dvp * dvm > ZERO_F then TWO_F * dvp * dvm / (dvp + dvm) else ZERO_F

/-- The `ORDER == 1` lambda of `ExtrapolatePrimVar`; the state is the pair
`(PrimL, PrimR)`. -/
def Extrapolate_body1 (Vc : IdefixArray4D) (koffset joffset ioffset : ℤ) (n k j i : ℤ)
    (P : IdefixArray4D × IdefixArray4D) : IdefixArray4D × IdefixArray4D :=
  (set4 P.1 n k j i (Vc n (k - koffset) (j - joffset) (i - ioffset)),
   set4 P.2 n k j i (Vc n k j i))

/-- The `ORDER == 2` lambda of `ExtrapolatePrimVar`; the state is the pair
`(PrimL, PrimR)`. -/
def Extrapolate_body2 (Vc : IdefixArray4D) (koffset joffset ioffset : ℤ) (n k j i : ℤ)
    (P : IdefixArray4D × IdefixArray4D) : IdefixArray4D × IdefixArray4D :=
  let dvm := Vc n k j i - Vc n (k - koffset) (j - joffset) (i - ioffset)
  let dvp := Vc n (k + koffset) (j + joffset) (i + ioffset) - Vc n k j i
  let dv := VanLeer dvp dvm
  (set4 P.1 n (k + koffset) (j + joffset) (i + ioffset) (Vc n k j i + HALF_F * dv),
   set4 P.2 n k j i (Vc n k j i - HALF_F * dv))

/-- Method `Physics::ExtrapolatePrimVar(data, dir)`. `ORDER` is 1 or 2 (any other
value is a compile error: no kernel runs). -/
def Physics.ExtrapolatePrimVar (ORDER : ℕ) (NVAR : ℤ) (data : DataBlock) (dir : ℤ) :
    DataBlock :=
  let ioffset := sweepOffset dir IDIR
  let joffset := sweepOffset dir JDIR
  let koffset := sweepOffset dir KDIR
  if ORDER = 1 then
    let P := idefix_for4 0 NVAR (data.beg KDIR) (data.end_ KDIR + koffset)
      (data.beg JDIR) (data.end_ JDIR + joffset) (data.beg IDIR) (data.end_ IDIR + ioffset)
      (Extrapolate_body1 data.Vc koffset joffset ioffset) (data.PrimL, data.PrimR)
    { data with PrimL := P.1, PrimR := P.2 }
  else if ORDER = 2 then
    let P := idefix_for4 0 NVAR (data.beg KDIR - koffset) (data.end_ KDIR + koffset)
      (data.beg JDIR - joffset) (data.end_ JDIR + joffset)
      (data.beg IDIR - ioffset) (data.end_ IDIR + ioffset)
      (Extrapolate_body2 data.Vc koffset joffset ioffset) (data.PrimL, data.PrimR)
    { data with PrimL := P.1, PrimR := P.2 }
  else data

/-- The lambda of `CalcRightHandSide`. -/
def RightHandSide_body (dx : IdefixArray1D) (Flux : IdefixArray4D) (dt : real)
    (koffset joffset ioffset : ℤ) (n k j i : ℤ) (Uc : IdefixArray4D) : IdefixArray4D :=
  let ig := ioffset * i + joffset * j + koffset * k
  set4 Uc n k j i (Uc n k j i
    - dt / dx ig * (Flux n (k + koffset) (j + joffset) (i + ioffset) - Flux n k j i))

/-- Method `Physics::CalcRightHandSide(data, dir, dt)`. -/
def Physics.CalcRightHandSide (NVAR : ℤ) (data : DataBlock) (dir : ℤ) (dt : real) :
    DataBlock :=
  let ioffset := sweepOffset dir IDIR
  let joffset := sweepOffset dir JDIR
  let koffset := sweepOffset dir KDIR
  { data with
    Uc := idefix_for4 0 NVAR (data.beg KDIR) (data.end_ KDIR) (data.beg JDIR) (data.end_ JDIR)
      (data.beg IDIR) (data.end_ IDIR)
      (RightHandSide_body (data.dx dir) data.FluxRiemann dt koffset joffset ioffset) data.Uc }

end HD

/-! ## Magnetohydrodynamics: `src/MHD/physics.cpp` -/

namespace MHD

/-- The normal magnetic channel `BXn` of a sweep: assigned in the three
`if(dir==...)` blocks; with any other `dir` it is never assigned, and the
model gives -1, which is no channel. -/
def normalChannel (dir : ℤ) : ℤ :=
  if dir = KDIR then BX3 else if dir = JDIR then BX2 else if dir = IDIR then BX1 else -1

/-- Extension `iextend` of the sweep range across direction 1: set by the
first slot of `D_EXPAND` in the blocks of the other two directions. -/
def iextend (_DIMENSIONS : ℕ) (dir : ℤ) : ℤ :=
  if dir = JDIR ∨ dir = KDIR then 1 else 0

/-- Extension `jextend`: set by the second slot of `D_EXPAND`, present from 2D
on, in the blocks of directions 1 and 3. -/
def jextend (DIMENSIONS : ℕ) (dir : ℤ) : ℤ :=
  if (dir = IDIR ∨ dir = KDIR) ∧ 2 ≤ DIMENSIONS then 1 else 0

/-- Extension `kextend`: set by the third slot of `D_EXPAND`, present in 3D,
in the blocks of directions 1 and 2. -/
def kextend (DIMENSIONS : ℕ) (dir : ℤ) : ℤ :=
  if (dir = IDIR ∨ dir = JDIR) ∧ 3 ≤ DIMENSIONS then 1 else 0

/-- The `ORDER == 1` lambda of the MHD `ExtrapolatePrimVar`. -/
def Extrapolate_body1 (Vc Vs : IdefixArray4D) (dir BXn koffset joffset ioffset : ℤ)
    (n k j i : ℤ) (P : IdefixArray4D × IdefixArray4D) : IdefixArray4D × IdefixArray4D :=
  if n = BXn then
    (set4 P.1 n k j i (Vs dir k j i), set4 P.2 n k j i (Vs dir k j i))
  else
    (set4 P.1 n k j i (Vc n (k - koffset) (j - joffset) (i - ioffset)),
     set4 P.2 n k j i (Vc n k j i))

/-- The `ORDER == 2` lambda of the MHD `ExtrapolatePrimVar`. -/
def Extrapolate_body2 (Vc Vs : IdefixArray4D) (dir BXn koffset joffset ioffset : ℤ)
    (n k j i : ℤ) (P : IdefixArray4D × IdefixArray4D) : IdefixArray4D × IdefixArray4D :=
  if n = BXn then
    (set4 P.1 n (k + koffset) (j + joffset) (i + ioffset)
       (Vs dir (k + koffset) (j + joffset) (i + ioffset)),
     set4 P.2 n k j i (Vs dir k j i))
  else
    let dvm := Vc n k j i - Vc n (k - koffset) (j - joffset) (i - ioffset)
    let dvp := Vc n (k + koffset) (j + joffset) (i + ioffset) - Vc n k j i
    let dv := HD.VanLeer dvp dvm
    (set4 P.1 n (k + koffset) (j + joffset) (i + ioffset) (Vc n k j i + HALF_F * dv),
     set4 P.2 n k j i (Vc n k j i - HALF_F * dv))

/-- Method `Physics::ExtrapolatePrimVar(data, dir)` of the MHD build. -/
def Physics.ExtrapolatePrimVar (DIMENSIONS ORDER : ℕ) (NVAR : ℤ) (data : DataBlock)
    (dir : ℤ) : DataBlock :=
  let ioffset := sweepOffset dir IDIR
  let joffset := sweepOffset dir JDIR
  let koffset := sweepOffset dir KDIR
  let iextend := iextend DIMENSIONS dir
  let jextend := jextend DIMENSIONS dir
  let kextend := kextend DIMENSIONS dir
  let BXn := normalChannel dir
  if ORDER = 1 then
    let P := idefix_for4 0 NVAR
      (data.beg KDIR - kextend) (data.end_ KDIR + koffset + kextend)
      (data.beg JDIR - jextend) (data.end_ JDIR + joffset + jextend)
      (data.beg IDIR - iextend) (data.end_ IDIR + ioffset + iextend)
      (Extrapolate_body1 data.Vc data.Vs dir BXn koffset joffset ioffset)
      (data.PrimL, data.PrimR)
    { data with PrimL := P.1, PrimR := P.2 }
  else if ORDER = 2 then
    let P := idefix_for4 0 NVAR
      (data.beg KDIR - koffset - kextend) (data.end_ KDIR + koffset + kextend)
      (data.beg JDIR - joffset - jextend) (data.end_ JDIR + joffset + jextend)
      (data.beg IDIR - ioffset - iextend) (data.end_ IDIR + ioffset + iextend)
      (Extrapolate_body2 data.Vc data.Vs dir BXn koffset joffset ioffset)
      (data.PrimL, data.PrimR)
    { data with PrimL := P.1, PrimR := P.2 }
  else data

/-- The lambda of `EvolveMagField`; `Ex1`, `Ex2`, `Ex3` are the corner EMFs
`emf.ex`, `emf.ey`, `emf.ez`. -/
def EvolveMagField_body (DIMENSIONS : ℕ) (Ex1 Ex2 Ex3 : IdefixArray3D)
    (dx1 dx2 dx3 : IdefixArray1D) (dt : real) (k j i : ℤ) (Vs : IdefixArray4D) :
    IdefixArray4D :=
  let Vs := set4 Vs BX1s k j i (Vs BX1s k j i + (D_EXPAND DIMENSIONS ZERO_F
      (- (dt / dx2 j * (Ex3 k (j + 1) i - Ex3 k j i)))
      (dt / dx3 k * (Ex2 (k + 1) j i - Ex2 k j i))))
  let Vs := if 2 ≤ DIMENSIONS then
      set4 Vs BX2s k j i (Vs BX2s k j i + (D_EXPAND DIMENSIONS
        (dt / dx1 i * (Ex3 k j (i + 1) - Ex3 k j i))
        0
        (- (dt / dx3 k * (Ex1 (k + 1) j i - Ex1 k j i)))))
    else Vs
  if DIMENSIONS = 3 then
    set4 Vs BX3s k j i (Vs BX3s k j i + (- dt / dx1 i * (Ex2 k j (i + 1) - Ex2 k j i)
      + dt / dx2 j * (Ex1 k (j + 1) i - Ex1 k j i)))
  else Vs

/-- Method `Physics::EvolveMagField(data, t, dt)`. -/
def Physics.EvolveMagField (DIMENSIONS : ℕ) (data : DataBlock) (_t dt : real) : DataBlock :=
  { data with
    Vs := idefix_for3 (data.beg KDIR) (data.end_ KDIR + KOFFSET DIMENSIONS)
      (data.beg JDIR) (data.end_ JDIR + JOFFSET DIMENSIONS)
      (data.beg IDIR) (data.end_ IDIR + IOFFSET DIMENSIONS)
      (EvolveMagField_body DIMENSIONS data.emf.ex data.emf.ey data.emf.ez
        (data.dx IDIR) (data.dx JDIR) (data.dx KDIR) dt) data.Vs }

/-- The discrete divergence of `CheckDivB` at cell `(k,j,i)`:
`D_EXPAND(dB1, +dB2, +dB3)` with the three differences of the lambda. -/
def divB (DIMENSIONS : ℕ) (Vs : IdefixArray4D) (dx1 dx2 dx3 : IdefixArray1D)
    (k j i : ℤ) : real :=
  let dB1 := (Vs BX1s k j (i + 1) - Vs BX1s k j i) / (dx1 i)
  let dB2 := (Vs BX2s k (j + 1) i - Vs BX2s k j i) / (dx2 j)
  let dB3 := (Vs BX3s (k + 1) j i - Vs BX3s k j i) / (dx3 k)
  D_EXPAND DIMENSIONS dB1 dB2 dB3

/-- Method `Physics::CheckDivB(data)`: the `Kokkos::Max` reduction of `|divB|` over
the active cells. `maxIdentity` is the identity of the reducer, from which the
reduction starts (a constant of Kokkos, not under src/). -/
def Physics.CheckDivB (DIMENSIONS : ℕ) (maxIdentity : real) (data : DataBlock) : real :=
  idefix_for3 (data.beg KDIR) (data.end_ KDIR) (data.beg JDIR) (data.end_ JDIR)
    (data.beg IDIR) (data.end_ IDIR)
    (fun k j i divBmax =>
      FMAX (FABS (divB DIMENSIONS data.Vs (data.dx IDIR) (data.dx JDIR) (data.dx KDIR) k j i))
        divBmax) maxIdentity

/-- Body of the first loop of `ReconstructBX1s`, `for(i = nstart; i >= 0; i--)`. -/
def ReconstructBX1s_left (DIMENSIONS : ℕ) (dx1 dx2 dx3 : IdefixArray1D) (k j : ℤ)
    (i : ℤ) (Vs : IdefixArray4D) : IdefixArray4D :=
  set4 Vs BX1s k j i (Vs BX1s k j (i + 1) + dx1 i * (D_EXPAND DIMENSIONS ZERO_F
    ((Vs BX2s k (j + 1) i - Vs BX2s k j i) / dx2 j)
    ((Vs BX3s (k + 1) j i - Vs BX3s k j i) / dx3 k)))

/-- Body of the second loop of `ReconstructBX1s`, `for(i = nend; i < nx1; i++)`. -/
def ReconstructBX1s_right (DIMENSIONS : ℕ) (dx1 dx2 dx3 : IdefixArray1D) (k j : ℤ)
    (i : ℤ) (Vs : IdefixArray4D) : IdefixArray4D :=
  set4 Vs BX1s k j (i + 1) (Vs BX1s k j i - dx1 i * (D_EXPAND DIMENSIONS ZERO_F
    ((Vs BX2s k (j + 1) i - Vs BX2s k j i) / dx2 j)
    ((Vs BX3s (k + 1) j i - Vs BX3s k j i) / dx3 k)))

/-- The two sequential loops of the `ReconstructBX1s` lambda at `(k,j)`. -/
def ReconstructBX1s_body (DIMENSIONS : ℕ) (dx1 dx2 dx3 : IdefixArray1D)
    (nstart nend nx1 : ℤ) (k j : ℤ) (Vs : IdefixArray4D) : IdefixArray4D :=
  let Vs := forLoop (irangeDown nstart 0) (ReconstructBX1s_left DIMENSIONS dx1 dx2 dx3 k j) Vs
  forLoop (irange nend nx1) (ReconstructBX1s_right DIMENSIONS dx1 dx2 dx3 k j) Vs

/-- Body of the first loop of `ReconstructBX2s`, `for(j = nstart; j >= 0; j--)`. -/
def ReconstructBX2s_left (DIMENSIONS : ℕ) (dx1 dx2 dx3 : IdefixArray1D) (k i : ℤ)
    (j : ℤ) (Vs : IdefixArray4D) : IdefixArray4D :=
  set4 Vs BX2s k j i (Vs BX2s k (j + 1) i + dx2 j * (D_EXPAND DIMENSIONS
    ((Vs BX1s k j (i + 1) - Vs BX1s k j i) / dx1 i)
    0
    ((Vs BX3s (k + 1) j i - Vs BX3s k j i) / dx3 k)))

/-- Body of the second loop of `ReconstructBX2s`, `for(j = nend; j < nx2; j++)`. -/
def ReconstructBX2s_right (DIMENSIONS : ℕ) (dx1 dx2 dx3 : IdefixArray1D) (k i : ℤ)
    (j : ℤ) (Vs : IdefixArray4D) : IdefixArray4D :=
  set4 Vs BX2s k (j + 1) i (Vs BX2s k j i - dx2 j * (D_EXPAND DIMENSIONS
    ((Vs BX1s k j (i + 1) - Vs BX1s k j i) / dx1 i)
    0
    ((Vs BX3s (k + 1) j i - Vs BX3s k j i) / dx3 k)))

/-- The two sequential loops of the `ReconstructBX2s` lambda at `(k,i)`. -/
def ReconstructBX2s_body (DIMENSIONS : ℕ) (dx1 dx2 dx3 : IdefixArray1D)
    (nstart nend nx2 : ℤ) (k i : ℤ) (Vs : IdefixArray4D) : IdefixArray4D :=
  let Vs := forLoop (irangeDown nstart 0) (ReconstructBX2s_left DIMENSIONS dx1 dx2 dx3 k i) Vs
  forLoop (irange nend nx2) (ReconstructBX2s_right DIMENSIONS dx1 dx2 dx3 k i) Vs

/-- Body of the first loop of `ReconstructBX3s`, `for(k = nstart; k >= 0; k--)`.
Both differences are written with the same face twice, as in the source:
`Vs(BX1s,k,j,i+1) - Vs(BX1s,k,j,i+1)` and `Vs(BX2s,k,j+1,i) - Vs(BX2s,k,j+1,i)`. -/
def ReconstructBX3s_left (dx1 dx2 dx3 : IdefixArray1D) (j i : ℤ)
    (k : ℤ) (Vs : IdefixArray4D) : IdefixArray4D :=
  set4 Vs BX3s k j i (Vs BX3s (k + 1) j i + dx3 k * (
    (Vs BX1s k j (i + 1) - Vs BX1s k j (i + 1)) / dx1 i
    + (Vs BX2s k (j + 1) i - Vs BX2s k (j + 1) i) / dx2 j))

/-- Body of the second loop of `ReconstructBX3s`, `for(k = nend; k < nx3; k++)`,
with the same repeated faces as the first. -/
def ReconstructBX3s_right (dx1 dx2 dx3 : IdefixArray1D) (j i : ℤ)
    (k : ℤ) (Vs : IdefixArray4D) : IdefixArray4D :=
  set4 Vs BX3s (k + 1) j i (Vs BX3s k j i - dx3 k * (
    (Vs BX1s k j (i + 1) - Vs BX1s k j (i + 1)) / dx1 i
    + (Vs BX2s k (j + 1) i - Vs BX2s k (j + 1) i) / dx2 j))

/-- The two sequential loops of the `ReconstructBX3s` lambda at `(j,i)`. -/
def ReconstructBX3s_body (dx1 dx2 dx3 : IdefixArray1D)
    (nstart nend nx3 : ℤ) (j i : ℤ) (Vs : IdefixArray4D) : IdefixArray4D :=
  let Vs := forLoop (irangeDown nstart 0) (ReconstructBX3s_left dx1 dx2 dx3 j i) Vs
  forLoop (irange nend nx3) (ReconstructBX3s_right dx1 dx2 dx3 j i) Vs

/-- The `ReconstructBX1s` kernel on the staggered field. -/
def ReconstructBX1s (DIMENSIONS : ℕ) (data : DataBlock) (Vs : IdefixArray4D) :
    IdefixArray4D :=
  let nstart := data.nghost IDIR - 1
  let nend := data.np_tot IDIR - data.nghost IDIR - 1
  let nx1 := data.np_tot IDIR
  let nx2 := data.np_tot JDIR
  let nx3 := data.np_tot KDIR
  idefix_for2 0 nx3 0 nx2
    (ReconstructBX1s_body DIMENSIONS (data.dx IDIR) (data.dx JDIR) (data.dx KDIR)
      nstart nend nx1) Vs

/-- The `ReconstructBX2s` kernel on the staggered field. -/
def ReconstructBX2s (DIMENSIONS : ℕ) (data : DataBlock) (Vs : IdefixArray4D) :
    IdefixArray4D :=
  let nstart := data.nghost JDIR - 1
  let nend := data.np_tot JDIR - data.nghost JDIR - 1
  let nx2 := data.np_tot JDIR
  idefix_for2 0 (data.np_tot KDIR) 0 (data.np_tot IDIR)
    (ReconstructBX2s_body DIMENSIONS (data.dx IDIR) (data.dx JDIR) (data.dx KDIR)
      nstart nend nx2) Vs

/-- The `ReconstructBX3s` kernel on the staggered field. -/
def ReconstructBX3s (data : DataBlock) (Vs : IdefixArray4D) : IdefixArray4D :=
  let nstart := data.nghost KDIR - 1
  let nend := data.np_tot KDIR - data.nghost KDIR - 1
  let nx3 := data.np_tot KDIR
  idefix_for2 0 (data.np_tot JDIR) 0 (data.np_tot IDIR)
    (ReconstructBX3s_body (data.dx IDIR) (data.dx JDIR) (data.dx KDIR)
      nstart nend nx3) Vs

/-- Method `Physics::ReconstructNormalField(data)`: the three kernels in sequence,
the second from 2D on and the third in 3D. -/
def Physics.ReconstructNormalField (DIMENSIONS : ℕ) (data : DataBlock) : DataBlock :=
  let Vs := ReconstructBX1s DIMENSIONS data data.Vs
  let Vs := if 2 ≤ DIMENSIONS then ReconstructBX2s DIMENSIONS data Vs else Vs
  let Vs := if DIMENSIONS = 3 then ReconstructBX3s data Vs else Vs
  { data with Vs := Vs }

/-- The cell `(k,j,i)` is solenoidal in the form the `ReconstructBX1s` loops
impose it: the face `i` is the face `i+1` plus `dx1(i)` times the transverse
differences. -/
def faceRel1 (DIMENSIONS : ℕ) (dx1 dx2 dx3 : IdefixArray1D) (Vs : IdefixArray4D)
    (k j i : ℤ) : Prop :=
  Vs BX1s k j i = Vs BX1s k j (i + 1) + dx1 i * (D_EXPAND DIMENSIONS ZERO_F
    ((Vs BX2s k (j + 1) i - Vs BX2s k j i) / dx2 j)
    ((Vs BX3s (k + 1) j i - Vs BX3s k j i) / dx3 k))

/-- The cell `(k,j,i)` is solenoidal in the form the `ReconstructBX2s` loops
impose it. -/
def faceRel2 (DIMENSIONS : ℕ) (dx1 dx2 dx3 : IdefixArray1D) (Vs : IdefixArray4D)
    (k j i : ℤ) : Prop :=
  Vs BX2s k j i = Vs BX2s k (j + 1) i + dx2 j * (D_EXPAND DIMENSIONS
    ((Vs BX1s k j (i + 1) - Vs BX1s k j i) / dx1 i)
    0
    ((Vs BX3s (k + 1) j i - Vs BX3s k j i) / dx3 k))

/-- The face `k` of `BX3s` is the copy of the face `k+1`: what the
`ReconstructBX3s` loops impose, both transverse differences being zero. -/
def faceRel3 (Vs : IdefixArray4D) (k j i : ℤ) : Prop :=
  Vs BX3s k j i = Vs BX3s (k + 1) j i

end MHD

/-! ## Concrete inputs -/

/-- A cell state with the given density, velocities and pressure (or, read as
conservative variables, density, momenta and energy). -/
def cellState (rho v1 v2 v3 prs : real) : IdefixArray1D :=
  fun n => if n = RHO then rho else if n = VX1 then v1 else if n = VX2 then v2
    else if n = VX3 then v3 else if n = PRS then prs else 0

/-- A block on a grid with the given ghost and interior sizes: unit cell
widths, every array zero, extents as in the data model
(`np_tot = np_int + 2 nghost`, `beg = nghost`, `end = nghost + np_int`). -/
def gridBlock (nghost np_int : ℤ → ℤ) : DataBlock where
  Vc := fun _ _ _ _ => 0
  Uc := fun _ _ _ _ => 0
  Vs := fun _ _ _ _ => 0
  PrimL := fun _ _ _ _ => 0
  PrimR := fun _ _ _ _ => 0
  FluxRiemann := fun _ _ _ _ => 0
  InvDtHyp := fun _ _ _ => 0
  emf := ⟨fun _ _ _ => 0, fun _ _ _ => 0, fun _ _ _ => 0, fun _ _ _ => 0, fun _ _ _ => 0,
    fun _ _ _ => 0, fun _ _ _ => 0, fun _ _ _ => 0, fun _ _ _ => 0⟩
  x := fun _ i => (i : real) + 1 / 2
  xl := fun _ i => (i : real)
  dx := fun _ _ => 1
  np_tot := fun d => np_int d + 2 * nghost d
  np_int := np_int
  nghost := nghost
  beg := nghost
  end_ := fun d => nghost d + np_int d
  lbound := fun _ => BoundaryType.periodic
  rbound := fun _ => BoundaryType.periodic

/-- A 1D grid: four active cells and two ghost layers along direction 1, a
single cell and no ghost along the other two. -/
def grid1D : DataBlock :=
  gridBlock (fun d => if d = IDIR then 2 else 0) (fun d => if d = IDIR then 4 else 1)

/-- The 1D grid with a uniform staggered field 1 and a zero cell-centred
state. -/
def grid1D_Vs1 : DataBlock :=
  { grid1D with Vs := fun _ _ _ _ => 1 }

/-- The 1D grid with the ramp `Vc(n,k,j,i) = i*i` in every channel. -/
def grid1D_ramp : DataBlock :=
  { grid1D with Vc := fun _ _ _ i => (i : real) * i }

/-- The entry of `A` in channel `n` on the line through `(k,j,i)` along
direction `dir`, at index `m` of that direction. -/
def alongLine (dir : ℤ) (A : IdefixArray4D) (n k j i m : ℤ) : real :=
  A n (if dir = KDIR then m else k) (if dir = JDIR then m else j)
    (if dir = IDIR then m else i)

/-- A 3D grid: two active cells and one ghost layer along every direction. -/
def grid3D : DataBlock :=
  gridBlock (fun _ => 1) (fun _ => 2)

/-- The 3D grid with the solenoidal staggered field `B = (x, 0, -z)`:
`V_s(BX1s,k,j,i) = i`, `V_s(BX2s) = 0`, `V_s(BX3s,k,j,i) = -k` on every face,
ghost faces included. -/
def grid3D_linear : DataBlock :=
  { grid3D with
    Vs := fun n k _ i => if n = BX1s then (i : real) else if n = BX3s then - (k : real) else 0 }

/-- The 3D grid with the field `B = (x, 0, -z)` and corner EMFs that vary
along every direction. -/
def grid3D_emf : DataBlock :=
  { grid3D_linear with
    emf := ⟨fun k j i => (k : real) * j + i, fun k j i => (i : real) * k - j,
      fun k j i => (i : real) * j + k, fun _ _ _ => 0, fun _ _ _ => 0, fun _ _ _ => 0,
      fun _ _ _ => 0, fun _ _ _ => 0, fun _ _ _ => 0⟩ }

/-- The 1D grid with `U_c(n,k,j,i) = i` and the flux `Flux(n,k,j,i) = i*i`. -/
def grid1D_flux : DataBlock :=
  { grid1D with Uc := fun _ _ _ i => (i : real), FluxRiemann := fun _ _ _ i => (i : real) * i }

/-- The 1D grid with the conservative state `(RHO, MX, ENG) = (-1, 0, 1)` in
every cell: a negative density. -/
def grid1D_negative : DataBlock :=
  { grid1D with Uc := fun n _ _ _ => cellState (-1) 0 0 0 1 n }

/-- A 2D grid: three active cells and two ghost layers along directions 1 and
2, a single cell along direction 3; the staggered field is
`V_s(BX1s,k,j,i) = i*j`, `V_s(BX2s,k,j,i) = i + j*j`. -/
def grid2D : DataBlock :=
  { gridBlock (fun d => if d = KDIR then 0 else 2) (fun d => if d = KDIR then 1 else 3) with
    Vs := fun n _ j i => if n = BX1s then (i : real) * j else if n = BX2s then (i : real) + j * j
      else 0 }

/-- The members set by the constructor of `Physics`: `gamma = 5/3`,
`C2Iso = 1`. -/
def HD.physicsDefault : HD.Physics := ⟨5 / 3, 1⟩

/-! ## Hydrodynamics: limiter check, fluxes and boundaries -/

/-- Division that reports a zero denominator: `none` where the C division
would divide by zero. -/
def checkedDiv (a b : real) : Option real :=
  if b = 0 then none else some (a / b)

/-- The local copy `real v[NVAR]` of the cell `(k,j,i)` of `A`, as the loop
`for(nv = 0; nv < NVAR; nv++) v[nv] = A(nv,k,j,i)` fills it. -/
def cellVector (NVAR : ℤ) (A : IdefixArray4D) (k j i : ℤ) : IdefixArray1D :=
  fun m => if 0 ≤ m ∧ m < NVAR then A m k j i else localArray m

namespace HD

/-- The Van Leer limiter of `ExtrapolatePrimVar` with its division checked:
the quotient is evaluated in the branch `dvp*dvm > ZERO_F` only. -/
def VanLeerChecked (dvp dvm : real) : Option real :=
  if dvp * dvm > ZERO_F then checkedDiv (TWO_F * dvp * dvm) (dvp + dvm) else some ZERO_F

/-- The physical flux `K_Flux(F, V, U, C2Iso, dir)` of one state. The pressure
is added to `F[MXn]` under `HAVE_ENERGY`, else under `EOS == ISOTHERMAL`. -/
def K_Flux (HAVE_ENERGY ISOTHERMAL : Bool) (F V U : IdefixArray1D) (C2Iso : real)
    (dir : ℤ) : IdefixArray1D :=
  let VXn := VX1 + dir
  let MXn := VXn
  let F := set1 F RHO (U VXn)
  let F := set1 F MX1 (U MX1 * V VXn)
  let F := set1 F MX2 (U MX2 * V VXn)
  let F := set1 F MX3 (U MX3 * V VXn)
  if HAVE_ENERGY then
    let F := set1 F ENG ((U ENG + V PRS) * V VXn)
    set1 F MXn (F MXn + V PRS)
  else if ISOTHERMAL then
    set1 F MXn (F MXn + C2Iso * V RHO)
  else F

/-- The first loop of the `CalcRiemannFlux` lambda: the left, right and
averaged primitive states `(vL, vR, vRL)`. -/
def RiemannStates (NVAR : ℤ) (PrimL PrimR : IdefixArray4D) (k j i : ℤ) :
    IdefixArray1D × IdefixArray1D × IdefixArray1D :=
  forLoop (irange 0 NVAR)
    (fun nv (v : IdefixArray1D × IdefixArray1D × IdefixArray1D) =>
      let vL := set1 v.1 nv (PrimL nv k j i)
      let vR := set1 v.2.1 nv (PrimR nv k j i)
      (vL, vR, set1 v.2.2 nv (HALF_F * (vL nv + vR nv))))
    (localArray, localArray, localArray)

/-- The signal speed `cmax` of the `CalcRiemannFlux` lambda, from the averaged
state `vRL`. `SQRT` is the square root of the C library. -/
def signalSpeed (HAVE_ENERGY : Bool) (SQRT : real → real) (vRL : IdefixArray1D)
    (gamma_m1 C2Iso : real) (dir : ℤ) : real :=
  let VXn := VX1 + dir
  let cRL := if HAVE_ENERGY then SQRT ((gamma_m1 + ONE_F) * (vRL PRS / vRL RHO))
    else SQRT C2Iso
  FMAX (FABS (vRL VXn + cRL)) (FABS (vRL VXn - cRL))

/-- The lambda of `CalcRiemannFlux` at `(k,j,i)`; the state is the pair
`(Flux, invDt)`. -/
def RiemannFlux_body (HAVE_ENERGY ISOTHERMAL : Bool) (SQRT : real → real) (NVAR : ℤ)
    (PrimL PrimR : IdefixArray4D) (dx : IdefixArray1D) (gamma_m1 C2Iso : real)
    (dir koffset joffset ioffset : ℤ) (k j i : ℤ) (S : IdefixArray4D × IdefixArray3D) :
    IdefixArray4D × IdefixArray3D :=
  let v := RiemannStates NVAR PrimL PrimR k j i
  let vL := v.1
  let vR := v.2.1
  let vRL := v.2.2
  let uL := K_PrimToCons HAVE_ENERGY localArray vL gamma_m1
  let uR := K_PrimToCons HAVE_ENERGY localArray vR gamma_m1
  let fluxL := K_Flux HAVE_ENERGY ISOTHERMAL localArray vL uL C2Iso dir
  let fluxR := K_Flux HAVE_ENERGY ISOTHERMAL localArray vR uR C2Iso dir
  let cmax := signalSpeed HAVE_ENERGY SQRT vRL gamma_m1 C2Iso dir
  let Flux := forLoop (irange 0 NVAR) (fun nv Flux =>
    set4 Flux nv k j i (HALF_F * (fluxL nv + fluxR nv - cmax * (uR nv - uL nv)))) S.1
  let ig := ioffset * i + joffset * j + koffset * k
  (Flux, set3 S.2 k j i (S.2 k j i + cmax / dx ig))

/-- Method `Physics::CalcRiemannFlux(data, dir)`. -/
def Physics.CalcRiemannFlux (this : Physics) (HAVE_ENERGY ISOTHERMAL : Bool)
    (SQRT : real → real) (NVAR : ℤ) (data : DataBlock) (dir : ℤ) : DataBlock :=
  let ioffset := sweepOffset dir IDIR
  let joffset := sweepOffset dir JDIR
  let koffset := sweepOffset dir KDIR
  let gamma_m1 := this.gamma - ONE_F
  let C2Iso := this.C2Iso
  let S := idefix_for3 (data.beg KDIR) (data.end_ KDIR + koffset)
    (data.beg JDIR) (data.end_ JDIR + joffset) (data.beg IDIR) (data.end_ IDIR + ioffset)
    (RiemannFlux_body HAVE_ENERGY ISOTHERMAL SQRT NVAR data.PrimL data.PrimR (data.dx dir)
      gamma_m1 C2Iso dir koffset joffset ioffset) (data.FluxRiemann, data.InvDtHyp)
  { data with FluxRiemann := S.1, InvDtHyp := S.2 }

/-- The copy `Vc(n,k,j,i) = Vc(n,sk(k),sj(j),si(i))` over a box: the shape of
the four boundary kernels. -/
def copyKernel (NVAR kb ke jb je ib ie : ℤ) (sk sj si : ℤ → ℤ) (Vc : IdefixArray4D) :
    IdefixArray4D :=
  idefix_for4 0 NVAR kb ke jb je ib ie
    (fun n k j i Vc => set4 Vc n k j i (Vc n (sk k) (sj j) (si i))) Vc

/-- Kernel `BoundaryBegPeriodic` of direction `dir`. -/
def BoundaryBegPeriodic (NVAR : ℤ) (data : DataBlock) (dir : ℤ) (Vc : IdefixArray4D) :
    IdefixArray4D :=
  let ioffset := if dir = IDIR then data.np_int IDIR else 0
  let joffset := if dir = JDIR then data.np_int JDIR else 0
  let koffset := if dir = KDIR then data.np_int KDIR else 0
  let iend := if dir = IDIR then data.nghost IDIR else data.np_tot IDIR
  let jend := if dir = JDIR then data.nghost JDIR else data.np_tot JDIR
  let kend := if dir = KDIR then data.nghost KDIR else data.np_tot KDIR
  idefix_for4 0 NVAR 0 kend 0 jend 0 iend
    (fun n k j i Vc => set4 Vc n k j i (Vc n (k + koffset) (j + joffset) (i + ioffset))) Vc

/-- Kernel `BoundaryBegOutflow` of direction `dir`. -/
def BoundaryBegOutflow (NVAR : ℤ) (data : DataBlock) (dir : ℤ) (Vc : IdefixArray4D) :
    IdefixArray4D :=
  let ighost := data.nghost IDIR
  let jghost := data.nghost JDIR
  let kghost := data.nghost KDIR
  let iend := if dir = IDIR then ighost else data.np_tot IDIR
  let jend := if dir = JDIR then jghost else data.np_tot JDIR
  let kend := if dir = KDIR then kghost else data.np_tot KDIR
  idefix_for4 0 NVAR 0 kend 0 jend 0 iend
    (fun n k j i Vc =>
      let iref := if dir = IDIR then ighost else i
      let jref := if dir = JDIR then jghost else j
      let kref := if dir = KDIR then kghost else k
      set4 Vc n k j i (Vc n kref jref iref)) Vc

/-- Kernel `BoundaryEndPeriodic` of direction `dir`. -/
def BoundaryEndPeriodic (NVAR : ℤ) (data : DataBlock) (dir : ℤ) (Vc : IdefixArray4D) :
    IdefixArray4D :=
  let ioffset := if dir = IDIR then data.np_int IDIR else 0
  let joffset := if dir = JDIR then data.np_int JDIR else 0
  let koffset := if dir = KDIR then data.np_int KDIR else 0
  let ibeg := if dir = IDIR then ioffset + data.nghost IDIR else 0
  let jbeg := if dir = JDIR then joffset + data.nghost JDIR else 0
  let kbeg := if dir = KDIR then koffset + data.nghost KDIR else 0
  idefix_for4 0 NVAR kbeg (data.np_tot KDIR) jbeg (data.np_tot JDIR) ibeg (data.np_tot IDIR)
    (fun n k j i Vc => set4 Vc n k j i (Vc n (k - koffset) (j - joffset) (i - ioffset))) Vc

/-- Kernel `BoundaryEndOutflow` of direction `dir`. -/
def BoundaryEndOutflow (NVAR : ℤ) (data : DataBlock) (dir : ℤ) (Vc : IdefixArray4D) :
    IdefixArray4D :=
  let ighost := data.nghost IDIR
  let jghost := data.nghost JDIR
  let kghost := data.nghost KDIR
  let ioffset := if dir = IDIR then data.np_int IDIR else 0
  let joffset := if dir = JDIR then data.np_int JDIR else 0
  let koffset := if dir = KDIR then data.np_int KDIR else 0
  let ibeg := if dir = IDIR then ioffset + ighost else 0
  let jbeg := if dir = JDIR then joffset + jghost else 0
  let kbeg := if dir = KDIR then koffset + kghost else 0
  idefix_for4 0 NVAR kbeg (data.np_tot KDIR) jbeg (data.np_tot JDIR) ibeg (data.np_tot IDIR)
    (fun n k j i Vc =>
      let iref := if dir = IDIR then ighost + ioffset - 1 else i
      let jref := if dir = JDIR then jghost + joffset - 1 else j
      let kref := if dir = KDIR then kghost + koffset - 1 else k
      set4 Vc n k j i (Vc n kref jref iref)) Vc

/-- The left `switch(data.lbound[dir])` of `SetBoundary`: `IDEFIX_ERROR` in the
`default` case. -/
def SetBoundaryBeg (NVAR : ℤ) (data : DataBlock) (dir : ℤ) (Vc : IdefixArray4D) :
    Except String IdefixArray4D :=
  match data.lbound dir with
  | BoundaryType.periodic => Except.ok (BoundaryBegPeriodic NVAR data dir Vc)
  | BoundaryType.outflow => Except.ok (BoundaryBegOutflow NVAR data dir Vc)
  | _ => Except.error "Boundary condition type is not yet implemented"

/-- The right `switch(data.rbound[dir])` of `SetBoundary`. -/
def SetBoundaryEnd (NVAR : ℤ) (data : DataBlock) (dir : ℤ) (Vc : IdefixArray4D) :
    Except String IdefixArray4D :=
  match data.rbound dir with
  | BoundaryType.periodic => Except.ok (BoundaryEndPeriodic NVAR data dir Vc)
  | BoundaryType.outflow => Except.ok (BoundaryEndOutflow NVAR data dir Vc)
  | _ => Except.error "Boundary condition type is not yet implemented"

/-- One pass of the loop `for(dir = 0; dir < DIMENSIONS; dir++)` of
`SetBoundary`: the left boundary, then the right one. -/
def SetBoundaryDir (NVAR : ℤ) (data : DataBlock) (Vc : IdefixArray4D) (dir : ℤ) :
    Except String IdefixArray4D :=
  (SetBoundaryBeg NVAR data dir Vc).bind (SetBoundaryEnd NVAR data dir)

/-- Method `Physics::SetBoundary(data, t)` of the HD build. -/
def Physics.SetBoundary (DIMENSIONS : ℕ) (NVAR : ℤ) (data : DataBlock) (_t : real) :
    Except String DataBlock :=
  ((irange 0 (DIMENSIONS : ℤ)).foldlM (SetBoundaryDir NVAR data) data.Vc).map
    (fun Vc => { data with Vc := Vc })

end HD

/-! ## Magnetohydrodynamics: flux divergence, corner EMFs and cell-centred field -/

namespace MHD

/-- The lambda of the MHD `CalcRightHandSide` at `(k,j,i)`: the loop over the
channels, where `continue` skips the magnetic channels of the existing
dimensions (`D_EXPAND` of the three `if(nv == BXn) continue;`). -/
def RightHandSide_body (DIMENSIONS : ℕ) (NVAR : ℤ) (dx : IdefixArray1D) (Flux : IdefixArray4D)
    (dt : real) (koffset joffset ioffset : ℤ) (k j i : ℤ) (Uc : IdefixArray4D) :
    IdefixArray4D :=
  let ig := ioffset * i + joffset * j + koffset * k
  let dtdx := dt / dx ig
  forLoop (irange 0 NVAR) (fun nv Uc =>
    if nv = BX1 ∨ (2 ≤ DIMENSIONS ∧ nv = BX2) ∨ (3 ≤ DIMENSIONS ∧ nv = BX3) then Uc
    else set4 Uc nv k j i (Uc nv k j i
      - dtdx * (Flux nv (k + koffset) (j + joffset) (i + ioffset) - Flux nv k j i))) Uc

/-- Method `Physics::CalcRightHandSide(data, dir, dt)` of the MHD build. -/
def Physics.CalcRightHandSide (DIMENSIONS : ℕ) (NVAR : ℤ) (data : DataBlock) (dir : ℤ)
    (dt : real) : DataBlock :=
  let ioffset := sweepOffset dir IDIR
  let joffset := sweepOffset dir JDIR
  let koffset := sweepOffset dir KDIR
  { data with
    Uc := idefix_for3 (data.beg KDIR) (data.end_ KDIR) (data.beg JDIR) (data.end_ JDIR)
      (data.beg IDIR) (data.end_ IDIR)
      (RightHandSide_body DIMENSIONS NVAR (data.dx dir) data.FluxRiemann dt
        koffset joffset ioffset) data.Uc }

/-- The lambda of `CalcCornerEMF` at `(k,j,i)`; the state is the triple of
corner EMFs `(Ex, Ey, Ez)`. -/
def CornerEMF_body (DIMENSIONS : ℕ) (emf : ElectroMotiveForce) (k j i : ℤ)
    (E : IdefixArray3D × IdefixArray3D × IdefixArray3D) :
    IdefixArray3D × IdefixArray3D × IdefixArray3D :=
  let w := ONE_FOURTH_F
  let Ex := if DIMENSIONS = 3 then
      set3 E.1 k j i (w * (emf.exj k j i + emf.exj (k - 1) j i + emf.exk k j i
        + emf.exk k (j - 1) i))
    else E.1
  let Ey := if DIMENSIONS = 3 then
      set3 E.2.1 k j i (w * (emf.eyi k j i + emf.eyi (k - 1) j i + emf.eyk k j i
        + emf.eyk k j (i - 1)))
    else E.2.1
  let Ez := if 2 ≤ DIMENSIONS then
      set3 E.2.2 k j i (w * (emf.ezi k j i + emf.ezi k (j - 1) i + emf.ezj k j i
        + emf.ezj k j (i - 1)))
    else
      set3 E.2.2 k j i (w * (TWO_F * emf.ezi k j i + emf.ezj k j i + emf.ezj k j (i - 1)))
  (Ex, Ey, Ez)

/-- Method `Physics::CalcCornerEMF(data, t)`. -/
def Physics.CalcCornerEMF (DIMENSIONS : ℕ) (data : DataBlock) (_t : real) : DataBlock :=
  let E := idefix_for3 (data.beg KDIR) (data.end_ KDIR + KOFFSET DIMENSIONS)
    (data.beg JDIR) (data.end_ JDIR + JOFFSET DIMENSIONS)
    (data.beg IDIR) (data.end_ IDIR + IOFFSET DIMENSIONS)
    (CornerEMF_body DIMENSIONS data.emf) (data.emf.ex, data.emf.ey, data.emf.ez)
  { data with emf := { data.emf with ex := E.1, ey := E.2.1, ez := E.2.2 } }

/-- The lambda of `ReconstructVcField` at `(k,j,i)`: the statements of
`D_EXPAND`, one per existing dimension. -/
def ReconstructVcField_body (DIMENSIONS : ℕ) (Vs : IdefixArray4D) (k j i : ℤ)
    (Vc : IdefixArray4D) : IdefixArray4D :=
  let Vc := set4 Vc BX1 k j i (HALF_F * (Vs BX1s k j i + Vs BX1s k j (i + 1)))
  let Vc := if 2 ≤ DIMENSIONS then
      set4 Vc BX2 k j i (HALF_F * (Vs BX2s k j i + Vs BX2s k (j + 1) i))
    else Vc
  if 3 ≤ DIMENSIONS then
    set4 Vc BX3 k j i (HALF_F * (Vs BX3s k j i + Vs BX3s (k + 1) j i))
  else Vc

/-- Method `Physics::ReconstructVcField(data, Vc)`: it writes the array `Vc` it
is given. -/
def Physics.ReconstructVcField (DIMENSIONS : ℕ) (data : DataBlock) (Vc : IdefixArray4D) :
    IdefixArray4D :=
  idefix_for3 0 (data.np_tot KDIR) 0 (data.np_tot JDIR) 0 (data.np_tot IDIR)
    (ReconstructVcField_body DIMENSIONS data.Vs) Vc

/-- The call `ReconstructVcField(data, data.Vc)`, as `SetBoundary` makes it. -/
def Physics.ReconstructVcField_inPlace (DIMENSIONS : ℕ) (data : DataBlock) : DataBlock :=
  { data with Vc := Physics.ReconstructVcField DIMENSIONS data data.Vc }

end MHD


/-! ## Periodicity of the cell-centred array -/

/-- The array `V` repeats with period `np_int[d]` along direction `d`:
`V(n,x) = V(n, x + np_int[d]*e_d)` for every channel `n` of `[0,NVAR)` and
every pair of cells `x`, `x + np_int[d]*e_d` inside the full extent
`[0,np_tot)`. -/
def HD.periodicAlong (NVAR : ℤ) (data : DataBlock) (d : ℤ) (V : IdefixArray4D) : Prop :=
  ∀ n k j i, 0 ≤ n ∧ n < NVAR →
    (0 ≤ k ∧ k < data.np_tot KDIR) ∧ (0 ≤ j ∧ j < data.np_tot JDIR)
      ∧ (0 ≤ i ∧ i < data.np_tot IDIR) →
    (0 ≤ k + sweepOffset d KDIR * data.np_int d
        ∧ k + sweepOffset d KDIR * data.np_int d < data.np_tot KDIR)
      ∧ (0 ≤ j + sweepOffset d JDIR * data.np_int d
        ∧ j + sweepOffset d JDIR * data.np_int d < data.np_tot JDIR)
      ∧ (0 ≤ i + sweepOffset d IDIR * data.np_int d
        ∧ i + sweepOffset d IDIR * data.np_int d < data.np_tot IDIR) →
    V n k j i = V n (k + sweepOffset d KDIR * data.np_int d)
      (j + sweepOffset d JDIR * data.np_int d) (i + sweepOffset d IDIR * data.np_int d)

/-! ## Concrete inputs of the flux and boundary kernels -/

/-- The 1D grid with the left state `(rho, v, P) = (1, (2,0,0), 3)` and the
right state `(2, (1,0,0), 3)` at every interface. -/
def grid1D_riemann : DataBlock :=
  { grid1D with PrimL := fun n _ _ _ => cellState 1 2 0 0 3 n,
                PrimR := fun n _ _ _ => cellState 2 1 0 0 3 n }

/-- The 3D grid with face-centred EMFs that vary along every direction. -/
def grid3D_faceEmf : DataBlock :=
  { grid3D with
    emf := ⟨fun _ _ _ => 0, fun _ _ _ => 0, fun _ _ _ => 0,
      fun k j i => (k : real) + 2 * j + 3 * i, fun k j i => (k : real) * j - i,
      fun k j i => (i : real) * k + j, fun k j i => (i : real) - 2 * k + j,
      fun k j i => (i : real) * j + k, fun k j i => (j : real) * j - i + k⟩ }

/-! ## The constructor of the MHD `Physics` -/

/-- Modelled from the spec: the accessor `Input::GetString(block, parameter, n)`
declared in `input.hpp`, whose definition is not under src/. The input file
is the function that the accessor reads. -/
structure Input where
  GetString : String → String → ℤ → String

namespace MHD

/-- Modelled from the spec: the Riemann solvers `TVDLF`, `HLL`, `HLLD`, `ROE`
of the enumeration in `physics.hpp` (not under src/). -/
inductive Solver where
  | TVDLF
  | HLL
  | HLLD
  | ROE
  deriving DecidableEq, Repr

/-- The members of the MHD `Physics` that its constructor sets (`mySetup`, the
copy of the setup object, is read by no kernel). -/
structure Physics where
  gamma : real
  C2Iso : real
  mySolver : Solver

set_option linter.dupNamespace false in
/-- Constructor `Physics::Physics(Input &input, Setup &setup)`: `gamma` and
`C2Iso` are set, then the solver is chosen by `solverString.compare(...) == 0`;
`IDEFIX_ERROR(msg)` ends the run with the message
`"Unknown MHD solver type " << solverString`. -/
def Physics.Physics (input : Input) : Except String Physics :=
  let gamma : real := 5 / 3
  let C2Iso : real := 1
  let solverString := input.GetString "Solver" "Solver" 0
  if solverString = "tvdlf" then Except.ok ⟨gamma, C2Iso, Solver.TVDLF⟩
  else if solverString = "hll" then Except.ok ⟨gamma, C2Iso, Solver.HLL⟩
  else if solverString = "hlld" then Except.ok ⟨gamma, C2Iso, Solver.HLLD⟩
  else if solverString = "roe" then Except.ok ⟨gamma, C2Iso, Solver.ROE⟩
  else Except.error ("Unknown MHD solver type " ++ solverString)

end MHD

/-! ## The shock-tube setup: `Test/MHD/sod/setup.cpp` -/

namespace Setup

/-- The body of the innermost loop of `Setup::InitFlow` at `(k,j,i)`; the state
is the pair `(d.Vc, d.Vs)` of the host copy of the block, `x1` and `xl1` are
`d.x[IDIR]` and `d.xl[IDIR]`. The constants `50.0`, `0.125`, `0.1`, `0.75` are
the rationals `50`, `1/8`, `1/10`, `3/4`. -/
def InitFlow_body (DIMENSIONS : ℕ) (HAVE_ENERGY : Bool) (x1 xl1 : IdefixArray1D)
    (k j i : ℤ) (S : IdefixArray4D × IdefixArray4D) : IdefixArray4D × IdefixArray4D :=
  let Vc := set4 S.1 RHO k j i (if x1 i < 50 then 1 else 1 / 8)
  let Vc := set4 Vc VX1 k j i ZERO_F
  let Vc := if HAVE_ENERGY then set4 Vc PRS k j i (if x1 i < 50 then 1 else 1 / 10) else Vc
  let Vs := set4 S.2 BX1s k j i (3 / 4)
  let Vc := set4 Vc BX1 k j i (3 / 4)
  let Vc := set4 Vc BX2 k j i (if x1 i < 50 then 1 else -1)
  let Vs := if 2 ≤ DIMENSIONS then set4 Vs BX2s k j i (if xl1 i < 50 then 1 else -1) else Vs
  (Vc, Vs)

/-- Method `Setup::InitFlow(data)`: the three nested host loops over the full
extent, on the host copy `d` of the block, then `d.SyncToDevice()`. -/
def InitFlow (DIMENSIONS : ℕ) (HAVE_ENERGY : Bool) (data : DataBlock) : DataBlock :=
  let S := forLoop (irange 0 (data.np_tot KDIR)) (fun k S =>
    forLoop (irange 0 (data.np_tot JDIR)) (fun j S =>
      forLoop (irange 0 (data.np_tot IDIR)) (fun i S =>
        InitFlow_body DIMENSIONS HAVE_ENERGY (data.x IDIR) (data.xl IDIR) k j i S) S) S)
    (data.Vc, data.Vs)
  { data with Vc := S.1, Vs := S.2 }

end Setup

/-! ## Boundary conditions of the MHD solver -/

namespace MHD

/-- The guarded copy `if(n != dir) Vs(n,k,j,i) = Vs(n,sk(k),sj(j),si(i))` over a
box, for the components `0 <= n < DIMENSIONS`: the shape of the four boundary
kernels of the staggered field. -/
def guardedCopyKernel (DIMENSIONS : ℕ) (dir kb ke jb je ib ie : ℤ) (sk sj si : ℤ → ℤ)
    (Vs : IdefixArray4D) : IdefixArray4D :=
  idefix_for4 0 (DIMENSIONS : ℤ) kb ke jb je ib ie
    (fun n k j i Vs => if n ≠ dir then set4 Vs n k j i (Vs n (sk k) (sj j) (si i)) else Vs) Vs

/-- Kernel `BoundaryBegPeriodicVs` of direction `dir`. -/
def BoundaryBegPeriodicVs (DIMENSIONS : ℕ) (data : DataBlock) (dir : ℤ) (Vs : IdefixArray4D) :
    IdefixArray4D :=
  let ioffset := if dir = IDIR then data.np_int IDIR else 0
  let joffset := if dir = JDIR then data.np_int JDIR else 0
  let koffset := if dir = KDIR then data.np_int KDIR else 0
  let iend := if dir = IDIR then data.nghost IDIR else data.np_tot IDIR
  let jend := if dir = JDIR then data.nghost JDIR else data.np_tot JDIR
  let kend := if dir = KDIR then data.nghost KDIR else data.np_tot KDIR
  idefix_for4 0 (DIMENSIONS : ℤ) 0 kend 0 jend 0 iend
    (fun n k j i Vs =>
      if n ≠ dir then set4 Vs n k j i (Vs n (k + koffset) (j + joffset) (i + ioffset))
      else Vs) Vs

/-- Kernel `BoundaryBegOutflowVs` of direction `dir`. -/
def BoundaryBegOutflowVs (DIMENSIONS : ℕ) (data : DataBlock) (dir : ℤ) (Vs : IdefixArray4D) :
    IdefixArray4D :=
  let ighost := data.nghost IDIR
  let jghost := data.nghost JDIR
  let kghost := data.nghost KDIR
  let iend := if dir = IDIR then ighost else data.np_tot IDIR
  let jend := if dir = JDIR then jghost else data.np_tot JDIR
  let kend := if dir = KDIR then kghost else data.np_tot KDIR
  idefix_for4 0 (DIMENSIONS : ℤ) 0 kend 0 jend 0 iend
    (fun n k j i Vs =>
      let iref := if dir = IDIR then ighost else i
      let jref := if dir = JDIR then jghost else j
      let kref := if dir = KDIR then kghost else k
      if n ≠ dir then set4 Vs n k j i (Vs n kref jref iref) else Vs) Vs

/-- Kernel `BoundaryEndPeriodicVs` of direction `dir`. -/
def BoundaryEndPeriodicVs (DIMENSIONS : ℕ) (data : DataBlock) (dir : ℤ) (Vs : IdefixArray4D) :
    IdefixArray4D :=
  let ioffset := if dir = IDIR then data.np_int IDIR else 0
  let joffset := if dir = JDIR then data.np_int JDIR else 0
  let koffset := if dir = KDIR then data.np_int KDIR else 0
  let ibeg := if dir = IDIR then ioffset + data.nghost IDIR else 0
  let jbeg := if dir = JDIR then joffset + data.nghost JDIR else 0
  let kbeg := if dir = KDIR then koffset + data.nghost KDIR else 0
  idefix_for4 0 (DIMENSIONS : ℤ) kbeg (data.np_tot KDIR) jbeg (data.np_tot JDIR)
    ibeg (data.np_tot IDIR)
    (fun n k j i Vs =>
      if n ≠ dir then set4 Vs n k j i (Vs n (k - koffset) (j - joffset) (i - ioffset))
      else Vs) Vs

/-- Kernel `BoundaryEndOutflowVs` of direction `dir`. -/
def BoundaryEndOutflowVs (DIMENSIONS : ℕ) (data : DataBlock) (dir : ℤ) (Vs : IdefixArray4D) :
    IdefixArray4D :=
  let ighost := data.nghost IDIR
  let jghost := data.nghost JDIR
  let kghost := data.nghost KDIR
  let ioffset := if dir = IDIR then data.np_int IDIR else 0
  let joffset := if dir = JDIR then data.np_int JDIR else 0
  let koffset := if dir = KDIR then data.np_int KDIR else 0
  let ibeg := if dir = IDIR then ioffset + ighost else 0
  let jbeg := if dir = JDIR then joffset + jghost else 0
  let kbeg := if dir = KDIR then koffset + kghost else 0
  idefix_for4 0 (DIMENSIONS : ℤ) kbeg (data.np_tot KDIR) jbeg (data.np_tot JDIR)
    ibeg (data.np_tot IDIR)
    (fun n k j i Vs =>
      let iref := if dir = IDIR then ighost + ioffset - 1 else i
      let jref := if dir = JDIR then jghost + joffset - 1 else j
      let kref := if dir = KDIR then kghost + koffset - 1 else k
      if n ≠ dir then set4 Vs n k j i (Vs n kref jref iref) else Vs) Vs

/-- The left `switch(data.lbound[dir])` of the MHD `SetBoundary`, on the pair
`(Vc, Vs)`; the kernels of `Vc` are the statements of the HD kernels of the
same name. `IDEFIX_ERROR` in the `default` case. -/
def SetBoundaryBeg (DIMENSIONS : ℕ) (NVAR : ℤ) (data : DataBlock) (dir : ℤ)
    (S : IdefixArray4D × IdefixArray4D) : Except String (IdefixArray4D × IdefixArray4D) :=
  match data.lbound dir with
  | BoundaryType.periodic =>
    Except.ok (HD.BoundaryBegPeriodic NVAR data dir S.1,
      BoundaryBegPeriodicVs DIMENSIONS data dir S.2)
  | BoundaryType.outflow =>
    Except.ok (HD.BoundaryBegOutflow NVAR data dir S.1,
      BoundaryBegOutflowVs DIMENSIONS data dir S.2)
  | _ => Except.error "Boundary condition type is not yet implemented"

/-- The right `switch(data.rbound[dir])` of the MHD `SetBoundary`. -/
def SetBoundaryEnd (DIMENSIONS : ℕ) (NVAR : ℤ) (data : DataBlock) (dir : ℤ)
    (S : IdefixArray4D × IdefixArray4D) : Except String (IdefixArray4D × IdefixArray4D) :=
  match data.rbound dir with
  | BoundaryType.periodic =>
    Except.ok (HD.BoundaryEndPeriodic NVAR data dir S.1,
      BoundaryEndPeriodicVs DIMENSIONS data dir S.2)
  | BoundaryType.outflow =>
    Except.ok (HD.BoundaryEndOutflow NVAR data dir S.1,
      BoundaryEndOutflowVs DIMENSIONS data dir S.2)
  | _ => Except.error "Boundary condition type is not yet implemented"

/-- One pass of the loop `for(dir = 0; dir < DIMENSIONS; dir++)` of the MHD
`SetBoundary`: the left boundary, then the right one. -/
def SetBoundaryDir (DIMENSIONS : ℕ) (NVAR : ℤ) (data : DataBlock)
    (S : IdefixArray4D × IdefixArray4D) (dir : ℤ) :
    Except String (IdefixArray4D × IdefixArray4D) :=
  (SetBoundaryBeg DIMENSIONS NVAR data dir S).bind (SetBoundaryEnd DIMENSIONS NVAR data dir)

/-- The loop over the directions of the MHD `SetBoundary`. -/
def SetBoundaryLoop (DIMENSIONS : ℕ) (NVAR : ℤ) (data : DataBlock) :
    Except String (IdefixArray4D × IdefixArray4D) :=
  (irange 0 (DIMENSIONS : ℤ)).foldlM (SetBoundaryDir DIMENSIONS NVAR data) (data.Vc, data.Vs)

/-- Method `Physics::SetBoundary(data, t)` of the MHD build: the loop over the
directions, then `ReconstructNormalField(data)` and
`ReconstructVcField(data, data.Vc)`. -/
def Physics.SetBoundary (DIMENSIONS : ℕ) (NVAR : ℤ) (data : DataBlock) (_t : real) :
    Except String DataBlock :=
  (SetBoundaryLoop DIMENSIONS NVAR data).map (fun S =>
    Physics.ReconstructVcField_inPlace DIMENSIONS
      (Physics.ReconstructNormalField DIMENSIONS { data with Vc := S.1, Vs := S.2 }))

end MHD

/-! ## Concrete inputs of the constructor, the setup and the boundaries -/

/-- An input file whose every string entry is `s`. -/
def inputWith (s : String) : Input := ⟨fun _ _ _ => s⟩

/-- The 1D grid with the primitive state `(rho, v, P) = (1, (2,0,0), 3)` in
every cell. -/
def grid1D_uniform : DataBlock :=
  { grid1D with Vc := fun n _ _ _ => cellState 1 2 0 0 3 n }

/-- The 1D grid whose left side of direction 1 is configured `userdef` (the
right side is periodic). -/
def grid1D_userdef : DataBlock :=
  { grid1D with lbound := fun _ => BoundaryType.userdef }

/-- The 2D grid whose right side of direction 2 is configured `internal`
(every other side is periodic). -/
def grid2D_internal : DataBlock :=
  { grid2D with rbound := fun d => if d = JDIR then BoundaryType.internal
      else BoundaryType.periodic }

/-- The 1D grid with the ramp `Vc(n,k,j,i) = i*i` and both sides of every
direction configured `outflow`. -/
def grid1D_outflow : DataBlock :=
  { grid1D_ramp with lbound := fun _ => BoundaryType.outflow,
                     rbound := fun _ => BoundaryType.outflow }

/-- A second state on the 1D grid: the ramp `i*i` on the active cells
`2 <= i < 6`, the value `7` in every ghost cell. -/
def Vc_ramp_active : IdefixArray4D :=
  fun _ _ _ i => if 2 ≤ i ∧ i < 6 then (i : real) * i else 7

/-! ## One directional sweep (HD) with every access checked -/

/-- The marks of a scratch array during one sweep: `true` at the entries that
a kernel of the sweep has written. -/
abbrev Written := ℤ → ℤ → ℤ → ℤ → Bool

/-- The marks `W` with the entry `(n,k,j,i)` marked as written. -/
def mark (W : Written) (n k j i : ℤ) : Written :=
  fun n' k' j' i' => if n' = n ∧ k' = k ∧ j' = j ∧ i' = i then true else W n' k' j' i'

/-- The cell index `(k,j,i)` lies inside the arrays of the block, `[0, np_tot)`
along each direction. -/
def DataBlock.inside (data : DataBlock) (k j i : ℤ) : Prop :=
  (0 ≤ k ∧ k < data.np_tot KDIR) ∧ (0 ≤ j ∧ j < data.np_tot JDIR)
    ∧ (0 ≤ i ∧ i < data.np_tot IDIR)

instance DataBlock.inside_decidable (data : DataBlock) (k j i : ℤ) :
    Decidable (data.inside k j i) := by
  unfold DataBlock.inside
  infer_instance

/-- The loop `idefix_for` over a 4D box whose lambda can stop the run: the
iterations in row-major order, `none` as soon as one of them gives `none`. -/
def idefix_for4_checked {σ : Type} (b0 e0 b1 e1 b2 e2 b3 e3 : ℤ)
    (body : ℤ → ℤ → ℤ → ℤ → σ → Option σ) (s : σ) : Option σ :=
  (box4 b0 e0 b1 e1 b2 e2 b3 e3).foldlM (fun s x => body x.1 x.2.1 x.2.2.1 x.2.2.2 s) s

/-- The loop `idefix_for` over a 3D box whose lambda can stop the run. -/
def idefix_for3_checked {σ : Type} (b1 e1 b2 e2 b3 e3 : ℤ)
    (body : ℤ → ℤ → ℤ → σ → Option σ) (s : σ) : Option σ :=
  (box3 b1 e1 b2 e2 b3 e3).foldlM (fun s x => body x.1 x.2.1 x.2.2 s) s

namespace HD

/-- The `ORDER == 1` lambda of `ExtrapolatePrimVar` with its accesses checked:
it reads `Vc` at the cell and at its left neighbour along the sweep and writes
`PrimL`, `PrimR` at the cell; `none` when one of these cells is outside the
arrays, otherwise the lambda runs and the entries it writes are marked. -/
def Extrapolate_checked1 (data : DataBlock) (koffset joffset ioffset : ℤ) (n k j i : ℤ)
    (S : (IdefixArray4D × IdefixArray4D) × (Written × Written)) :
    Option ((IdefixArray4D × IdefixArray4D) × (Written × Written)) :=
  if data.inside (k - koffset) (j - joffset) (i - ioffset) ∧ data.inside k j i then
    some (Extrapolate_body1 data.Vc koffset joffset ioffset n k j i S.1,
      (mark S.2.1 n k j i, mark S.2.2 n k j i))
  else none

/-- The `ORDER == 2` lambda of `ExtrapolatePrimVar` with its accesses checked:
it reads `Vc` at the cell and at its two neighbours along the sweep, writes
`PrimL` at the right neighbour and `PrimR` at the cell; `none` when one of these
cells is outside the arrays, otherwise the lambda runs and the entries it
writes are marked. -/
def Extrapolate_checked2 (data : DataBlock) (koffset joffset ioffset : ℤ) (n k j i : ℤ)
    (S : (IdefixArray4D × IdefixArray4D) × (Written × Written)) :
    Option ((IdefixArray4D × IdefixArray4D) × (Written × Written)) :=
  if data.inside (k - koffset) (j - joffset) (i - ioffset) ∧ data.inside k j i
      ∧ data.inside (k + koffset) (j + joffset) (i + ioffset) then
    some (Extrapolate_body2 data.Vc koffset joffset ioffset n k j i S.1,
      (mark S.2.1 n (k + koffset) (j + joffset) (i + ioffset), mark S.2.2 n k j i))
  else none

/-- Method `Physics::ExtrapolatePrimVar(data, dir)` with its accesses checked;
`W` holds the marks of `PrimL` and of `PrimR`. -/
def Physics.ExtrapolatePrimVar_checked (ORDER : ℕ) (NVAR : ℤ) (data : DataBlock) (dir : ℤ)
    (W : Written × Written) : Option (DataBlock × (Written × Written)) :=
  let ioffset := sweepOffset dir IDIR
  let joffset := sweepOffset dir JDIR
  let koffset := sweepOffset dir KDIR
  if ORDER = 1 then
    (idefix_for4_checked 0 NVAR (data.beg KDIR) (data.end_ KDIR + koffset)
      (data.beg JDIR) (data.end_ JDIR + joffset) (data.beg IDIR) (data.end_ IDIR + ioffset)
      (Extrapolate_checked1 data koffset joffset ioffset) ((data.PrimL, data.PrimR), W)).map
      (fun S => ({ data with PrimL := S.1.1, PrimR := S.1.2 }, S.2))
  else if ORDER = 2 then
    (idefix_for4_checked 0 NVAR (data.beg KDIR - koffset) (data.end_ KDIR + koffset)
      (data.beg JDIR - joffset) (data.end_ JDIR + joffset)
      (data.beg IDIR - ioffset) (data.end_ IDIR + ioffset)
      (Extrapolate_checked2 data koffset joffset ioffset) ((data.PrimL, data.PrimR), W)).map
      (fun S => ({ data with PrimL := S.1.1, PrimR := S.1.2 }, S.2))
  else some (data, W)

/-- The lambda of `CalcRiemannFlux` with its accesses checked: it reads
`PrimL(nv,k,j,i)` and `PrimR(nv,k,j,i)` for every channel, reads `dx(ig)`, and
writes `Flux(nv,k,j,i)` and `invDt(k,j,i)`; `none` when the cell or `ig` is
outside the arrays or when one of the entries it reads in `PrimL`, `PrimR` has
not been written, otherwise the lambda runs and the flux entries are marked. -/
def RiemannFlux_checked (HAVE_ENERGY ISOTHERMAL : Bool) (SQRT : real → real) (NVAR : ℤ)
    (data : DataBlock) (WL WR : Written) (gamma_m1 C2Iso : real)
    (dir koffset joffset ioffset : ℤ) (k j i : ℤ)
    (S : (IdefixArray4D × IdefixArray3D) × Written) :
    Option ((IdefixArray4D × IdefixArray3D) × Written) :=
  let ig := ioffset * i + joffset * j + koffset * k
  if data.inside k j i
      ∧ (∀ nv ∈ irange 0 NVAR, WL nv k j i = true ∧ WR nv k j i = true)
      ∧ (0 ≤ ig ∧ ig < data.np_tot dir) then
    some (RiemannFlux_body HAVE_ENERGY ISOTHERMAL SQRT NVAR data.PrimL data.PrimR (data.dx dir)
        gamma_m1 C2Iso dir koffset joffset ioffset k j i S.1,
      forLoop (irange 0 NVAR) (fun nv W => mark W nv k j i) S.2)
  else none

/-- Method `Physics::CalcRiemannFlux(data, dir)` with its accesses checked;
`WL`, `WR` are the marks of `PrimL`, `PrimR` and `WF` those of `Flux`. -/
def Physics.CalcRiemannFlux_checked (this : Physics) (HAVE_ENERGY ISOTHERMAL : Bool)
    (SQRT : real → real) (NVAR : ℤ) (data : DataBlock) (dir : ℤ) (WL WR WF : Written) :
    Option (DataBlock × Written) :=
  let ioffset := sweepOffset dir IDIR
  let joffset := sweepOffset dir JDIR
  let koffset := sweepOffset dir KDIR
  let gamma_m1 := this.gamma - ONE_F
  let C2Iso := this.C2Iso
  (idefix_for3_checked (data.beg KDIR) (data.end_ KDIR + koffset)
    (data.beg JDIR) (data.end_ JDIR + joffset) (data.beg IDIR) (data.end_ IDIR + ioffset)
    (RiemannFlux_checked HAVE_ENERGY ISOTHERMAL SQRT NVAR data WL WR gamma_m1 C2Iso dir
      koffset joffset ioffset) ((data.FluxRiemann, data.InvDtHyp), WF)).map
    (fun S => ({ data with FluxRiemann := S.1.1, InvDtHyp := S.1.2 }, S.2))

/-- The lambda of `CalcRightHandSide` with its accesses checked: it reads
`dx(ig)`, `Flux` at the cell and at its right neighbour along the sweep, and
reads and writes `Uc` at the cell; `none` when one of these indices is outside
the arrays or when one of the two flux entries has not been written. -/
def RightHandSide_checked (data : DataBlock) (WF : Written) (dir : ℤ) (dt : real)
    (koffset joffset ioffset : ℤ) (n k j i : ℤ) (Uc : IdefixArray4D) :
    Option IdefixArray4D :=
  let ig := ioffset * i + joffset * j + koffset * k
  if data.inside k j i ∧ data.inside (k + koffset) (j + joffset) (i + ioffset)
      ∧ (WF n (k + koffset) (j + joffset) (i + ioffset) = true ∧ WF n k j i = true)
      ∧ (0 ≤ ig ∧ ig < data.np_tot dir) then
    some (RightHandSide_body (data.dx dir) data.FluxRiemann dt koffset joffset ioffset
      n k j i Uc)
  else none

/-- Method `Physics::CalcRightHandSide(data, dir, dt)` with its accesses
checked; `WF` holds the marks of `Flux`. -/
def Physics.CalcRightHandSide_checked (NVAR : ℤ) (data : DataBlock) (dir : ℤ) (dt : real)
    (WF : Written) : Option DataBlock :=
  let ioffset := sweepOffset dir IDIR
  let joffset := sweepOffset dir JDIR
  let koffset := sweepOffset dir KDIR
  (idefix_for4_checked 0 NVAR (data.beg KDIR) (data.end_ KDIR) (data.beg JDIR) (data.end_ JDIR)
    (data.beg IDIR) (data.end_ IDIR)
    (RightHandSide_checked data WF dir dt koffset joffset ioffset) data.Uc).map
    (fun Uc => { data with Uc := Uc })

/-- The sequence `ExtrapolatePrimVar(d)`, `CalcRiemannFlux(d)`,
`CalcRightHandSide(d, dt)` of one directional sweep with every access checked,
started with no entry of `PrimL`, `PrimR` and `Flux` written. -/
def Physics.sweep_checked (this : Physics) (HAVE_ENERGY ISOTHERMAL : Bool)
    (SQRT : real → real) (ORDER : ℕ) (NVAR : ℤ) (data : DataBlock) (dir : ℤ) (dt : real) :
    Option DataBlock :=
  (Physics.ExtrapolatePrimVar_checked ORDER NVAR data dir
      (fun _ _ _ _ => false, fun _ _ _ _ => false)).bind (fun r1 =>
    (this.CalcRiemannFlux_checked HAVE_ENERGY ISOTHERMAL SQRT NVAR r1.1 dir r1.2.1 r1.2.2
        (fun _ _ _ _ => false)).bind (fun r2 =>
      Physics.CalcRightHandSide_checked NVAR r2.1 dir dt r2.2))

end HD


/-! ## Lookup table (`utils/lookupTableHost.hpp`) -/

/-- The members of `LookupTableHost<kDim>` read by `Get`. The arrays are total
functions; axis `n` of the table owns the entries `offset(n) .. offset(n) +
dimensions(n) - 1` of `xin`, and an entry outside the allocated extent stands
for whatever the memory holds there. The constructors reject a table with a
`NaN`, so that the entries are numbers. -/
structure LookupTableHost where
  /-- Number of coordinates of every axis. -/
  dimensions : ℤ → ℤ
  /-- First entry of every axis in `xin`. -/
  offset : ℤ → ℤ
  /-- Coordinates of all the axes, one axis after the other. -/
  xin : IdefixArray1D
  /-- Tabulated values, flattened. -/
  data : IdefixArray1D
  /-- Whether a query outside the table aborts. -/
  errorIfOutOfBound : Bool

/-- Conversion `static_cast<int>` of a real: truncation toward zero. -/
def static_cast_int (q : real) : ℤ :=
  if 0 ≤ q then ⌊q⌋ else ⌈q⌉

/-- The two bound checks of `Get` on coordinate `n`: `Kokkos::abort` is an
error, otherwise the (possibly replaced) coordinate `x_n` is returned.
`SMALL_NUMBER` is a constant of the build. -/
def LookupTableHost.checkBounds (this : LookupTableHost) (SMALL_NUMBER : real) (n : ℤ)
    (x_n : real) : Except String real :=
  (if x_n < this.xin (this.offset n) then
      if this.errorIfOutOfBound then
        Except.error "LookupTableHost:: ERROR! Attempt to interpolate below your lower bound."
      else
        Except.ok (this.xin (this.offset n))
    else Except.ok x_n).bind (fun x_n =>
  if x_n ≥ this.xin (this.offset n + this.dimensions n - 1) then
    if this.errorIfOutOfBound then
      Except.error "LookupTableHost:: ERROR! Attempt to interpolate above your upper bound."
    else
      Except.ok (this.xin (this.offset n + this.dimensions n - 1) * (1 - SMALL_NUMBER))
  else Except.ok x_n)

/-- The loop `while(xin(offset(n) + i) < x_n) i++` started at `i`, with fuel:
`none` when the fuel runs out before the loop ends. -/
def LookupTableHost.scan (this : LookupTableHost) (n : ℤ) (x_n : real) : ℕ → ℤ → Option ℤ
  | 0, _ => none
  | fuel + 1, i =>
    if this.xin (this.offset n + i) < x_n then LookupTableHost.scan this n x_n fuel (i + 1)
    else some i

/-- The index of closest element assuming even distribution. -/
def LookupTableHost.guess (this : LookupTableHost) (n : ℤ) (x_n : real) : ℤ :=
  let xstart := this.xin (this.offset n)
  let xend := this.xin (this.offset n + this.dimensions n - 1)
  static_cast_int ((x_n - xstart) / (xend - xstart) * ((this.dimensions n - 1 : ℤ) : real))

/-- The index search of `Get` on coordinate `n`: the even-spacing guess when its
bounding elements are correct, otherwise the linear scan from `0`, minus one. -/
def LookupTableHost.search (this : LookupTableHost) (fuel : ℕ) (n : ℤ) (x_n : real) :
    Option ℤ :=
  let i := this.guess n x_n
  if this.xin (this.offset n + i) > x_n ∨ this.xin (this.offset n + i + 1) < x_n then
    (this.scan n x_n fuel 0).map (fun i => i - 1)
  else some i

/-- The elementary ratio `delta[n]` of coordinate `n` for the index `i`. -/
def LookupTableHost.ratio (this : LookupTableHost) (n i : ℤ) (x_n : real) : real :=
  (x_n - this.xin (this.offset n + i))
    / (this.xin (this.offset n + i + 1) - this.xin (this.offset n + i))

/-- The first loop of `Get` over the coordinates of the list, on the state
`(idx, delta)`. A coordinate of the query is `none` when it is `NaN`. The
result is `none` when a scan runs out of fuel, `some (Except.error msg)` when
`Get` aborts, `some (Except.ok none)` when `Get` returns `NaN`. -/
def LookupTableHost.locate (this : LookupTableHost) (SMALL_NUMBER : real) (fuel : ℕ)
    (x : ℤ → Option real) :
    List ℤ → (ℤ → ℤ) × (ℤ → real) → Option (Except String (Option ((ℤ → ℤ) × (ℤ → real))))
  | [], S => some (Except.ok (some S))
  | n :: ns, S =>
    match x n with
    | none => some (Except.ok none)
    | some x_n =>
      match this.checkBounds SMALL_NUMBER n x_n with
      | Except.error msg => some (Except.error msg)
      | Except.ok x_n =>
        match this.search fuel n x_n with
        | none => none
        | some i =>
          LookupTableHost.locate this SMALL_NUMBER fuel x ns
            (fun m => if m = n then i else S.1 m, set1 S.2 n (this.ratio n i x_n))

/-- The inner loop of the interpolation for vertex `n`: the flat `index` of the
vertex in `data` and its `weight`. -/
def LookupTableHost.vertex (this : LookupTableHost) (kDim : ℕ) (idx : ℤ → ℤ)
    (delta : ℤ → real) (n : ℕ) : ℤ × real :=
  (List.range kDim).foldl (fun (S : ℤ × real) (m : ℕ) =>
    let index := S.1 * this.dimensions m
    let myBit := 1 <<< m
    if (n &&& myBit) > 0 then (index + (idx m + 1), S.2 * delta m)
    else (index + idx m, S.2 * (1 - delta m))) (0, 1)

/-- The second loop of `Get`: the sum over the `1 << kDim` vertices of
`weight*data(index)`. -/
def LookupTableHost.interpolate (this : LookupTableHost) (kDim : ℕ) (idx : ℤ → ℤ)
    (delta : ℤ → real) : real :=
  (List.range (1 <<< kDim)).foldl (fun (value : real) (n : ℕ) =>
    value + (this.vertex kDim idx delta n).2 * this.data (this.vertex kDim idx delta n).1) 0

/-- The function `LookupTableHost<kDim>::Get`. The local arrays `idx` and
`delta` start at zero; every entry read by the second loop is written by the
first. -/
def LookupTableHost.Get (this : LookupTableHost) (SMALL_NUMBER : real) (kDim : ℕ) (fuel : ℕ)
    (x : ℤ → Option real) : Option (Except String (Option real)) :=
  (this.locate SMALL_NUMBER fuel x (irange 0 kDim) (fun _ => 0, fun _ => 0)).map
    (fun r => r.map (fun o => o.map (fun S => this.interpolate kDim S.1 S.2)))

/-- The loop of the CSV constructor that fills `data` from the lines of the
file: `data(i*size[1]+j) = line[i]` for line `j` and column `i`. -/
def LookupTableHost.fillData (size1 : ℤ) (dataVector : List (List real))
    (data : IdefixArray1D) : IdefixArray1D :=
  (List.range dataVector.length).foldl (fun (data : IdefixArray1D) (j : ℕ) =>
    (List.range (dataVector.getD j []).length).foldl (fun (data : IdefixArray1D) (i : ℕ) =>
      set1 data ((i : ℤ) * size1 + (j : ℤ)) ((dataVector.getD j []).getD i 0)) data) data

/-- Coordinate `x_n` is inside the bounds of axis `n`:
`xin(offset(n)) <= x_n < xin(offset(n)+dimensions(n)-1)`. -/
def LookupTableHost.inBounds (this : LookupTableHost) (n : ℤ) (x_n : real) : Prop :=
  this.xin (this.offset n) ≤ x_n ∧ x_n < this.xin (this.offset n + this.dimensions n - 1)

instance LookupTableHost.inBounds_decidable (this : LookupTableHost) (n : ℤ) (x_n : real) :
    Decidable (this.inBounds n x_n) := by
  unfold LookupTableHost.inBounds
  infer_instance
/-! ## Concrete inputs of the sweep, the reconstruction and the lookup table -/

/-- The 1D grid with the same state `(rho, v, P) = (1, (2,0,0), 3)` on the left
and on the right of every interface. -/
def grid1D_equalStates : DataBlock :=
  { grid1D with PrimL := fun n _ _ _ => cellState 1 2 0 0 3 n,
                PrimR := fun n _ _ _ => cellState 1 2 0 0 3 n }

/-- The 1D grid with the staggered field `V_s(n,k,j,i) = i` in every component. -/
def grid1D_VsRamp : DataBlock :=
  { grid1D with Vs := fun _ _ _ i => (i : real) }

/-- A one-dimensional table with the unevenly spaced coordinates `0, 1, 4, 5`
and the data `10, 20, 50, 40`. -/
def table1D : LookupTableHost :=
  { dimensions := fun _ => 4
    offset := fun _ => 0
    xin := fun i => if i = 0 then 0 else if i = 1 then 1 else if i = 2 then 4
      else if i = 3 then 5 else 0
    data := fun i => if i = 0 then 10 else if i = 1 then 20 else if i = 2 then 50
      else if i = 3 then 40 else 0
    errorIfOutOfBound := true }

/-- A two-dimensional table: coordinates `0, 1, 4` along the first axis and
`0, 2` along the second, data `10*i + j` at vertex `(i, j)`. -/
def table2D : LookupTableHost :=
  { dimensions := fun n => if n = 0 then 3 else 2
    offset := fun n => if n = 0 then 0 else 3
    xin := fun i => if i = 0 then 0 else if i = 1 then 1 else if i = 2 then 4
      else if i = 3 then 0 else if i = 4 then 2 else 0
    data := fun i => if i = 0 then 0 else if i = 1 then 1 else if i = 2 then 10
      else if i = 3 then 11 else if i = 4 then 20 else if i = 5 then 21 else 0
    errorIfOutOfBound := true }

/-- A one-dimensional table with a negative upper bound that clamps: the
coordinates `-2, -1` and the data `0, 1`. The memory behind the coordinates
holds `0`, the memory behind the data holds `d`. -/
def tableNegative (d : real) : LookupTableHost :=
  { dimensions := fun _ => 2
    offset := fun _ => 0
    xin := fun i => if i = 0 then -2 else if i = 1 then -1 else 0
    data := fun i => if i = 0 then 0 else if i = 1 then 1 else d
    errorIfOutOfBound := false }

/-! ## Loops: index lists and fold lemmas -/

theorem mem_irange (b e x : ℤ) : x ∈ irange b e ↔ b ≤ x ∧ x < e := by
  unfold irange
  simp only [List.mem_map, List.mem_range]
  constructor
  · rintro ⟨n, hn, rfl⟩
    omega
  · intro h
    exact ⟨(x - b).toNat, by omega, by omega⟩

theorem nodup_irange (b e : ℤ) : (irange b e).Nodup := by
  unfold irange
  refine List.Nodup.map ?_ (List.nodup_range _)
  intro m n h
  simpa using h

theorem irange_succ (b e : ℤ) (h : b ≤ e) : irange b (e + 1) = irange b e ++ [e] := by
  unfold irange
  have h1 : (e + 1 - b).toNat = (e - b).toNat + 1 := by omega
  rw [h1, List.range_succ, List.map_append]
  simp only [List.map_cons, List.map_nil]
  congr 2
  omega

theorem irange_empty (b e : ℤ) (h : e ≤ b) : irange b e = [] := by
  unfold irange
  have h1 : (e - b).toNat = 0 := by omega
  rw [h1]
  rfl

theorem pairwise_irange (b e : ℤ) : (irange b e).Pairwise (fun x y => x < y) := by
  unfold irange
  rw [List.pairwise_map]
  refine List.Pairwise.imp ?_ (List.pairwise_lt_range _)
  intro m n h
  omega

theorem pairwise_irangeDown (hi lo : ℤ) : (irangeDown hi lo).Pairwise (fun x y => y < x) := by
  unfold irangeDown
  rw [List.pairwise_reverse]
  exact pairwise_irange _ _

theorem mem_irangeDown (hi lo x : ℤ) : x ∈ irangeDown hi lo ↔ lo ≤ x ∧ x ≤ hi := by
  unfold irangeDown
  rw [List.mem_reverse, mem_irange]
  omega

theorem mem_box2 (b1 e1 b2 e2 a b : ℤ) :
    (a, b) ∈ box2 b1 e1 b2 e2 ↔ (b1 ≤ a ∧ a < e1) ∧ (b2 ≤ b ∧ b < e2) := by
  unfold box2
  rw [List.pair_mem_product, mem_irange, mem_irange]

theorem mem_box3 (b1 e1 b2 e2 b3 e3 a b c : ℤ) :
    (a, b, c) ∈ box3 b1 e1 b2 e2 b3 e3 ↔
      (b1 ≤ a ∧ a < e1) ∧ (b2 ≤ b ∧ b < e2) ∧ (b3 ≤ c ∧ c < e3) := by
  unfold box3
  rw [List.pair_mem_product, mem_irange, mem_box2]

theorem mem_box4 (b0 e0 b1 e1 b2 e2 b3 e3 n a b c : ℤ) :
    (n, a, b, c) ∈ box4 b0 e0 b1 e1 b2 e2 b3 e3 ↔
      (b0 ≤ n ∧ n < e0) ∧ (b1 ≤ a ∧ a < e1) ∧ (b2 ≤ b ∧ b < e2) ∧ (b3 ≤ c ∧ c < e3) := by
  unfold box4
  rw [List.pair_mem_product, mem_irange, mem_box3]

theorem nodup_box2 (b1 e1 b2 e2 : ℤ) : (box2 b1 e1 b2 e2).Nodup :=
  List.Nodup.product (nodup_irange _ _) (nodup_irange _ _)

theorem nodup_box3 (b1 e1 b2 e2 b3 e3 : ℤ) : (box3 b1 e1 b2 e2 b3 e3).Nodup :=
  List.Nodup.product (nodup_irange _ _) (nodup_box2 _ _ _ _)

theorem nodup_box4 (b0 e0 b1 e1 b2 e2 b3 e3 : ℤ) :
    (box4 b0 e0 b1 e1 b2 e2 b3 e3).Nodup :=
  List.Nodup.product (nodup_irange _ _) (nodup_box3 _ _ _ _ _ _)

/-- A property kept by every iteration is kept by the loop. -/
theorem foldl_preserve {σ ι : Type} (body : ι → σ → σ) (P : σ → Prop) (l : List ι)
    (h : ∀ x ∈ l, ∀ s, P s → P (body x s)) (s : σ) (hs : P s) :
    P (l.foldl (fun s x => body x s) s) := by
  induction l generalizing s with
  | nil => exact hs
  | cons a l ih =>
    rw [List.foldl_cons]
    exact ih (fun x hx => h x (List.mem_cons_of_mem _ hx)) _ (h a (List.mem_cons_self _ _) s hs)

/-- A property that iteration `y` establishes and that the iterations after
`y` keep holds at the end of the loop. -/
theorem foldl_establish {σ ι : Type} (body : ι → σ → σ) (Q : ι → σ → Prop) (l : List ι)
    (hest : ∀ x ∈ l, ∀ s, Q x (body x s))
    (hkeep : l.Pairwise (fun y x => ∀ s, Q y s → Q y (body x s)))
    (s : σ) (y : ι) (hy : y ∈ l) : Q y (l.foldl (fun s x => body x s) s) := by
  induction l generalizing s with
  | nil => cases hy
  | cons a l ih =>
    rw [List.foldl_cons]
    rw [List.pairwise_cons] at hkeep
    by_cases hyl : y ∈ l
    · exact ih (fun x hx => hest x (List.mem_cons_of_mem _ hx)) hkeep.2 _ hyl
    · have hya : y = a := by
        rcases List.mem_cons.1 hy with h | h
        · exact h
        · exact absurd h hyl
      subst hya
      exact foldl_preserve body (Q y) l (fun x hx s hs => hkeep.1 x hx s hs) _
        (hest y (List.mem_cons_self _ _) s)

/-- A loop whose iteration `x` rewrites its own slot from the old content of
that slot and leaves the other slots: each slot of the list is rewritten
once. -/
theorem foldl_pointwise {σ ι α : Type} (body : ι → σ → σ) (view : σ → ι → α)
    (F : ι → α → α)
    (hown : ∀ x s, view (body x s) x = F x (view s x))
    (hframe : ∀ x y s, x ≠ y → view (body x s) y = view s y)
    (l : List ι) (hl : l.Nodup) (s : σ) (y : ι) (hy : y ∈ l) :
    view (l.foldl (fun s x => body x s) s) y = F y (view s y) := by
  induction l generalizing s with
  | nil => cases hy
  | cons a l ih =>
    rw [List.foldl_cons]
    rw [List.nodup_cons] at hl
    by_cases hyl : y ∈ l
    · have hne : a ≠ y := fun h => hl.1 (h ▸ hyl)
      rw [ih hl.2 _ hyl, hframe a y s hne]
    · have hya : y = a := by
        rcases List.mem_cons.1 hy with h | h
        · exact h
        · exact absurd h hyl
      subst hya
      have := foldl_preserve body (fun s' => view s' y = view (body y s) y) l
        (fun x hx s' hs' => by
          have hxy : x ≠ y := fun h => hyl (h ▸ hx)
          show view (body x s') y = view (body y s) y
          rw [hframe x y s' hxy]; exact hs') (body y s) rfl
      rw [this, hown]

/-- A slot that no iteration of the list owns keeps its content. -/
theorem foldl_untouched {σ ι κ α : Type} (body : ι → σ → σ) (view : σ → κ → α) (y : κ)
    (l : List ι) (h : ∀ x ∈ l, ∀ s, view (body x s) y = view s y) (s : σ) :
    view (l.foldl (fun s x => body x s) s) y = view s y :=
  foldl_preserve body (fun s' => view s' y = view s y) l
    (fun x hx s' hs' => by
      show view (body x s') y = view s y
      rw [h x hx s']; exact hs') s rfl

/-! ## Array assignments -/

theorem set1_self (A : IdefixArray1D) (n : ℤ) (v : real) : set1 A n v n = v := by
  simp [set1]

theorem set1_ne (A : IdefixArray1D) (n m : ℤ) (v : real) (h : m ≠ n) :
    set1 A n v m = A m := by
  simp [set1, h]

theorem set4_self (A : IdefixArray4D) (n k j i : ℤ) (v : real) :
    set4 A n k j i v n k j i = v := by
  simp [set4]

theorem set4_ne (A : IdefixArray4D) (n k j i n' k' j' i' : ℤ) (v : real)
    (h : ¬ (n' = n ∧ k' = k ∧ j' = j ∧ i' = i)) :
    set4 A n k j i v n' k' j' i' = A n' k' j' i' := by
  simp only [set4, if_neg h]

/-! ## Kernels as pointwise maps -/

theorem idefix_for4_pointwise {σ α : Type} (b0 e0 b1 e1 b2 e2 b3 e3 : ℤ)
    (body : ℤ → ℤ → ℤ → ℤ → σ → σ) (view : σ → ℤ × ℤ × ℤ × ℤ → α)
    (F : ℤ × ℤ × ℤ × ℤ → α → α)
    (hown : ∀ x s, view (body x.1 x.2.1 x.2.2.1 x.2.2.2 s) x = F x (view s x))
    (hframe : ∀ x y s, x ≠ y → view (body x.1 x.2.1 x.2.2.1 x.2.2.2 s) y = view s y)
    (s : σ) (n k j i : ℤ) (hn : b0 ≤ n ∧ n < e0) (hk : b1 ≤ k ∧ k < e1)
    (hj : b2 ≤ j ∧ j < e2) (hi : b3 ≤ i ∧ i < e3) :
    view (idefix_for4 b0 e0 b1 e1 b2 e2 b3 e3 body s) (n, k, j, i)
      = F (n, k, j, i) (view s (n, k, j, i)) := by
  unfold idefix_for4
  exact foldl_pointwise (fun (x : ℤ × ℤ × ℤ × ℤ) s => body x.1 x.2.1 x.2.2.1 x.2.2.2 s)
    view F hown hframe _ (nodup_box4 _ _ _ _ _ _ _ _) s (n, k, j, i)
    ((mem_box4 _ _ _ _ _ _ _ _ _ _ _ _).2 ⟨hn, hk, hj, hi⟩)

theorem idefix_for3_pointwise {σ α : Type} (b1 e1 b2 e2 b3 e3 : ℤ)
    (body : ℤ → ℤ → ℤ → σ → σ) (view : σ → ℤ × ℤ × ℤ → α)
    (F : ℤ × ℤ × ℤ → α → α)
    (hown : ∀ x s, view (body x.1 x.2.1 x.2.2 s) x = F x (view s x))
    (hframe : ∀ x y s, x ≠ y → view (body x.1 x.2.1 x.2.2 s) y = view s y)
    (s : σ) (k j i : ℤ) (hk : b1 ≤ k ∧ k < e1)
    (hj : b2 ≤ j ∧ j < e2) (hi : b3 ≤ i ∧ i < e3) :
    view (idefix_for3 b1 e1 b2 e2 b3 e3 body s) (k, j, i) = F (k, j, i) (view s (k, j, i)) := by
  unfold idefix_for3
  exact foldl_pointwise (fun (x : ℤ × ℤ × ℤ) s => body x.1 x.2.1 x.2.2 s) view F hown hframe _
    (nodup_box3 _ _ _ _ _ _) s (k, j, i) ((mem_box3 _ _ _ _ _ _ _ _ _).2 ⟨hk, hj, hi⟩)

/-! ## Reconstruction (HD) -/

theorem HD_Extrapolate2_PrimR (NVAR : ℤ) (data : DataBlock) (dir : ℤ) (n k j i : ℤ)
    (hn : 0 ≤ n ∧ n < NVAR)
    (hk : data.beg KDIR - sweepOffset dir KDIR ≤ k ∧ k < data.end_ KDIR + sweepOffset dir KDIR)
    (hj : data.beg JDIR - sweepOffset dir JDIR ≤ j ∧ j < data.end_ JDIR + sweepOffset dir JDIR)
    (hi : data.beg IDIR - sweepOffset dir IDIR ≤ i ∧ i < data.end_ IDIR + sweepOffset dir IDIR) :
    (HD.Physics.ExtrapolatePrimVar 2 NVAR data dir).PrimR n k j i
      = data.Vc n k j i - HALF_F * HD.VanLeer
          (data.Vc n (k + sweepOffset dir KDIR) (j + sweepOffset dir JDIR)
            (i + sweepOffset dir IDIR) - data.Vc n k j i)
          (data.Vc n k j i - data.Vc n (k - sweepOffset dir KDIR) (j - sweepOffset dir JDIR)
            (i - sweepOffset dir IDIR)) := by
  simp only [HD.Physics.ExtrapolatePrimVar]
  norm_num
  exact idefix_for4_pointwise _ _ _ _ _ _ _ _ _
    (fun (P : IdefixArray4D × IdefixArray4D) (x : ℤ × ℤ × ℤ × ℤ) => P.2 x.1 x.2.1 x.2.2.1 x.2.2.2)
    (fun x _ => data.Vc x.1 x.2.1 x.2.2.1 x.2.2.2 - HALF_F * HD.VanLeer
          (data.Vc x.1 (x.2.1 + sweepOffset dir KDIR) (x.2.2.1 + sweepOffset dir JDIR)
            (x.2.2.2 + sweepOffset dir IDIR) - data.Vc x.1 x.2.1 x.2.2.1 x.2.2.2)
          (data.Vc x.1 x.2.1 x.2.2.1 x.2.2.2
            - data.Vc x.1 (x.2.1 - sweepOffset dir KDIR) (x.2.2.1 - sweepOffset dir JDIR)
              (x.2.2.2 - sweepOffset dir IDIR)))
    (fun x s => by simp [HD.Extrapolate_body2, set4_self])
    (fun x y s hxy => by
      simp only [HD.Extrapolate_body2]
      apply set4_ne
      intro h
      exact hxy (by ext <;> simp [h.1, h.2.1, h.2.2.1, h.2.2.2]))
    _ n k j i hn hk hj hi

theorem HD_Extrapolate2_PrimL (NVAR : ℤ) (data : DataBlock) (dir : ℤ) (n k j i : ℤ)
    (hn : 0 ≤ n ∧ n < NVAR)
    (hk : data.beg KDIR - sweepOffset dir KDIR ≤ k ∧ k < data.end_ KDIR + sweepOffset dir KDIR)
    (hj : data.beg JDIR - sweepOffset dir JDIR ≤ j ∧ j < data.end_ JDIR + sweepOffset dir JDIR)
    (hi : data.beg IDIR - sweepOffset dir IDIR ≤ i ∧ i < data.end_ IDIR + sweepOffset dir IDIR) :
    (HD.Physics.ExtrapolatePrimVar 2 NVAR data dir).PrimL n (k + sweepOffset dir KDIR)
        (j + sweepOffset dir JDIR) (i + sweepOffset dir IDIR)
      = data.Vc n k j i + HALF_F * HD.VanLeer
          (data.Vc n (k + sweepOffset dir KDIR) (j + sweepOffset dir JDIR)
            (i + sweepOffset dir IDIR) - data.Vc n k j i)
          (data.Vc n k j i - data.Vc n (k - sweepOffset dir KDIR) (j - sweepOffset dir JDIR)
            (i - sweepOffset dir IDIR)) := by
  simp only [HD.Physics.ExtrapolatePrimVar]
  norm_num
  exact idefix_for4_pointwise _ _ _ _ _ _ _ _ _
    (fun (P : IdefixArray4D × IdefixArray4D) (x : ℤ × ℤ × ℤ × ℤ) =>
      P.1 x.1 (x.2.1 + sweepOffset dir KDIR) (x.2.2.1 + sweepOffset dir JDIR)
        (x.2.2.2 + sweepOffset dir IDIR))
    (fun x _ => data.Vc x.1 x.2.1 x.2.2.1 x.2.2.2 + HALF_F * HD.VanLeer
          (data.Vc x.1 (x.2.1 + sweepOffset dir KDIR) (x.2.2.1 + sweepOffset dir JDIR)
            (x.2.2.2 + sweepOffset dir IDIR) - data.Vc x.1 x.2.1 x.2.2.1 x.2.2.2)
          (data.Vc x.1 x.2.1 x.2.2.1 x.2.2.2
            - data.Vc x.1 (x.2.1 - sweepOffset dir KDIR) (x.2.2.1 - sweepOffset dir JDIR)
              (x.2.2.2 - sweepOffset dir IDIR)))
    (fun x s => by simp [HD.Extrapolate_body2, set4_self])
    (fun x y s hxy => by
      simp only [HD.Extrapolate_body2]
      apply set4_ne
      intro h
      apply hxy
      obtain ⟨h1, h2, h3, h4⟩ := h
      ext <;> dsimp only <;> omega)
    _ n k j i hn hk hj hi

/-! ## The Van Leer limiter -/

theorem VanLeer_comm (dvp dvm : real) : HD.VanLeer dvp dvm = HD.VanLeer dvm dvp := by
  unfold HD.VanLeer
  rw [mul_comm dvm dvp, add_comm dvm dvp, mul_assoc TWO_F dvm dvp, mul_comm dvm dvp,
    ← mul_assoc]

theorem VanLeer_pos (dvp dvm : real) (hp : 0 < dvp) (hm : 0 < dvm) :
    0 < HD.VanLeer dvp dvm ∧ HD.VanLeer dvp dvm ≤ 2 * dvp ∧ HD.VanLeer dvp dvm ≤ 2 * dvm := by
  have hpm : 0 < dvp * dvm := mul_pos hp hm
  have hs : 0 < dvp + dvm := add_pos hp hm
  simp only [HD.VanLeer, ZERO_F, TWO_F, gt_iff_lt, hpm, if_true]
  refine ⟨by positivity, ?_, ?_⟩
  · rw [div_le_iff₀ hs]; nlinarith
  · rw [div_le_iff₀ hs]; nlinarith

theorem VanLeer_neg (dvp dvm : real) (hp : dvp < 0) (hm : dvm < 0) :
    HD.VanLeer dvp dvm < 0 ∧ 2 * dvp ≤ HD.VanLeer dvp dvm ∧ 2 * dvm ≤ HD.VanLeer dvp dvm := by
  have hpm : 0 < dvp * dvm := mul_pos_of_neg_of_neg hp hm
  have hs : dvp + dvm < 0 := add_neg hp hm
  simp only [HD.VanLeer, ZERO_F, TWO_F, gt_iff_lt, hpm, if_true]
  refine ⟨?_, ?_, ?_⟩
  · apply div_neg_of_pos_of_neg _ hs
    nlinarith
  · rw [le_div_iff_of_neg hs]; nlinarith
  · rw [le_div_iff_of_neg hs]; nlinarith

theorem VanLeer_zero (dvp dvm : real) (h : ¬ 0 < dvp * dvm) : HD.VanLeer dvp dvm = 0 := by
  simp only [HD.VanLeer, ZERO_F, gt_iff_lt, h, if_false]

theorem VanLeer_cases (dvp dvm : real) :
    (0 < dvp ∧ 0 < dvm ∧ 0 < HD.VanLeer dvp dvm ∧ HD.VanLeer dvp dvm ≤ 2 * dvp
        ∧ HD.VanLeer dvp dvm ≤ 2 * dvm)
    ∨ (dvp < 0 ∧ dvm < 0 ∧ HD.VanLeer dvp dvm < 0 ∧ 2 * dvp ≤ HD.VanLeer dvp dvm
        ∧ 2 * dvm ≤ HD.VanLeer dvp dvm)
    ∨ HD.VanLeer dvp dvm = 0 := by
  by_cases h : 0 < dvp * dvm
  · rcases pos_and_pos_or_neg_and_neg_of_mul_pos h with ⟨hp, hm⟩ | ⟨hp, hm⟩
    · exact Or.inl ⟨hp, hm, VanLeer_pos dvp dvm hp hm⟩
    · exact Or.inr (Or.inl ⟨hp, hm, VanLeer_neg dvp dvm hp hm⟩)
  · exact Or.inr (Or.inr (VanLeer_zero dvp dvm h))

theorem VanLeer_abs_le (dvp dvm : real) :
    |HD.VanLeer dvp dvm| ≤ 2 * min |dvp| |dvm| := by
  rcases VanLeer_cases dvp dvm with ⟨hp, hm, h0, h1, h2⟩ | ⟨hp, hm, h0, h1, h2⟩ | h
  · rw [abs_of_pos h0, abs_of_pos hp, abs_of_pos hm]
    rcases le_total dvp dvm with h | h
    · rw [min_eq_left h]; exact h1
    · rw [min_eq_right h]; exact h2
  · rw [abs_of_neg h0, abs_of_neg hp, abs_of_neg hm]
    rcases le_total (-dvp) (-dvm) with h | h
    · rw [min_eq_left h]; linarith
    · rw [min_eq_right h]; linarith
  · rw [h, abs_zero]
    have := abs_nonneg dvp
    have := abs_nonneg dvm
    have : 0 ≤ min |dvp| |dvm| := le_min (abs_nonneg _) (abs_nonneg _)
    linarith

/-- With `a` the cell value and `b` a neighbour, `a + t` lies between them when
`t` has the sign of `b - a` and is no larger. -/
theorem between_of_step (a b t : real)
    (h : (0 ≤ t ∧ t ≤ b - a) ∨ (b - a ≤ t ∧ t ≤ 0)) :
    min a b ≤ a + t ∧ a + t ≤ max a b := by
  rcases h with ⟨h1, h2⟩ | ⟨h1, h2⟩
  · have hab : a ≤ b := by linarith
    rw [min_eq_left hab, max_eq_right hab]
    constructor <;> linarith
  · have hab : b ≤ a := by linarith
    rw [min_eq_right hab, max_eq_left hab]
    constructor <;> linarith

theorem VanLeer_between (vm v vp : real) :
    (min v vp ≤ v + HALF_F * HD.VanLeer (vp - v) (v - vm)
      ∧ v + HALF_F * HD.VanLeer (vp - v) (v - vm) ≤ max v vp)
    ∧ (min vm v ≤ v - HALF_F * HD.VanLeer (vp - v) (v - vm)
      ∧ v - HALF_F * HD.VanLeer (vp - v) (v - vm) ≤ max vm v) := by
  have hh : HALF_F = 1 / 2 := rfl
  rw [hh]
  constructor
  · apply between_of_step
    rcases VanLeer_cases (vp - v) (v - vm) with ⟨hp, hm, h0, h1, h2⟩ | ⟨hp, hm, h0, h1, h2⟩ | h
    · left; constructor <;> linarith
    · right; constructor <;> linarith
    · rw [h]
      rcases le_total 0 (vp - v) with h' | h'
      · left; constructor <;> linarith
      · right; constructor <;> linarith
  · have := between_of_step v vm (-(1 / 2 * HD.VanLeer (vp - v) (v - vm))) (by
      rcases VanLeer_cases (vp - v) (v - vm) with ⟨hp, hm, h0, h1, h2⟩ | ⟨hp, hm, h0, h1, h2⟩ | h
      · right; constructor <;> linarith
      · left; constructor <;> linarith
      · rw [h]
        rcases le_total 0 (vm - v) with h' | h'
        · left; constructor <;> linarith
        · right; constructor <;> linarith)
    rw [min_comm vm v, max_comm vm v, sub_eq_add_neg]
    exact this

/-! ## Reconstruction (MHD) -/

theorem MHD_Extrapolate2_PrimR (DIMENSIONS : ℕ) (NVAR : ℤ) (data : DataBlock) (dir : ℤ)
    (n k j i : ℤ) (hn : 0 ≤ n ∧ n < NVAR)
    (hk : data.beg KDIR - sweepOffset dir KDIR - MHD.kextend DIMENSIONS dir ≤ k
      ∧ k < data.end_ KDIR + sweepOffset dir KDIR + MHD.kextend DIMENSIONS dir)
    (hj : data.beg JDIR - sweepOffset dir JDIR - MHD.jextend DIMENSIONS dir ≤ j
      ∧ j < data.end_ JDIR + sweepOffset dir JDIR + MHD.jextend DIMENSIONS dir)
    (hi : data.beg IDIR - sweepOffset dir IDIR - MHD.iextend DIMENSIONS dir ≤ i
      ∧ i < data.end_ IDIR + sweepOffset dir IDIR + MHD.iextend DIMENSIONS dir) :
    (MHD.Physics.ExtrapolatePrimVar DIMENSIONS 2 NVAR data dir).PrimR n k j i
      = if n = MHD.normalChannel dir then data.Vs dir k j i
        else data.Vc n k j i - HALF_F * HD.VanLeer
          (data.Vc n (k + sweepOffset dir KDIR) (j + sweepOffset dir JDIR)
            (i + sweepOffset dir IDIR) - data.Vc n k j i)
          (data.Vc n k j i - data.Vc n (k - sweepOffset dir KDIR) (j - sweepOffset dir JDIR)
            (i - sweepOffset dir IDIR)) := by
  simp only [MHD.Physics.ExtrapolatePrimVar]
  norm_num
  exact idefix_for4_pointwise _ _ _ _ _ _ _ _ _
    (fun (P : IdefixArray4D × IdefixArray4D) (x : ℤ × ℤ × ℤ × ℤ) => P.2 x.1 x.2.1 x.2.2.1 x.2.2.2)
    (fun x _ => if x.1 = MHD.normalChannel dir then data.Vs dir x.2.1 x.2.2.1 x.2.2.2
        else data.Vc x.1 x.2.1 x.2.2.1 x.2.2.2 - HALF_F * HD.VanLeer
          (data.Vc x.1 (x.2.1 + sweepOffset dir KDIR) (x.2.2.1 + sweepOffset dir JDIR)
            (x.2.2.2 + sweepOffset dir IDIR) - data.Vc x.1 x.2.1 x.2.2.1 x.2.2.2)
          (data.Vc x.1 x.2.1 x.2.2.1 x.2.2.2
            - data.Vc x.1 (x.2.1 - sweepOffset dir KDIR) (x.2.2.1 - sweepOffset dir JDIR)
              (x.2.2.2 - sweepOffset dir IDIR)))
    (fun x s => by
      simp only [MHD.Extrapolate_body2]
      split <;> simp [set4_self])
    (fun x y s hxy => by
      simp only [MHD.Extrapolate_body2]
      split <;>
      · apply set4_ne
        intro h
        apply hxy
        obtain ⟨h1, h2, h3, h4⟩ := h
        ext <;> dsimp only <;> omega)
    _ n k j i hn hk hj hi

theorem MHD_Extrapolate2_PrimL (DIMENSIONS : ℕ) (NVAR : ℤ) (data : DataBlock) (dir : ℤ)
    (n k j i : ℤ) (hn : 0 ≤ n ∧ n < NVAR)
    (hk : data.beg KDIR - sweepOffset dir KDIR - MHD.kextend DIMENSIONS dir ≤ k
      ∧ k < data.end_ KDIR + sweepOffset dir KDIR + MHD.kextend DIMENSIONS dir)
    (hj : data.beg JDIR - sweepOffset dir JDIR - MHD.jextend DIMENSIONS dir ≤ j
      ∧ j < data.end_ JDIR + sweepOffset dir JDIR + MHD.jextend DIMENSIONS dir)
    (hi : data.beg IDIR - sweepOffset dir IDIR - MHD.iextend DIMENSIONS dir ≤ i
      ∧ i < data.end_ IDIR + sweepOffset dir IDIR + MHD.iextend DIMENSIONS dir) :
    (MHD.Physics.ExtrapolatePrimVar DIMENSIONS 2 NVAR data dir).PrimL n
        (k + sweepOffset dir KDIR) (j + sweepOffset dir JDIR) (i + sweepOffset dir IDIR)
      = if n = MHD.normalChannel dir then
          data.Vs dir (k + sweepOffset dir KDIR) (j + sweepOffset dir JDIR)
            (i + sweepOffset dir IDIR)
        else data.Vc n k j i + HALF_F * HD.VanLeer
          (data.Vc n (k + sweepOffset dir KDIR) (j + sweepOffset dir JDIR)
            (i + sweepOffset dir IDIR) - data.Vc n k j i)
          (data.Vc n k j i - data.Vc n (k - sweepOffset dir KDIR) (j - sweepOffset dir JDIR)
            (i - sweepOffset dir IDIR)) := by
  simp only [MHD.Physics.ExtrapolatePrimVar]
  norm_num
  exact idefix_for4_pointwise _ _ _ _ _ _ _ _ _
    (fun (P : IdefixArray4D × IdefixArray4D) (x : ℤ × ℤ × ℤ × ℤ) =>
      P.1 x.1 (x.2.1 + sweepOffset dir KDIR) (x.2.2.1 + sweepOffset dir JDIR)
        (x.2.2.2 + sweepOffset dir IDIR))
    (fun x _ => if x.1 = MHD.normalChannel dir then
          data.Vs dir (x.2.1 + sweepOffset dir KDIR) (x.2.2.1 + sweepOffset dir JDIR)
            (x.2.2.2 + sweepOffset dir IDIR)
        else data.Vc x.1 x.2.1 x.2.2.1 x.2.2.2 + HALF_F * HD.VanLeer
          (data.Vc x.1 (x.2.1 + sweepOffset dir KDIR) (x.2.2.1 + sweepOffset dir JDIR)
            (x.2.2.2 + sweepOffset dir IDIR) - data.Vc x.1 x.2.1 x.2.2.1 x.2.2.2)
          (data.Vc x.1 x.2.1 x.2.2.1 x.2.2.2
            - data.Vc x.1 (x.2.1 - sweepOffset dir KDIR) (x.2.2.1 - sweepOffset dir JDIR)
              (x.2.2.2 - sweepOffset dir IDIR)))
    (fun x s => by
      simp only [MHD.Extrapolate_body2]
      split <;> simp [set4_self])
    (fun x y s hxy => by
      simp only [MHD.Extrapolate_body2]
      split <;>
      · apply set4_ne
        intro h
        apply hxy
        obtain ⟨h1, h2, h3, h4⟩ := h
        ext <;> dsimp only <;> omega)
    _ n k j i hn hk hj hi

/-! ## Flux divergence (HD) -/

theorem HD_RightHandSide_active (NVAR : ℤ) (data : DataBlock) (dir : ℤ) (dt : real)
    (n k j i : ℤ) (hn : 0 ≤ n ∧ n < NVAR)
    (hk : data.beg KDIR ≤ k ∧ k < data.end_ KDIR)
    (hj : data.beg JDIR ≤ j ∧ j < data.end_ JDIR)
    (hi : data.beg IDIR ≤ i ∧ i < data.end_ IDIR) :
    (HD.Physics.CalcRightHandSide NVAR data dir dt).Uc n k j i
      = data.Uc n k j i
        - dt / data.dx dir (sweepOffset dir IDIR * i + sweepOffset dir JDIR * j
            + sweepOffset dir KDIR * k)
          * (data.FluxRiemann n (k + sweepOffset dir KDIR) (j + sweepOffset dir JDIR)
              (i + sweepOffset dir IDIR) - data.FluxRiemann n k j i) := by
  simp only [HD.Physics.CalcRightHandSide]
  exact idefix_for4_pointwise _ _ _ _ _ _ _ _ _
    (fun (U : IdefixArray4D) (x : ℤ × ℤ × ℤ × ℤ) => U x.1 x.2.1 x.2.2.1 x.2.2.2)
    (fun x u => u
        - dt / data.dx dir (sweepOffset dir IDIR * x.2.2.2 + sweepOffset dir JDIR * x.2.2.1
            + sweepOffset dir KDIR * x.2.1)
          * (data.FluxRiemann x.1 (x.2.1 + sweepOffset dir KDIR) (x.2.2.1 + sweepOffset dir JDIR)
              (x.2.2.2 + sweepOffset dir IDIR) - data.FluxRiemann x.1 x.2.1 x.2.2.1 x.2.2.2))
    (fun x s => by simp [HD.RightHandSide_body, set4_self])
    (fun x y s hxy => by
      simp only [HD.RightHandSide_body]
      apply set4_ne
      intro h
      apply hxy
      obtain ⟨h1, h2, h3, h4⟩ := h
      ext <;> dsimp only <;> omega)
    _ n k j i hn hk hj hi

theorem Ico_succ_right_int (b e : ℤ) (h : b ≤ e) :
    Finset.Ico b (e + 1) = insert e (Finset.Ico b e) := by
  ext x
  simp only [Finset.mem_Ico, Finset.mem_insert]
  omega

theorem sum_Ico_telescope (F : ℤ → real) (b e : ℤ) (h : b ≤ e) :
    ∑ m ∈ Finset.Ico b e, (F (m + 1) - F m) = F e - F b := by
  refine Int.le_induction (P := fun e => ∑ m ∈ Finset.Ico b e, (F (m + 1) - F m) = F e - F b)
    ?_ ?_ e h
  · simp
  · intro e hbe ih
    rw [Ico_succ_right_int b e hbe, Finset.sum_insert (by simp), ih]
    ring

theorem HD_RightHandSide_line (NVAR : ℤ) (data : DataBlock) (dir : ℤ) (dt : real)
    (hdir : dir = IDIR ∨ dir = JDIR ∨ dir = KDIR)
    (n k j i m : ℤ) (hn : 0 ≤ n ∧ n < NVAR)
    (hk : dir ≠ KDIR → data.beg KDIR ≤ k ∧ k < data.end_ KDIR)
    (hj : dir ≠ JDIR → data.beg JDIR ≤ j ∧ j < data.end_ JDIR)
    (hi : dir ≠ IDIR → data.beg IDIR ≤ i ∧ i < data.end_ IDIR)
    (hm : data.beg dir ≤ m ∧ m < data.end_ dir) :
    alongLine dir (HD.Physics.CalcRightHandSide NVAR data dir dt).Uc n k j i m
      = alongLine dir data.Uc n k j i m
        - dt / data.dx dir m
          * (alongLine dir data.FluxRiemann n k j i (m + 1)
              - alongLine dir data.FluxRiemann n k j i m) := by
  unfold alongLine
  rcases hdir with rfl | rfl | rfl
  · have hj' := hj (by decide)
    have hk' := hk (by decide)
    rw [HD_RightHandSide_active NVAR data IDIR dt n _ _ _ hn (by simpa using hk')
      (by simpa using hj') (by simpa using hm)]
    simp [sweepOffset, IDIR, JDIR, KDIR]
  · have hi' := hi (by decide)
    have hk' := hk (by decide)
    rw [HD_RightHandSide_active NVAR data JDIR dt n _ _ _ hn (by simpa using hk')
      (by simpa using hm) (by simpa using hi')]
    simp [sweepOffset, IDIR, JDIR, KDIR]
  · have hi' := hi (by decide)
    have hj' := hj (by decide)
    rw [HD_RightHandSide_active NVAR data KDIR dt n _ _ _ hn (by simpa using hm)
      (by simpa using hj') (by simpa using hi')]
    simp [sweepOffset, IDIR, JDIR, KDIR]

/-- C3. The HD flux-divergence update is conservative along every line of
active cells: for a sweep direction `dir`, a channel `n < NVAR`, a line through
active transverse indices, any `dt` and nonzero widths on the active range,
the `dx`-weighted sum of `U_c` after `CalcRightHandSide` is the sum before
minus `dt` times the difference of the two boundary fluxes; with equal boundary
fluxes (periodic domain) the weighted total is unchanged. -/
theorem HD_CalcRightHandSide_conservative (NVAR : ℤ) (data : DataBlock) (dir : ℤ) (dt : real)
    (hdir : dir = IDIR ∨ dir = JDIR ∨ dir = KDIR)
    (n k j i : ℤ) (hn : 0 ≤ n ∧ n < NVAR)
    (hk : dir ≠ KDIR → data.beg KDIR ≤ k ∧ k < data.end_ KDIR)
    (hj : dir ≠ JDIR → data.beg JDIR ≤ j ∧ j < data.end_ JDIR)
    (hi : dir ≠ IDIR → data.beg IDIR ≤ i ∧ i < data.end_ IDIR)
    (hbe : data.beg dir ≤ data.end_ dir)
    (hdx : ∀ m, data.beg dir ≤ m → m < data.end_ dir → data.dx dir m ≠ 0) :
    (∑ m ∈ Finset.Ico (data.beg dir) (data.end_ dir),
        data.dx dir m * alongLine dir (HD.Physics.CalcRightHandSide NVAR data dir dt).Uc n k j i m
      = ∑ m ∈ Finset.Ico (data.beg dir) (data.end_ dir),
          data.dx dir m * alongLine dir data.Uc n k j i m
        - dt * (alongLine dir data.FluxRiemann n k j i (data.end_ dir)
            - alongLine dir data.FluxRiemann n k j i (data.beg dir)))
    ∧ (alongLine dir data.FluxRiemann n k j i (data.end_ dir)
          = alongLine dir data.FluxRiemann n k j i (data.beg dir) →
        ∑ m ∈ Finset.Ico (data.beg dir) (data.end_ dir),
          data.dx dir m * alongLine dir (HD.Physics.CalcRightHandSide NVAR data dir dt).Uc n k j i m
        = ∑ m ∈ Finset.Ico (data.beg dir) (data.end_ dir),
            data.dx dir m * alongLine dir data.Uc n k j i m) := by
  have key : ∑ m ∈ Finset.Ico (data.beg dir) (data.end_ dir),
        data.dx dir m * alongLine dir (HD.Physics.CalcRightHandSide NVAR data dir dt).Uc n k j i m
      = ∑ m ∈ Finset.Ico (data.beg dir) (data.end_ dir),
          data.dx dir m * alongLine dir data.Uc n k j i m
        - dt * (alongLine dir data.FluxRiemann n k j i (data.end_ dir)
            - alongLine dir data.FluxRiemann n k j i (data.beg dir)) := by
    rw [← sum_Ico_telescope (fun m => alongLine dir data.FluxRiemann n k j i m) _ _ hbe,
      Finset.mul_sum, ← Finset.sum_sub_distrib]
    refine Finset.sum_congr rfl ?_
    intro m hm
    rw [Finset.mem_Ico] at hm
    rw [HD_RightHandSide_line NVAR data dir dt hdir n k j i m hn hk hj hi hm]
    have h0 := hdx m hm.1 hm.2
    field_simp
    ring
  refine ⟨key, ?_⟩
  intro hF
  rw [key, hF, sub_self, mul_zero, sub_zero]

/-! ## Constrained transport -/

theorem EvolveMagField_body_BX1s (DIMENSIONS : ℕ) (Ex1 Ex2 Ex3 : IdefixArray3D)
    (dx1 dx2 dx3 : IdefixArray1D) (dt : real) (k j i : ℤ) (Vs : IdefixArray4D) (k' j' i' : ℤ) :
    MHD.EvolveMagField_body DIMENSIONS Ex1 Ex2 Ex3 dx1 dx2 dx3 dt k j i Vs BX1s k' j' i'
      = if k' = k ∧ j' = j ∧ i' = i then
          Vs BX1s k j i + D_EXPAND DIMENSIONS ZERO_F
            (- (dt / dx2 j * (Ex3 k (j + 1) i - Ex3 k j i)))
            (dt / dx3 k * (Ex2 (k + 1) j i - Ex2 k j i))
        else Vs BX1s k' j' i' := by
  unfold MHD.EvolveMagField_body
  simp only [BX1s, BX2s, BX3s]
  split_ifs <;> simp_all [set4]

theorem EvolveMagField_body_BX2s (DIMENSIONS : ℕ) (Ex1 Ex2 Ex3 : IdefixArray3D)
    (dx1 dx2 dx3 : IdefixArray1D) (dt : real) (k j i : ℤ) (Vs : IdefixArray4D) (k' j' i' : ℤ) :
    MHD.EvolveMagField_body DIMENSIONS Ex1 Ex2 Ex3 dx1 dx2 dx3 dt k j i Vs BX2s k' j' i'
      = if (k' = k ∧ j' = j ∧ i' = i) ∧ 2 ≤ DIMENSIONS then
          Vs BX2s k j i + D_EXPAND DIMENSIONS
            (dt / dx1 i * (Ex3 k j (i + 1) - Ex3 k j i)) 0
            (- (dt / dx3 k * (Ex1 (k + 1) j i - Ex1 k j i)))
        else Vs BX2s k' j' i' := by
  unfold MHD.EvolveMagField_body
  simp only [BX1s, BX2s, BX3s]
  split_ifs <;> simp_all [set4]

theorem EvolveMagField_body_BX3s (DIMENSIONS : ℕ) (Ex1 Ex2 Ex3 : IdefixArray3D)
    (dx1 dx2 dx3 : IdefixArray1D) (dt : real) (k j i : ℤ) (Vs : IdefixArray4D) (k' j' i' : ℤ) :
    MHD.EvolveMagField_body DIMENSIONS Ex1 Ex2 Ex3 dx1 dx2 dx3 dt k j i Vs BX3s k' j' i'
      = if (k' = k ∧ j' = j ∧ i' = i) ∧ DIMENSIONS = 3 then
          Vs BX3s k j i + (- dt / dx1 i * (Ex2 k j (i + 1) - Ex2 k j i)
            + dt / dx2 j * (Ex1 k (j + 1) i - Ex1 k j i))
        else Vs BX3s k' j' i' := by
  unfold MHD.EvolveMagField_body
  simp only [BX1s, BX2s, BX3s]
  split_ifs <;> simp_all [set4]

theorem idefix_for3_component {b1 e1 b2 e2 b3 e3 : ℤ}
    (body : ℤ → ℤ → ℤ → IdefixArray4D → IdefixArray4D) (n : ℤ) (c : Prop) [Decidable c]
    (G : ℤ → ℤ → ℤ → real → real)
    (hbody : ∀ k j i V k' j' i', body k j i V n k' j' i'
      = if (k' = k ∧ j' = j ∧ i' = i) ∧ c then G k j i (V n k j i) else V n k' j' i')
    (V : IdefixArray4D) (k j i : ℤ) (hk : b1 ≤ k ∧ k < e1) (hj : b2 ≤ j ∧ j < e2)
    (hi : b3 ≤ i ∧ i < e3) :
    idefix_for3 b1 e1 b2 e2 b3 e3 body V n k j i
      = if c then G k j i (V n k j i) else V n k j i := by
  have := idefix_for3_pointwise b1 e1 b2 e2 b3 e3 body
    (fun (V : IdefixArray4D) (x : ℤ × ℤ × ℤ) => V n x.1 x.2.1 x.2.2)
    (fun x v => if c then G x.1 x.2.1 x.2.2 v else v)
    (fun x s => by
      dsimp only
      rw [hbody]
      by_cases hc : c <;> simp [hc])
    (fun x y s hxy => by
      dsimp only
      rw [hbody]
      have hne : ¬ (y.1 = x.1 ∧ y.2.1 = x.2.1 ∧ y.2.2 = x.2.2) := by
        intro h
        apply hxy
        obtain ⟨h2, h3, h4⟩ := h
        ext <;> dsimp only <;> omega
      simp [hne])
    V k j i hk hj hi
  exact this

theorem MHD_EvolveMagField_BX1s (DIMENSIONS : ℕ) (data : DataBlock) (t dt : real)
    (k j i : ℤ)
    (hk : data.beg KDIR ≤ k ∧ k < data.end_ KDIR + KOFFSET DIMENSIONS)
    (hj : data.beg JDIR ≤ j ∧ j < data.end_ JDIR + JOFFSET DIMENSIONS)
    (hi : data.beg IDIR ≤ i ∧ i < data.end_ IDIR + IOFFSET DIMENSIONS) :
    (MHD.Physics.EvolveMagField DIMENSIONS data t dt).Vs BX1s k j i
      = data.Vs BX1s k j i + D_EXPAND DIMENSIONS ZERO_F
          (- (dt / data.dx JDIR j * (data.emf.ez k (j + 1) i - data.emf.ez k j i)))
          (dt / data.dx KDIR k * (data.emf.ey (k + 1) j i - data.emf.ey k j i)) := by
  have := idefix_for3_component
    (MHD.EvolveMagField_body DIMENSIONS data.emf.ex data.emf.ey data.emf.ez
      (data.dx IDIR) (data.dx JDIR) (data.dx KDIR) dt) BX1s True
    (fun k j i v => v + D_EXPAND DIMENSIONS ZERO_F
          (- (dt / data.dx JDIR j * (data.emf.ez k (j + 1) i - data.emf.ez k j i)))
          (dt / data.dx KDIR k * (data.emf.ey (k + 1) j i - data.emf.ey k j i)))
    (fun k j i V k' j' i' => by rw [EvolveMagField_body_BX1s]; simp)
    data.Vs k j i hk hj hi
  simpa [MHD.Physics.EvolveMagField] using this

theorem MHD_EvolveMagField_BX2s (DIMENSIONS : ℕ) (data : DataBlock) (t dt : real)
    (k j i : ℤ)
    (hk : data.beg KDIR ≤ k ∧ k < data.end_ KDIR + KOFFSET DIMENSIONS)
    (hj : data.beg JDIR ≤ j ∧ j < data.end_ JDIR + JOFFSET DIMENSIONS)
    (hi : data.beg IDIR ≤ i ∧ i < data.end_ IDIR + IOFFSET DIMENSIONS) :
    (MHD.Physics.EvolveMagField DIMENSIONS data t dt).Vs BX2s k j i
      = if 2 ≤ DIMENSIONS then data.Vs BX2s k j i + D_EXPAND DIMENSIONS
          (dt / data.dx IDIR i * (data.emf.ez k j (i + 1) - data.emf.ez k j i)) 0
          (- (dt / data.dx KDIR k * (data.emf.ex (k + 1) j i - data.emf.ex k j i)))
        else data.Vs BX2s k j i := by
  have := idefix_for3_component
    (MHD.EvolveMagField_body DIMENSIONS data.emf.ex data.emf.ey data.emf.ez
      (data.dx IDIR) (data.dx JDIR) (data.dx KDIR) dt) BX2s (2 ≤ DIMENSIONS)
    (fun k j i v => v + D_EXPAND DIMENSIONS
          (dt / data.dx IDIR i * (data.emf.ez k j (i + 1) - data.emf.ez k j i)) 0
          (- (dt / data.dx KDIR k * (data.emf.ex (k + 1) j i - data.emf.ex k j i))))
    (fun k j i V k' j' i' => by rw [EvolveMagField_body_BX2s])
    data.Vs k j i hk hj hi
  simpa [MHD.Physics.EvolveMagField] using this

theorem MHD_EvolveMagField_BX3s (DIMENSIONS : ℕ) (data : DataBlock) (t dt : real)
    (k j i : ℤ)
    (hk : data.beg KDIR ≤ k ∧ k < data.end_ KDIR + KOFFSET DIMENSIONS)
    (hj : data.beg JDIR ≤ j ∧ j < data.end_ JDIR + JOFFSET DIMENSIONS)
    (hi : data.beg IDIR ≤ i ∧ i < data.end_ IDIR + IOFFSET DIMENSIONS) :
    (MHD.Physics.EvolveMagField DIMENSIONS data t dt).Vs BX3s k j i
      = if DIMENSIONS = 3 then data.Vs BX3s k j i
          + (- dt / data.dx IDIR i * (data.emf.ey k j (i + 1) - data.emf.ey k j i)
            + dt / data.dx JDIR j * (data.emf.ex k (j + 1) i - data.emf.ex k j i))
        else data.Vs BX3s k j i := by
  have := idefix_for3_component
    (MHD.EvolveMagField_body DIMENSIONS data.emf.ex data.emf.ey data.emf.ez
      (data.dx IDIR) (data.dx JDIR) (data.dx KDIR) dt) BX3s (DIMENSIONS = 3)
    (fun k j i v => v + (- dt / data.dx IDIR i * (data.emf.ey k j (i + 1) - data.emf.ey k j i)
            + dt / data.dx JDIR j * (data.emf.ex k (j + 1) i - data.emf.ex k j i)))
    (fun k j i V k' j' i' => by rw [EvolveMagField_body_BX3s])
    data.Vs k j i hk hj hi
  simpa [MHD.Physics.EvolveMagField] using this

theorem MHD_EvolveMagField_divB_cell (DIMENSIONS : ℕ)
    (hD : DIMENSIONS = 1 ∨ DIMENSIONS = 2 ∨ DIMENSIONS = 3)
    (data : DataBlock) (t dt : real) (k j i : ℤ)
    (hk : data.beg KDIR ≤ k ∧ k < data.end_ KDIR)
    (hj : data.beg JDIR ≤ j ∧ j < data.end_ JDIR)
    (hi : data.beg IDIR ≤ i ∧ i < data.end_ IDIR)
    (hdx1 : data.dx IDIR i ≠ 0) (hdx2 : data.dx JDIR j ≠ 0) (hdx3 : data.dx KDIR k ≠ 0) :
    MHD.divB DIMENSIONS (MHD.Physics.EvolveMagField DIMENSIONS data t dt).Vs
        (data.dx IDIR) (data.dx JDIR) (data.dx KDIR) k j i
      = MHD.divB DIMENSIONS data.Vs (data.dx IDIR) (data.dx JDIR) (data.dx KDIR) k j i := by
  rcases hD with rfl | rfl | rfl
  · have e1 := MHD_EvolveMagField_BX1s 1 data t dt k j i
      (by simp [KOFFSET]; omega) (by simp [JOFFSET]; omega) (by simp [IOFFSET]; omega)
    have e2 := MHD_EvolveMagField_BX1s 1 data t dt k j (i + 1)
      (by simp [KOFFSET]; omega) (by simp [JOFFSET]; omega) (by simp [IOFFSET]; omega)
    simp only [MHD.divB, D_EXPAND, e1, e2, ZERO_F]
    norm_num
  · have hk' : data.beg KDIR ≤ k ∧ k < data.end_ KDIR + KOFFSET 2 := by
      simp [KOFFSET]; omega
    have hj0 : data.beg JDIR ≤ j ∧ j < data.end_ JDIR + JOFFSET 2 := by
      simp [JOFFSET]; omega
    have hj1 : data.beg JDIR ≤ j + 1 ∧ j + 1 < data.end_ JDIR + JOFFSET 2 := by
      simp [JOFFSET]; omega
    have hi0 : data.beg IDIR ≤ i ∧ i < data.end_ IDIR + IOFFSET 2 := by
      simp [IOFFSET]; omega
    have hi1 : data.beg IDIR ≤ i + 1 ∧ i + 1 < data.end_ IDIR + IOFFSET 2 := by
      simp [IOFFSET]; omega
    have e1 := MHD_EvolveMagField_BX1s 2 data t dt k j i hk' hj0 hi0
    have e2 := MHD_EvolveMagField_BX1s 2 data t dt k j (i + 1) hk' hj0 hi1
    have e3 := MHD_EvolveMagField_BX2s 2 data t dt k j i hk' hj0 hi0
    have e4 := MHD_EvolveMagField_BX2s 2 data t dt k (j + 1) i hk' hj1 hi0
    simp only [MHD.divB, D_EXPAND, e1, e2, e3, e4, ZERO_F]
    norm_num
    field_simp
    ring
  · have hk0 : data.beg KDIR ≤ k ∧ k < data.end_ KDIR + KOFFSET 3 := by
      simp [KOFFSET]; omega
    have hk1 : data.beg KDIR ≤ k + 1 ∧ k + 1 < data.end_ KDIR + KOFFSET 3 := by
      simp [KOFFSET]; omega
    have hj0 : data.beg JDIR ≤ j ∧ j < data.end_ JDIR + JOFFSET 3 := by
      simp [JOFFSET]; omega
    have hj1 : data.beg JDIR ≤ j + 1 ∧ j + 1 < data.end_ JDIR + JOFFSET 3 := by
      simp [JOFFSET]; omega
    have hi0 : data.beg IDIR ≤ i ∧ i < data.end_ IDIR + IOFFSET 3 := by
      simp [IOFFSET]; omega
    have hi1 : data.beg IDIR ≤ i + 1 ∧ i + 1 < data.end_ IDIR + IOFFSET 3 := by
      simp [IOFFSET]; omega
    have e1 := MHD_EvolveMagField_BX1s 3 data t dt k j i hk0 hj0 hi0
    have e2 := MHD_EvolveMagField_BX1s 3 data t dt k j (i + 1) hk0 hj0 hi1
    have e3 := MHD_EvolveMagField_BX2s 3 data t dt k j i hk0 hj0 hi0
    have e4 := MHD_EvolveMagField_BX2s 3 data t dt k (j + 1) i hk0 hj1 hi0
    have e5 := MHD_EvolveMagField_BX3s 3 data t dt k j i hk0 hj0 hi0
    have e6 := MHD_EvolveMagField_BX3s 3 data t dt (k + 1) j i hk1 hj0 hi0
    simp only [MHD.divB, D_EXPAND, e1, e2, e3, e4, e5, e6, ZERO_F]
    norm_num
    field_simp
    ring

/-! ## Ghost-face reconstruction: the `BX1s` kernel -/

theorem faceRel1_set_BX1s (DIMENSIONS : ℕ) (dx1 dx2 dx3 : IdefixArray1D) (s : IdefixArray4D)
    (r1 r2 x : ℤ) (w : real) (r1' r2' y : ℤ)
    (h1 : ¬ (r1' = r1 ∧ r2' = r2 ∧ y = x))
    (h2 : ¬ (r1' = r1 ∧ r2' = r2 ∧ y + 1 = x)) :
    MHD.faceRel1 DIMENSIONS dx1 dx2 dx3 (set4 s BX1s r1 r2 x w) r1' r2' y
      ↔ MHD.faceRel1 DIMENSIONS dx1 dx2 dx3 s r1' r2' y := by
  unfold MHD.faceRel1
  simp [set4, BX1s, BX2s, BX3s, h1, h2]

theorem BX1s_left_est {DIMENSIONS : ℕ} {dx1 dx2 dx3 : IdefixArray1D} {r1 r2 x : ℤ}
    {s : IdefixArray4D} :
    MHD.faceRel1 DIMENSIONS dx1 dx2 dx3 (MHD.ReconstructBX1s_left DIMENSIONS dx1 dx2 dx3 r1 r2 x s) r1 r2 x := by
  unfold MHD.faceRel1 MHD.ReconstructBX1s_left
  simp [set4, BX1s, BX2s, BX3s]

theorem BX1s_right_est {DIMENSIONS : ℕ} {dx1 dx2 dx3 : IdefixArray1D} {r1 r2 x : ℤ}
    {s : IdefixArray4D} :
    MHD.faceRel1 DIMENSIONS dx1 dx2 dx3 (MHD.ReconstructBX1s_right DIMENSIONS dx1 dx2 dx3 r1 r2 x s) r1 r2 x := by
  unfold MHD.faceRel1 MHD.ReconstructBX1s_right
  simp [set4, BX1s, BX2s, BX3s]

theorem BX1s_left_keep {DIMENSIONS : ℕ} {dx1 dx2 dx3 : IdefixArray1D} {r1 r2 x : ℤ}
    {s : IdefixArray4D} {r1' r2' y : ℤ} (h : (r1', r2') ≠ (r1, r2) ∨ x < y ∨ y + 1 < x)
    (hs : MHD.faceRel1 DIMENSIONS dx1 dx2 dx3 s r1' r2' y) :
    MHD.faceRel1 DIMENSIONS dx1 dx2 dx3 (MHD.ReconstructBX1s_left DIMENSIONS dx1 dx2 dx3 r1 r2 x s) r1' r2' y := by
  unfold MHD.ReconstructBX1s_left
  rw [faceRel1_set_BX1s]
  · exact hs
  · rintro ⟨e1, e2, e3⟩
    rcases h with h | h | h
    · exact h (by rw [Prod.mk.injEq]; constructor <;> omega)
    · omega
    · omega
  · rintro ⟨e1, e2, e3⟩
    rcases h with h | h | h
    · exact h (by rw [Prod.mk.injEq]; constructor <;> omega)
    · omega
    · omega

theorem BX1s_right_keep {DIMENSIONS : ℕ} {dx1 dx2 dx3 : IdefixArray1D} {r1 r2 x : ℤ}
    {s : IdefixArray4D} {r1' r2' y : ℤ} (h : (r1', r2') ≠ (r1, r2) ∨ y < x ∨ x + 1 < y)
    (hs : MHD.faceRel1 DIMENSIONS dx1 dx2 dx3 s r1' r2' y) :
    MHD.faceRel1 DIMENSIONS dx1 dx2 dx3 (MHD.ReconstructBX1s_right DIMENSIONS dx1 dx2 dx3 r1 r2 x s) r1' r2' y := by
  unfold MHD.ReconstructBX1s_right
  rw [faceRel1_set_BX1s]
  · exact hs
  · rintro ⟨e1, e2, e3⟩
    rcases h with h | h | h
    · exact h (by rw [Prod.mk.injEq]; constructor <;> omega)
    · omega
    · omega
  · rintro ⟨e1, e2, e3⟩
    rcases h with h | h | h
    · exact h (by rw [Prod.mk.injEq]; constructor <;> omega)
    · omega
    · omega

theorem BX1s_body_est {DIMENSIONS : ℕ} {dx1 dx2 dx3 : IdefixArray1D} {nstart nend nx : ℤ}
    (hmid : nstart < nend) {r1 r2 : ℤ} {s : IdefixArray4D} {y : ℤ}
    (hy : (0 ≤ y ∧ y ≤ nstart) ∨ (nend ≤ y ∧ y < nx)) :
    MHD.faceRel1 DIMENSIONS dx1 dx2 dx3 (MHD.ReconstructBX1s_body DIMENSIONS dx1 dx2 dx3 nstart nend nx r1 r2 s) r1 r2 y := by
  unfold MHD.ReconstructBX1s_body forLoop
  rcases hy with hy | hy
  · apply foldl_preserve (MHD.ReconstructBX1s_right DIMENSIONS dx1 dx2 dx3 r1 r2)
      (fun s => MHD.faceRel1 DIMENSIONS dx1 dx2 dx3 s r1 r2 y)
    · intro x hx s hs
      rw [mem_irange] at hx
      exact BX1s_right_keep (Or.inr (Or.inl (by omega))) hs
    · exact foldl_establish (MHD.ReconstructBX1s_left DIMENSIONS dx1 dx2 dx3 r1 r2)
        (fun y s => MHD.faceRel1 DIMENSIONS dx1 dx2 dx3 s r1 r2 y) _
        (fun x _ s => BX1s_left_est)
        ((pairwise_irangeDown nstart 0).imp (fun {y x} hxy s hs =>
          BX1s_left_keep (Or.inr (Or.inl hxy)) hs))
        s y ((mem_irangeDown _ _ _).2 hy)
  · exact foldl_establish (MHD.ReconstructBX1s_right DIMENSIONS dx1 dx2 dx3 r1 r2)
        (fun y s => MHD.faceRel1 DIMENSIONS dx1 dx2 dx3 s r1 r2 y) _
        (fun x _ s => BX1s_right_est)
        ((pairwise_irange nend nx).imp (fun {y x} hxy s hs =>
          BX1s_right_keep (Or.inr (Or.inl hxy)) hs))
        _ y ((mem_irange _ _ _).2 hy)

theorem BX1s_body_keep {DIMENSIONS : ℕ} {dx1 dx2 dx3 : IdefixArray1D} {nstart nend nx : ℤ}
    {r1 r2 : ℤ} {s : IdefixArray4D} {r1' r2' y : ℤ} (h : (r1', r2') ≠ (r1, r2))
    (hs : MHD.faceRel1 DIMENSIONS dx1 dx2 dx3 s r1' r2' y) :
    MHD.faceRel1 DIMENSIONS dx1 dx2 dx3 (MHD.ReconstructBX1s_body DIMENSIONS dx1 dx2 dx3 nstart nend nx r1 r2 s) r1' r2' y := by
  unfold MHD.ReconstructBX1s_body forLoop
  apply foldl_preserve (MHD.ReconstructBX1s_right DIMENSIONS dx1 dx2 dx3 r1 r2)
      (fun s => MHD.faceRel1 DIMENSIONS dx1 dx2 dx3 s r1' r2' y)
  · intro x _ s hs
    exact BX1s_right_keep (Or.inl h) hs
  · apply foldl_preserve (MHD.ReconstructBX1s_left DIMENSIONS dx1 dx2 dx3 r1 r2)
      (fun s => MHD.faceRel1 DIMENSIONS dx1 dx2 dx3 s r1' r2' y)
    · intro x _ s hs
      exact BX1s_left_keep (Or.inl h) hs
    · exact hs

theorem BX1s_body_frame (DIMENSIONS : ℕ) (dx1 dx2 dx3 : IdefixArray1D) (nstart nend nx : ℤ)
    (r1 r2 : ℤ) (s : IdefixArray4D) (n r1' r2' y : ℤ)
    (h : n = BX1s → r1' = r1 → r2' = r2 → nstart < y ∧ y ≤ nend) :
    MHD.ReconstructBX1s_body DIMENSIONS dx1 dx2 dx3 nstart nend nx r1 r2 s n r1' r2' y
      = s n r1' r2' y := by
  unfold MHD.ReconstructBX1s_body forLoop
  have hup := foldl_untouched (MHD.ReconstructBX1s_right DIMENSIONS dx1 dx2 dx3 r1 r2)
    (fun (V : IdefixArray4D) (p : ℤ × ℤ × ℤ × ℤ) => V p.1 p.2.1 p.2.2.1 p.2.2.2)
    (n, r1', r2', y) (irange nend nx)
    (fun x hx s => by
      rw [mem_irange] at hx
      unfold MHD.ReconstructBX1s_right
      apply set4_ne
      rintro ⟨h1, h2, h3, h4⟩
      dsimp only at h1 h2 h3 h4
      have := h h1 (by omega) (by omega)
      omega)
  have hdown := foldl_untouched (MHD.ReconstructBX1s_left DIMENSIONS dx1 dx2 dx3 r1 r2)
    (fun (V : IdefixArray4D) (p : ℤ × ℤ × ℤ × ℤ) => V p.1 p.2.1 p.2.2.1 p.2.2.2)
    (n, r1', r2', y) (irangeDown nstart 0)
    (fun x hx s => by
      rw [mem_irangeDown] at hx
      unfold MHD.ReconstructBX1s_left
      apply set4_ne
      rintro ⟨h1, h2, h3, h4⟩
      dsimp only at h1 h2 h3 h4
      have := h h1 (by omega) (by omega)
      omega)
  dsimp only at hup hdown
  rw [hup, hdown]

theorem ReconstructBX1s_rel (DIMENSIONS : ℕ) (data : DataBlock) (s : IdefixArray4D)
    (hmid : data.nghost IDIR - 1 < data.np_tot IDIR - data.nghost IDIR - 1)
    (r1 r2 y : ℤ) (hr1 : 0 ≤ r1 ∧ r1 < data.np_tot KDIR) (hr2 : 0 ≤ r2 ∧ r2 < data.np_tot JDIR)
    (hy : (0 ≤ y ∧ y ≤ data.nghost IDIR - 1)
      ∨ (data.np_tot IDIR - data.nghost IDIR - 1 ≤ y ∧ y < data.np_tot IDIR)) :
    MHD.faceRel1 DIMENSIONS (data.dx IDIR) (data.dx JDIR) (data.dx KDIR)
      (MHD.ReconstructBX1s DIMENSIONS data s) r1 r2 y := by
  unfold MHD.ReconstructBX1s idefix_for2
  have := foldl_establish
    (fun (p : ℤ × ℤ) s => MHD.ReconstructBX1s_body DIMENSIONS (data.dx IDIR) (data.dx JDIR) (data.dx KDIR)
      (data.nghost IDIR - 1) (data.np_tot IDIR - data.nghost IDIR - 1)
      (data.np_tot IDIR) p.1 p.2 s)
    (fun p s => ∀ y, (0 ≤ y ∧ y ≤ data.nghost IDIR - 1)
      ∨ (data.np_tot IDIR - data.nghost IDIR - 1 ≤ y ∧ y < data.np_tot IDIR) →
      MHD.faceRel1 DIMENSIONS (data.dx IDIR) (data.dx JDIR) (data.dx KDIR) s p.1 p.2 y)
    (box2 0 (data.np_tot KDIR) 0 (data.np_tot JDIR))
    (fun x _ s y hy => BX1s_body_est hmid hy)
    (List.pairwise_of_forall (fun y x s hs i hi => by
      by_cases hxy : y = x
      · subst hxy
        exact BX1s_body_est hmid hi
      · exact BX1s_body_keep
          (fun h => hxy (Prod.ext (congrArg Prod.fst h) (congrArg Prod.snd h))) (hs i hi)))
    s (r1, r2) ((mem_box2 _ _ _ _ _ _).2 ⟨hr1, hr2⟩)
  exact this y hy

theorem ReconstructBX1s_frame (DIMENSIONS : ℕ) (data : DataBlock) (s : IdefixArray4D)
    (n r1 r2 y : ℤ)
    (h : n = BX1s → data.nghost IDIR - 1 < y ∧ y ≤ data.np_tot IDIR - data.nghost IDIR - 1) :
    MHD.ReconstructBX1s DIMENSIONS data s n r1 r2 y = s n r1 r2 y := by
  unfold MHD.ReconstructBX1s idefix_for2
  exact foldl_untouched
    (fun (p : ℤ × ℤ) s => MHD.ReconstructBX1s_body DIMENSIONS (data.dx IDIR) (data.dx JDIR) (data.dx KDIR)
      (data.nghost IDIR - 1) (data.np_tot IDIR - data.nghost IDIR - 1)
      (data.np_tot IDIR) p.1 p.2 s)
    (fun (V : IdefixArray4D) (p : ℤ × ℤ × ℤ × ℤ) => V p.1 p.2.1 p.2.2.1 p.2.2.2)
    (n, r1, r2, y) _
    (fun x _ s => BX1s_body_frame _ _ _ _ _ _ _ _ _ _ _ _ _ _ (fun hn _ _ => h hn)) s

/-! ## Ghost-face reconstruction: the `BX2s` kernel -/

theorem faceRel2_set_BX2s (DIMENSIONS : ℕ) (dx1 dx2 dx3 : IdefixArray1D) (s : IdefixArray4D)
    (r1 r2 x : ℤ) (w : real) (r1' r2' y : ℤ)
    (h1 : ¬ (r1' = r1 ∧ y = x ∧ r2' = r2))
    (h2 : ¬ (r1' = r1 ∧ y + 1 = x ∧ r2' = r2)) :
    MHD.faceRel2 DIMENSIONS dx1 dx2 dx3 (set4 s BX2s r1 x r2 w) r1' y r2'
      ↔ MHD.faceRel2 DIMENSIONS dx1 dx2 dx3 s r1' y r2' := by
  unfold MHD.faceRel2
  simp [set4, BX1s, BX2s, BX3s, h1, h2]

theorem BX2s_left_est {DIMENSIONS : ℕ} {dx1 dx2 dx3 : IdefixArray1D} {r1 r2 x : ℤ}
    {s : IdefixArray4D} :
    MHD.faceRel2 DIMENSIONS dx1 dx2 dx3 (MHD.ReconstructBX2s_left DIMENSIONS dx1 dx2 dx3 r1 r2 x s) r1 x r2 := by
  unfold MHD.faceRel2 MHD.ReconstructBX2s_left
  simp [set4, BX1s, BX2s, BX3s]

theorem BX2s_right_est {DIMENSIONS : ℕ} {dx1 dx2 dx3 : IdefixArray1D} {r1 r2 x : ℤ}
    {s : IdefixArray4D} :
    MHD.faceRel2 DIMENSIONS dx1 dx2 dx3 (MHD.ReconstructBX2s_right DIMENSIONS dx1 dx2 dx3 r1 r2 x s) r1 x r2 := by
  unfold MHD.faceRel2 MHD.ReconstructBX2s_right
  simp [set4, BX1s, BX2s, BX3s]

theorem BX2s_left_keep {DIMENSIONS : ℕ} {dx1 dx2 dx3 : IdefixArray1D} {r1 r2 x : ℤ}
    {s : IdefixArray4D} {r1' r2' y : ℤ} (h : (r1', r2') ≠ (r1, r2) ∨ x < y ∨ y + 1 < x)
    (hs : MHD.faceRel2 DIMENSIONS dx1 dx2 dx3 s r1' y r2') :
    MHD.faceRel2 DIMENSIONS dx1 dx2 dx3 (MHD.ReconstructBX2s_left DIMENSIONS dx1 dx2 dx3 r1 r2 x s) r1' y r2' := by
  unfold MHD.ReconstructBX2s_left
  rw [faceRel2_set_BX2s]
  · exact hs
  · rintro ⟨e1, e2, e3⟩
    rcases h with h | h | h
    · exact h (by rw [Prod.mk.injEq]; constructor <;> omega)
    · omega
    · omega
  · rintro ⟨e1, e2, e3⟩
    rcases h with h | h | h
    · exact h (by rw [Prod.mk.injEq]; constructor <;> omega)
    · omega
    · omega

theorem BX2s_right_keep {DIMENSIONS : ℕ} {dx1 dx2 dx3 : IdefixArray1D} {r1 r2 x : ℤ}
    {s : IdefixArray4D} {r1' r2' y : ℤ} (h : (r1', r2') ≠ (r1, r2) ∨ y < x ∨ x + 1 < y)
    (hs : MHD.faceRel2 DIMENSIONS dx1 dx2 dx3 s r1' y r2') :
    MHD.faceRel2 DIMENSIONS dx1 dx2 dx3 (MHD.ReconstructBX2s_right DIMENSIONS dx1 dx2 dx3 r1 r2 x s) r1' y r2' := by
  unfold MHD.ReconstructBX2s_right
  rw [faceRel2_set_BX2s]
  · exact hs
  · rintro ⟨e1, e2, e3⟩
    rcases h with h | h | h
    · exact h (by rw [Prod.mk.injEq]; constructor <;> omega)
    · omega
    · omega
  · rintro ⟨e1, e2, e3⟩
    rcases h with h | h | h
    · exact h (by rw [Prod.mk.injEq]; constructor <;> omega)
    · omega
    · omega

theorem BX2s_body_est {DIMENSIONS : ℕ} {dx1 dx2 dx3 : IdefixArray1D} {nstart nend nx : ℤ}
    (hmid : nstart < nend) {r1 r2 : ℤ} {s : IdefixArray4D} {y : ℤ}
    (hy : (0 ≤ y ∧ y ≤ nstart) ∨ (nend ≤ y ∧ y < nx)) :
    MHD.faceRel2 DIMENSIONS dx1 dx2 dx3 (MHD.ReconstructBX2s_body DIMENSIONS dx1 dx2 dx3 nstart nend nx r1 r2 s) r1 y r2 := by
  unfold MHD.ReconstructBX2s_body forLoop
  rcases hy with hy | hy
  · apply foldl_preserve (MHD.ReconstructBX2s_right DIMENSIONS dx1 dx2 dx3 r1 r2)
      (fun s => MHD.faceRel2 DIMENSIONS dx1 dx2 dx3 s r1 y r2)
    · intro x hx s hs
      rw [mem_irange] at hx
      exact BX2s_right_keep (Or.inr (Or.inl (by omega))) hs
    · exact foldl_establish (MHD.ReconstructBX2s_left DIMENSIONS dx1 dx2 dx3 r1 r2)
        (fun y s => MHD.faceRel2 DIMENSIONS dx1 dx2 dx3 s r1 y r2) _
        (fun x _ s => BX2s_left_est)
        ((pairwise_irangeDown nstart 0).imp (fun {y x} hxy s hs =>
          BX2s_left_keep (Or.inr (Or.inl hxy)) hs))
        s y ((mem_irangeDown _ _ _).2 hy)
  · exact foldl_establish (MHD.ReconstructBX2s_right DIMENSIONS dx1 dx2 dx3 r1 r2)
        (fun y s => MHD.faceRel2 DIMENSIONS dx1 dx2 dx3 s r1 y r2) _
        (fun x _ s => BX2s_right_est)
        ((pairwise_irange nend nx).imp (fun {y x} hxy s hs =>
          BX2s_right_keep (Or.inr (Or.inl hxy)) hs))
        _ y ((mem_irange _ _ _).2 hy)

theorem BX2s_body_keep {DIMENSIONS : ℕ} {dx1 dx2 dx3 : IdefixArray1D} {nstart nend nx : ℤ}
    {r1 r2 : ℤ} {s : IdefixArray4D} {r1' r2' y : ℤ} (h : (r1', r2') ≠ (r1, r2))
    (hs : MHD.faceRel2 DIMENSIONS dx1 dx2 dx3 s r1' y r2') :
    MHD.faceRel2 DIMENSIONS dx1 dx2 dx3 (MHD.ReconstructBX2s_body DIMENSIONS dx1 dx2 dx3 nstart nend nx r1 r2 s) r1' y r2' := by
  unfold MHD.ReconstructBX2s_body forLoop
  apply foldl_preserve (MHD.ReconstructBX2s_right DIMENSIONS dx1 dx2 dx3 r1 r2)
      (fun s => MHD.faceRel2 DIMENSIONS dx1 dx2 dx3 s r1' y r2')
  · intro x _ s hs
    exact BX2s_right_keep (Or.inl h) hs
  · apply foldl_preserve (MHD.ReconstructBX2s_left DIMENSIONS dx1 dx2 dx3 r1 r2)
      (fun s => MHD.faceRel2 DIMENSIONS dx1 dx2 dx3 s r1' y r2')
    · intro x _ s hs
      exact BX2s_left_keep (Or.inl h) hs
    · exact hs

theorem BX2s_body_frame (DIMENSIONS : ℕ) (dx1 dx2 dx3 : IdefixArray1D) (nstart nend nx : ℤ)
    (r1 r2 : ℤ) (s : IdefixArray4D) (n r1' r2' y : ℤ)
    (h : n = BX2s → r1' = r1 → r2' = r2 → nstart < y ∧ y ≤ nend) :
    MHD.ReconstructBX2s_body DIMENSIONS dx1 dx2 dx3 nstart nend nx r1 r2 s n r1' y r2'
      = s n r1' y r2' := by
  unfold MHD.ReconstructBX2s_body forLoop
  have hup := foldl_untouched (MHD.ReconstructBX2s_right DIMENSIONS dx1 dx2 dx3 r1 r2)
    (fun (V : IdefixArray4D) (p : ℤ × ℤ × ℤ × ℤ) => V p.1 p.2.1 p.2.2.1 p.2.2.2)
    (n, r1', y, r2') (irange nend nx)
    (fun x hx s => by
      rw [mem_irange] at hx
      unfold MHD.ReconstructBX2s_right
      apply set4_ne
      rintro ⟨h1, h2, h3, h4⟩
      dsimp only at h1 h2 h3 h4
      have := h h1 (by omega) (by omega)
      omega)
  have hdown := foldl_untouched (MHD.ReconstructBX2s_left DIMENSIONS dx1 dx2 dx3 r1 r2)
    (fun (V : IdefixArray4D) (p : ℤ × ℤ × ℤ × ℤ) => V p.1 p.2.1 p.2.2.1 p.2.2.2)
    (n, r1', y, r2') (irangeDown nstart 0)
    (fun x hx s => by
      rw [mem_irangeDown] at hx
      unfold MHD.ReconstructBX2s_left
      apply set4_ne
      rintro ⟨h1, h2, h3, h4⟩
      dsimp only at h1 h2 h3 h4
      have := h h1 (by omega) (by omega)
      omega)
  dsimp only at hup hdown
  rw [hup, hdown]

theorem ReconstructBX2s_rel (DIMENSIONS : ℕ) (data : DataBlock) (s : IdefixArray4D)
    (hmid : data.nghost JDIR - 1 < data.np_tot JDIR - data.nghost JDIR - 1)
    (r1 r2 y : ℤ) (hr1 : 0 ≤ r1 ∧ r1 < data.np_tot KDIR) (hr2 : 0 ≤ r2 ∧ r2 < data.np_tot IDIR)
    (hy : (0 ≤ y ∧ y ≤ data.nghost JDIR - 1)
      ∨ (data.np_tot JDIR - data.nghost JDIR - 1 ≤ y ∧ y < data.np_tot JDIR)) :
    MHD.faceRel2 DIMENSIONS (data.dx IDIR) (data.dx JDIR) (data.dx KDIR)
      (MHD.ReconstructBX2s DIMENSIONS data s) r1 y r2 := by
  unfold MHD.ReconstructBX2s idefix_for2
  have := foldl_establish
    (fun (p : ℤ × ℤ) s => MHD.ReconstructBX2s_body DIMENSIONS (data.dx IDIR) (data.dx JDIR) (data.dx KDIR)
      (data.nghost JDIR - 1) (data.np_tot JDIR - data.nghost JDIR - 1)
      (data.np_tot JDIR) p.1 p.2 s)
    (fun p s => ∀ y, (0 ≤ y ∧ y ≤ data.nghost JDIR - 1)
      ∨ (data.np_tot JDIR - data.nghost JDIR - 1 ≤ y ∧ y < data.np_tot JDIR) →
      MHD.faceRel2 DIMENSIONS (data.dx IDIR) (data.dx JDIR) (data.dx KDIR) s p.1 y p.2)
    (box2 0 (data.np_tot KDIR) 0 (data.np_tot IDIR))
    (fun x _ s y hy => BX2s_body_est hmid hy)
    (List.pairwise_of_forall (fun y x s hs i hi => by
      by_cases hxy : y = x
      · subst hxy
        exact BX2s_body_est hmid hi
      · exact BX2s_body_keep
          (fun h => hxy (Prod.ext (congrArg Prod.fst h) (congrArg Prod.snd h))) (hs i hi)))
    s (r1, r2) ((mem_box2 _ _ _ _ _ _).2 ⟨hr1, hr2⟩)
  exact this y hy

theorem ReconstructBX2s_frame (DIMENSIONS : ℕ) (data : DataBlock) (s : IdefixArray4D)
    (n r1 r2 y : ℤ)
    (h : n = BX2s → data.nghost JDIR - 1 < y ∧ y ≤ data.np_tot JDIR - data.nghost JDIR - 1) :
    MHD.ReconstructBX2s DIMENSIONS data s n r1 y r2 = s n r1 y r2 := by
  unfold MHD.ReconstructBX2s idefix_for2
  exact foldl_untouched
    (fun (p : ℤ × ℤ) s => MHD.ReconstructBX2s_body DIMENSIONS (data.dx IDIR) (data.dx JDIR) (data.dx KDIR)
      (data.nghost JDIR - 1) (data.np_tot JDIR - data.nghost JDIR - 1)
      (data.np_tot JDIR) p.1 p.2 s)
    (fun (V : IdefixArray4D) (p : ℤ × ℤ × ℤ × ℤ) => V p.1 p.2.1 p.2.2.1 p.2.2.2)
    (n, r1, y, r2) _
    (fun x _ s => BX2s_body_frame _ _ _ _ _ _ _ _ _ _ _ _ _ _ (fun hn _ _ => h hn)) s

/-! ## Ghost-face reconstruction: the `BX3s` kernel -/

theorem faceRel3_set_BX3s  (s : IdefixArray4D)
    (r1 r2 x : ℤ) (w : real) (r1' r2' y : ℤ)
    (h1 : ¬ (y = x ∧ r1' = r1 ∧ r2' = r2))
    (h2 : ¬ (y + 1 = x ∧ r1' = r1 ∧ r2' = r2)) :
    MHD.faceRel3 (set4 s BX3s x r1 r2 w) y r1' r2'
      ↔ MHD.faceRel3 s y r1' r2' := by
  unfold MHD.faceRel3
  simp [set4, BX1s, BX2s, BX3s, h1, h2]

theorem BX3s_left_est {dx1 dx2 dx3 : IdefixArray1D} {r1 r2 x : ℤ}
    {s : IdefixArray4D} :
    MHD.faceRel3 (MHD.ReconstructBX3s_left dx1 dx2 dx3 r1 r2 x s) x r1 r2 := by
  unfold MHD.faceRel3 MHD.ReconstructBX3s_left
  simp [set4, BX1s, BX2s, BX3s]

theorem BX3s_right_est {dx1 dx2 dx3 : IdefixArray1D} {r1 r2 x : ℤ}
    {s : IdefixArray4D} :
    MHD.faceRel3 (MHD.ReconstructBX3s_right dx1 dx2 dx3 r1 r2 x s) x r1 r2 := by
  unfold MHD.faceRel3 MHD.ReconstructBX3s_right
  simp [set4, BX1s, BX2s, BX3s]

theorem BX3s_left_keep {dx1 dx2 dx3 : IdefixArray1D} {r1 r2 x : ℤ}
    {s : IdefixArray4D} {r1' r2' y : ℤ} (h : (r1', r2') ≠ (r1, r2) ∨ x < y ∨ y + 1 < x)
    (hs : MHD.faceRel3 s y r1' r2') :
    MHD.faceRel3 (MHD.ReconstructBX3s_left dx1 dx2 dx3 r1 r2 x s) y r1' r2' := by
  unfold MHD.ReconstructBX3s_left
  rw [faceRel3_set_BX3s]
  · exact hs
  · rintro ⟨e1, e2, e3⟩
    rcases h with h | h | h
    · exact h (by rw [Prod.mk.injEq]; constructor <;> omega)
    · omega
    · omega
  · rintro ⟨e1, e2, e3⟩
    rcases h with h | h | h
    · exact h (by rw [Prod.mk.injEq]; constructor <;> omega)
    · omega
    · omega

theorem BX3s_right_keep {dx1 dx2 dx3 : IdefixArray1D} {r1 r2 x : ℤ}
    {s : IdefixArray4D} {r1' r2' y : ℤ} (h : (r1', r2') ≠ (r1, r2) ∨ y < x ∨ x + 1 < y)
    (hs : MHD.faceRel3 s y r1' r2') :
    MHD.faceRel3 (MHD.ReconstructBX3s_right dx1 dx2 dx3 r1 r2 x s) y r1' r2' := by
  unfold MHD.ReconstructBX3s_right
  rw [faceRel3_set_BX3s]
  · exact hs
  · rintro ⟨e1, e2, e3⟩
    rcases h with h | h | h
    · exact h (by rw [Prod.mk.injEq]; constructor <;> omega)
    · omega
    · omega
  · rintro ⟨e1, e2, e3⟩
    rcases h with h | h | h
    · exact h (by rw [Prod.mk.injEq]; constructor <;> omega)
    · omega
    · omega

theorem BX3s_body_est {dx1 dx2 dx3 : IdefixArray1D} {nstart nend nx : ℤ}
    (hmid : nstart < nend) {r1 r2 : ℤ} {s : IdefixArray4D} {y : ℤ}
    (hy : (0 ≤ y ∧ y ≤ nstart) ∨ (nend ≤ y ∧ y < nx)) :
    MHD.faceRel3 (MHD.ReconstructBX3s_body dx1 dx2 dx3 nstart nend nx r1 r2 s) y r1 r2 := by
  unfold MHD.ReconstructBX3s_body forLoop
  rcases hy with hy | hy
  · apply foldl_preserve (MHD.ReconstructBX3s_right dx1 dx2 dx3 r1 r2)
      (fun s => MHD.faceRel3 s y r1 r2)
    · intro x hx s hs
      rw [mem_irange] at hx
      exact BX3s_right_keep (Or.inr (Or.inl (by omega))) hs
    · exact foldl_establish (MHD.ReconstructBX3s_left dx1 dx2 dx3 r1 r2)
        (fun y s => MHD.faceRel3 s y r1 r2) _
        (fun x _ s => BX3s_left_est)
        ((pairwise_irangeDown nstart 0).imp (fun {y x} hxy s hs =>
          BX3s_left_keep (Or.inr (Or.inl hxy)) hs))
        s y ((mem_irangeDown _ _ _).2 hy)
  · exact foldl_establish (MHD.ReconstructBX3s_right dx1 dx2 dx3 r1 r2)
        (fun y s => MHD.faceRel3 s y r1 r2) _
        (fun x _ s => BX3s_right_est)
        ((pairwise_irange nend nx).imp (fun {y x} hxy s hs =>
          BX3s_right_keep (Or.inr (Or.inl hxy)) hs))
        _ y ((mem_irange _ _ _).2 hy)

theorem BX3s_body_keep {dx1 dx2 dx3 : IdefixArray1D} {nstart nend nx : ℤ}
    {r1 r2 : ℤ} {s : IdefixArray4D} {r1' r2' y : ℤ} (h : (r1', r2') ≠ (r1, r2))
    (hs : MHD.faceRel3 s y r1' r2') :
    MHD.faceRel3 (MHD.ReconstructBX3s_body dx1 dx2 dx3 nstart nend nx r1 r2 s) y r1' r2' := by
  unfold MHD.ReconstructBX3s_body forLoop
  apply foldl_preserve (MHD.ReconstructBX3s_right dx1 dx2 dx3 r1 r2)
      (fun s => MHD.faceRel3 s y r1' r2')
  · intro x _ s hs
    exact BX3s_right_keep (Or.inl h) hs
  · apply foldl_preserve (MHD.ReconstructBX3s_left dx1 dx2 dx3 r1 r2)
      (fun s => MHD.faceRel3 s y r1' r2')
    · intro x _ s hs
      exact BX3s_left_keep (Or.inl h) hs
    · exact hs

theorem BX3s_body_frame (dx1 dx2 dx3 : IdefixArray1D) (nstart nend nx : ℤ)
    (r1 r2 : ℤ) (s : IdefixArray4D) (n r1' r2' y : ℤ)
    (h : n = BX3s → r1' = r1 → r2' = r2 → nstart < y ∧ y ≤ nend) :
    MHD.ReconstructBX3s_body dx1 dx2 dx3 nstart nend nx r1 r2 s n y r1' r2'
      = s n y r1' r2' := by
  unfold MHD.ReconstructBX3s_body forLoop
  have hup := foldl_untouched (MHD.ReconstructBX3s_right dx1 dx2 dx3 r1 r2)
    (fun (V : IdefixArray4D) (p : ℤ × ℤ × ℤ × ℤ) => V p.1 p.2.1 p.2.2.1 p.2.2.2)
    (n, y, r1', r2') (irange nend nx)
    (fun x hx s => by
      rw [mem_irange] at hx
      unfold MHD.ReconstructBX3s_right
      apply set4_ne
      rintro ⟨h1, h2, h3, h4⟩
      dsimp only at h1 h2 h3 h4
      have := h h1 (by omega) (by omega)
      omega)
  have hdown := foldl_untouched (MHD.ReconstructBX3s_left dx1 dx2 dx3 r1 r2)
    (fun (V : IdefixArray4D) (p : ℤ × ℤ × ℤ × ℤ) => V p.1 p.2.1 p.2.2.1 p.2.2.2)
    (n, y, r1', r2') (irangeDown nstart 0)
    (fun x hx s => by
      rw [mem_irangeDown] at hx
      unfold MHD.ReconstructBX3s_left
      apply set4_ne
      rintro ⟨h1, h2, h3, h4⟩
      dsimp only at h1 h2 h3 h4
      have := h h1 (by omega) (by omega)
      omega)
  dsimp only at hup hdown
  rw [hup, hdown]

theorem ReconstructBX3s_rel (data : DataBlock) (s : IdefixArray4D)
    (hmid : data.nghost KDIR - 1 < data.np_tot KDIR - data.nghost KDIR - 1)
    (r1 r2 y : ℤ) (hr1 : 0 ≤ r1 ∧ r1 < data.np_tot JDIR) (hr2 : 0 ≤ r2 ∧ r2 < data.np_tot IDIR)
    (hy : (0 ≤ y ∧ y ≤ data.nghost KDIR - 1)
      ∨ (data.np_tot KDIR - data.nghost KDIR - 1 ≤ y ∧ y < data.np_tot KDIR)) :
    MHD.faceRel3
      (MHD.ReconstructBX3s data s) y r1 r2 := by
  unfold MHD.ReconstructBX3s idefix_for2
  have := foldl_establish
    (fun (p : ℤ × ℤ) s => MHD.ReconstructBX3s_body (data.dx IDIR) (data.dx JDIR) (data.dx KDIR)
      (data.nghost KDIR - 1) (data.np_tot KDIR - data.nghost KDIR - 1)
      (data.np_tot KDIR) p.1 p.2 s)
    (fun p s => ∀ y, (0 ≤ y ∧ y ≤ data.nghost KDIR - 1)
      ∨ (data.np_tot KDIR - data.nghost KDIR - 1 ≤ y ∧ y < data.np_tot KDIR) →
      MHD.faceRel3 s y p.1 p.2)
    (box2 0 (data.np_tot JDIR) 0 (data.np_tot IDIR))
    (fun x _ s y hy => BX3s_body_est hmid hy)
    (List.pairwise_of_forall (fun y x s hs i hi => by
      by_cases hxy : y = x
      · subst hxy
        exact BX3s_body_est hmid hi
      · exact BX3s_body_keep
          (fun h => hxy (Prod.ext (congrArg Prod.fst h) (congrArg Prod.snd h))) (hs i hi)))
    s (r1, r2) ((mem_box2 _ _ _ _ _ _).2 ⟨hr1, hr2⟩)
  exact this y hy

theorem ReconstructBX3s_frame (data : DataBlock) (s : IdefixArray4D)
    (n r1 r2 y : ℤ)
    (h : n = BX3s → data.nghost KDIR - 1 < y ∧ y ≤ data.np_tot KDIR - data.nghost KDIR - 1) :
    MHD.ReconstructBX3s data s n y r1 r2 = s n y r1 r2 := by
  unfold MHD.ReconstructBX3s idefix_for2
  exact foldl_untouched
    (fun (p : ℤ × ℤ) s => MHD.ReconstructBX3s_body (data.dx IDIR) (data.dx JDIR) (data.dx KDIR)
      (data.nghost KDIR - 1) (data.np_tot KDIR - data.nghost KDIR - 1)
      (data.np_tot KDIR) p.1 p.2 s)
    (fun (V : IdefixArray4D) (p : ℤ × ℤ × ℤ × ℤ) => V p.1 p.2.1 p.2.2.1 p.2.2.2)
    (n, y, r1, r2) _
    (fun x _ s => BX3s_body_frame _ _ _ _ _ _ _ _ _ _ _ _ _ (fun hn _ _ => h hn)) s

/-! ## Ghost-face reconstruction: the solenoidal constraint in 1D and 2D -/

theorem divB_of_faceRel1_1D (dx1 dx2 dx3 : IdefixArray1D) (s : IdefixArray4D) (k j i : ℤ)
    (h : MHD.faceRel1 1 dx1 dx2 dx3 s k j i) : MHD.divB 1 s dx1 dx2 dx3 k j i = 0 := by
  unfold MHD.faceRel1 at h
  simp only [D_EXPAND, ZERO_F, le_refl, if_true, mul_zero, add_zero] at h
  simp only [MHD.divB, D_EXPAND, le_refl, if_true, h, sub_self, zero_div]

theorem divB_of_faceRel1_2D (dx1 dx2 dx3 : IdefixArray1D) (s : IdefixArray4D) (k j i : ℤ)
    (hdx : dx1 i ≠ 0) (h : MHD.faceRel1 2 dx1 dx2 dx3 s k j i) :
    MHD.divB 2 s dx1 dx2 dx3 k j i = 0 := by
  unfold MHD.faceRel1 at h
  simp only [D_EXPAND, ZERO_F] at h
  norm_num at h
  simp only [MHD.divB, D_EXPAND]
  norm_num
  generalize (s BX2s k (j + 1) i - s BX2s k j i) / dx2 j = B at h ⊢
  rw [h]
  field_simp
  ring

theorem divB_of_faceRel2_2D (dx1 dx2 dx3 : IdefixArray1D) (s : IdefixArray4D) (k j i : ℤ)
    (hdx : dx2 j ≠ 0) (h : MHD.faceRel2 2 dx1 dx2 dx3 s k j i) :
    MHD.divB 2 s dx1 dx2 dx3 k j i = 0 := by
  unfold MHD.faceRel2 at h
  simp only [D_EXPAND] at h
  norm_num at h
  simp only [MHD.divB, D_EXPAND]
  norm_num
  generalize (s BX1s k j (i + 1) - s BX1s k j i) / dx1 i = B at h ⊢
  rw [h]
  field_simp
  ring

theorem ReconstructNormalField_Vs_1D (data : DataBlock) :
    (MHD.Physics.ReconstructNormalField 1 data).Vs = MHD.ReconstructBX1s 1 data data.Vs := by
  simp [MHD.Physics.ReconstructNormalField]

theorem ReconstructNormalField_Vs_2D (data : DataBlock) :
    (MHD.Physics.ReconstructNormalField 2 data).Vs
      = MHD.ReconstructBX2s 2 data (MHD.ReconstructBX1s 2 data data.Vs) := by
  simp [MHD.Physics.ReconstructNormalField]

theorem ReconstructNormalField_Vs_3D (data : DataBlock) :
    (MHD.Physics.ReconstructNormalField 3 data).Vs
      = MHD.ReconstructBX3s data
          (MHD.ReconstructBX2s 3 data (MHD.ReconstructBX1s 3 data data.Vs)) := by
  simp [MHD.Physics.ReconstructNormalField]

theorem ReconstructNormalField_ghost_1D (data : DataBlock)
    (hext1 : data.extents IDIR) (hint1 : 1 ≤ data.np_int IDIR)
    (k j i : ℤ) (hk : 0 ≤ k ∧ k < data.np_tot KDIR) (hj : 0 ≤ j ∧ j < data.np_tot JDIR)
    (hi : 0 ≤ i ∧ i < data.np_tot IDIR)
    (hghost : ¬ (data.beg IDIR ≤ i ∧ i < data.end_ IDIR)) :
    MHD.divB 1 (MHD.Physics.ReconstructNormalField 1 data).Vs
      (data.dx IDIR) (data.dx JDIR) (data.dx KDIR) k j i = 0 := by
  obtain ⟨e1, e2, e3⟩ := hext1
  rw [ReconstructNormalField_Vs_1D]
  apply divB_of_faceRel1_1D
  exact ReconstructBX1s_rel 1 data data.Vs (by omega) k j i hk hj (by omega)

theorem ReconstructNormalField_ghost_2D (data : DataBlock)
    (hext1 : data.extents IDIR) (hext2 : data.extents JDIR)
    (hint1 : 1 ≤ data.np_int IDIR) (hint2 : 1 ≤ data.np_int JDIR)
    (hdx1 : ∀ i, 0 ≤ i → i < data.np_tot IDIR → data.dx IDIR i ≠ 0)
    (hdx2 : ∀ j, 0 ≤ j → j < data.np_tot JDIR → data.dx JDIR j ≠ 0)
    (k j i : ℤ) (hk : 0 ≤ k ∧ k < data.np_tot KDIR) (hj : 0 ≤ j ∧ j < data.np_tot JDIR)
    (hi : 0 ≤ i ∧ i < data.np_tot IDIR)
    (hghost : ¬ (data.beg IDIR ≤ i ∧ i < data.end_ IDIR)
      ∨ ¬ (data.beg JDIR ≤ j ∧ j < data.end_ JDIR)) :
    MHD.divB 2 (MHD.Physics.ReconstructNormalField 2 data).Vs
      (data.dx IDIR) (data.dx JDIR) (data.dx KDIR) k j i = 0 := by
  obtain ⟨e1, e2, e3⟩ := hext1
  obtain ⟨f1, f2, f3⟩ := hext2
  rw [ReconstructNormalField_Vs_2D]
  by_cases hjr : (0 ≤ j ∧ j ≤ data.nghost JDIR - 1)
      ∨ (data.np_tot JDIR - data.nghost JDIR - 1 ≤ j ∧ j < data.np_tot JDIR)
  · apply divB_of_faceRel2_2D _ _ _ _ _ _ _ (hdx2 j hj.1 hj.2)
    exact ReconstructBX2s_rel 2 data _ (by omega) k i j hk hi hjr
  · have hir : (0 ≤ i ∧ i ≤ data.nghost IDIR - 1)
        ∨ (data.np_tot IDIR - data.nghost IDIR - 1 ≤ i ∧ i < data.np_tot IDIR) := by
      rcases hghost with h | h
      · omega
      · omega
    apply divB_of_faceRel1_2D _ _ _ _ _ _ _ (hdx1 i hi.1 hi.2)
    have h1 := ReconstructBX1s_rel 2 data data.Vs (by omega) k j i hk hj hir
    unfold MHD.faceRel1 at h1 ⊢
    rw [ReconstructBX2s_frame 2 data _ BX1s k i j (by intro h; exact absurd h (by decide)),
      ReconstructBX2s_frame 2 data _ BX1s k (i + 1) j (by intro h; exact absurd h (by decide)),
      ReconstructBX2s_frame 2 data _ BX2s k i (j + 1) (by intro _; omega),
      ReconstructBX2s_frame 2 data _ BX2s k i j (by intro _; omega),
      ReconstructBX2s_frame 2 data _ BX3s (k + 1) i j (by intro h; exact absurd h (by decide)),
      ReconstructBX2s_frame 2 data _ BX3s k i j (by intro h; exact absurd h (by decide))]
    exact h1

/-- C5. Ghost-cell normal-field reconstruction enforces the solenoidal
constraint in the 1D and 2D builds: with the extents of the data model,
`np_int >= 1` in each direction of the build and nonzero widths, after
`ReconstructNormalField` the discrete divergence of `V_s` is zero in every
cell of the full extent that lies outside the active range of a direction of
the build, and every left ghost face of direction 1 is the next face plus
`dx1(i)` times the transverse difference `(V_s(BX2s,j+1) - V_s(BX2s,j))/dx2(j)`
(a term that exists from 2D on). No lower bound on `nghost` is needed. -/
theorem ReconstructNormalField_solenoidal (DIMENSIONS : ℕ)
    (hD : DIMENSIONS = 1 ∨ DIMENSIONS = 2) (data : DataBlock)
    (hext1 : data.extents IDIR) (hext2 : 2 ≤ DIMENSIONS → data.extents JDIR)
    (hint1 : 1 ≤ data.np_int IDIR) (hint2 : 2 ≤ DIMENSIONS → 1 ≤ data.np_int JDIR)
    (hdx1 : ∀ i, 0 ≤ i → i < data.np_tot IDIR → data.dx IDIR i ≠ 0)
    (hdx2 : 2 ≤ DIMENSIONS → ∀ j, 0 ≤ j → j < data.np_tot JDIR → data.dx JDIR j ≠ 0)
    (k j i : ℤ) (hk : 0 ≤ k ∧ k < data.np_tot KDIR) (hj : 0 ≤ j ∧ j < data.np_tot JDIR)
    (hi : 0 ≤ i ∧ i < data.np_tot IDIR) :
    ((¬ (data.beg IDIR ≤ i ∧ i < data.end_ IDIR)
        ∨ (2 ≤ DIMENSIONS ∧ ¬ (data.beg JDIR ≤ j ∧ j < data.end_ JDIR))) →
      MHD.divB DIMENSIONS (MHD.Physics.ReconstructNormalField DIMENSIONS data).Vs
        (data.dx IDIR) (data.dx JDIR) (data.dx KDIR) k j i = 0)
    ∧ (i < data.nghost IDIR →
      (MHD.Physics.ReconstructNormalField DIMENSIONS data).Vs BX1s k j i
        = (MHD.Physics.ReconstructNormalField DIMENSIONS data).Vs BX1s k j (i + 1)
          + data.dx IDIR i * (if 2 ≤ DIMENSIONS then
              ((MHD.Physics.ReconstructNormalField DIMENSIONS data).Vs BX2s k (j + 1) i
                - (MHD.Physics.ReconstructNormalField DIMENSIONS data).Vs BX2s k j i)
                / data.dx JDIR j
            else 0)) := by
  rcases hD with rfl | rfl
  · have hdiv : ¬ (data.beg IDIR ≤ i ∧ i < data.end_ IDIR) →
        MHD.divB 1 (MHD.Physics.ReconstructNormalField 1 data).Vs
          (data.dx IDIR) (data.dx JDIR) (data.dx KDIR) k j i = 0 :=
      ReconstructNormalField_ghost_1D data hext1 hint1 k j i hk hj hi
    refine ⟨fun h => hdiv (by
      rcases h with h | h
      · exact h
      · omega), fun hg => ?_⟩
    have h0 := hdiv (by
      obtain ⟨e1, e2, e3⟩ := hext1
      omega)
    have hne := hdx1 i hi.1 hi.2
    simp only [MHD.divB, D_EXPAND, le_refl, if_true] at h0
    rw [div_eq_zero_iff] at h0
    rcases h0 with h0 | h0
    · norm_num
      linarith
    · exact absurd h0 hne
  · have hdiv : (¬ (data.beg IDIR ≤ i ∧ i < data.end_ IDIR)
          ∨ ¬ (data.beg JDIR ≤ j ∧ j < data.end_ JDIR)) →
        MHD.divB 2 (MHD.Physics.ReconstructNormalField 2 data).Vs
          (data.dx IDIR) (data.dx JDIR) (data.dx KDIR) k j i = 0 :=
      ReconstructNormalField_ghost_2D data hext1 (hext2 le_rfl) hint1 (hint2 le_rfl) hdx1
        (hdx2 le_rfl) k j i hk hj hi
    refine ⟨fun h => hdiv (by
      rcases h with h | h
      · exact Or.inl h
      · exact Or.inr h.2), fun hg => ?_⟩
    have h0 := hdiv (Or.inl (by
      obtain ⟨e1, e2, e3⟩ := hext1
      omega))
    have hne := hdx1 i hi.1 hi.2
    simp only [MHD.divB, D_EXPAND] at h0
    norm_num at h0
    norm_num
    generalize ((MHD.Physics.ReconstructNormalField 2 data).Vs BX2s k (j + 1) i
      - (MHD.Physics.ReconstructNormalField 2 data).Vs BX2s k j i) / data.dx JDIR j = B at h0 ⊢
    field_simp at h0
    linarith

/-! ## Ghost-face reconstruction in 3D -/

theorem ReconstructNormalField_frame_3D (data : DataBlock) (n k j i : ℤ)
    (h1 : n = BX1s → data.nghost IDIR - 1 < i ∧ i ≤ data.np_tot IDIR - data.nghost IDIR - 1)
    (h2 : n = BX2s → data.nghost JDIR - 1 < j ∧ j ≤ data.np_tot JDIR - data.nghost JDIR - 1)
    (h3 : n = BX3s → data.nghost KDIR - 1 < k ∧ k ≤ data.np_tot KDIR - data.nghost KDIR - 1) :
    (MHD.Physics.ReconstructNormalField 3 data).Vs n k j i = data.Vs n k j i := by
  rw [ReconstructNormalField_Vs_3D, ReconstructBX3s_frame data _ n j i k h3,
    ReconstructBX2s_frame 3 data _ n k i j h2, ReconstructBX1s_frame 3 data _ n k j i h1]

theorem ReconstructNormalField_BX3s_copy (data : DataBlock)
    (hmid : data.nghost KDIR - 1 < data.np_tot KDIR - data.nghost KDIR - 1)
    (k j i : ℤ) (hj : 0 ≤ j ∧ j < data.np_tot JDIR) (hi : 0 ≤ i ∧ i < data.np_tot IDIR)
    (hk : (0 ≤ k ∧ k ≤ data.nghost KDIR - 1)
      ∨ (data.np_tot KDIR - data.nghost KDIR - 1 ≤ k ∧ k < data.np_tot KDIR)) :
    (MHD.Physics.ReconstructNormalField 3 data).Vs BX3s k j i
      = (MHD.Physics.ReconstructNormalField 3 data).Vs BX3s (k + 1) j i := by
  rw [ReconstructNormalField_Vs_3D]
  exact ReconstructBX3s_rel data _ hmid j i k hj hi hk

/-- C6 (the code at the failing input). On the 3D grid with the solenoidal
field `B = (x, 0, -z)`, `ReconstructNormalField` leaves in the lower ghost face
`(k,j,i) = (0,1,1)` of direction 3 the copy `-1` of the face above it, whereas
the divergence formula of the claim gives `0` there; the discrete divergence of
that ghost cell is `1`, not `0`. -/
theorem ReconstructNormalField_BX3s_ghost_not_solenoidal :
    (MHD.Physics.ReconstructNormalField 3 grid3D_linear).Vs BX3s 0 1 1 = -1
    ∧ (MHD.Physics.ReconstructNormalField 3 grid3D_linear).Vs BX3s (0 + 1) 1 1
        + grid3D_linear.dx KDIR 0
          * (((MHD.Physics.ReconstructNormalField 3 grid3D_linear).Vs BX1s 0 1 (1 + 1)
                - (MHD.Physics.ReconstructNormalField 3 grid3D_linear).Vs BX1s 0 1 1)
              / grid3D_linear.dx IDIR 1
            + ((MHD.Physics.ReconstructNormalField 3 grid3D_linear).Vs BX2s 0 (1 + 1) 1
                - (MHD.Physics.ReconstructNormalField 3 grid3D_linear).Vs BX2s 0 1 1)
              / grid3D_linear.dx JDIR 1) = 0
    ∧ MHD.divB 3 (MHD.Physics.ReconstructNormalField 3 grid3D_linear).Vs
        (grid3D_linear.dx IDIR) (grid3D_linear.dx JDIR) (grid3D_linear.dx KDIR) 0 1 1 = 1 := by
  have c0 : (MHD.Physics.ReconstructNormalField 3 grid3D_linear).Vs BX3s 0 1 1
      = (MHD.Physics.ReconstructNormalField 3 grid3D_linear).Vs BX3s (0 + 1) 1 1 :=
    ReconstructNormalField_BX3s_copy grid3D_linear (by decide) 0 1 1 (by decide) (by decide)
      (by decide)
  have f3 : (MHD.Physics.ReconstructNormalField 3 grid3D_linear).Vs BX3s (0 + 1) 1 1 = -1 := by
    rw [ReconstructNormalField_frame_3D grid3D_linear BX3s (0 + 1) 1 1 (by decide) (by decide)
      (by decide)]
    simp [grid3D_linear, BX1s, BX3s]
  have f1a : (MHD.Physics.ReconstructNormalField 3 grid3D_linear).Vs BX1s 0 1 (1 + 1) = 2 := by
    rw [ReconstructNormalField_frame_3D grid3D_linear BX1s 0 1 (1 + 1) (by decide) (by decide)
      (by decide)]
    simp [grid3D_linear, BX1s]
  have f1b : (MHD.Physics.ReconstructNormalField 3 grid3D_linear).Vs BX1s 0 1 1 = 1 := by
    rw [ReconstructNormalField_frame_3D grid3D_linear BX1s 0 1 1 (by decide) (by decide)
      (by decide)]
    simp [grid3D_linear, BX1s]
  have f2a : (MHD.Physics.ReconstructNormalField 3 grid3D_linear).Vs BX2s 0 (1 + 1) 1 = 0 := by
    rw [ReconstructNormalField_frame_3D grid3D_linear BX2s 0 (1 + 1) 1 (by decide) (by decide)
      (by decide)]
    simp [grid3D_linear, BX1s, BX2s, BX3s]
  have f2b : (MHD.Physics.ReconstructNormalField 3 grid3D_linear).Vs BX2s 0 1 1 = 0 := by
    rw [ReconstructNormalField_frame_3D grid3D_linear BX2s 0 1 1 (by decide) (by decide)
      (by decide)]
    simp [grid3D_linear, BX1s, BX2s, BX3s]
  have hdx : ∀ d m, grid3D_linear.dx d m = 1 := fun _ _ => rfl
  refine ⟨by rw [c0, f3], ?_, ?_⟩
  · rw [f3, f1a, f1b, f2a, f2b, hdx, hdx, hdx]
    norm_num
  · simp only [MHD.divB, D_EXPAND]
    rw [f1a, f1b, f2a, f2b, c0, f3, hdx, hdx, hdx]
    norm_num

/-! ## State conversion (HD) -/

theorem forLoop_gather (N : ℤ) (f : ℤ → real) (U0 : IdefixArray1D) (n : ℤ) :
    forLoop (irange 0 N) (fun nv U => set1 U nv (f nv)) U0 n
      = if 0 ≤ n ∧ n < N then f n else U0 n := by
  unfold forLoop
  by_cases h : 0 ≤ n ∧ n < N
  · rw [if_pos h]
    exact foldl_pointwise (fun nv (U : IdefixArray1D) => set1 U nv (f nv))
      (fun U m => U m) (fun m _ => f m) (fun x s => set1_self _ _ _)
      (fun x y s hxy => set1_ne _ _ _ _ (Ne.symm hxy)) _ (nodup_irange 0 N) U0 n
      ((mem_irange _ _ _).2 h)
  · rw [if_neg h]
    exact foldl_untouched (fun nv (U : IdefixArray1D) => set1 U nv (f nv))
      (fun U m => U m) n _ (fun x hx s => set1_ne _ _ _ _ (by
        rintro rfl
        exact h ((mem_irange _ _ _).1 hx))) U0

theorem forLoop_scatter (N : ℤ) (V : IdefixArray1D) (k j i : ℤ) (A : IdefixArray4D)
    (n k' j' i' : ℤ) :
    forLoop (irange 0 N) (fun nv A => set4 A nv k j i (V nv)) A n k' j' i'
      = if (0 ≤ n ∧ n < N) ∧ k' = k ∧ j' = j ∧ i' = i then V n else A n k' j' i' := by
  unfold forLoop
  by_cases h : (0 ≤ n ∧ n < N) ∧ k' = k ∧ j' = j ∧ i' = i
  · rw [if_pos h]
    obtain ⟨hn, rfl, rfl, rfl⟩ := h
    exact foldl_pointwise (fun nv (A : IdefixArray4D) => set4 A nv k' j' i' (V nv))
      (fun A m => A m k' j' i') (fun m _ => V m) (fun x s => set4_self _ _ _ _ _ _)
      (fun x y s hxy => set4_ne _ _ _ _ _ _ _ _ _ _ (fun hh => hxy hh.1.symm)) _
      (nodup_irange 0 N) A n ((mem_irange _ _ _).2 hn)
  · rw [if_neg h]
    exact foldl_untouched (fun nv (A : IdefixArray4D) => set4 A nv k j i (V nv))
      (fun (A : IdefixArray4D) (p : ℤ × ℤ × ℤ × ℤ) => A p.1 p.2.1 p.2.2.1 p.2.2.2)
      (n, k', j', i') _ (fun x hx s => set4_ne _ _ _ _ _ _ _ _ _ _ (by
        rintro ⟨h1, h2, h3, h4⟩
        dsimp only at h1 h2 h3 h4
        subst h1
        exact h ⟨(mem_irange _ _ _).1 hx, h2, h3, h4⟩)) A

theorem HD_ConvertConsToPrim_cell (this : HD.Physics) (HAVE_ENERGY : Bool) (NVAR : ℤ)
    (data : DataBlock) (n k j i : ℤ) (hn : 0 ≤ n ∧ n < NVAR)
    (hk : 0 ≤ k ∧ k < data.np_tot KDIR) (hj : 0 ≤ j ∧ j < data.np_tot JDIR)
    (hi : 0 ≤ i ∧ i < data.np_tot IDIR) :
    (this.ConvertConsToPrim HAVE_ENERGY NVAR data).Vc n k j i
      = HD.K_ConsToPrim HAVE_ENERGY localArray
          (fun m => if 0 ≤ m ∧ m < NVAR then data.Uc m k j i else localArray m)
          (this.gamma - ONE_F) n := by
  simp only [HD.Physics.ConvertConsToPrim]
  have hbody : ∀ (k j i : ℤ) (A : IdefixArray4D) (n k' j' i' : ℤ),
      HD.ConsToPrim_body HAVE_ENERGY NVAR data.Uc (this.gamma - ONE_F) k j i A n k' j' i'
        = if (0 ≤ n ∧ n < NVAR) ∧ k' = k ∧ j' = j ∧ i' = i then
            HD.K_ConsToPrim HAVE_ENERGY localArray
              (fun m => if 0 ≤ m ∧ m < NVAR then data.Uc m k j i else localArray m)
              (this.gamma - ONE_F) n
          else A n k' j' i' := by
    intro k j i A n k' j' i'
    unfold HD.ConsToPrim_body
    rw [forLoop_scatter]
    have hU : forLoop (irange 0 NVAR) (fun nv U => set1 U nv (data.Uc nv k j i)) localArray
        = fun m => if 0 ≤ m ∧ m < NVAR then data.Uc m k j i else localArray m := by
      funext m
      exact forLoop_gather NVAR (fun nv => data.Uc nv k j i) localArray m
    rw [hU]
  have := idefix_for3_pointwise 0 (data.np_tot KDIR) 0 (data.np_tot JDIR) 0 (data.np_tot IDIR)
    (HD.ConsToPrim_body HAVE_ENERGY NVAR data.Uc (this.gamma - ONE_F))
    (fun (A : IdefixArray4D) (x : ℤ × ℤ × ℤ) => A n x.1 x.2.1 x.2.2)
    (fun x _ => HD.K_ConsToPrim HAVE_ENERGY localArray
      (fun m => if 0 ≤ m ∧ m < NVAR then data.Uc m x.1 x.2.1 x.2.2 else localArray m)
      (this.gamma - ONE_F) n)
    (fun x s => by
      dsimp only
      rw [hbody, if_pos ⟨hn, rfl, rfl, rfl⟩])
    (fun x y s hxy => by
      dsimp only
      rw [hbody, if_neg]
      rintro ⟨_, h2, h3, h4⟩
      exact hxy (by ext <;> dsimp only <;> omega))
    data.Vc k j i hk hj hi
  exact this

/-! ## The claims -/

/-- C1. Constrained transport preserves the discrete divergence exactly: in
the 1D, 2D and 3D builds, for every `dt`, corner EMFs, staggered field and
widths that are nonzero on the active range, the discrete divergence of every
active cell is the same after `EvolveMagField` as before it, and so the value
returned by `CheckDivB` is unchanged. -/
theorem EvolveMagField_preserves_divB (DIMENSIONS : ℕ)
    (hD : DIMENSIONS = 1 ∨ DIMENSIONS = 2 ∨ DIMENSIONS = 3)
    (data : DataBlock) (t dt maxIdentity : real)
    (hdx : ∀ d m, data.beg d ≤ m → m < data.end_ d → data.dx d m ≠ 0) :
    (∀ k j i, (data.beg KDIR ≤ k ∧ k < data.end_ KDIR) →
        (data.beg JDIR ≤ j ∧ j < data.end_ JDIR) →
        (data.beg IDIR ≤ i ∧ i < data.end_ IDIR) →
        MHD.divB DIMENSIONS (MHD.Physics.EvolveMagField DIMENSIONS data t dt).Vs
            (data.dx IDIR) (data.dx JDIR) (data.dx KDIR) k j i
          = MHD.divB DIMENSIONS data.Vs (data.dx IDIR) (data.dx JDIR) (data.dx KDIR) k j i)
    ∧ MHD.Physics.CheckDivB DIMENSIONS maxIdentity
          (MHD.Physics.EvolveMagField DIMENSIONS data t dt)
        = MHD.Physics.CheckDivB DIMENSIONS maxIdentity data := by
  have hcell : ∀ k j i, (data.beg KDIR ≤ k ∧ k < data.end_ KDIR) →
        (data.beg JDIR ≤ j ∧ j < data.end_ JDIR) →
        (data.beg IDIR ≤ i ∧ i < data.end_ IDIR) →
        MHD.divB DIMENSIONS (MHD.Physics.EvolveMagField DIMENSIONS data t dt).Vs
            (data.dx IDIR) (data.dx JDIR) (data.dx KDIR) k j i
          = MHD.divB DIMENSIONS data.Vs (data.dx IDIR) (data.dx JDIR) (data.dx KDIR) k j i :=
    fun k j i hk hj hi => MHD_EvolveMagField_divB_cell DIMENSIONS hD data t dt k j i hk hj hi
      (hdx IDIR i hi.1 hi.2) (hdx JDIR j hj.1 hj.2) (hdx KDIR k hk.1 hk.2)
  refine ⟨hcell, ?_⟩
  unfold MHD.Physics.CheckDivB idefix_for3
  apply List.foldl_ext
  rintro acc ⟨k, j, i⟩ hmem
  have hm := (mem_box3 _ _ _ _ _ _ _ _ _).1 hmem
  show FMAX (FABS (MHD.divB DIMENSIONS (MHD.Physics.EvolveMagField DIMENSIONS data t dt).Vs
      (data.dx IDIR) (data.dx JDIR) (data.dx KDIR) k j i)) acc = _
  rw [hcell k j i hm.1 hm.2.1 hm.2.2]

theorem EvolveMagField_preserves_divB_witness :
    MHD.divB 3 (MHD.Physics.EvolveMagField 3 grid3D_emf 0 (1 / 2)).Vs
        (grid3D_emf.dx IDIR) (grid3D_emf.dx JDIR) (grid3D_emf.dx KDIR) 1 2 1
      = MHD.divB 3 grid3D_emf.Vs (grid3D_emf.dx IDIR) (grid3D_emf.dx JDIR)
          (grid3D_emf.dx KDIR) 1 2 1
    ∧ MHD.Physics.CheckDivB 3 0 (MHD.Physics.EvolveMagField 3 grid3D_emf 0 (1 / 2))
        = MHD.Physics.CheckDivB 3 0 grid3D_emf :=
  ⟨(EvolveMagField_preserves_divB 3 (Or.inr (Or.inr rfl)) grid3D_emf 0 (1 / 2) 0
      (fun _ _ _ _ => one_ne_zero)).1 1 2 1 (by decide) (by decide) (by decide),
   (EvolveMagField_preserves_divB 3 (Or.inr (Or.inr rfl)) grid3D_emf 0 (1 / 2) 0
      (fun _ _ _ _ => one_ne_zero)).2⟩

/-- C2 (the code at the failing input). For the primitive state
`(RHO, VX1, VX2, VX3, PRS) = (1, 0, 1, 0, 1)` and `gamma - 1 = 2/3`, the round
trip `K_ConsToPrim(K_PrimToCons(V))` returns the pressure `4/3`, not `1`:
`K_PrimToCons` stores the energy `5/2` where the kinetic energy that
`K_ConsToPrim` subtracts is `1/2`. -/
theorem K_roundtrip_pressure_at_failing_input :
    HD.K_ConsToPrim true localArray
        (HD.K_PrimToCons true localArray (cellState 1 0 1 0 1) (2 / 3)) (2 / 3) PRS = 4 / 3
    ∧ cellState 1 0 1 0 1 PRS = 1
    ∧ 0 < cellState 1 0 1 0 1 RHO ∧ 0 < cellState 1 0 1 0 1 PRS := by
  refine ⟨?_, ?_, ?_, ?_⟩
  · simp [HD.K_ConsToPrim, HD.K_PrimToCons, set1, cellState, RHO, VX1, VX2, VX3, PRS, ENG,
      MX1, MX2, MX3]
    norm_num
  · simp [cellState, RHO, VX1, VX2, VX3, PRS]
  · simp [cellState, RHO]
  · simp [cellState, RHO, VX1, VX2, VX3, PRS]

theorem HD_CalcRightHandSide_conservative_witness :
    ∑ m ∈ Finset.Ico (grid1D_flux.beg IDIR) (grid1D_flux.end_ IDIR),
        grid1D_flux.dx IDIR m
          * alongLine IDIR (HD.Physics.CalcRightHandSide 5 grid1D_flux IDIR (1 / 2)).Uc 0 0 0 0 m
      = ∑ m ∈ Finset.Ico (grid1D_flux.beg IDIR) (grid1D_flux.end_ IDIR),
          grid1D_flux.dx IDIR m * alongLine IDIR grid1D_flux.Uc 0 0 0 0 m
        - 1 / 2 * (alongLine IDIR grid1D_flux.FluxRiemann 0 0 0 0 (grid1D_flux.end_ IDIR)
            - alongLine IDIR grid1D_flux.FluxRiemann 0 0 0 0 (grid1D_flux.beg IDIR)) :=
  (HD_CalcRightHandSide_conservative 5 grid1D_flux IDIR (1 / 2) (Or.inl rfl) 0 0 0 0
    (by decide) (fun _ => by decide) (fun _ => by decide) (fun h => absurd rfl h)
    (by decide) (fun _ _ _ => one_ne_zero)).1

/-- C4 (counterexample). With the conservative state `(-1, 0, 0, 0, 1)` in
every cell, a negative density, `ConvertConsToPrim` in energy mode completes
and writes a primitive state with `RHO = -1` and `PRS = 2/3` in cell
`(0,0,2)`: no error is raised for `U.RHO <= 0`. -/
theorem ConvertConsToPrim_negative_density_counterexample :
    grid1D_negative.Uc RHO 0 0 2 ≤ 0
    ∧ (HD.physicsDefault.ConvertConsToPrim true 5 grid1D_negative).Vc RHO 0 0 2 = -1
    ∧ (HD.physicsDefault.ConvertConsToPrim true 5 grid1D_negative).Vc PRS 0 0 2 = 2 / 3 := by
  refine ⟨?_, ?_, ?_⟩
  · simp [grid1D_negative, cellState, RHO]
  · rw [HD_ConvertConsToPrim_cell HD.physicsDefault true 5 grid1D_negative RHO 0 0 2
      (by decide) (by decide) (by decide) (by decide)]
    simp [HD.K_ConsToPrim, set1, grid1D_negative, cellState, RHO, VX1, VX2, VX3, PRS]
  · rw [HD_ConvertConsToPrim_cell HD.physicsDefault true 5 grid1D_negative PRS 0 0 2
      (by decide) (by decide) (by decide) (by decide)]
    simp [HD.K_ConsToPrim, set1, grid1D_negative, cellState, RHO, VX1, VX2, VX3, PRS, ENG,
      MX1, MX2, MX3, HD.physicsDefault, ONE_F]
    norm_num

/-- C4 (amended). Conservative-to-primitive conversion has no failure path:
for every conservative state, whatever the sign of its density and of the
pressure it yields, `ConvertConsToPrim` in energy mode writes in every cell of
the full extent the primitive state of `K_ConsToPrim`: `V.RHO = U.RHO`,
`V.VXn = U.MXn / U.RHO` and `V.PRS = (gamma - 1) * (U.ENG - kin)` with
`kin = 0.5 / U.RHO * (MX1^2 + MX2^2 + MX3^2)`. -/
theorem ConvertConsToPrim_no_failure (this : HD.Physics) (data : DataBlock) (k j i : ℤ)
    (hk : 0 ≤ k ∧ k < data.np_tot KDIR) (hj : 0 ≤ j ∧ j < data.np_tot JDIR)
    (hi : 0 ≤ i ∧ i < data.np_tot IDIR) :
    (this.ConvertConsToPrim true 5 data).Vc RHO k j i = data.Uc RHO k j i
    ∧ (this.ConvertConsToPrim true 5 data).Vc VX1 k j i
        = data.Uc MX1 k j i / data.Uc RHO k j i
    ∧ (this.ConvertConsToPrim true 5 data).Vc VX2 k j i
        = data.Uc MX2 k j i / data.Uc RHO k j i
    ∧ (this.ConvertConsToPrim true 5 data).Vc VX3 k j i
        = data.Uc MX3 k j i / data.Uc RHO k j i
    ∧ (this.ConvertConsToPrim true 5 data).Vc PRS k j i
        = (this.gamma - 1) * (data.Uc ENG k j i
            - 1 / 2 / data.Uc RHO k j i
              * (data.Uc MX1 k j i * data.Uc MX1 k j i + data.Uc MX2 k j i * data.Uc MX2 k j i
                + data.Uc MX3 k j i * data.Uc MX3 k j i)) := by
  refine ⟨?_, ?_, ?_, ?_, ?_⟩
  · rw [HD_ConvertConsToPrim_cell this true 5 data RHO k j i (by decide) hk hj hi]
    simp [HD.K_ConsToPrim, set1, RHO, VX1, VX2, VX3, PRS]
  · rw [HD_ConvertConsToPrim_cell this true 5 data VX1 k j i (by decide) hk hj hi]
    simp [HD.K_ConsToPrim, set1, RHO, VX1, VX2, VX3, PRS, MX1]
  · rw [HD_ConvertConsToPrim_cell this true 5 data VX2 k j i (by decide) hk hj hi]
    simp [HD.K_ConsToPrim, set1, RHO, VX1, VX2, VX3, PRS, MX2]
  · rw [HD_ConvertConsToPrim_cell this true 5 data VX3 k j i (by decide) hk hj hi]
    simp [HD.K_ConsToPrim, set1, RHO, VX1, VX2, VX3, PRS, MX3]
  · rw [HD_ConvertConsToPrim_cell this true 5 data PRS k j i (by decide) hk hj hi]
    simp [HD.K_ConsToPrim, set1, RHO, VX1, VX2, VX3, PRS, ENG, MX1, MX2, MX3, ONE_F]
    norm_num

theorem ConvertConsToPrim_no_failure_witness :
    (HD.physicsDefault.ConvertConsToPrim true 5 grid1D_negative).Vc RHO 0 0 2
      = grid1D_negative.Uc RHO 0 0 2 :=
  (ConvertConsToPrim_no_failure HD.physicsDefault grid1D_negative 0 0 2 (by decide) (by decide)
    (by decide)).1

theorem ReconstructNormalField_solenoidal_witness :
    MHD.divB 2 (MHD.Physics.ReconstructNormalField 2 grid2D).Vs
        (grid2D.dx IDIR) (grid2D.dx JDIR) (grid2D.dx KDIR) 0 3 1 = 0
    ∧ MHD.divB 2 (MHD.Physics.ReconstructNormalField 2 grid2D).Vs
        (grid2D.dx IDIR) (grid2D.dx JDIR) (grid2D.dx KDIR) 0 6 5 = 0 :=
  ⟨(ReconstructNormalField_solenoidal 2 (Or.inr rfl) grid2D
      ⟨by decide, by decide, by decide⟩ (fun _ => ⟨by decide, by decide, by decide⟩)
      (by decide) (fun _ => by decide) (fun _ _ _ => one_ne_zero) (fun _ _ _ _ => one_ne_zero)
      0 3 1 (by decide) (by decide) (by decide)).1 (Or.inl (by decide)),
   (ReconstructNormalField_solenoidal 2 (Or.inr rfl) grid2D
      ⟨by decide, by decide, by decide⟩ (fun _ => ⟨by decide, by decide, by decide⟩)
      (by decide) (fun _ => by decide) (fun _ _ _ => one_ne_zero) (fun _ _ _ _ => one_ne_zero)
      0 6 5 (by decide) (by decide) (by decide)).1 (Or.inr ⟨by decide, by decide⟩)⟩

/-- C7 (the code at the failing input). For the primitive state
`(RHO, VX1, VX2, VX3, PRS) = (1, 0, 1, 0, 1)` and `gamma - 1 = 2/3`,
`K_PrimToCons` stores the energy `5/2`, whereas
`PRS/(gamma-1) + (1/2)*RHO*(VX1^2 + VX2^2 + VX3^2)` is `2`: the factor
`0.5 * Vc[RHO]` multiplies the first term `VX1*VX1` of the unparenthesised
`EXPAND` only. -/
theorem K_PrimToCons_energy_at_failing_input :
    HD.K_PrimToCons true localArray (cellState 1 0 1 0 1) (2 / 3) ENG = 5 / 2
    ∧ cellState 1 0 1 0 1 PRS / (2 / 3)
        + 1 / 2 * cellState 1 0 1 0 1 RHO
          * (cellState 1 0 1 0 1 VX1 ^ 2 + cellState 1 0 1 0 1 VX2 ^ 2
            + cellState 1 0 1 0 1 VX3 ^ 2) = 2 := by
  constructor
  · simp [HD.K_PrimToCons, set1, cellState, RHO, VX1, VX2, VX3, PRS, ENG]
    norm_num
  · simp [cellState, RHO, VX1, VX2, VX3, PRS]
    norm_num

/-- C8. Conservative-to-primitive conversion (HD, energy mode, three momentum
components): for every `U` with `U.RHO != 0`, `K_ConsToPrim` yields
`V.RHO = U.RHO`, `V.VXn = U.MXn/U.RHO` and
`V.PRS = (gamma-1)*(U.ENG - kinetic)`, where
`kinetic = (MX1^2 + MX2^2 + MX3^2)/(2*U.RHO)` is also
`(1/2)*V.RHO*(VX1^2 + VX2^2 + VX3^2)` of the resulting velocities. -/
theorem K_ConsToPrim_spec (V0 U : IdefixArray1D) (gamma_m1 : real) (hrho : U RHO ≠ 0) :
    HD.K_ConsToPrim true V0 U gamma_m1 RHO = U RHO
    ∧ HD.K_ConsToPrim true V0 U gamma_m1 VX1 = U MX1 / U RHO
    ∧ HD.K_ConsToPrim true V0 U gamma_m1 VX2 = U MX2 / U RHO
    ∧ HD.K_ConsToPrim true V0 U gamma_m1 VX3 = U MX3 / U RHO
    ∧ HD.K_ConsToPrim true V0 U gamma_m1 PRS
        = gamma_m1 * (U ENG - (U MX1 ^ 2 + U MX2 ^ 2 + U MX3 ^ 2) / (2 * U RHO))
    ∧ (U MX1 ^ 2 + U MX2 ^ 2 + U MX3 ^ 2) / (2 * U RHO)
        = 1 / 2 * HD.K_ConsToPrim true V0 U gamma_m1 RHO
          * (HD.K_ConsToPrim true V0 U gamma_m1 VX1 ^ 2
            + HD.K_ConsToPrim true V0 U gamma_m1 VX2 ^ 2
            + HD.K_ConsToPrim true V0 U gamma_m1 VX3 ^ 2) := by
  have e1 : HD.K_ConsToPrim true V0 U gamma_m1 RHO = U RHO := by
    simp [HD.K_ConsToPrim, set1, RHO, VX1, VX2, VX3, PRS]
  have e2 : HD.K_ConsToPrim true V0 U gamma_m1 VX1 = U MX1 / U RHO := by
    simp [HD.K_ConsToPrim, set1, RHO, VX1, VX2, VX3, PRS, MX1]
  have e3 : HD.K_ConsToPrim true V0 U gamma_m1 VX2 = U MX2 / U RHO := by
    simp [HD.K_ConsToPrim, set1, RHO, VX1, VX2, VX3, PRS, MX2]
  have e4 : HD.K_ConsToPrim true V0 U gamma_m1 VX3 = U MX3 / U RHO := by
    simp [HD.K_ConsToPrim, set1, RHO, VX1, VX2, VX3, PRS, MX3]
  have e5 : HD.K_ConsToPrim true V0 U gamma_m1 PRS
      = gamma_m1 * (U ENG - (U MX1 ^ 2 + U MX2 ^ 2 + U MX3 ^ 2) / (2 * U RHO)) := by
    simp only [HD.K_ConsToPrim, set1_self, if_true]
    congr 2
    field_simp
    ring
  refine ⟨e1, e2, e3, e4, e5, ?_⟩
  rw [e1, e2, e3, e4]
  field_simp
  ring

theorem K_ConsToPrim_spec_witness :
    cellState 2 2 4 6 10 RHO ≠ 0
    ∧ HD.K_ConsToPrim true localArray (cellState 2 2 4 6 10) (2 / 3) RHO
        = cellState 2 2 4 6 10 RHO :=
  ⟨by simp [cellState, RHO],
   (K_ConsToPrim_spec localArray (cellState 2 2 4 6 10) (2 / 3)
      (by simp [cellState, RHO])).1⟩

/-- C9 (counterexample). In the MHD build the rule fails for the face-normal
magnetic channel: on the 1D grid with `V_c = 0` and `V_s = 1`, the sweep along
direction 1 writes `PrimR(BX1, 0,0,2) = V_s(0, 0,0,2) = 1`, whereas
`V_c - D/2` with the limited slope `D` of `V_c(BX1)` is `0`. -/
theorem ExtrapolatePrimVar_MHD_normal_channel_counterexample :
    (MHD.Physics.ExtrapolatePrimVar 1 2 8 grid1D_Vs1 IDIR).PrimR BX1 0 0 2 = 1
    ∧ grid1D_Vs1.Vc BX1 0 0 2
        - (if (grid1D_Vs1.Vc BX1 0 0 (2 + 1) - grid1D_Vs1.Vc BX1 0 0 2)
              * (grid1D_Vs1.Vc BX1 0 0 2 - grid1D_Vs1.Vc BX1 0 0 (2 - 1)) > 0
            then 2 * (grid1D_Vs1.Vc BX1 0 0 (2 + 1) - grid1D_Vs1.Vc BX1 0 0 2)
              * (grid1D_Vs1.Vc BX1 0 0 2 - grid1D_Vs1.Vc BX1 0 0 (2 - 1))
              / ((grid1D_Vs1.Vc BX1 0 0 (2 + 1) - grid1D_Vs1.Vc BX1 0 0 2)
                + (grid1D_Vs1.Vc BX1 0 0 2 - grid1D_Vs1.Vc BX1 0 0 (2 - 1)))
            else 0) / 2 = 0 := by
  constructor
  · rw [MHD_Extrapolate2_PrimR 1 8 grid1D_Vs1 IDIR BX1 0 0 2 (by decide)
      (by decide) (by decide) (by decide)]
    simp [MHD.normalChannel, grid1D_Vs1, IDIR, JDIR, KDIR, BX1]
  · simp [grid1D_Vs1, grid1D, gridBlock]

theorem half_VanLeer (Dp Dm D : real)
    (hD : D = if Dp * Dm > 0 then 2 * Dp * Dm / (Dp + Dm) else 0) :
    HALF_F * HD.VanLeer Dp Dm = D / 2 := by
  rw [hD]
  simp only [HD.VanLeer, HALF_F, TWO_F, ZERO_F]
  ring

/-- C9 (amended). Second-order reconstruction along `d` (`ORDER == 2`): with
`Dm = V_c(n,x) - V_c(n,x-e_d)`, `Dp = V_c(n,x+e_d) - V_c(n,x)` and
`D = 2*Dp*Dm/(Dp+Dm)` if `Dp*Dm > 0`, else `0`, the routine writes
`PrimR(n,x) = V_c(n,x) - D/2` and `PrimL(n,x+e_d) = V_c(n,x) + D/2` for every
cell `x` of its sweep range, in the HD build for every channel `n` and in the
MHD build for every channel `n` other than the face-normal magnetic channel
`BXd`. -/
theorem ExtrapolatePrimVar_order2_slope (DIMENSIONS : ℕ) (NVAR : ℤ) (data : DataBlock)
    (dir : ℤ) (n k j i : ℤ) (hn : 0 ≤ n ∧ n < NVAR) (Dm Dp D : real)
    (hDm : Dm = data.Vc n k j i
      - data.Vc n (k - sweepOffset dir KDIR) (j - sweepOffset dir JDIR)
          (i - sweepOffset dir IDIR))
    (hDp : Dp = data.Vc n (k + sweepOffset dir KDIR) (j + sweepOffset dir JDIR)
          (i + sweepOffset dir IDIR) - data.Vc n k j i)
    (hD : D = if Dp * Dm > 0 then 2 * Dp * Dm / (Dp + Dm) else 0) :
    ((data.beg KDIR - sweepOffset dir KDIR ≤ k ∧ k < data.end_ KDIR + sweepOffset dir KDIR) →
      (data.beg JDIR - sweepOffset dir JDIR ≤ j ∧ j < data.end_ JDIR + sweepOffset dir JDIR) →
      (data.beg IDIR - sweepOffset dir IDIR ≤ i ∧ i < data.end_ IDIR + sweepOffset dir IDIR) →
      (HD.Physics.ExtrapolatePrimVar 2 NVAR data dir).PrimR n k j i = data.Vc n k j i - D / 2
      ∧ (HD.Physics.ExtrapolatePrimVar 2 NVAR data dir).PrimL n (k + sweepOffset dir KDIR)
          (j + sweepOffset dir JDIR) (i + sweepOffset dir IDIR) = data.Vc n k j i + D / 2)
    ∧ ((data.beg KDIR - sweepOffset dir KDIR - MHD.kextend DIMENSIONS dir ≤ k
          ∧ k < data.end_ KDIR + sweepOffset dir KDIR + MHD.kextend DIMENSIONS dir) →
      (data.beg JDIR - sweepOffset dir JDIR - MHD.jextend DIMENSIONS dir ≤ j
          ∧ j < data.end_ JDIR + sweepOffset dir JDIR + MHD.jextend DIMENSIONS dir) →
      (data.beg IDIR - sweepOffset dir IDIR - MHD.iextend DIMENSIONS dir ≤ i
          ∧ i < data.end_ IDIR + sweepOffset dir IDIR + MHD.iextend DIMENSIONS dir) →
      n ≠ MHD.normalChannel dir →
      (MHD.Physics.ExtrapolatePrimVar DIMENSIONS 2 NVAR data dir).PrimR n k j i
          = data.Vc n k j i - D / 2
      ∧ (MHD.Physics.ExtrapolatePrimVar DIMENSIONS 2 NVAR data dir).PrimL n
          (k + sweepOffset dir KDIR) (j + sweepOffset dir JDIR) (i + sweepOffset dir IDIR)
          = data.Vc n k j i + D / 2) := by
  have hv := half_VanLeer Dp Dm D hD
  rw [hDp, hDm] at hv
  refine ⟨fun hk hj hi => ?_, fun hk hj hi hne => ?_⟩
  · rw [HD_Extrapolate2_PrimR NVAR data dir n k j i hn hk hj hi,
      HD_Extrapolate2_PrimL NVAR data dir n k j i hn hk hj hi, hv]
    exact ⟨rfl, rfl⟩
  · rw [MHD_Extrapolate2_PrimR DIMENSIONS NVAR data dir n k j i hn hk hj hi,
      MHD_Extrapolate2_PrimL DIMENSIONS NVAR data dir n k j i hn hk hj hi, if_neg hne,
      if_neg hne, hv]
    exact ⟨rfl, rfl⟩

theorem ExtrapolatePrimVar_order2_slope_witness :
    ((HD.Physics.ExtrapolatePrimVar 2 5 grid1D_ramp IDIR).PrimR 0 0 0 3 = 9 - 35 / 6 / 2
      ∧ (HD.Physics.ExtrapolatePrimVar 2 5 grid1D_ramp IDIR).PrimL 0 0 0 4 = 9 + 35 / 6 / 2)
    ∧ ((MHD.Physics.ExtrapolatePrimVar 1 2 8 grid1D_ramp IDIR).PrimR 0 0 0 3 = 9 - 35 / 6 / 2
      ∧ (MHD.Physics.ExtrapolatePrimVar 1 2 8 grid1D_ramp IDIR).PrimL 0 0 0 4
          = 9 + 35 / 6 / 2) := by
  have h5 := ExtrapolatePrimVar_order2_slope 1 5 grid1D_ramp IDIR 0 0 0 3 (by decide) 5 7 (35 / 6)
    (by simp [grid1D_ramp, sweepOffset, IDIR, JDIR, KDIR]; norm_num)
    (by simp [grid1D_ramp, sweepOffset, IDIR, JDIR, KDIR]; norm_num)
    (by norm_num)
  have h8 := ExtrapolatePrimVar_order2_slope 1 8 grid1D_ramp IDIR 0 0 0 3 (by decide) 5 7 (35 / 6)
    (by simp [grid1D_ramp, sweepOffset, IDIR, JDIR, KDIR]; norm_num)
    (by simp [grid1D_ramp, sweepOffset, IDIR, JDIR, KDIR]; norm_num)
    (by norm_num)
  have a := h5.1 (by decide) (by decide) (by decide)
  have b := h8.2 (by decide) (by decide) (by decide) (by decide)
  have hv : grid1D_ramp.Vc 0 0 0 3 = 9 := by
    simp [grid1D_ramp]
    norm_num
  rw [hv] at a b
  exact ⟨a, b⟩

/-- C10. The Van Leer limited slope is symmetric and TVD-bounded: for all
`Dp`, `Dm` the slope satisfies `D(Dp,Dm) = D(Dm,Dp)` and
`|D| <= 2*min(|Dp|,|Dm|)`, and `D` has the common sign of `Dp` and `Dm` or is
`0`; consequently, for every channel and every cell `x` of the sweep range of
the HD `ExtrapolatePrimVar` (`ORDER == 2`), `PrimL(n,x+e_d)` lies between
`V_c(n,x)` and `V_c(n,x+e_d)` and `PrimR(n,x)` between `V_c(n,x-e_d)` and
`V_c(n,x)`. -/
theorem VanLeer_symmetric_TVD (NVAR : ℤ) (data : DataBlock) (dir : ℤ) (n k j i : ℤ)
    (hn : 0 ≤ n ∧ n < NVAR)
    (hk : data.beg KDIR - sweepOffset dir KDIR ≤ k ∧ k < data.end_ KDIR + sweepOffset dir KDIR)
    (hj : data.beg JDIR - sweepOffset dir JDIR ≤ j ∧ j < data.end_ JDIR + sweepOffset dir JDIR)
    (hi : data.beg IDIR - sweepOffset dir IDIR ≤ i ∧ i < data.end_ IDIR + sweepOffset dir IDIR) :
    (∀ Dp Dm : real,
      HD.VanLeer Dp Dm = (if Dp * Dm > 0 then 2 * Dp * Dm / (Dp + Dm) else 0)
      ∧ HD.VanLeer Dp Dm = HD.VanLeer Dm Dp
      ∧ |HD.VanLeer Dp Dm| ≤ 2 * min |Dp| |Dm|
      ∧ ((0 < Dp ∧ 0 < Dm ∧ 0 < HD.VanLeer Dp Dm) ∨ (Dp < 0 ∧ Dm < 0 ∧ HD.VanLeer Dp Dm < 0)
          ∨ HD.VanLeer Dp Dm = 0))
    ∧ (min (data.Vc n k j i) (data.Vc n (k + sweepOffset dir KDIR) (j + sweepOffset dir JDIR)
          (i + sweepOffset dir IDIR))
        ≤ (HD.Physics.ExtrapolatePrimVar 2 NVAR data dir).PrimL n (k + sweepOffset dir KDIR)
            (j + sweepOffset dir JDIR) (i + sweepOffset dir IDIR)
      ∧ (HD.Physics.ExtrapolatePrimVar 2 NVAR data dir).PrimL n (k + sweepOffset dir KDIR)
            (j + sweepOffset dir JDIR) (i + sweepOffset dir IDIR)
        ≤ max (data.Vc n k j i) (data.Vc n (k + sweepOffset dir KDIR)
            (j + sweepOffset dir JDIR) (i + sweepOffset dir IDIR)))
    ∧ (min (data.Vc n (k - sweepOffset dir KDIR) (j - sweepOffset dir JDIR)
          (i - sweepOffset dir IDIR)) (data.Vc n k j i)
        ≤ (HD.Physics.ExtrapolatePrimVar 2 NVAR data dir).PrimR n k j i
      ∧ (HD.Physics.ExtrapolatePrimVar 2 NVAR data dir).PrimR n k j i
        ≤ max (data.Vc n (k - sweepOffset dir KDIR) (j - sweepOffset dir JDIR)
            (i - sweepOffset dir IDIR)) (data.Vc n k j i)) := by
  refine ⟨fun Dp Dm => ⟨rfl, VanLeer_comm Dp Dm, VanLeer_abs_le Dp Dm, ?_⟩, ?_, ?_⟩
  · rcases VanLeer_cases Dp Dm with ⟨hp, hm, h0, _, _⟩ | ⟨hp, hm, h0, _, _⟩ | h
    · exact Or.inl ⟨hp, hm, h0⟩
    · exact Or.inr (Or.inl ⟨hp, hm, h0⟩)
    · exact Or.inr (Or.inr h)
  · rw [HD_Extrapolate2_PrimL NVAR data dir n k j i hn hk hj hi]
    exact (VanLeer_between _ _ _).1
  · rw [HD_Extrapolate2_PrimR NVAR data dir n k j i hn hk hj hi]
    exact (VanLeer_between _ _ _).2

theorem VanLeer_symmetric_TVD_witness :
    min (grid1D_ramp.Vc 0 0 0 (3 - sweepOffset IDIR IDIR)) (grid1D_ramp.Vc 0 0 0 3)
        ≤ (HD.Physics.ExtrapolatePrimVar 2 5 grid1D_ramp IDIR).PrimR 0 0 0 3
    ∧ (HD.Physics.ExtrapolatePrimVar 2 5 grid1D_ramp IDIR).PrimR 0 0 0 3
        ≤ max (grid1D_ramp.Vc 0 0 0 (3 - sweepOffset IDIR IDIR)) (grid1D_ramp.Vc 0 0 0 3) :=
  (VanLeer_symmetric_TVD 5 grid1D_ramp IDIR 0 0 0 3 (by decide) (by decide) (by decide)
    (by decide)).2.2

/-! ## The limiter and its division -/

/-- C11. The limiter never divides by zero: for all `Dp`, `Dm`, whenever the
quotient `2*Dp*Dm/(Dp+Dm)` is evaluated, that is whenever `Dp*Dm > 0`, the
denominator `Dp+Dm` is nonzero; the limiter with its division checked always
returns the value of the limiter of `ExtrapolatePrimVar` (HD and MHD share the
expression). -/
theorem VanLeer_never_divides_by_zero (Dp Dm : real) :
    (Dp * Dm > ZERO_F → Dp + Dm ≠ 0)
    ∧ HD.VanLeerChecked Dp Dm = some (HD.VanLeer Dp Dm) := by
  have key : Dp * Dm > ZERO_F → Dp + Dm ≠ 0 := by
    intro h hs
    have hm : Dm = -Dp := by linarith
    rw [hm] at h
    simp only [ZERO_F] at h
    nlinarith [mul_self_nonneg Dp]
  refine ⟨key, ?_⟩
  unfold HD.VanLeerChecked HD.VanLeer checkedDiv
  by_cases h : Dp * Dm > ZERO_F
  · simp only [if_pos h, if_neg (key h)]
  · simp only [if_neg h]

/-- The limiter at the slopes `Dp = 7`, `Dm = 5`. -/
theorem VanLeer_never_divides_by_zero_witness :
    (7 : real) + 5 ≠ 0 ∧ HD.VanLeerChecked 7 5 = some (HD.VanLeer 7 5) :=
  ⟨(VanLeer_never_divides_by_zero 7 5).1 (by norm_num [ZERO_F]),
   (VanLeer_never_divides_by_zero 7 5).2⟩

/-! ## Reconstruction (MHD): the face-normal channel -/

theorem MHD_Extrapolate1_PrimL (DIMENSIONS : ℕ) (NVAR : ℤ) (data : DataBlock) (dir : ℤ)
    (n k j i : ℤ) (hn : 0 ≤ n ∧ n < NVAR)
    (hk : data.beg KDIR - MHD.kextend DIMENSIONS dir ≤ k
      ∧ k < data.end_ KDIR + sweepOffset dir KDIR + MHD.kextend DIMENSIONS dir)
    (hj : data.beg JDIR - MHD.jextend DIMENSIONS dir ≤ j
      ∧ j < data.end_ JDIR + sweepOffset dir JDIR + MHD.jextend DIMENSIONS dir)
    (hi : data.beg IDIR - MHD.iextend DIMENSIONS dir ≤ i
      ∧ i < data.end_ IDIR + sweepOffset dir IDIR + MHD.iextend DIMENSIONS dir) :
    (MHD.Physics.ExtrapolatePrimVar DIMENSIONS 1 NVAR data dir).PrimL n k j i
      = if n = MHD.normalChannel dir then data.Vs dir k j i
        else data.Vc n (k - sweepOffset dir KDIR) (j - sweepOffset dir JDIR)
          (i - sweepOffset dir IDIR) := by
  simp only [MHD.Physics.ExtrapolatePrimVar]
  norm_num
  exact idefix_for4_pointwise _ _ _ _ _ _ _ _ _
    (fun (P : IdefixArray4D × IdefixArray4D) (x : ℤ × ℤ × ℤ × ℤ) => P.1 x.1 x.2.1 x.2.2.1 x.2.2.2)
    (fun x _ => if x.1 = MHD.normalChannel dir then data.Vs dir x.2.1 x.2.2.1 x.2.2.2
        else data.Vc x.1 (x.2.1 - sweepOffset dir KDIR) (x.2.2.1 - sweepOffset dir JDIR)
          (x.2.2.2 - sweepOffset dir IDIR))
    (fun x s => by
      simp only [MHD.Extrapolate_body1]
      split <;> simp [set4_self])
    (fun x y s hxy => by
      simp only [MHD.Extrapolate_body1]
      split <;>
      · apply set4_ne
        intro h
        apply hxy
        obtain ⟨h1, h2, h3, h4⟩ := h
        ext <;> dsimp only <;> omega)
    _ n k j i hn hk hj hi

theorem MHD_Extrapolate1_PrimR (DIMENSIONS : ℕ) (NVAR : ℤ) (data : DataBlock) (dir : ℤ)
    (n k j i : ℤ) (hn : 0 ≤ n ∧ n < NVAR)
    (hk : data.beg KDIR - MHD.kextend DIMENSIONS dir ≤ k
      ∧ k < data.end_ KDIR + sweepOffset dir KDIR + MHD.kextend DIMENSIONS dir)
    (hj : data.beg JDIR - MHD.jextend DIMENSIONS dir ≤ j
      ∧ j < data.end_ JDIR + sweepOffset dir JDIR + MHD.jextend DIMENSIONS dir)
    (hi : data.beg IDIR - MHD.iextend DIMENSIONS dir ≤ i
      ∧ i < data.end_ IDIR + sweepOffset dir IDIR + MHD.iextend DIMENSIONS dir) :
    (MHD.Physics.ExtrapolatePrimVar DIMENSIONS 1 NVAR data dir).PrimR n k j i
      = if n = MHD.normalChannel dir then data.Vs dir k j i else data.Vc n k j i := by
  simp only [MHD.Physics.ExtrapolatePrimVar]
  norm_num
  exact idefix_for4_pointwise _ _ _ _ _ _ _ _ _
    (fun (P : IdefixArray4D × IdefixArray4D) (x : ℤ × ℤ × ℤ × ℤ) => P.2 x.1 x.2.1 x.2.2.1 x.2.2.2)
    (fun x _ => if x.1 = MHD.normalChannel dir then data.Vs dir x.2.1 x.2.2.1 x.2.2.2
        else data.Vc x.1 x.2.1 x.2.2.1 x.2.2.2)
    (fun x s => by
      simp only [MHD.Extrapolate_body1]
      split <;> simp [set4_self])
    (fun x y s hxy => by
      simp only [MHD.Extrapolate_body1]
      split <;>
      · apply set4_ne
        intro h
        apply hxy
        obtain ⟨h1, h2, h3, h4⟩ := h
        ext <;> dsimp only <;> omega)
    _ n k j i hn hk hj hi

theorem sweepOffset_nonneg (dir axis : ℤ) : 0 ≤ sweepOffset dir axis ∧ sweepOffset dir axis ≤ 1 := by
  unfold sweepOffset
  split <;> omega

theorem MHD_extend_nonneg (DIMENSIONS : ℕ) (dir : ℤ) :
    0 ≤ MHD.kextend DIMENSIONS dir ∧ 0 ≤ MHD.jextend DIMENSIONS dir
      ∧ 0 ≤ MHD.iextend DIMENSIONS dir := by
  unfold MHD.kextend MHD.jextend MHD.iextend
  refine ⟨?_, ?_, ?_⟩ <;> split <;> omega

/-- The interface `x` of the second-order sweep is written from the cell
`x - e_d`. -/
theorem MHD_Extrapolate2_PrimL_interface (DIMENSIONS : ℕ) (NVAR : ℤ) (data : DataBlock)
    (dir : ℤ) (n k j i : ℤ) (hn : 0 ≤ n ∧ n < NVAR)
    (hk : data.beg KDIR - MHD.kextend DIMENSIONS dir ≤ k
      ∧ k < data.end_ KDIR + sweepOffset dir KDIR + MHD.kextend DIMENSIONS dir)
    (hj : data.beg JDIR - MHD.jextend DIMENSIONS dir ≤ j
      ∧ j < data.end_ JDIR + sweepOffset dir JDIR + MHD.jextend DIMENSIONS dir)
    (hi : data.beg IDIR - MHD.iextend DIMENSIONS dir ≤ i
      ∧ i < data.end_ IDIR + sweepOffset dir IDIR + MHD.iextend DIMENSIONS dir) :
    (MHD.Physics.ExtrapolatePrimVar DIMENSIONS 2 NVAR data dir).PrimL n k j i
      = if n = MHD.normalChannel dir then data.Vs dir k j i
        else data.Vc n (k - sweepOffset dir KDIR) (j - sweepOffset dir JDIR)
            (i - sweepOffset dir IDIR)
          + HALF_F * HD.VanLeer
            (data.Vc n k j i - data.Vc n (k - sweepOffset dir KDIR) (j - sweepOffset dir JDIR)
              (i - sweepOffset dir IDIR))
            (data.Vc n (k - sweepOffset dir KDIR) (j - sweepOffset dir JDIR)
                (i - sweepOffset dir IDIR)
              - data.Vc n (k - sweepOffset dir KDIR - sweepOffset dir KDIR)
                (j - sweepOffset dir JDIR - sweepOffset dir JDIR)
                (i - sweepOffset dir IDIR - sweepOffset dir IDIR)) := by
  have hK := sweepOffset_nonneg dir KDIR
  have hJ := sweepOffset_nonneg dir JDIR
  have hI := sweepOffset_nonneg dir IDIR
  have h := MHD_Extrapolate2_PrimL DIMENSIONS NVAR data dir n (k - sweepOffset dir KDIR)
    (j - sweepOffset dir JDIR) (i - sweepOffset dir IDIR) hn (by omega) (by omega) (by omega)
  simp only [sub_add_cancel] at h
  exact h

/-- C12. In the MHD reconstruction along `d` (`ORDER` 1 and 2) the face-normal
magnetic channel is taken from the staggered field: for every interface `x` of
the Riemann range (`beg <= x_d <= end` along `d`, the extended range across),
`PrimL(BXd,x) = PrimR(BXd,x) = V_s(d,x)`, whatever `V_c` holds; every other
channel follows the rule on `V_c`: the donor cells for `ORDER == 1`, the
limited slopes of the cells `x - e_d` and `x` for `ORDER == 2`. -/
theorem ExtrapolatePrimVar_MHD_normal_from_staggered (DIMENSIONS ORDER : ℕ) (NVAR : ℤ)
    (data : DataBlock) (dir : ℤ) (hO : ORDER = 1 ∨ ORDER = 2)
    (hdir : dir = IDIR ∨ dir = JDIR ∨ dir = KDIR) (hB : MHD.normalChannel dir < NVAR)
    (k j i : ℤ)
    (hk : data.beg KDIR - MHD.kextend DIMENSIONS dir ≤ k
      ∧ k < data.end_ KDIR + sweepOffset dir KDIR + MHD.kextend DIMENSIONS dir)
    (hj : data.beg JDIR - MHD.jextend DIMENSIONS dir ≤ j
      ∧ j < data.end_ JDIR + sweepOffset dir JDIR + MHD.jextend DIMENSIONS dir)
    (hi : data.beg IDIR - MHD.iextend DIMENSIONS dir ≤ i
      ∧ i < data.end_ IDIR + sweepOffset dir IDIR + MHD.iextend DIMENSIONS dir) :
    ((MHD.Physics.ExtrapolatePrimVar DIMENSIONS ORDER NVAR data dir).PrimL
          (MHD.normalChannel dir) k j i = data.Vs dir k j i
      ∧ (MHD.Physics.ExtrapolatePrimVar DIMENSIONS ORDER NVAR data dir).PrimR
          (MHD.normalChannel dir) k j i = data.Vs dir k j i)
    ∧ (∀ Vc' : IdefixArray4D,
        (MHD.Physics.ExtrapolatePrimVar DIMENSIONS ORDER NVAR { data with Vc := Vc' } dir).PrimL
            (MHD.normalChannel dir) k j i
          = (MHD.Physics.ExtrapolatePrimVar DIMENSIONS ORDER NVAR data dir).PrimL
              (MHD.normalChannel dir) k j i
        ∧ (MHD.Physics.ExtrapolatePrimVar DIMENSIONS ORDER NVAR { data with Vc := Vc' } dir).PrimR
            (MHD.normalChannel dir) k j i
          = (MHD.Physics.ExtrapolatePrimVar DIMENSIONS ORDER NVAR data dir).PrimR
              (MHD.normalChannel dir) k j i)
    ∧ (∀ n, 0 ≤ n ∧ n < NVAR → n ≠ MHD.normalChannel dir →
        (ORDER = 1 →
          (MHD.Physics.ExtrapolatePrimVar DIMENSIONS ORDER NVAR data dir).PrimL n k j i
              = data.Vc n (k - sweepOffset dir KDIR) (j - sweepOffset dir JDIR)
                  (i - sweepOffset dir IDIR)
          ∧ (MHD.Physics.ExtrapolatePrimVar DIMENSIONS ORDER NVAR data dir).PrimR n k j i
              = data.Vc n k j i)
        ∧ (ORDER = 2 →
          (MHD.Physics.ExtrapolatePrimVar DIMENSIONS ORDER NVAR data dir).PrimL n k j i
              = data.Vc n (k - sweepOffset dir KDIR) (j - sweepOffset dir JDIR)
                  (i - sweepOffset dir IDIR)
                + HALF_F * HD.VanLeer
                  (data.Vc n k j i - data.Vc n (k - sweepOffset dir KDIR)
                    (j - sweepOffset dir JDIR) (i - sweepOffset dir IDIR))
                  (data.Vc n (k - sweepOffset dir KDIR) (j - sweepOffset dir JDIR)
                      (i - sweepOffset dir IDIR)
                    - data.Vc n (k - sweepOffset dir KDIR - sweepOffset dir KDIR)
                      (j - sweepOffset dir JDIR - sweepOffset dir JDIR)
                      (i - sweepOffset dir IDIR - sweepOffset dir IDIR))
          ∧ (MHD.Physics.ExtrapolatePrimVar DIMENSIONS ORDER NVAR data dir).PrimR n k j i
              = data.Vc n k j i - HALF_F * HD.VanLeer
                  (data.Vc n (k + sweepOffset dir KDIR) (j + sweepOffset dir JDIR)
                    (i + sweepOffset dir IDIR) - data.Vc n k j i)
                  (data.Vc n k j i - data.Vc n (k - sweepOffset dir KDIR)
                    (j - sweepOffset dir JDIR) (i - sweepOffset dir IDIR)))) := by
  have hK := sweepOffset_nonneg dir KDIR
  have hJ := sweepOffset_nonneg dir JDIR
  have hI := sweepOffset_nonneg dir IDIR
  have hB0 : 0 ≤ MHD.normalChannel dir := by
    rcases hdir with rfl | rfl | rfl <;> decide
  -- the two second-order ranges contain the first-order one
  have hk2 : data.beg KDIR - sweepOffset dir KDIR - MHD.kextend DIMENSIONS dir ≤ k
      ∧ k < data.end_ KDIR + sweepOffset dir KDIR + MHD.kextend DIMENSIONS dir := by omega
  have hj2 : data.beg JDIR - sweepOffset dir JDIR - MHD.jextend DIMENSIONS dir ≤ j
      ∧ j < data.end_ JDIR + sweepOffset dir JDIR + MHD.jextend DIMENSIONS dir := by omega
  have hi2 : data.beg IDIR - sweepOffset dir IDIR - MHD.iextend DIMENSIONS dir ≤ i
      ∧ i < data.end_ IDIR + sweepOffset dir IDIR + MHD.iextend DIMENSIONS dir := by omega
  have main : ∀ d' : DataBlock, d'.Vs = data.Vs → d'.beg = data.beg → d'.end_ = data.end_ →
      (MHD.Physics.ExtrapolatePrimVar DIMENSIONS ORDER NVAR d' dir).PrimL
          (MHD.normalChannel dir) k j i = data.Vs dir k j i
      ∧ (MHD.Physics.ExtrapolatePrimVar DIMENSIONS ORDER NVAR d' dir).PrimR
          (MHD.normalChannel dir) k j i = data.Vs dir k j i := by
    intro d' e1 e2 e3
    rcases hO with rfl | rfl
    · rw [MHD_Extrapolate1_PrimL DIMENSIONS NVAR d' dir _ k j i ⟨hB0, hB⟩ (by rw [e2, e3]; exact hk)
          (by rw [e2, e3]; exact hj) (by rw [e2, e3]; exact hi),
        MHD_Extrapolate1_PrimR DIMENSIONS NVAR d' dir _ k j i ⟨hB0, hB⟩ (by rw [e2, e3]; exact hk)
          (by rw [e2, e3]; exact hj) (by rw [e2, e3]; exact hi)]
      simp only [if_pos, e1, and_self]
    · rw [MHD_Extrapolate2_PrimL_interface DIMENSIONS NVAR d' dir _ k j i ⟨hB0, hB⟩
          (by rw [e2, e3]; exact hk) (by rw [e2, e3]; exact hj) (by rw [e2, e3]; exact hi),
        MHD_Extrapolate2_PrimR DIMENSIONS NVAR d' dir _ k j i ⟨hB0, hB⟩
          (by rw [e2, e3]; exact hk2) (by rw [e2, e3]; exact hj2) (by rw [e2, e3]; exact hi2)]
      simp only [if_pos, e1, and_self]
  refine ⟨main data rfl rfl rfl, fun Vc' => ?_, fun n hn hne => ⟨fun h1 => ?_, fun h2 => ?_⟩⟩
  · have a := main { data with Vc := Vc' } rfl rfl rfl
    have b := main data rfl rfl rfl
    exact ⟨a.1.trans b.1.symm, a.2.trans b.2.symm⟩
  · subst h1
    rw [MHD_Extrapolate1_PrimL DIMENSIONS NVAR data dir n k j i hn hk hj hi,
      MHD_Extrapolate1_PrimR DIMENSIONS NVAR data dir n k j i hn hk hj hi]
    simp only [if_neg hne, and_self]
  · subst h2
    rw [MHD_Extrapolate2_PrimL_interface DIMENSIONS NVAR data dir n k j i hn hk hj hi,
      MHD_Extrapolate2_PrimR DIMENSIONS NVAR data dir n k j i hn hk2 hj2 hi2]
    simp only [if_neg hne, and_self]

/-- The sweep along direction 1 of the 1D grid with `V_s = 1`, `V_c = 0`, at
the interface `i = 2`. -/
theorem ExtrapolatePrimVar_MHD_normal_from_staggered_witness :
    (MHD.Physics.ExtrapolatePrimVar 1 2 8 grid1D_Vs1 IDIR).PrimL (MHD.normalChannel IDIR) 0 0 2
        = grid1D_Vs1.Vs IDIR 0 0 2
    ∧ (MHD.Physics.ExtrapolatePrimVar 1 2 8 grid1D_Vs1 IDIR).PrimR (MHD.normalChannel IDIR) 0 0 2
        = grid1D_Vs1.Vs IDIR 0 0 2 :=
  (ExtrapolatePrimVar_MHD_normal_from_staggered 1 2 8 grid1D_Vs1 IDIR (Or.inr rfl) (Or.inl rfl)
    (by decide) 0 0 2 (by decide) (by decide) (by decide)).1

/-! ## The Riemann flux (HD) -/

theorem foldl_triple {α β γ ι : Type} (f : ι → α → α) (g : ι → β → β) (h : ι → γ → γ)
    (l : List ι) (s : α × β × γ) :
    l.foldl (fun (s : α × β × γ) x => (f x s.1, g x s.2.1, h x s.2.2)) s
      = (l.foldl (fun a x => f x a) s.1, l.foldl (fun b x => g x b) s.2.1,
          l.foldl (fun c x => h x c) s.2.2) := by
  induction l generalizing s with
  | nil => rfl
  | cons a l ih => simp only [List.foldl_cons]; rw [ih]

theorem RiemannStates_eq (NVAR : ℤ) (PrimL PrimR : IdefixArray4D) (k j i : ℤ) :
    HD.RiemannStates NVAR PrimL PrimR k j i
      = (cellVector NVAR PrimL k j i, cellVector NVAR PrimR k j i,
          fun m => if 0 ≤ m ∧ m < NVAR then HALF_F * (PrimL m k j i + PrimR m k j i)
            else localArray m) := by
  unfold HD.RiemannStates forLoop
  simp only [set1_self]
  rw [foldl_triple (fun nv (v : IdefixArray1D) => set1 v nv (PrimL nv k j i))
    (fun nv (v : IdefixArray1D) => set1 v nv (PrimR nv k j i))
    (fun nv (v : IdefixArray1D) => set1 v nv (HALF_F * (PrimL nv k j i + PrimR nv k j i)))]
  refine Prod.ext ?_ (Prod.ext ?_ ?_)
  · funext m
    exact forLoop_gather NVAR (fun nv => PrimL nv k j i) localArray m
  · funext m
    exact forLoop_gather NVAR (fun nv => PrimR nv k j i) localArray m
  · funext m
    exact forLoop_gather NVAR (fun nv => HALF_F * (PrimL nv k j i + PrimR nv k j i))
      localArray m

/-- The value that the lambda of `CalcRiemannFlux` stores in `Flux(n,k,j,i)`,
from the local states of the interface. -/
theorem RiemannFlux_body_Flux (HAVE_ENERGY ISOTHERMAL : Bool) (SQRT : real → real) (NVAR : ℤ)
    (PrimL PrimR : IdefixArray4D) (dx : IdefixArray1D) (gamma_m1 C2Iso : real)
    (dir koffset joffset ioffset : ℤ) (k j i : ℤ) (S : IdefixArray4D × IdefixArray3D)
    (n k' j' i' : ℤ) :
    (HD.RiemannFlux_body HAVE_ENERGY ISOTHERMAL SQRT NVAR PrimL PrimR dx gamma_m1 C2Iso dir
        koffset joffset ioffset k j i S).1 n k' j' i'
      = if (0 ≤ n ∧ n < NVAR) ∧ k' = k ∧ j' = j ∧ i' = i then
          HALF_F * (HD.K_Flux HAVE_ENERGY ISOTHERMAL localArray (cellVector NVAR PrimL k j i)
                (HD.K_PrimToCons HAVE_ENERGY localArray (cellVector NVAR PrimL k j i) gamma_m1)
                C2Iso dir n
            + HD.K_Flux HAVE_ENERGY ISOTHERMAL localArray (cellVector NVAR PrimR k j i)
                (HD.K_PrimToCons HAVE_ENERGY localArray (cellVector NVAR PrimR k j i) gamma_m1)
                C2Iso dir n
            - HD.signalSpeed HAVE_ENERGY SQRT
                (fun m => if 0 ≤ m ∧ m < NVAR then HALF_F * (PrimL m k j i + PrimR m k j i)
                  else localArray m) gamma_m1 C2Iso dir
              * (HD.K_PrimToCons HAVE_ENERGY localArray (cellVector NVAR PrimR k j i) gamma_m1 n
                - HD.K_PrimToCons HAVE_ENERGY localArray (cellVector NVAR PrimL k j i)
                    gamma_m1 n))
        else S.1 n k' j' i' := by
  unfold HD.RiemannFlux_body
  simp only [RiemannStates_eq]
  exact forLoop_scatter NVAR _ k j i S.1 n k' j' i'

theorem HD_CalcRiemannFlux_cell (this : HD.Physics) (HAVE_ENERGY ISOTHERMAL : Bool)
    (SQRT : real → real) (NVAR : ℤ) (data : DataBlock) (dir : ℤ) (n k j i : ℤ)
    (hn : 0 ≤ n ∧ n < NVAR)
    (hk : data.beg KDIR ≤ k ∧ k < data.end_ KDIR + sweepOffset dir KDIR)
    (hj : data.beg JDIR ≤ j ∧ j < data.end_ JDIR + sweepOffset dir JDIR)
    (hi : data.beg IDIR ≤ i ∧ i < data.end_ IDIR + sweepOffset dir IDIR) :
    (this.CalcRiemannFlux HAVE_ENERGY ISOTHERMAL SQRT NVAR data dir).FluxRiemann n k j i
      = HALF_F * (HD.K_Flux HAVE_ENERGY ISOTHERMAL localArray (cellVector NVAR data.PrimL k j i)
                (HD.K_PrimToCons HAVE_ENERGY localArray (cellVector NVAR data.PrimL k j i)
                  (this.gamma - ONE_F)) this.C2Iso dir n
            + HD.K_Flux HAVE_ENERGY ISOTHERMAL localArray (cellVector NVAR data.PrimR k j i)
                (HD.K_PrimToCons HAVE_ENERGY localArray (cellVector NVAR data.PrimR k j i)
                  (this.gamma - ONE_F)) this.C2Iso dir n
            - HD.signalSpeed HAVE_ENERGY SQRT
                (fun m => if 0 ≤ m ∧ m < NVAR then
                    HALF_F * (data.PrimL m k j i + data.PrimR m k j i)
                  else localArray m) (this.gamma - ONE_F) this.C2Iso dir
              * (HD.K_PrimToCons HAVE_ENERGY localArray (cellVector NVAR data.PrimR k j i)
                    (this.gamma - ONE_F) n
                - HD.K_PrimToCons HAVE_ENERGY localArray (cellVector NVAR data.PrimL k j i)
                    (this.gamma - ONE_F) n)) := by
  simp only [HD.Physics.CalcRiemannFlux]
  exact idefix_for3_pointwise _ _ _ _ _ _
    (HD.RiemannFlux_body HAVE_ENERGY ISOTHERMAL SQRT NVAR data.PrimL data.PrimR (data.dx dir)
      (this.gamma - ONE_F) this.C2Iso dir (sweepOffset dir KDIR) (sweepOffset dir JDIR)
      (sweepOffset dir IDIR))
    (fun (S : IdefixArray4D × IdefixArray3D) (x : ℤ × ℤ × ℤ) => S.1 n x.1 x.2.1 x.2.2)
    (fun x _ => HALF_F * (HD.K_Flux HAVE_ENERGY ISOTHERMAL localArray
                (cellVector NVAR data.PrimL x.1 x.2.1 x.2.2)
                (HD.K_PrimToCons HAVE_ENERGY localArray
                  (cellVector NVAR data.PrimL x.1 x.2.1 x.2.2)
                  (this.gamma - ONE_F)) this.C2Iso dir n
            + HD.K_Flux HAVE_ENERGY ISOTHERMAL localArray
                (cellVector NVAR data.PrimR x.1 x.2.1 x.2.2)
                (HD.K_PrimToCons HAVE_ENERGY localArray
                  (cellVector NVAR data.PrimR x.1 x.2.1 x.2.2)
                  (this.gamma - ONE_F)) this.C2Iso dir n
            - HD.signalSpeed HAVE_ENERGY SQRT
                (fun m => if 0 ≤ m ∧ m < NVAR then
                    HALF_F * (data.PrimL m x.1 x.2.1 x.2.2 + data.PrimR m x.1 x.2.1 x.2.2)
                  else localArray m) (this.gamma - ONE_F) this.C2Iso dir
              * (HD.K_PrimToCons HAVE_ENERGY localArray
                    (cellVector NVAR data.PrimR x.1 x.2.1 x.2.2) (this.gamma - ONE_F) n
                - HD.K_PrimToCons HAVE_ENERGY localArray
                    (cellVector NVAR data.PrimL x.1 x.2.1 x.2.2) (this.gamma - ONE_F) n)))
    (fun x s => by
      dsimp only
      rw [RiemannFlux_body_Flux, if_pos ⟨hn, rfl, rfl, rfl⟩])
    (fun x y s hxy => by
      dsimp only
      rw [RiemannFlux_body_Flux, if_neg]
      rintro ⟨_, h2, h3, h4⟩
      exact hxy (by ext <;> dsimp only <;> omega))
    (data.FluxRiemann, data.InvDtHyp) k j i hk hj hi

/-- C13. The HD Riemann flux is the TVDLF (Rusanov) flux: for every interface
`(k,j,i)` of the sweep range and every channel `n`, `CalcRiemannFlux` writes
`Flux(n) = (1/2)*(F_L(n) + F_R(n)) - (1/2)*c_max*(U_R(n) - U_L(n))`, where
`U_L, U_R` are `K_PrimToCons` of the left and right states, `F_L, F_R` their
`K_Flux`, and `c_max = max(|v_d + c|, |v_d - c|)` with `v_d` and
`c = sqrt(gamma*P/rho)` taken at the average state `(V_L+V_R)/2`
(`c = sqrt(C2Iso)` without the energy equation). -/
theorem CalcRiemannFlux_TVDLF (this : HD.Physics) (HAVE_ENERGY ISOTHERMAL : Bool)
    (SQRT : real → real) (NVAR : ℤ) (data : DataBlock) (dir : ℤ)
    (hdir : dir = IDIR ∨ dir = JDIR ∨ dir = KDIR)
    (hNVAR : (if HAVE_ENERGY then 5 else 4) ≤ NVAR) (n k j i : ℤ)
    (hn : 0 ≤ n ∧ n < NVAR)
    (hk : data.beg KDIR ≤ k ∧ k < data.end_ KDIR + sweepOffset dir KDIR)
    (hj : data.beg JDIR ≤ j ∧ j < data.end_ JDIR + sweepOffset dir JDIR)
    (hi : data.beg IDIR ≤ i ∧ i < data.end_ IDIR + sweepOffset dir IDIR) :
    let VL := cellVector NVAR data.PrimL k j i
    let VR := cellVector NVAR data.PrimR k j i
    let UL := HD.K_PrimToCons HAVE_ENERGY localArray VL (this.gamma - ONE_F)
    let UR := HD.K_PrimToCons HAVE_ENERGY localArray VR (this.gamma - ONE_F)
    let FL := HD.K_Flux HAVE_ENERGY ISOTHERMAL localArray VL UL this.C2Iso dir
    let FR := HD.K_Flux HAVE_ENERGY ISOTHERMAL localArray VR UR this.C2Iso dir
    let vd := (VL (VX1 + dir) + VR (VX1 + dir)) / 2
    let P := (VL PRS + VR PRS) / 2
    let rho := (VL RHO + VR RHO) / 2
    let c := if HAVE_ENERGY then SQRT (this.gamma * P / rho) else SQRT this.C2Iso
    let cmax := max |vd + c| |vd - c|
    (this.CalcRiemannFlux HAVE_ENERGY ISOTHERMAL SQRT NVAR data dir).FluxRiemann n k j i
      = (1 / 2) * (FL n + FR n) - (1 / 2) * cmax * (UR n - UL n) := by
  intro VL VR UL UR FL FR vd P rho c cmax
  rw [HD_CalcRiemannFlux_cell this HAVE_ENERGY ISOTHERMAL SQRT NVAR data dir n k j i hn hk hj hi]
  have hN4 : 4 ≤ NVAR := by
    cases HAVE_ENERGY
    · simpa using hNVAR
    · have : (5 : ℤ) ≤ NVAR := by simpa using hNVAR
      omega
  have hd : 0 ≤ VX1 + dir ∧ VX1 + dir < NVAR := by
    rcases hdir with rfl | rfl | rfl <;> simp only [VX1, IDIR, JDIR, KDIR] <;> omega
  have hr : 0 ≤ RHO ∧ RHO < NVAR := by simp only [RHO]; omega
  have hcmax : HD.signalSpeed HAVE_ENERGY SQRT
      (fun m => if 0 ≤ m ∧ m < NVAR then HALF_F * (data.PrimL m k j i + data.PrimR m k j i)
        else localArray m) (this.gamma - ONE_F) this.C2Iso dir = cmax := by
    have e1 : HALF_F * (data.PrimL (VX1 + dir) k j i + data.PrimR (VX1 + dir) k j i) = vd := by
      simp only [vd, VL, VR, cellVector, if_pos hd, HALF_F]; ring
    have e2 : HALF_F * (data.PrimL RHO k j i + data.PrimR RHO k j i) = rho := by
      simp only [rho, VL, VR, cellVector, if_pos hr, HALF_F]; ring
    unfold HD.signalSpeed
    simp only [if_pos hd, if_pos hr, e1, e2, FMAX, FABS]
    cases HAVE_ENERGY
    · simp only [cmax, c, Bool.false_eq_true, if_false]
    · have hp : 0 ≤ PRS ∧ PRS < NVAR := by
        have : (5 : ℤ) ≤ NVAR := by simpa using hNVAR
        simp only [PRS]; omega
      have e3 : HALF_F * (data.PrimL PRS k j i + data.PrimR PRS k j i) = P := by
        simp only [P, VL, VR, cellVector, if_pos hp, HALF_F]; ring
      have e4 : (this.gamma - ONE_F + ONE_F) * (P / rho) = this.gamma * P / rho := by
        simp only [ONE_F]; ring
      simp only [cmax, c, if_true, if_pos hp, e3, e4]
  rw [hcmax]
  simp only [HALF_F, FL, FR, UL, UR, VL, VR]
  ring

/-- The sweep along direction 1 of the 1D grid `grid1D_riemann` at the
interface `i = 2`, with the square root replaced by the identity. -/
theorem CalcRiemannFlux_TVDLF_witness :
    (HD.physicsDefault.CalcRiemannFlux true false id 5 grid1D_riemann IDIR).FluxRiemann RHO
        0 0 2 = -5 / 12 :=
  (CalcRiemannFlux_TVDLF HD.physicsDefault true false id 5 grid1D_riemann IDIR (Or.inl rfl)
    (by decide) RHO 0 0 2 (by decide) (by decide) (by decide) (by decide)).trans (by
      norm_num [cellVector, HD.K_Flux, HD.K_PrimToCons, set1, grid1D_riemann, gridBlock,
        localArray, RHO, VX1, VX2, VX3, MX1, MX2, MX3, PRS, ENG, IDIR, ONE_F,
        HD.physicsDefault, cellState]
      rw [abs_of_pos (by norm_num : (0 : ℚ) < 29 / 6), abs_of_pos (by norm_num : (0 : ℚ) < 11 / 6),
        max_eq_left (by norm_num)]
      norm_num)

/-! ## The physical flux (HD) -/

/-- C14. The HD physical flux in direction `d` is advection plus pressure: for
every primitive state `V` with `U = K_PrimToCons(V)`, `K_Flux` gives
`F[RHO] = V.RHO*V.VXd`, `F[MXn] = U.MXn*V.VXd + (V.PRS if n = d else 0)` for
each momentum component `n` and, in energy mode,
`F[ENG] = (U.ENG + V.PRS)*V.VXd`; in the isothermal build the pressure term
added to `F[MXd]` is `C2Iso*V.RHO`. -/
theorem K_Flux_advection_plus_pressure (F0 U0 V : IdefixArray1D) (gamma_m1 C2Iso : real)
    (ISOTHERMAL : Bool) (dir : ℤ) (hdir : dir = IDIR ∨ dir = JDIR ∨ dir = KDIR) :
    (HD.K_Flux true ISOTHERMAL F0 V (HD.K_PrimToCons true U0 V gamma_m1) C2Iso dir RHO
        = V RHO * V (VX1 + dir)
      ∧ (∀ n, n = IDIR ∨ n = JDIR ∨ n = KDIR →
          HD.K_Flux true ISOTHERMAL F0 V (HD.K_PrimToCons true U0 V gamma_m1) C2Iso dir (MX1 + n)
            = HD.K_PrimToCons true U0 V gamma_m1 (MX1 + n) * V (VX1 + dir)
              + (if n = dir then V PRS else 0))
      ∧ HD.K_Flux true ISOTHERMAL F0 V (HD.K_PrimToCons true U0 V gamma_m1) C2Iso dir ENG
          = (HD.K_PrimToCons true U0 V gamma_m1 ENG + V PRS) * V (VX1 + dir))
    ∧ (HD.K_Flux false true F0 V (HD.K_PrimToCons false U0 V gamma_m1) C2Iso dir RHO
        = V RHO * V (VX1 + dir)
      ∧ (∀ n, n = IDIR ∨ n = JDIR ∨ n = KDIR →
          HD.K_Flux false true F0 V (HD.K_PrimToCons false U0 V gamma_m1) C2Iso dir (MX1 + n)
            = HD.K_PrimToCons false U0 V gamma_m1 (MX1 + n) * V (VX1 + dir)
              + (if n = dir then C2Iso * V RHO else 0))) := by
  refine ⟨⟨?_, ?_, ?_⟩, ?_, ?_⟩
  · rcases hdir with rfl | rfl | rfl <;>
      simp [HD.K_Flux, HD.K_PrimToCons, set1, RHO, VX1, VX2, VX3, MX1, MX2, MX3, PRS, ENG,
        IDIR, JDIR, KDIR] <;> ring
  · intro n hn
    rcases hdir with rfl | rfl | rfl <;> rcases hn with rfl | rfl | rfl <;>
      simp [HD.K_Flux, HD.K_PrimToCons, set1, RHO, VX1, VX2, VX3, MX1, MX2, MX3, PRS, ENG,
        IDIR, JDIR, KDIR]
  · rcases hdir with rfl | rfl | rfl <;>
      simp [HD.K_Flux, HD.K_PrimToCons, set1, RHO, VX1, VX2, VX3, MX1, MX2, MX3, PRS, ENG,
        IDIR, JDIR, KDIR]
  · rcases hdir with rfl | rfl | rfl <;>
      simp [HD.K_Flux, HD.K_PrimToCons, set1, RHO, VX1, VX2, VX3, MX1, MX2, MX3, PRS, ENG,
        IDIR, JDIR, KDIR] <;> ring
  · intro n hn
    rcases hdir with rfl | rfl | rfl <;> rcases hn with rfl | rfl | rfl <;>
      simp [HD.K_Flux, HD.K_PrimToCons, set1, RHO, VX1, VX2, VX3, MX1, MX2, MX3, PRS, ENG,
        IDIR, JDIR, KDIR]

/-- The flux along direction 2 of the state `rho = 2`, `v = (3,5,7)`,
`P = 11` with `gamma - 1 = 2/3`. -/
theorem K_Flux_advection_plus_pressure_witness :
    HD.K_Flux true false localArray (cellState 2 3 5 7 11)
        (HD.K_PrimToCons true localArray (cellState 2 3 5 7 11) (2 / 3)) 1 JDIR RHO
      = cellState 2 3 5 7 11 RHO * cellState 2 3 5 7 11 (VX1 + JDIR) :=
  (K_Flux_advection_plus_pressure localArray localArray (cellState 2 3 5 7 11) (2 / 3) 1 false
    JDIR (Or.inr (Or.inl rfl))).1.1

/-! ## Flux divergence (HD): the frame -/

theorem idefix_for4_untouched {σ α : Type} (b0 e0 b1 e1 b2 e2 b3 e3 : ℤ)
    (body : ℤ → ℤ → ℤ → ℤ → σ → σ) (view : σ → ℤ × ℤ × ℤ × ℤ → α)
    (hframe : ∀ x y s, x ≠ y → view (body x.1 x.2.1 x.2.2.1 x.2.2.2 s) y = view s y)
    (s : σ) (n k j i : ℤ)
    (h : ¬ ((b0 ≤ n ∧ n < e0) ∧ (b1 ≤ k ∧ k < e1) ∧ (b2 ≤ j ∧ j < e2) ∧ (b3 ≤ i ∧ i < e3))) :
    view (idefix_for4 b0 e0 b1 e1 b2 e2 b3 e3 body s) (n, k, j, i) = view s (n, k, j, i) := by
  unfold idefix_for4
  exact foldl_untouched (fun (x : ℤ × ℤ × ℤ × ℤ) s => body x.1 x.2.1 x.2.2.1 x.2.2.2 s)
    view (n, k, j, i) _ (fun x hx s => hframe x (n, k, j, i) s (by
      rintro rfl
      exact h ((mem_box4 _ _ _ _ _ _ _ _ _ _ _ _).1 hx))) s

theorem HD_RightHandSide_ghost (NVAR : ℤ) (data : DataBlock) (dir : ℤ) (dt : real)
    (n k j i : ℤ)
    (h : ¬ ((0 ≤ n ∧ n < NVAR) ∧ (data.beg KDIR ≤ k ∧ k < data.end_ KDIR)
      ∧ (data.beg JDIR ≤ j ∧ j < data.end_ JDIR) ∧ (data.beg IDIR ≤ i ∧ i < data.end_ IDIR))) :
    (HD.Physics.CalcRightHandSide NVAR data dir dt).Uc n k j i = data.Uc n k j i := by
  simp only [HD.Physics.CalcRightHandSide]
  exact idefix_for4_untouched _ _ _ _ _ _ _ _ _
    (fun (U : IdefixArray4D) (x : ℤ × ℤ × ℤ × ℤ) => U x.1 x.2.1 x.2.2.1 x.2.2.2)
    (fun x y s hxy => by
      simp only [HD.RightHandSide_body]
      apply set4_ne
      intro h
      apply hxy
      obtain ⟨h1, h2, h3, h4⟩ := h
      ext <;> dsimp only <;> omega)
    _ n k j i h

/-- C15. Flux divergence (HD `CalcRightHandSide` along `d` with step `dt`):
for every channel `n` and every active cell `x`,
`U_new(n,x) = U_old(n,x) - dt/dx[d](x_d)*(Flux(n,x+e_d) - Flux(n,x))`; every
ghost cell of `U_c`, and the `Flux` array, are left unchanged, and a second
sweep (along `d2`, with the flux `F2` computed in between) adds its own
difference to the same `U_c`. -/
theorem HD_CalcRightHandSide_frame (NVAR : ℤ) (data : DataBlock) (dir : ℤ) (dt : real)
    (dir2 : ℤ) (F2 : IdefixArray4D) :
    (∀ n k j i, 0 ≤ n ∧ n < NVAR → data.beg KDIR ≤ k ∧ k < data.end_ KDIR →
        data.beg JDIR ≤ j ∧ j < data.end_ JDIR → data.beg IDIR ≤ i ∧ i < data.end_ IDIR →
        (HD.Physics.CalcRightHandSide NVAR data dir dt).Uc n k j i
          = data.Uc n k j i
            - dt / data.dx dir (sweepOffset dir IDIR * i + sweepOffset dir JDIR * j
                + sweepOffset dir KDIR * k)
              * (data.FluxRiemann n (k + sweepOffset dir KDIR) (j + sweepOffset dir JDIR)
                  (i + sweepOffset dir IDIR) - data.FluxRiemann n k j i))
    ∧ (∀ n k j i, ¬ ((data.beg KDIR ≤ k ∧ k < data.end_ KDIR)
          ∧ (data.beg JDIR ≤ j ∧ j < data.end_ JDIR)
          ∧ (data.beg IDIR ≤ i ∧ i < data.end_ IDIR)) →
        (HD.Physics.CalcRightHandSide NVAR data dir dt).Uc n k j i = data.Uc n k j i)
    ∧ (HD.Physics.CalcRightHandSide NVAR data dir dt).FluxRiemann = data.FluxRiemann
    ∧ (∀ n k j i, 0 ≤ n ∧ n < NVAR → data.beg KDIR ≤ k ∧ k < data.end_ KDIR →
        data.beg JDIR ≤ j ∧ j < data.end_ JDIR → data.beg IDIR ≤ i ∧ i < data.end_ IDIR →
        (HD.Physics.CalcRightHandSide NVAR
            { HD.Physics.CalcRightHandSide NVAR data dir dt with FluxRiemann := F2 }
            dir2 dt).Uc n k j i
          = data.Uc n k j i
            - dt / data.dx dir (sweepOffset dir IDIR * i + sweepOffset dir JDIR * j
                + sweepOffset dir KDIR * k)
              * (data.FluxRiemann n (k + sweepOffset dir KDIR) (j + sweepOffset dir JDIR)
                  (i + sweepOffset dir IDIR) - data.FluxRiemann n k j i)
            - dt / data.dx dir2 (sweepOffset dir2 IDIR * i + sweepOffset dir2 JDIR * j
                + sweepOffset dir2 KDIR * k)
              * (F2 n (k + sweepOffset dir2 KDIR) (j + sweepOffset dir2 JDIR)
                  (i + sweepOffset dir2 IDIR) - F2 n k j i)) := by
  refine ⟨fun n k j i hn hk hj hi => HD_RightHandSide_active NVAR data dir dt n k j i hn hk hj hi,
    fun n k j i h => HD_RightHandSide_ghost NVAR data dir dt n k j i (fun hh => h hh.2),
    rfl, fun n k j i hn hk hj hi => ?_⟩
  refine (HD_RightHandSide_active NVAR
    { HD.Physics.CalcRightHandSide NVAR data dir dt with FluxRiemann := F2 } dir2 dt n k j i
    hn hk hj hi).trans ?_
  show (HD.Physics.CalcRightHandSide NVAR data dir dt).Uc n k j i - _ = _
  rw [HD_RightHandSide_active NVAR data dir dt n k j i hn hk hj hi]
  rfl

/-- The sweep along direction 1 of the 1D grid with `U_c = i` and
`Flux = i*i`, `dt = 1/2`: the active cell `i = 3` and the ghost cell `i = 1`. -/
theorem HD_CalcRightHandSide_frame_witness :
    (HD.Physics.CalcRightHandSide 5 grid1D_flux IDIR (1 / 2)).Uc 0 0 0 3 = -1 / 2
    ∧ (HD.Physics.CalcRightHandSide 5 grid1D_flux IDIR (1 / 2)).Uc 0 0 0 1 = 1 :=
  ⟨((HD_CalcRightHandSide_frame 5 grid1D_flux IDIR (1 / 2) IDIR (fun _ _ _ _ => 0)).1 0 0 0 3
      (by decide) (by decide) (by decide) (by decide)).trans (by
        norm_num [grid1D_flux, grid1D, gridBlock, sweepOffset, IDIR, JDIR, KDIR]),
    ((HD_CalcRightHandSide_frame 5 grid1D_flux IDIR (1 / 2) IDIR (fun _ _ _ _ => 0)).2.1 0 0 0 1
      (by decide)).trans (by norm_num [grid1D_flux])⟩

/-! ## Flux divergence (MHD) -/

/-- The lambda of the MHD `CalcRightHandSide` at `(k,j,i)`, entry by entry. -/
theorem MHD_RightHandSide_body_eq (DIMENSIONS : ℕ) (NVAR : ℤ) (dx : IdefixArray1D)
    (Flux : IdefixArray4D) (dt : real) (koffset joffset ioffset : ℤ) (k j i : ℤ)
    (Uc : IdefixArray4D) (n k' j' i' : ℤ) :
    MHD.RightHandSide_body DIMENSIONS NVAR dx Flux dt koffset joffset ioffset k j i Uc n k' j' i'
      = if ((0 ≤ n ∧ n < NVAR)
            ∧ ¬ (n = BX1 ∨ (2 ≤ DIMENSIONS ∧ n = BX2) ∨ (3 ≤ DIMENSIONS ∧ n = BX3)))
            ∧ k' = k ∧ j' = j ∧ i' = i then
          Uc n k j i - dt / dx (ioffset * i + joffset * j + koffset * k)
            * (Flux n (k + koffset) (j + joffset) (i + ioffset) - Flux n k j i)
        else Uc n k' j' i' := by
  unfold MHD.RightHandSide_body forLoop
  by_cases hc : k' = k ∧ j' = j ∧ i' = i
  · obtain ⟨rfl, rfl, rfl⟩ := hc
    by_cases hn : 0 ≤ n ∧ n < NVAR
    · have := foldl_pointwise
        (fun nv (Uc : IdefixArray4D) =>
          if nv = BX1 ∨ (2 ≤ DIMENSIONS ∧ nv = BX2) ∨ (3 ≤ DIMENSIONS ∧ nv = BX3) then Uc
          else set4 Uc nv k' j' i' (Uc nv k' j' i'
            - dt / dx (ioffset * i' + joffset * j' + koffset * k')
              * (Flux nv (k' + koffset) (j' + joffset) (i' + ioffset) - Flux nv k' j' i')))
        (fun (A : IdefixArray4D) m => A m k' j' i')
        (fun m u => if m = BX1 ∨ (2 ≤ DIMENSIONS ∧ m = BX2) ∨ (3 ≤ DIMENSIONS ∧ m = BX3) then u
          else u - dt / dx (ioffset * i' + joffset * j' + koffset * k')
              * (Flux m (k' + koffset) (j' + joffset) (i' + ioffset) - Flux m k' j' i'))
        (fun x s => by
          dsimp only
          split_ifs
          · rfl
          · exact set4_self _ _ _ _ _ _)
        (fun x y s hxy => by
          dsimp only
          split_ifs
          · rfl
          · exact set4_ne _ _ _ _ _ _ _ _ _ _ (fun hh => hxy hh.1.symm))
        (irange 0 NVAR) (nodup_irange 0 NVAR) Uc n ((mem_irange _ _ _).2 hn)
      dsimp only at this ⊢
      rw [this]
      by_cases hs : n = BX1 ∨ (2 ≤ DIMENSIONS ∧ n = BX2) ∨ (3 ≤ DIMENSIONS ∧ n = BX3)
      · rw [if_pos hs, if_neg (fun hh => hh.1.2 hs)]
      · rw [if_neg hs, if_pos ⟨⟨hn, hs⟩, rfl, rfl, rfl⟩]
    · rw [if_neg (fun hh => hn hh.1.1)]
      exact foldl_untouched
        (fun nv (Uc : IdefixArray4D) =>
          if nv = BX1 ∨ (2 ≤ DIMENSIONS ∧ nv = BX2) ∨ (3 ≤ DIMENSIONS ∧ nv = BX3) then Uc
          else set4 Uc nv k' j' i' (Uc nv k' j' i'
            - dt / dx (ioffset * i' + joffset * j' + koffset * k')
              * (Flux nv (k' + koffset) (j' + joffset) (i' + ioffset) - Flux nv k' j' i')))
        (fun (A : IdefixArray4D) m => A m k' j' i') n _
        (fun x hx s => by
          dsimp only
          split_ifs
          · rfl
          · exact set4_ne _ _ _ _ _ _ _ _ _ _ (fun hh => hn (hh.1 ▸ (mem_irange _ _ _).1 hx))) Uc
  · rw [if_neg (fun hh => hc hh.2)]
    exact foldl_untouched
      (fun nv (Uc : IdefixArray4D) =>
        if nv = BX1 ∨ (2 ≤ DIMENSIONS ∧ nv = BX2) ∨ (3 ≤ DIMENSIONS ∧ nv = BX3) then Uc
        else set4 Uc nv k j i (Uc nv k j i
          - dt / dx (ioffset * i + joffset * j + koffset * k)
            * (Flux nv (k + koffset) (j + joffset) (i + ioffset) - Flux nv k j i)))
      (fun (A : IdefixArray4D) (p : ℤ × ℤ × ℤ × ℤ) => A p.1 p.2.1 p.2.2.1 p.2.2.2)
      (n, k', j', i') _
      (fun x hx s => by
        dsimp only
        split_ifs
        · rfl
        · exact set4_ne _ _ _ _ _ _ _ _ _ _ (fun hh => hc hh.2)) Uc

theorem idefix_for3_untouched {σ α : Type} (b1 e1 b2 e2 b3 e3 : ℤ)
    (body : ℤ → ℤ → ℤ → σ → σ) (view : σ → ℤ × ℤ × ℤ → α)
    (hframe : ∀ x y s, x ≠ y → view (body x.1 x.2.1 x.2.2 s) y = view s y)
    (s : σ) (k j i : ℤ)
    (h : ¬ ((b1 ≤ k ∧ k < e1) ∧ (b2 ≤ j ∧ j < e2) ∧ (b3 ≤ i ∧ i < e3))) :
    view (idefix_for3 b1 e1 b2 e2 b3 e3 body s) (k, j, i) = view s (k, j, i) := by
  unfold idefix_for3
  exact foldl_untouched (fun (x : ℤ × ℤ × ℤ) s => body x.1 x.2.1 x.2.2 s)
    view (k, j, i) _ (fun x hx s => hframe x (k, j, i) s (by
      rintro rfl
      exact h ((mem_box3 _ _ _ _ _ _ _ _ _).1 hx))) s

/-- A loop over a box whose iteration `x` changes nothing that `view` shows
leaves the view as it was. -/
theorem idefix_for3_invariant {σ α : Type} (b1 e1 b2 e2 b3 e3 : ℤ)
    (body : ℤ → ℤ → ℤ → σ → σ) (view : σ → α)
    (h : ∀ k j i s, view (body k j i s) = view s) (s : σ) :
    view (idefix_for3 b1 e1 b2 e2 b3 e3 body s) = view s := by
  unfold idefix_for3
  exact foldl_preserve (fun (x : ℤ × ℤ × ℤ) s => body x.1 x.2.1 x.2.2 s)
    (fun s' => view s' = view s) _
    (fun x _ s' hs' => by
      show view (body x.1 x.2.1 x.2.2 s') = view s
      rw [h]; exact hs') s rfl

theorem MHD_RightHandSide_active (DIMENSIONS : ℕ) (NVAR : ℤ) (data : DataBlock) (dir : ℤ)
    (dt : real) (n k j i : ℤ) (hn : 0 ≤ n ∧ n < NVAR)
    (hs : ¬ (n = BX1 ∨ (2 ≤ DIMENSIONS ∧ n = BX2) ∨ (3 ≤ DIMENSIONS ∧ n = BX3)))
    (hk : data.beg KDIR ≤ k ∧ k < data.end_ KDIR)
    (hj : data.beg JDIR ≤ j ∧ j < data.end_ JDIR)
    (hi : data.beg IDIR ≤ i ∧ i < data.end_ IDIR) :
    (MHD.Physics.CalcRightHandSide DIMENSIONS NVAR data dir dt).Uc n k j i
      = data.Uc n k j i
        - dt / data.dx dir (sweepOffset dir IDIR * i + sweepOffset dir JDIR * j
            + sweepOffset dir KDIR * k)
          * (data.FluxRiemann n (k + sweepOffset dir KDIR) (j + sweepOffset dir JDIR)
              (i + sweepOffset dir IDIR) - data.FluxRiemann n k j i) := by
  simp only [MHD.Physics.CalcRightHandSide]
  exact idefix_for3_pointwise _ _ _ _ _ _
    (MHD.RightHandSide_body DIMENSIONS NVAR (data.dx dir) data.FluxRiemann dt
      (sweepOffset dir KDIR) (sweepOffset dir JDIR) (sweepOffset dir IDIR))
    (fun (U : IdefixArray4D) (x : ℤ × ℤ × ℤ) => U n x.1 x.2.1 x.2.2)
    (fun x u => u
        - dt / data.dx dir (sweepOffset dir IDIR * x.2.2 + sweepOffset dir JDIR * x.2.1
            + sweepOffset dir KDIR * x.1)
          * (data.FluxRiemann n (x.1 + sweepOffset dir KDIR) (x.2.1 + sweepOffset dir JDIR)
              (x.2.2 + sweepOffset dir IDIR) - data.FluxRiemann n x.1 x.2.1 x.2.2))
    (fun x s => by
      dsimp only
      rw [MHD_RightHandSide_body_eq, if_pos ⟨⟨hn, hs⟩, rfl, rfl, rfl⟩])
    (fun x y s hxy => by
      dsimp only
      rw [MHD_RightHandSide_body_eq, if_neg]
      rintro ⟨_, h2, h3, h4⟩
      exact hxy (by ext <;> dsimp only <;> omega))
    data.Uc k j i hk hj hi

theorem MHD_RightHandSide_skipped (DIMENSIONS : ℕ) (NVAR : ℤ) (data : DataBlock) (dir : ℤ)
    (dt : real) (n k j i : ℤ)
    (h : ¬ (((0 ≤ n ∧ n < NVAR)
        ∧ ¬ (n = BX1 ∨ (2 ≤ DIMENSIONS ∧ n = BX2) ∨ (3 ≤ DIMENSIONS ∧ n = BX3)))
      ∧ (data.beg KDIR ≤ k ∧ k < data.end_ KDIR) ∧ (data.beg JDIR ≤ j ∧ j < data.end_ JDIR)
      ∧ (data.beg IDIR ≤ i ∧ i < data.end_ IDIR))) :
    (MHD.Physics.CalcRightHandSide DIMENSIONS NVAR data dir dt).Uc n k j i
      = data.Uc n k j i := by
  simp only [MHD.Physics.CalcRightHandSide]
  by_cases hc : (0 ≤ n ∧ n < NVAR)
      ∧ ¬ (n = BX1 ∨ (2 ≤ DIMENSIONS ∧ n = BX2) ∨ (3 ≤ DIMENSIONS ∧ n = BX3))
  · exact idefix_for3_untouched _ _ _ _ _ _
      (MHD.RightHandSide_body DIMENSIONS NVAR (data.dx dir) data.FluxRiemann dt
        (sweepOffset dir KDIR) (sweepOffset dir JDIR) (sweepOffset dir IDIR))
      (fun (U : IdefixArray4D) (x : ℤ × ℤ × ℤ) => U n x.1 x.2.1 x.2.2)
      (fun x y s hxy => by
        dsimp only
        rw [MHD_RightHandSide_body_eq, if_neg]
        rintro ⟨_, h2, h3, h4⟩
        exact hxy (by ext <;> dsimp only <;> omega))
      data.Uc k j i (fun hh => h ⟨hc, hh⟩)
  · exact congrFun (idefix_for3_invariant _ _ _ _ _ _
      (MHD.RightHandSide_body DIMENSIONS NVAR (data.dx dir) data.FluxRiemann dt
        (sweepOffset dir KDIR) (sweepOffset dir JDIR) (sweepOffset dir IDIR))
      (fun (U : IdefixArray4D) (x : ℤ × ℤ × ℤ) => U n x.1 x.2.1 x.2.2)
      (fun k j i s => by
        funext x
        dsimp only
        rw [MHD_RightHandSide_body_eq, if_neg (fun hh => hc hh.1)])
      data.Uc) (k, j, i)

/-- C16 (counterexample). In the 1D build only `BX1` is skipped: on the 1D
grid with `U_c = i` and `Flux = i*i` in every channel, the sweep along
direction 1 with `dt = 1/2` changes `U_c(BX2)` and `U_c(BX3)` of the active
cell `i = 2` from `2` to `-1/2`. -/
theorem MHD_CalcRightHandSide_BX2_counterexample :
    grid1D_flux.Uc BX2 0 0 2 = 2
    ∧ (MHD.Physics.CalcRightHandSide 1 8 grid1D_flux IDIR (1 / 2)).Uc BX2 0 0 2 = -1 / 2
    ∧ grid1D_flux.Uc BX3 0 0 2 = 2
    ∧ (MHD.Physics.CalcRightHandSide 1 8 grid1D_flux IDIR (1 / 2)).Uc BX3 0 0 2 = -1 / 2 := by
  refine ⟨by norm_num [grid1D_flux], ?_, by norm_num [grid1D_flux], ?_⟩
  · rw [MHD_RightHandSide_active 1 8 grid1D_flux IDIR (1 / 2) BX2 0 0 2 (by decide) (by decide)
      (by decide) (by decide) (by decide)]
    norm_num [grid1D_flux, grid1D, gridBlock, sweepOffset, IDIR, JDIR, KDIR]
  · rw [MHD_RightHandSide_active 1 8 grid1D_flux IDIR (1 / 2) BX3 0 0 2 (by decide) (by decide)
      (by decide) (by decide) (by decide)]
    norm_num [grid1D_flux, grid1D, gridBlock, sweepOffset, IDIR, JDIR, KDIR]

/-- C16 (amended). In the MHD flux-divergence step the magnetic channels of
the existing dimensions are skipped: `BX1` always, `BX2` when
`DIMENSIONS >= 2`, `BX3` when `DIMENSIONS == 3` keep their `U_c` at every
cell; every other channel of every active cell, the magnetic channels of the
missing dimensions included, receives `U - dt/dx*(Flux(x+e_d) - Flux(x))`, and
all cells outside the active range are unchanged. -/
theorem MHD_CalcRightHandSide_skips_staggered (DIMENSIONS : ℕ) (NVAR : ℤ) (data : DataBlock)
    (dir : ℤ) (dt : real) :
    (∀ n k j i, n = BX1 ∨ (2 ≤ DIMENSIONS ∧ n = BX2) ∨ (3 ≤ DIMENSIONS ∧ n = BX3) →
        (MHD.Physics.CalcRightHandSide DIMENSIONS NVAR data dir dt).Uc n k j i
          = data.Uc n k j i)
    ∧ (∀ n k j i, 0 ≤ n ∧ n < NVAR →
        ¬ (n = BX1 ∨ (2 ≤ DIMENSIONS ∧ n = BX2) ∨ (3 ≤ DIMENSIONS ∧ n = BX3)) →
        data.beg KDIR ≤ k ∧ k < data.end_ KDIR → data.beg JDIR ≤ j ∧ j < data.end_ JDIR →
        data.beg IDIR ≤ i ∧ i < data.end_ IDIR →
        (MHD.Physics.CalcRightHandSide DIMENSIONS NVAR data dir dt).Uc n k j i
          = data.Uc n k j i
            - dt / data.dx dir (sweepOffset dir IDIR * i + sweepOffset dir JDIR * j
                + sweepOffset dir KDIR * k)
              * (data.FluxRiemann n (k + sweepOffset dir KDIR) (j + sweepOffset dir JDIR)
                  (i + sweepOffset dir IDIR) - data.FluxRiemann n k j i))
    ∧ (∀ n k j i, ¬ ((data.beg KDIR ≤ k ∧ k < data.end_ KDIR)
          ∧ (data.beg JDIR ≤ j ∧ j < data.end_ JDIR)
          ∧ (data.beg IDIR ≤ i ∧ i < data.end_ IDIR)) →
        (MHD.Physics.CalcRightHandSide DIMENSIONS NVAR data dir dt).Uc n k j i
          = data.Uc n k j i) :=
  ⟨fun n k j i hs =>
      MHD_RightHandSide_skipped DIMENSIONS NVAR data dir dt n k j i (fun hh => hh.1.2 hs),
    fun n k j i hn hs hk hj hi =>
      MHD_RightHandSide_active DIMENSIONS NVAR data dir dt n k j i hn hs hk hj hi,
    fun n k j i h =>
      MHD_RightHandSide_skipped DIMENSIONS NVAR data dir dt n k j i (fun hh => h hh.2)⟩

/-- The sweep along direction 1 of the 1D grid with `U_c = i` and
`Flux = i*i`: `BX1` keeps its value in the active cell `i = 2`, the density
is updated. -/
theorem MHD_CalcRightHandSide_skips_staggered_witness :
    (MHD.Physics.CalcRightHandSide 1 8 grid1D_flux IDIR (1 / 2)).Uc BX1 0 0 2
        = grid1D_flux.Uc BX1 0 0 2
    ∧ (MHD.Physics.CalcRightHandSide 1 8 grid1D_flux IDIR (1 / 2)).Uc RHO 0 0 2 = -1 / 2 :=
  ⟨(MHD_CalcRightHandSide_skips_staggered 1 8 grid1D_flux IDIR (1 / 2)).1 BX1 0 0 2
      (Or.inl rfl),
    ((MHD_CalcRightHandSide_skips_staggered 1 8 grid1D_flux IDIR (1 / 2)).2.1 RHO 0 0 2
      (by decide) (by decide) (by decide) (by decide) (by decide)).trans (by
        norm_num [grid1D_flux, grid1D, gridBlock, sweepOffset, IDIR, JDIR, KDIR])⟩

/-! ## Corner EMFs -/

theorem set3_self (A : IdefixArray3D) (k j i : ℤ) (v : real) : set3 A k j i v k j i = v := by
  simp [set3]

theorem set3_ne (A : IdefixArray3D) (k j i k' j' i' : ℤ) (v : real)
    (h : ¬ (k' = k ∧ j' = j ∧ i' = i)) : set3 A k j i v k' j' i' = A k' j' i' := by
  simp only [set3, if_neg h]

theorem CornerEMF_body_Ex (DIMENSIONS : ℕ) (emf : ElectroMotiveForce) (k j i : ℤ)
    (E : IdefixArray3D × IdefixArray3D × IdefixArray3D) (k' j' i' : ℤ) :
    (MHD.CornerEMF_body DIMENSIONS emf k j i E).1 k' j' i'
      = if (k' = k ∧ j' = j ∧ i' = i) ∧ DIMENSIONS = 3 then
          ONE_FOURTH_F * (emf.exj k j i + emf.exj (k - 1) j i + emf.exk k j i
            + emf.exk k (j - 1) i)
        else E.1 k' j' i' := by
  unfold MHD.CornerEMF_body
  dsimp only
  split_ifs <;> simp_all [set3]

theorem CornerEMF_body_Ey (DIMENSIONS : ℕ) (emf : ElectroMotiveForce) (k j i : ℤ)
    (E : IdefixArray3D × IdefixArray3D × IdefixArray3D) (k' j' i' : ℤ) :
    (MHD.CornerEMF_body DIMENSIONS emf k j i E).2.1 k' j' i'
      = if (k' = k ∧ j' = j ∧ i' = i) ∧ DIMENSIONS = 3 then
          ONE_FOURTH_F * (emf.eyi k j i + emf.eyi (k - 1) j i + emf.eyk k j i
            + emf.eyk k j (i - 1))
        else E.2.1 k' j' i' := by
  unfold MHD.CornerEMF_body
  dsimp only
  split_ifs <;> simp_all [set3]

theorem CornerEMF_body_Ez (DIMENSIONS : ℕ) (emf : ElectroMotiveForce) (k j i : ℤ)
    (E : IdefixArray3D × IdefixArray3D × IdefixArray3D) (k' j' i' : ℤ) :
    (MHD.CornerEMF_body DIMENSIONS emf k j i E).2.2 k' j' i'
      = if k' = k ∧ j' = j ∧ i' = i then
          (if 2 ≤ DIMENSIONS then
            ONE_FOURTH_F * (emf.ezi k j i + emf.ezi k (j - 1) i + emf.ezj k j i
              + emf.ezj k j (i - 1))
          else ONE_FOURTH_F * (TWO_F * emf.ezi k j i + emf.ezj k j i + emf.ezj k j (i - 1)))
        else E.2.2 k' j' i' := by
  unfold MHD.CornerEMF_body
  dsimp only
  split_ifs <;> simp_all [set3]

/-- A kernel over a box of corners that stores `G k j i` in its own entry of
one array of its state, when `c` holds. -/
theorem idefix_for3_store {σ : Type} {b1 e1 b2 e2 b3 e3 : ℤ}
    (body : ℤ → ℤ → ℤ → σ → σ) (proj : σ → IdefixArray3D) (c : Prop) [Decidable c]
    (G : ℤ → ℤ → ℤ → real)
    (hbody : ∀ k j i S k' j' i', proj (body k j i S) k' j' i'
      = if (k' = k ∧ j' = j ∧ i' = i) ∧ c then G k j i else proj S k' j' i')
    (S : σ) (k j i : ℤ) (hk : b1 ≤ k ∧ k < e1) (hj : b2 ≤ j ∧ j < e2)
    (hi : b3 ≤ i ∧ i < e3) :
    proj (idefix_for3 b1 e1 b2 e2 b3 e3 body S) k j i
      = if c then G k j i else proj S k j i := by
  have := idefix_for3_pointwise b1 e1 b2 e2 b3 e3 body
    (fun (S : σ) (x : ℤ × ℤ × ℤ) => proj S x.1 x.2.1 x.2.2)
    (fun x v => if c then G x.1 x.2.1 x.2.2 else v)
    (fun x s => by
      dsimp only
      rw [hbody]
      by_cases hc : c <;> simp [hc])
    (fun x y s hxy => by
      dsimp only
      rw [hbody]
      have hne : ¬ (y.1 = x.1 ∧ y.2.1 = x.2.1 ∧ y.2.2 = x.2.2) := by
        intro h
        apply hxy
        obtain ⟨h2, h3, h4⟩ := h
        ext <;> dsimp only <;> omega
      simp [hne])
    S k j i hk hj hi
  exact this

theorem MHD_CalcCornerEMF_Ex (DIMENSIONS : ℕ) (data : DataBlock) (t : real) (k j i : ℤ)
    (hk : data.beg KDIR ≤ k ∧ k < data.end_ KDIR + KOFFSET DIMENSIONS)
    (hj : data.beg JDIR ≤ j ∧ j < data.end_ JDIR + JOFFSET DIMENSIONS)
    (hi : data.beg IDIR ≤ i ∧ i < data.end_ IDIR + IOFFSET DIMENSIONS) :
    (MHD.Physics.CalcCornerEMF DIMENSIONS data t).emf.ex k j i
      = if DIMENSIONS = 3 then
          ONE_FOURTH_F * (data.emf.exj k j i + data.emf.exj (k - 1) j i + data.emf.exk k j i
            + data.emf.exk k (j - 1) i)
        else data.emf.ex k j i := by
  have := idefix_for3_store (MHD.CornerEMF_body DIMENSIONS data.emf)
    (fun E => E.1) (DIMENSIONS = 3)
    (fun k j i => ONE_FOURTH_F * (data.emf.exj k j i + data.emf.exj (k - 1) j i
      + data.emf.exk k j i + data.emf.exk k (j - 1) i))
    (fun k j i S k' j' i' => by dsimp only; rw [CornerEMF_body_Ex])
    (data.emf.ex, data.emf.ey, data.emf.ez) k j i hk hj hi
  simpa [MHD.Physics.CalcCornerEMF] using this

theorem MHD_CalcCornerEMF_Ey (DIMENSIONS : ℕ) (data : DataBlock) (t : real) (k j i : ℤ)
    (hk : data.beg KDIR ≤ k ∧ k < data.end_ KDIR + KOFFSET DIMENSIONS)
    (hj : data.beg JDIR ≤ j ∧ j < data.end_ JDIR + JOFFSET DIMENSIONS)
    (hi : data.beg IDIR ≤ i ∧ i < data.end_ IDIR + IOFFSET DIMENSIONS) :
    (MHD.Physics.CalcCornerEMF DIMENSIONS data t).emf.ey k j i
      = if DIMENSIONS = 3 then
          ONE_FOURTH_F * (data.emf.eyi k j i + data.emf.eyi (k - 1) j i + data.emf.eyk k j i
            + data.emf.eyk k j (i - 1))
        else data.emf.ey k j i := by
  have := idefix_for3_store (MHD.CornerEMF_body DIMENSIONS data.emf)
    (fun E => E.2.1) (DIMENSIONS = 3)
    (fun k j i => ONE_FOURTH_F * (data.emf.eyi k j i + data.emf.eyi (k - 1) j i
      + data.emf.eyk k j i + data.emf.eyk k j (i - 1)))
    (fun k j i S k' j' i' => by dsimp only; rw [CornerEMF_body_Ey])
    (data.emf.ex, data.emf.ey, data.emf.ez) k j i hk hj hi
  simpa [MHD.Physics.CalcCornerEMF] using this

theorem MHD_CalcCornerEMF_Ez (DIMENSIONS : ℕ) (data : DataBlock) (t : real) (k j i : ℤ)
    (hk : data.beg KDIR ≤ k ∧ k < data.end_ KDIR + KOFFSET DIMENSIONS)
    (hj : data.beg JDIR ≤ j ∧ j < data.end_ JDIR + JOFFSET DIMENSIONS)
    (hi : data.beg IDIR ≤ i ∧ i < data.end_ IDIR + IOFFSET DIMENSIONS) :
    (MHD.Physics.CalcCornerEMF DIMENSIONS data t).emf.ez k j i
      = if 2 ≤ DIMENSIONS then
          ONE_FOURTH_F * (data.emf.ezi k j i + data.emf.ezi k (j - 1) i + data.emf.ezj k j i
            + data.emf.ezj k j (i - 1))
        else ONE_FOURTH_F * (TWO_F * data.emf.ezi k j i + data.emf.ezj k j i
            + data.emf.ezj k j (i - 1)) := by
  have := idefix_for3_store (MHD.CornerEMF_body DIMENSIONS data.emf)
    (fun E => E.2.2) True
    (fun k j i => if 2 ≤ DIMENSIONS then
          ONE_FOURTH_F * (data.emf.ezi k j i + data.emf.ezi k (j - 1) i + data.emf.ezj k j i
            + data.emf.ezj k j (i - 1))
        else ONE_FOURTH_F * (TWO_F * data.emf.ezi k j i + data.emf.ezj k j i
            + data.emf.ezj k j (i - 1)))
    (fun k j i S k' j' i' => by dsimp only; rw [CornerEMF_body_Ez]; simp)
    (data.emf.ex, data.emf.ey, data.emf.ez) k j i hk hj hi
  simpa [MHD.Physics.CalcCornerEMF] using this

/-- C17. Corner EMFs are the arithmetic mean of the four adjacent face EMFs:
after `CalcCornerEMF`, for every corner `(k,j,i)` of the range `[beg, end]` in
each existing direction, in 2D and 3D
`Ez = (1/4)*(ezi(k,j,i) + ezi(k,j-1,i) + ezj(k,j,i) + ezj(k,j,i-1))`; in 3D
also `Ex = (1/4)*(exj(k,j,i) + exj(k-1,j,i) + exk(k,j,i) + exk(k,j-1,i))` and
`Ey = (1/4)*(eyi(k,j,i) + eyi(k-1,j,i) + eyk(k,j,i) + eyk(k,j,i-1))`; in 1D
`Ez = (1/2)*(2*ezi(k,j,i) + ezj(k,j,i) + ezj(k,j,i-1))/2`. In every case equal
face values `e` give the corner value `e`. -/
theorem CalcCornerEMF_mean_of_faces (DIMENSIONS : ℕ) (data : DataBlock) (t : real)
    (k j i : ℤ)
    (hk : data.beg KDIR ≤ k ∧ k < data.end_ KDIR + KOFFSET DIMENSIONS)
    (hj : data.beg JDIR ≤ j ∧ j < data.end_ JDIR + JOFFSET DIMENSIONS)
    (hi : data.beg IDIR ≤ i ∧ i < data.end_ IDIR + IOFFSET DIMENSIONS) :
    (2 ≤ DIMENSIONS →
      (MHD.Physics.CalcCornerEMF DIMENSIONS data t).emf.ez k j i
        = (1 / 4) * (data.emf.ezi k j i + data.emf.ezi k (j - 1) i + data.emf.ezj k j i
            + data.emf.ezj k j (i - 1))
      ∧ ∀ e, data.emf.ezi k j i = e → data.emf.ezi k (j - 1) i = e → data.emf.ezj k j i = e →
          data.emf.ezj k j (i - 1) = e →
          (MHD.Physics.CalcCornerEMF DIMENSIONS data t).emf.ez k j i = e)
    ∧ (DIMENSIONS = 3 →
      ((MHD.Physics.CalcCornerEMF DIMENSIONS data t).emf.ex k j i
        = (1 / 4) * (data.emf.exj k j i + data.emf.exj (k - 1) j i + data.emf.exk k j i
            + data.emf.exk k (j - 1) i)
      ∧ ∀ e, data.emf.exj k j i = e → data.emf.exj (k - 1) j i = e → data.emf.exk k j i = e →
          data.emf.exk k (j - 1) i = e →
          (MHD.Physics.CalcCornerEMF DIMENSIONS data t).emf.ex k j i = e)
      ∧ ((MHD.Physics.CalcCornerEMF DIMENSIONS data t).emf.ey k j i
        = (1 / 4) * (data.emf.eyi k j i + data.emf.eyi (k - 1) j i + data.emf.eyk k j i
            + data.emf.eyk k j (i - 1))
      ∧ ∀ e, data.emf.eyi k j i = e → data.emf.eyi (k - 1) j i = e → data.emf.eyk k j i = e →
          data.emf.eyk k j (i - 1) = e →
          (MHD.Physics.CalcCornerEMF DIMENSIONS data t).emf.ey k j i = e))
    ∧ (DIMENSIONS = 1 →
      (MHD.Physics.CalcCornerEMF DIMENSIONS data t).emf.ez k j i
        = (1 / 2) * (2 * data.emf.ezi k j i + data.emf.ezj k j i + data.emf.ezj k j (i - 1)) / 2
      ∧ ∀ e, data.emf.ezi k j i = e → data.emf.ezj k j i = e → data.emf.ezj k j (i - 1) = e →
          (MHD.Physics.CalcCornerEMF DIMENSIONS data t).emf.ez k j i = e) := by
  have hz := MHD_CalcCornerEMF_Ez DIMENSIONS data t k j i hk hj hi
  have hx := MHD_CalcCornerEMF_Ex DIMENSIONS data t k j i hk hj hi
  have hy := MHD_CalcCornerEMF_Ey DIMENSIONS data t k j i hk hj hi
  refine ⟨fun h2 => ?_, fun h3 => ⟨?_, ?_⟩, fun h1 => ?_⟩
  · rw [if_pos h2] at hz
    refine ⟨by rw [hz, ONE_FOURTH_F], fun e a b c d => ?_⟩
    rw [hz, a, b, c, d, ONE_FOURTH_F]; ring
  · rw [if_pos h3] at hx
    refine ⟨by rw [hx, ONE_FOURTH_F], fun e a b c d => ?_⟩
    rw [hx, a, b, c, d, ONE_FOURTH_F]; ring
  · rw [if_pos h3] at hy
    refine ⟨by rw [hy, ONE_FOURTH_F], fun e a b c d => ?_⟩
    rw [hy, a, b, c, d, ONE_FOURTH_F]; ring
  · rw [if_neg (by omega)] at hz
    refine ⟨by rw [hz, ONE_FOURTH_F, TWO_F]; ring, fun e a b c => ?_⟩
    rw [hz, a, b, c, ONE_FOURTH_F, TWO_F]; ring

/-- The corner `(k,j,i) = (2,1,1)` of the 3D grid with varying face EMFs. -/
theorem CalcCornerEMF_mean_of_faces_witness :
    (MHD.Physics.CalcCornerEMF 3 grid3D_faceEmf 0).emf.ez 2 1 1
        = (1 / 4) * (grid3D_faceEmf.emf.ezi 2 1 1 + grid3D_faceEmf.emf.ezi 2 (1 - 1) 1
            + grid3D_faceEmf.emf.ezj 2 1 1 + grid3D_faceEmf.emf.ezj 2 1 (1 - 1))
    ∧ (MHD.Physics.CalcCornerEMF 3 grid3D_faceEmf 0).emf.ex 2 1 1
        = (1 / 4) * (grid3D_faceEmf.emf.exj 2 1 1 + grid3D_faceEmf.emf.exj (2 - 1) 1 1
            + grid3D_faceEmf.emf.exk 2 1 1 + grid3D_faceEmf.emf.exk 2 (1 - 1) 1) :=
  ⟨((CalcCornerEMF_mean_of_faces 3 grid3D_faceEmf 0 2 1 1 (by decide) (by decide)
      (by decide)).1 (by decide)).1,
    ((CalcCornerEMF_mean_of_faces 3 grid3D_faceEmf 0 2 1 1 (by decide) (by decide)
      (by decide)).2.1 rfl).1.1⟩

/-! ## Update of the staggered field -/

theorem EvolveMagField_body_1D (Ex1 Ex2 Ex3 : IdefixArray3D) (dx1 dx2 dx3 : IdefixArray1D)
    (dt : real) (k j i : ℤ) (Vs : IdefixArray4D) :
    MHD.EvolveMagField_body 1 Ex1 Ex2 Ex3 dx1 dx2 dx3 dt k j i Vs = Vs := by
  funext n k' j' i'
  unfold MHD.EvolveMagField_body
  simp only [D_EXPAND, ZERO_F]
  norm_num
  by_cases h : n = BX1s ∧ k' = k ∧ j' = j ∧ i' = i
  · obtain ⟨rfl, rfl, rfl, rfl⟩ := h
    exact set4_self _ _ _ _ _ _
  · exact set4_ne _ _ _ _ _ _ _ _ _ _ h

/-- C18. Staggered-field update (`EvolveMagField`): in the 3D build, for every
face index `(k,j,i)` of the update range, `V_s(BX1s)` increases by
`-dt/dx2(j)*(Ez(k,j+1,i)-Ez(k,j,i)) + dt/dx3(k)*(Ey(k+1,j,i)-Ey(k,j,i))`,
`V_s(BX2s)` by `+dt/dx1(i)*(Ez(k,j,i+1)-Ez(k,j,i)) - dt/dx3(k)*(Ex(k+1,j,i)-Ex(k,j,i))`
and `V_s(BX3s)` by `-dt/dx1(i)*(Ey(k,j,i+1)-Ey(k,j,i)) + dt/dx2(j)*(Ex(k,j+1,i)-Ex(k,j,i))`;
in the 2D build only the `Ez` terms of `BX1s` and `BX2s` are applied and
`BX3s` is unchanged; in the 1D build `V_s` is left unchanged. -/
theorem EvolveMagField_update (DIMENSIONS : ℕ) (data : DataBlock) (t dt : real) :
    (DIMENSIONS = 3 → ∀ k j i,
      data.beg KDIR ≤ k ∧ k < data.end_ KDIR + KOFFSET DIMENSIONS →
      data.beg JDIR ≤ j ∧ j < data.end_ JDIR + JOFFSET DIMENSIONS →
      data.beg IDIR ≤ i ∧ i < data.end_ IDIR + IOFFSET DIMENSIONS →
      (MHD.Physics.EvolveMagField DIMENSIONS data t dt).Vs BX1s k j i
          = data.Vs BX1s k j i
            + (- dt / data.dx JDIR j * (data.emf.ez k (j + 1) i - data.emf.ez k j i)
              + dt / data.dx KDIR k * (data.emf.ey (k + 1) j i - data.emf.ey k j i))
      ∧ (MHD.Physics.EvolveMagField DIMENSIONS data t dt).Vs BX2s k j i
          = data.Vs BX2s k j i
            + (dt / data.dx IDIR i * (data.emf.ez k j (i + 1) - data.emf.ez k j i)
              - dt / data.dx KDIR k * (data.emf.ex (k + 1) j i - data.emf.ex k j i))
      ∧ (MHD.Physics.EvolveMagField DIMENSIONS data t dt).Vs BX3s k j i
          = data.Vs BX3s k j i
            + (- dt / data.dx IDIR i * (data.emf.ey k j (i + 1) - data.emf.ey k j i)
              + dt / data.dx JDIR j * (data.emf.ex k (j + 1) i - data.emf.ex k j i)))
    ∧ (DIMENSIONS = 2 →
      (∀ k j i,
        data.beg KDIR ≤ k ∧ k < data.end_ KDIR + KOFFSET DIMENSIONS →
        data.beg JDIR ≤ j ∧ j < data.end_ JDIR + JOFFSET DIMENSIONS →
        data.beg IDIR ≤ i ∧ i < data.end_ IDIR + IOFFSET DIMENSIONS →
        (MHD.Physics.EvolveMagField DIMENSIONS data t dt).Vs BX1s k j i
            = data.Vs BX1s k j i
              + - dt / data.dx JDIR j * (data.emf.ez k (j + 1) i - data.emf.ez k j i)
        ∧ (MHD.Physics.EvolveMagField DIMENSIONS data t dt).Vs BX2s k j i
            = data.Vs BX2s k j i
              + dt / data.dx IDIR i * (data.emf.ez k j (i + 1) - data.emf.ez k j i))
      ∧ ∀ k j i, (MHD.Physics.EvolveMagField DIMENSIONS data t dt).Vs BX3s k j i
          = data.Vs BX3s k j i)
    ∧ (DIMENSIONS = 1 → (MHD.Physics.EvolveMagField DIMENSIONS data t dt).Vs = data.Vs) := by
  refine ⟨fun h3 k j i hk hj hi => ?_, fun h2 => ⟨fun k j i hk hj hi => ?_, fun k j i => ?_⟩,
    fun h1 => ?_⟩
  · rw [MHD_EvolveMagField_BX1s DIMENSIONS data t dt k j i hk hj hi,
      MHD_EvolveMagField_BX2s DIMENSIONS data t dt k j i hk hj hi,
      MHD_EvolveMagField_BX3s DIMENSIONS data t dt k j i hk hj hi]
    subst h3
    simp only [D_EXPAND, ZERO_F]
    norm_num
    refine ⟨by ring, by ring⟩
  · rw [MHD_EvolveMagField_BX1s DIMENSIONS data t dt k j i hk hj hi,
      MHD_EvolveMagField_BX2s DIMENSIONS data t dt k j i hk hj hi]
    subst h2
    simp only [D_EXPAND, ZERO_F]
    norm_num
    ring
  · subst h2
    simp only [MHD.Physics.EvolveMagField]
    exact congrFun (congrFun (congrFun (idefix_for3_invariant _ _ _ _ _ _
      (MHD.EvolveMagField_body 2 data.emf.ex data.emf.ey data.emf.ez
        (data.dx IDIR) (data.dx JDIR) (data.dx KDIR) dt)
      (fun (V : IdefixArray4D) => V BX3s)
      (fun k j i s => by
        funext k' j' i'
        dsimp only
        rw [EvolveMagField_body_BX3s, if_neg (fun hh => absurd hh.2 (by decide))])
      data.Vs) k) j) i
  · subst h1
    simp only [MHD.Physics.EvolveMagField]
    exact idefix_for3_invariant _ _ _ _ _ _
      (MHD.EvolveMagField_body 1 data.emf.ex data.emf.ey data.emf.ez
        (data.dx IDIR) (data.dx JDIR) (data.dx KDIR) dt)
      (fun (V : IdefixArray4D) => V)
      (fun k j i s => EvolveMagField_body_1D _ _ _ _ _ _ _ k j i s)
      data.Vs

/-- The face `(k,j,i) = (1,2,1)` of the 3D grid with the field `B = (x,0,-z)`
and varying corner EMFs, `dt = 1/2`. -/
theorem EvolveMagField_update_witness :
    (MHD.Physics.EvolveMagField 3 grid3D_emf 0 (1 / 2)).Vs BX1s 1 2 1
      = grid3D_emf.Vs BX1s 1 2 1
        + (- (1 / 2) / grid3D_emf.dx JDIR 2
              * (grid3D_emf.emf.ez 1 (2 + 1) 1 - grid3D_emf.emf.ez 1 2 1)
          + 1 / 2 / grid3D_emf.dx KDIR 1
              * (grid3D_emf.emf.ey (1 + 1) 2 1 - grid3D_emf.emf.ey 1 2 1)) :=
  ((EvolveMagField_update 3 grid3D_emf 0 (1 / 2)).1 rfl 1 2 1 (by decide) (by decide)
    (by decide)).1

/-! ## Cell-centred magnetic field -/

theorem ReconstructVcField_body_eq (DIMENSIONS : ℕ) (Vs : IdefixArray4D) (k j i : ℤ)
    (Vc : IdefixArray4D) (n k' j' i' : ℤ) :
    MHD.ReconstructVcField_body DIMENSIONS Vs k j i Vc n k' j' i'
      = if (k' = k ∧ j' = j ∧ i' = i) ∧ n = BX1 then
          HALF_F * (Vs BX1s k j i + Vs BX1s k j (i + 1))
        else if (k' = k ∧ j' = j ∧ i' = i) ∧ n = BX2 ∧ 2 ≤ DIMENSIONS then
          HALF_F * (Vs BX2s k j i + Vs BX2s k (j + 1) i)
        else if (k' = k ∧ j' = j ∧ i' = i) ∧ n = BX3 ∧ 3 ≤ DIMENSIONS then
          HALF_F * (Vs BX3s k j i + Vs BX3s (k + 1) j i)
        else Vc n k' j' i' := by
  unfold MHD.ReconstructVcField_body
  by_cases hc : k' = k ∧ j' = j ∧ i' = i
  · obtain ⟨rfl, rfl, rfl⟩ := hc
    by_cases h1 : n = BX1
    · subst h1
      by_cases h2 : 2 ≤ DIMENSIONS <;> by_cases h3 : 3 ≤ DIMENSIONS <;>
        simp [set4, h2, h3, BX1, BX2, BX3]
    · by_cases h2 : n = BX2
      · subst h2
        by_cases h2 : 2 ≤ DIMENSIONS <;> by_cases h3 : 3 ≤ DIMENSIONS <;>
          simp [set4, h2, h3, BX1, BX2, BX3]
      · by_cases h3 : n = BX3
        · subst h3
          by_cases h2 : 2 ≤ DIMENSIONS <;> by_cases h3 : 3 ≤ DIMENSIONS <;>
            simp [set4, h2, h3, BX1, BX2, BX3]
        · by_cases h2' : 2 ≤ DIMENSIONS <;> by_cases h3' : 3 ≤ DIMENSIONS <;>
            simp [set4, h1, h2, h3, h2', h3']
  · by_cases h2' : 2 ≤ DIMENSIONS <;> by_cases h3' : 3 ≤ DIMENSIONS <;>
      simp [set4, hc, h2', h3']

theorem MHD_ReconstructVcField_BX1 (DIMENSIONS : ℕ) (data : DataBlock) (Vc : IdefixArray4D)
    (k j i : ℤ) (hk : 0 ≤ k ∧ k < data.np_tot KDIR) (hj : 0 ≤ j ∧ j < data.np_tot JDIR)
    (hi : 0 ≤ i ∧ i < data.np_tot IDIR) :
    MHD.Physics.ReconstructVcField DIMENSIONS data Vc BX1 k j i
      = HALF_F * (data.Vs BX1s k j i + data.Vs BX1s k j (i + 1)) := by
  have := idefix_for3_component (MHD.ReconstructVcField_body DIMENSIONS data.Vs) BX1 True
    (fun k j i _ => HALF_F * (data.Vs BX1s k j i + data.Vs BX1s k j (i + 1)))
    (fun k j i V k' j' i' => by rw [ReconstructVcField_body_eq]; simp [BX1, BX2, BX3])
    Vc k j i hk hj hi
  simpa [MHD.Physics.ReconstructVcField] using this

theorem MHD_ReconstructVcField_BX2 (DIMENSIONS : ℕ) (data : DataBlock) (Vc : IdefixArray4D)
    (k j i : ℤ) (hk : 0 ≤ k ∧ k < data.np_tot KDIR) (hj : 0 ≤ j ∧ j < data.np_tot JDIR)
    (hi : 0 ≤ i ∧ i < data.np_tot IDIR) :
    MHD.Physics.ReconstructVcField DIMENSIONS data Vc BX2 k j i
      = if 2 ≤ DIMENSIONS then HALF_F * (data.Vs BX2s k j i + data.Vs BX2s k (j + 1) i)
        else Vc BX2 k j i := by
  have := idefix_for3_component (MHD.ReconstructVcField_body DIMENSIONS data.Vs) BX2
    (2 ≤ DIMENSIONS)
    (fun k j i _ => HALF_F * (data.Vs BX2s k j i + data.Vs BX2s k (j + 1) i))
    (fun k j i V k' j' i' => by rw [ReconstructVcField_body_eq]; simp [BX1, BX2, BX3])
    Vc k j i hk hj hi
  simpa [MHD.Physics.ReconstructVcField] using this

theorem MHD_ReconstructVcField_BX3 (DIMENSIONS : ℕ) (data : DataBlock) (Vc : IdefixArray4D)
    (k j i : ℤ) (hk : 0 ≤ k ∧ k < data.np_tot KDIR) (hj : 0 ≤ j ∧ j < data.np_tot JDIR)
    (hi : 0 ≤ i ∧ i < data.np_tot IDIR) :
    MHD.Physics.ReconstructVcField DIMENSIONS data Vc BX3 k j i
      = if 3 ≤ DIMENSIONS then HALF_F * (data.Vs BX3s k j i + data.Vs BX3s (k + 1) j i)
        else Vc BX3 k j i := by
  have := idefix_for3_component (MHD.ReconstructVcField_body DIMENSIONS data.Vs) BX3
    (3 ≤ DIMENSIONS)
    (fun k j i _ => HALF_F * (data.Vs BX3s k j i + data.Vs BX3s (k + 1) j i))
    (fun k j i V k' j' i' => by rw [ReconstructVcField_body_eq]; simp [BX1, BX2, BX3])
    Vc k j i hk hj hi
  simpa [MHD.Physics.ReconstructVcField] using this

theorem MHD_ReconstructVcField_other (DIMENSIONS : ℕ) (data : DataBlock) (Vc : IdefixArray4D)
    (n : ℤ) (hn : n ≠ BX1 ∧ n ≠ BX2 ∧ n ≠ BX3) (k j i : ℤ) :
    MHD.Physics.ReconstructVcField DIMENSIONS data Vc n k j i = Vc n k j i := by
  simp only [MHD.Physics.ReconstructVcField]
  exact congrFun (congrFun (congrFun (idefix_for3_invariant _ _ _ _ _ _
    (MHD.ReconstructVcField_body DIMENSIONS data.Vs) (fun (V : IdefixArray4D) => V n)
    (fun k j i s => by
      funext k' j' i'
      dsimp only
      rw [ReconstructVcField_body_eq, if_neg (fun hh => hn.1 hh.2),
        if_neg (fun hh => hn.2.1 hh.2.1), if_neg (fun hh => hn.2.2 hh.2.1)])
    Vc) k) j) i

/-- C19. Consistency of `B`: after `ReconstructVcField`, for every cell
`(k,j,i)` of the full extent `[0,np_tot)` and every existing direction `d`,
`V_c(BXd,k,j,i) = (1/2)*(V_s(d, cell) + V_s(d, cell + e_d))`; `V_s` and every
non-magnetic channel of `V_c` are unchanged. -/
theorem ReconstructVcField_consistent (DIMENSIONS : ℕ) (data : DataBlock) :
    (∀ k j i, 0 ≤ k ∧ k < data.np_tot KDIR → 0 ≤ j ∧ j < data.np_tot JDIR →
        0 ≤ i ∧ i < data.np_tot IDIR →
        (MHD.Physics.ReconstructVcField_inPlace DIMENSIONS data).Vc BX1 k j i
            = (1 / 2) * (data.Vs BX1s k j i + data.Vs BX1s k j (i + 1))
        ∧ (2 ≤ DIMENSIONS →
          (MHD.Physics.ReconstructVcField_inPlace DIMENSIONS data).Vc BX2 k j i
            = (1 / 2) * (data.Vs BX2s k j i + data.Vs BX2s k (j + 1) i))
        ∧ (3 ≤ DIMENSIONS →
          (MHD.Physics.ReconstructVcField_inPlace DIMENSIONS data).Vc BX3 k j i
            = (1 / 2) * (data.Vs BX3s k j i + data.Vs BX3s (k + 1) j i)))
    ∧ (MHD.Physics.ReconstructVcField_inPlace DIMENSIONS data).Vs = data.Vs
    ∧ (∀ n k j i, n ≠ BX1 ∧ n ≠ BX2 ∧ n ≠ BX3 →
        (MHD.Physics.ReconstructVcField_inPlace DIMENSIONS data).Vc n k j i
          = data.Vc n k j i) := by
  refine ⟨fun k j i hk hj hi => ⟨?_, fun h2 => ?_, fun h3 => ?_⟩, rfl, fun n k j i hn => ?_⟩
  · show MHD.Physics.ReconstructVcField DIMENSIONS data data.Vc BX1 k j i = _
    rw [MHD_ReconstructVcField_BX1 DIMENSIONS data data.Vc k j i hk hj hi, HALF_F]
  · show MHD.Physics.ReconstructVcField DIMENSIONS data data.Vc BX2 k j i = _
    rw [MHD_ReconstructVcField_BX2 DIMENSIONS data data.Vc k j i hk hj hi, if_pos h2, HALF_F]
  · show MHD.Physics.ReconstructVcField DIMENSIONS data data.Vc BX3 k j i = _
    rw [MHD_ReconstructVcField_BX3 DIMENSIONS data data.Vc k j i hk hj hi, if_pos h3, HALF_F]
  · exact MHD_ReconstructVcField_other DIMENSIONS data data.Vc n hn k j i

/-- The ghost cell `(k,j,i) = (0,1,2)` of the 3D grid with the field
`B = (x,0,-z)`. -/
theorem ReconstructVcField_consistent_witness :
    (MHD.Physics.ReconstructVcField_inPlace 3 grid3D_linear).Vc BX1 0 1 2
        = (1 / 2) * (grid3D_linear.Vs BX1s 0 1 2 + grid3D_linear.Vs BX1s 0 1 (2 + 1))
    ∧ (MHD.Physics.ReconstructVcField_inPlace 3 grid3D_linear).Vc BX3 0 1 2
        = (1 / 2) * (grid3D_linear.Vs BX3s 0 1 2 + grid3D_linear.Vs BX3s (0 + 1) 1 2) :=
  ⟨((ReconstructVcField_consistent 3 grid3D_linear).1 0 1 2 (by decide) (by decide)
      (by decide)).1,
    ((ReconstructVcField_consistent 3 grid3D_linear).1 0 1 2 (by decide) (by decide)
      (by decide)).2.2 (by decide)⟩

/-! ## Copy kernels -/

theorem foldl_product {σ α β : Type} (f : σ → α × β → σ) (l1 : List α) (l2 : List β) (s : σ) :
    (List.product l1 l2).foldl f s
      = l1.foldl (fun s a => l2.foldl (fun s b => f s (a, b)) s) s := by
  induction l1 generalizing s with
  | nil => rfl
  | cons a l1 ih =>
    have h : List.product (a :: l1) l2 = l2.map (Prod.mk a) ++ List.product l1 l2 :=
      List.product_cons a l1 l2
    rw [h, List.foldl_append, List.foldl_map, List.foldl_cons, ih]

/-- A loop whose iteration `x` stores in its own slot a value `src s x` that
no iteration of the loop changes: each slot of the list receives the value
that `src` had before the loop. -/
theorem foldl_copy {σ ι α : Type} (body : ι → σ → σ) (view src : σ → ι → α) (l : List ι)
    (hl : l.Nodup)
    (hown : ∀ x ∈ l, ∀ s, view (body x s) x = src s x)
    (hframe : ∀ x ∈ l, ∀ y ∈ l, x ≠ y → ∀ s, view (body x s) y = view s y)
    (hsrc : ∀ x ∈ l, ∀ y ∈ l, ∀ s, src (body x s) y = src s y)
    (s : σ) (y : ι) (hy : y ∈ l) : view (l.foldl (fun s x => body x s) s) y = src s y := by
  induction l generalizing s with
  | nil => cases hy
  | cons a l ih =>
    rw [List.foldl_cons]
    rw [List.nodup_cons] at hl
    by_cases hyl : y ∈ l
    · rw [ih hl.2 (fun x hx => hown x (List.mem_cons_of_mem _ hx))
        (fun x hx z hz => hframe x (List.mem_cons_of_mem _ hx) z (List.mem_cons_of_mem _ hz))
        (fun x hx z hz => hsrc x (List.mem_cons_of_mem _ hx) z (List.mem_cons_of_mem _ hz))
        _ hyl]
      exact hsrc a (List.mem_cons_self _ _) y hy s
    · have hya : y = a := by
        rcases List.mem_cons.1 hy with h | h
        · exact h
        · exact absurd h hyl
      subst hya
      have := foldl_preserve body (fun s' => view s' y = view (body y s) y) l
        (fun x hx s' hs' => by
          have hxy : x ≠ y := fun h => hyl (h ▸ hx)
          show view (body x s') y = view (body y s) y
          rw [hframe x (List.mem_cons_of_mem _ hx) y hy hxy]; exact hs') (body y s) rfl
      rw [this, hown y hy]

theorem copyKernel_outside (NVAR kb ke jb je ib ie : ℤ) (sk sj si : ℤ → ℤ)
    (Vc : IdefixArray4D) (n k j i : ℤ)
    (h : ¬ ((0 ≤ n ∧ n < NVAR) ∧ (kb ≤ k ∧ k < ke) ∧ (jb ≤ j ∧ j < je) ∧ (ib ≤ i ∧ i < ie))) :
    HD.copyKernel NVAR kb ke jb je ib ie sk sj si Vc n k j i = Vc n k j i := by
  unfold HD.copyKernel
  exact idefix_for4_untouched _ _ _ _ _ _ _ _ _
    (fun (U : IdefixArray4D) (x : ℤ × ℤ × ℤ × ℤ) => U x.1 x.2.1 x.2.2.1 x.2.2.2)
    (fun x y s hxy => by
      apply set4_ne
      intro h
      apply hxy
      obtain ⟨h1, h2, h3, h4⟩ := h
      ext <;> dsimp only <;> omega)
    _ n k j i h

/-- A copy kernel whose source cells lie outside the box it writes: every
cell of the box receives the old content of its source cell. -/
theorem copyKernel_inside (NVAR kb ke jb je ib ie : ℤ) (sk sj si : ℤ → ℤ)
    (hclean : ∀ k j i, (kb ≤ k ∧ k < ke) → (jb ≤ j ∧ j < je) → (ib ≤ i ∧ i < ie) →
      ¬ ((kb ≤ sk k ∧ sk k < ke) ∧ (jb ≤ sj j ∧ sj j < je) ∧ (ib ≤ si i ∧ si i < ie)))
    (Vc : IdefixArray4D) (n k j i : ℤ)
    (hn : 0 ≤ n ∧ n < NVAR) (hk : kb ≤ k ∧ k < ke) (hj : jb ≤ j ∧ j < je)
    (hi : ib ≤ i ∧ i < ie) :
    HD.copyKernel NVAR kb ke jb je ib ie sk sj si Vc n k j i
      = Vc n (sk k) (sj j) (si i) := by
  unfold HD.copyKernel idefix_for4
  exact foldl_copy
    (fun (x : ℤ × ℤ × ℤ × ℤ) (Vc : IdefixArray4D) =>
      set4 Vc x.1 x.2.1 x.2.2.1 x.2.2.2 (Vc x.1 (sk x.2.1) (sj x.2.2.1) (si x.2.2.2)))
    (fun (U : IdefixArray4D) (x : ℤ × ℤ × ℤ × ℤ) => U x.1 x.2.1 x.2.2.1 x.2.2.2)
    (fun (U : IdefixArray4D) (x : ℤ × ℤ × ℤ × ℤ) => U x.1 (sk x.2.1) (sj x.2.2.1) (si x.2.2.2))
    _ (nodup_box4 _ _ _ _ _ _ _ _)
    (fun x _ s => set4_self _ _ _ _ _ _)
    (fun x _ y _ hxy s => by
      apply set4_ne
      intro h
      apply hxy
      obtain ⟨h1, h2, h3, h4⟩ := h
      ext <;> dsimp only <;> omega)
    (fun x hx y hy s => by
      obtain ⟨xn, xk, xj, xi⟩ := x
      obtain ⟨yn, yk, yj, yi⟩ := y
      have hx' := (mem_box4 _ _ _ _ _ _ _ _ _ _ _ _).1 hx
      have hy' := (mem_box4 _ _ _ _ _ _ _ _ _ _ _ _).1 hy
      apply set4_ne
      rintro ⟨_, h2, h3, h4⟩
      dsimp only at h2 h3 h4
      apply hclean yk yj yi hy'.2.1 hy'.2.2.1 hy'.2.2.2
      rw [h2, h3, h4]
      exact hx'.2)
    Vc (n, k, j, i) ((mem_box4 _ _ _ _ _ _ _ _ _ _ _ _).2 ⟨hn, hk, hj, hi⟩)

/-- One slab of a copy kernel along direction 3: the cells `(n,k,j,i)` of the
box receive the slab `sk k`, every other slab is left as it was. -/
theorem copy_slab_step (n k jb je ib ie : ℤ) (sk sj si : ℤ → ℤ)
    (hsj : ∀ j, sj j = j) (hsi : ∀ i, si i = i) (V : IdefixArray4D) :
    (∀ j i, jb ≤ j ∧ j < je → ib ≤ i ∧ i < ie →
      (box2 jb je ib ie).foldl
        (fun (s : IdefixArray4D) p => set4 s n k p.1 p.2 (s n (sk k) (sj p.1) (si p.2))) V n k j i
        = V n (sk k) j i)
    ∧ (∀ n' k' j' i', ¬ (n' = n ∧ k' = k) →
      (box2 jb je ib ie).foldl
        (fun (s : IdefixArray4D) p => set4 s n k p.1 p.2 (s n (sk k) (sj p.1) (si p.2))) V
          n' k' j' i'
        = V n' k' j' i') := by
  constructor
  · intro j i hj hi
    have := foldl_copy
      (fun (p : ℤ × ℤ) (s : IdefixArray4D) =>
        set4 s n k p.1 p.2 (s n (sk k) (sj p.1) (si p.2)))
      (fun (s : IdefixArray4D) (p : ℤ × ℤ) => s n k p.1 p.2)
      (fun (s : IdefixArray4D) (p : ℤ × ℤ) => s n (sk k) p.1 p.2)
      (box2 jb je ib ie) (nodup_box2 _ _ _ _)
      (fun x _ s => by
        dsimp only
        rw [set4_self, hsj, hsi])
      (fun x _ y _ hxy s => by
        apply set4_ne
        rintro ⟨_, _, h3, h4⟩
        exact hxy (Prod.ext h3.symm h4.symm))
      (fun x _ y _ s => by
        dsimp only
        unfold set4
        split_ifs with h
        · obtain ⟨_, _, h3, h4⟩ := h
          rw [hsj, hsi, h3, h4]
        · rfl)
      V (j, i) ((mem_box2 _ _ _ _ _ _).2 ⟨hj, hi⟩)
    exact this
  · intro n' k' j' i' hne
    exact foldl_untouched
      (fun (p : ℤ × ℤ) (s : IdefixArray4D) =>
        set4 s n k p.1 p.2 (s n (sk k) (sj p.1) (si p.2)))
      (fun (s : IdefixArray4D) (q : ℤ × ℤ × ℤ × ℤ) => s q.1 q.2.1 q.2.2.1 q.2.2.2)
      (n', k', j', i') _
      (fun x _ s => set4_ne _ _ _ _ _ _ _ _ _ _ (fun hh => hne ⟨hh.1, hh.2.1⟩)) V

/-- A copy kernel along direction 3 keeps every property of the slabs
`(j,i) -> Vc(n,k,j,i)` that is read off the box of the kernel. -/
theorem copyKernel_slab (NVAR kb ke jb je ib ie KT : ℤ) (sk sj si : ℤ → ℤ)
    (hsj : ∀ j, sj j = j) (hsi : ∀ i, si i = i)
    (hsk : ∀ k, kb ≤ k ∧ k < ke → 0 ≤ sk k ∧ sk k < KT)
    (Q : (ℤ → ℤ → real) → Prop)
    (hQ : ∀ S S' : ℤ → ℤ → real,
      (∀ j i, jb ≤ j ∧ j < je → ib ≤ i ∧ i < ie → S j i = S' j i) → Q S' → Q S)
    (Vc : IdefixArray4D)
    (hV : ∀ n k, 0 ≤ n ∧ n < NVAR → 0 ≤ k ∧ k < KT → Q (fun j i => Vc n k j i))
    (n k : ℤ) (hn : 0 ≤ n ∧ n < NVAR) (hk : 0 ≤ k ∧ k < KT) :
    Q (fun j i => HD.copyKernel NVAR kb ke jb je ib ie sk sj si Vc n k j i) := by
  unfold HD.copyKernel idefix_for4 box4 box3
  simp only [foldl_product]
  refine foldl_preserve
    (fun n (s : IdefixArray4D) => (irange kb ke).foldl (fun s k => (box2 jb je ib ie).foldl
      (fun (s : IdefixArray4D) p => set4 s n k p.1 p.2 (s n (sk k) (sj p.1) (si p.2))) s) s)
    (fun V => ∀ n k, 0 ≤ n ∧ n < NVAR → 0 ≤ k ∧ k < KT → Q (fun j i => V n k j i))
    (irange 0 NVAR) ?_ Vc hV n k hn hk
  intro n0 hn0 s hs
  refine foldl_preserve
    (fun k (s : IdefixArray4D) => (box2 jb je ib ie).foldl
      (fun (s : IdefixArray4D) p => set4 s n0 k p.1 p.2 (s n0 (sk k) (sj p.1) (si p.2))) s)
    (fun V => ∀ n k, 0 ≤ n ∧ n < NVAR → 0 ≤ k ∧ k < KT → Q (fun j i => V n k j i))
    (irange kb ke) ?_ s hs
  intro k0 hk0 s hs n k hn hk
  obtain ⟨hin, hout⟩ := copy_slab_step n0 k0 jb je ib ie sk sj si hsj hsi s
  by_cases hc : n = n0 ∧ k = k0
  · obtain ⟨rfl, rfl⟩ := hc
    exact hQ _ _ (fun j i hj hi => hin j i hj hi)
      (hs n (sk k) hn (hsk k ((mem_irange _ _ _).1 hk0)))
  · have : (fun j i => (box2 jb je ib ie).foldl
        (fun (s : IdefixArray4D) p => set4 s n0 k0 p.1 p.2 (s n0 (sk k0) (sj p.1) (si p.2)))
          s n k j i) = fun j i => s n k j i := by
      funext j i
      exact hout n k j i hc
    show Q (fun j i => (box2 jb je ib ie).foldl
        (fun (s : IdefixArray4D) p => set4 s n0 k0 p.1 p.2 (s n0 (sk k0) (sj p.1) (si p.2)))
          s n k j i)
    rw [this]
    exact hs n k hn hk

/-- One row of a copy kernel along direction 2: the cells `(n,k,j,i)` of the
box receive the row `sj j`, every other row is left as it was. -/
theorem copy_row_step (n k j ib ie : ℤ) (sk sj si : ℤ → ℤ)
    (hsk : ∀ k, sk k = k) (hsi : ∀ i, si i = i) (V : IdefixArray4D) :
    (∀ i, ib ≤ i ∧ i < ie →
      (irange ib ie).foldl
        (fun (s : IdefixArray4D) i => set4 s n k j i (s n (sk k) (sj j) (si i))) V n k j i
        = V n k (sj j) i)
    ∧ (∀ n' k' j' i', ¬ (n' = n ∧ k' = k ∧ j' = j) →
      (irange ib ie).foldl
        (fun (s : IdefixArray4D) i => set4 s n k j i (s n (sk k) (sj j) (si i))) V
          n' k' j' i'
        = V n' k' j' i') := by
  constructor
  · intro i hi
    have := foldl_copy
      (fun (i : ℤ) (s : IdefixArray4D) => set4 s n k j i (s n (sk k) (sj j) (si i)))
      (fun (s : IdefixArray4D) (i : ℤ) => s n k j i)
      (fun (s : IdefixArray4D) (i : ℤ) => s n k (sj j) i)
      (irange ib ie) (nodup_irange _ _)
      (fun x _ s => by
        dsimp only
        rw [set4_self, hsk, hsi])
      (fun x _ y _ hxy s => by
        apply set4_ne
        rintro ⟨_, _, _, h4⟩
        exact hxy h4.symm)
      (fun x _ y _ s => by
        dsimp only
        unfold set4
        split_ifs with h
        · obtain ⟨_, _, h3, h4⟩ := h
          rw [hsk, hsi, h4]
        · rfl)
      V i ((mem_irange _ _ _).2 hi)
    exact this
  · intro n' k' j' i' hne
    exact foldl_untouched
      (fun (i : ℤ) (s : IdefixArray4D) => set4 s n k j i (s n (sk k) (sj j) (si i)))
      (fun (s : IdefixArray4D) (q : ℤ × ℤ × ℤ × ℤ) => s q.1 q.2.1 q.2.2.1 q.2.2.2)
      (n', k', j', i') _
      (fun x _ s => set4_ne _ _ _ _ _ _ _ _ _ _ (fun hh => hne ⟨hh.1, hh.2.1, hh.2.2.1⟩)) V

/-- A copy kernel along direction 2 keeps every property of the rows
`i -> Vc(n,k,j,i)` that is read off the box of the kernel. -/
theorem copyKernel_row (NVAR kb ke jb je ib ie KT JT : ℤ) (sk sj si : ℤ → ℤ)
    (hsk : ∀ k, sk k = k) (hsi : ∀ i, si i = i)
    (hsj : ∀ j, jb ≤ j ∧ j < je → 0 ≤ sj j ∧ sj j < JT)
    (Q : (ℤ → real) → Prop)
    (hQ : ∀ S S' : ℤ → real, (∀ i, ib ≤ i ∧ i < ie → S i = S' i) → Q S' → Q S)
    (Vc : IdefixArray4D)
    (hV : ∀ n k j, 0 ≤ n ∧ n < NVAR → 0 ≤ k ∧ k < KT → 0 ≤ j ∧ j < JT →
      Q (fun i => Vc n k j i))
    (n k j : ℤ) (hn : 0 ≤ n ∧ n < NVAR) (hk : 0 ≤ k ∧ k < KT) (hj : 0 ≤ j ∧ j < JT) :
    Q (fun i => HD.copyKernel NVAR kb ke jb je ib ie sk sj si Vc n k j i) := by
  unfold HD.copyKernel idefix_for4 box4 box3 box2
  simp only [foldl_product]
  refine foldl_preserve
    (fun n (s : IdefixArray4D) => (irange kb ke).foldl (fun s k => (irange jb je).foldl
      (fun s j => (irange ib ie).foldl
        (fun (s : IdefixArray4D) i => set4 s n k j i (s n (sk k) (sj j) (si i))) s) s) s)
    (fun V => ∀ n k j, 0 ≤ n ∧ n < NVAR → 0 ≤ k ∧ k < KT → 0 ≤ j ∧ j < JT →
      Q (fun i => V n k j i))
    (irange 0 NVAR) ?_ Vc hV n k j hn hk hj
  intro n0 hn0 s hs
  refine foldl_preserve
    (fun k (s : IdefixArray4D) => (irange jb je).foldl
      (fun s j => (irange ib ie).foldl
        (fun (s : IdefixArray4D) i => set4 s n0 k j i (s n0 (sk k) (sj j) (si i))) s) s)
    (fun V => ∀ n k j, 0 ≤ n ∧ n < NVAR → 0 ≤ k ∧ k < KT → 0 ≤ j ∧ j < JT →
      Q (fun i => V n k j i))
    (irange kb ke) ?_ s hs
  intro k0 hk0 s hs
  refine foldl_preserve
    (fun j (s : IdefixArray4D) => (irange ib ie).foldl
        (fun (s : IdefixArray4D) i => set4 s n0 k0 j i (s n0 (sk k0) (sj j) (si i))) s)
    (fun V => ∀ n k j, 0 ≤ n ∧ n < NVAR → 0 ≤ k ∧ k < KT → 0 ≤ j ∧ j < JT →
      Q (fun i => V n k j i))
    (irange jb je) ?_ s hs
  intro j0 hj0 s hs n k j hn hk hj
  obtain ⟨hin, hout⟩ := copy_row_step n0 k0 j0 ib ie sk sj si hsk hsi s
  by_cases hc : n = n0 ∧ k = k0 ∧ j = j0
  · obtain ⟨rfl, rfl, rfl⟩ := hc
    exact hQ _ _ (fun i hi => hin i hi)
      (hs n k (sj j) hn hk (hsj j ((mem_irange _ _ _).1 hj0)))
  · have : (fun i => (irange ib ie).foldl
        (fun (s : IdefixArray4D) i => set4 s n0 k0 j0 i (s n0 (sk k0) (sj j0) (si i)))
          s n k j i) = fun i => s n k j i := by
      funext i
      exact hout n k j i hc
    show Q (fun i => (irange ib ie).foldl
        (fun (s : IdefixArray4D) i => set4 s n0 k0 j0 i (s n0 (sk k0) (sj j0) (si i)))
          s n k j i)
    rw [this]
    exact hs n k j hn hk hj

/-! ## Boundary kernels of the HD solver as copy kernels -/

theorem sweepOffset_II : sweepOffset IDIR IDIR = 1 := by decide
theorem sweepOffset_IJ : sweepOffset IDIR JDIR = 0 := by decide
theorem sweepOffset_IK : sweepOffset IDIR KDIR = 0 := by decide
theorem sweepOffset_JI : sweepOffset JDIR IDIR = 0 := by decide
theorem sweepOffset_JJ : sweepOffset JDIR JDIR = 1 := by decide
theorem sweepOffset_JK : sweepOffset JDIR KDIR = 0 := by decide
theorem sweepOffset_KI : sweepOffset KDIR IDIR = 0 := by decide
theorem sweepOffset_KJ : sweepOffset KDIR JDIR = 0 := by decide
theorem sweepOffset_KK : sweepOffset KDIR KDIR = 1 := by decide

theorem periodicAlong_I (NVAR : ℤ) (data : DataBlock) (V : IdefixArray4D) :
    HD.periodicAlong NVAR data IDIR V ↔
      ∀ n k, 0 ≤ n ∧ n < NVAR → 0 ≤ k ∧ k < data.np_tot KDIR →
        ∀ j, 0 ≤ j ∧ j < data.np_tot JDIR →
          ∀ i, 0 ≤ i ∧ i < data.np_tot IDIR →
            0 ≤ i + data.np_int IDIR ∧ i + data.np_int IDIR < data.np_tot IDIR →
            V n k j i = V n k j (i + data.np_int IDIR) := by
  unfold HD.periodicAlong
  simp only [sweepOffset_II, sweepOffset_IJ, sweepOffset_IK, zero_mul, one_mul, add_zero]
  constructor
  · intro h n k hn hk j hj i hi hs
    exact h n k j i hn ⟨hk, hj, hi⟩ ⟨hk, hj, hs⟩
  · intro h n k j i hn hx hs
    exact h n k hn hx.1 j hx.2.1 i hx.2.2 hs.2.2

theorem periodicAlong_J (NVAR : ℤ) (data : DataBlock) (V : IdefixArray4D) :
    HD.periodicAlong NVAR data JDIR V ↔
      ∀ n k, 0 ≤ n ∧ n < NVAR → 0 ≤ k ∧ k < data.np_tot KDIR →
        ∀ j i, 0 ≤ j ∧ j < data.np_tot JDIR → 0 ≤ i ∧ i < data.np_tot IDIR →
          0 ≤ j + data.np_int JDIR ∧ j + data.np_int JDIR < data.np_tot JDIR →
          V n k j i = V n k (j + data.np_int JDIR) i := by
  unfold HD.periodicAlong
  simp only [sweepOffset_JI, sweepOffset_JJ, sweepOffset_JK, zero_mul, one_mul, add_zero]
  constructor
  · intro h n k hn hk j i hj hi hs
    exact h n k j i hn ⟨hk, hj, hi⟩ ⟨hk, hs, hi⟩
  · intro h n k j i hn hx hs
    exact h n k hn hx.1 j i hx.2.1 hx.2.2 hs.2.1

theorem periodicAlong_K (NVAR : ℤ) (data : DataBlock) (V : IdefixArray4D) :
    HD.periodicAlong NVAR data KDIR V ↔
      ∀ n k j i, 0 ≤ n ∧ n < NVAR → 0 ≤ k ∧ k < data.np_tot KDIR →
        0 ≤ j ∧ j < data.np_tot JDIR → 0 ≤ i ∧ i < data.np_tot IDIR →
          0 ≤ k + data.np_int KDIR ∧ k + data.np_int KDIR < data.np_tot KDIR →
          V n k j i = V n (k + data.np_int KDIR) j i := by
  unfold HD.periodicAlong
  simp only [sweepOffset_KI, sweepOffset_KJ, sweepOffset_KK, zero_mul, one_mul, add_zero]
  constructor
  · intro h n k j i hn hk hj hi hs
    exact h n k j i hn ⟨hk, hj, hi⟩ ⟨hs, hj, hi⟩
  · intro h n k j i hn hx hs
    exact h n k j i hn hx.1 hx.2.1 hx.2.2 hs.1

/-! The four kernels of each direction, written as copy kernels. -/

theorem BoundaryBegPeriodic_I (NVAR : ℤ) (data : DataBlock) (Vc : IdefixArray4D) :
    HD.BoundaryBegPeriodic NVAR data IDIR Vc
      = HD.copyKernel NVAR 0 (data.np_tot KDIR) 0 (data.np_tot JDIR) 0 (data.nghost IDIR)
          (fun k => k) (fun j => j) (fun i => i + data.np_int IDIR) Vc := by
  simp [HD.BoundaryBegPeriodic, HD.copyKernel, IDIR, JDIR, KDIR]

theorem BoundaryBegPeriodic_J (NVAR : ℤ) (data : DataBlock) (Vc : IdefixArray4D) :
    HD.BoundaryBegPeriodic NVAR data JDIR Vc
      = HD.copyKernel NVAR 0 (data.np_tot KDIR) 0 (data.nghost JDIR) 0 (data.np_tot IDIR)
          (fun k => k) (fun j => j + data.np_int JDIR) (fun i => i) Vc := by
  simp [HD.BoundaryBegPeriodic, HD.copyKernel, IDIR, JDIR, KDIR]

theorem BoundaryBegPeriodic_K (NVAR : ℤ) (data : DataBlock) (Vc : IdefixArray4D) :
    HD.BoundaryBegPeriodic NVAR data KDIR Vc
      = HD.copyKernel NVAR 0 (data.nghost KDIR) 0 (data.np_tot JDIR) 0 (data.np_tot IDIR)
          (fun k => k + data.np_int KDIR) (fun j => j) (fun i => i) Vc := by
  simp [HD.BoundaryBegPeriodic, HD.copyKernel, IDIR, JDIR, KDIR]

theorem BoundaryBegOutflow_I (NVAR : ℤ) (data : DataBlock) (Vc : IdefixArray4D) :
    HD.BoundaryBegOutflow NVAR data IDIR Vc
      = HD.copyKernel NVAR 0 (data.np_tot KDIR) 0 (data.np_tot JDIR) 0 (data.nghost IDIR)
          (fun k => k) (fun j => j) (fun _ => data.nghost IDIR) Vc := by
  simp [HD.BoundaryBegOutflow, HD.copyKernel, IDIR, JDIR, KDIR]

theorem BoundaryBegOutflow_J (NVAR : ℤ) (data : DataBlock) (Vc : IdefixArray4D) :
    HD.BoundaryBegOutflow NVAR data JDIR Vc
      = HD.copyKernel NVAR 0 (data.np_tot KDIR) 0 (data.nghost JDIR) 0 (data.np_tot IDIR)
          (fun k => k) (fun _ => data.nghost JDIR) (fun i => i) Vc := by
  simp [HD.BoundaryBegOutflow, HD.copyKernel, IDIR, JDIR, KDIR]

theorem BoundaryBegOutflow_K (NVAR : ℤ) (data : DataBlock) (Vc : IdefixArray4D) :
    HD.BoundaryBegOutflow NVAR data KDIR Vc
      = HD.copyKernel NVAR 0 (data.nghost KDIR) 0 (data.np_tot JDIR) 0 (data.np_tot IDIR)
          (fun _ => data.nghost KDIR) (fun j => j) (fun i => i) Vc := by
  simp [HD.BoundaryBegOutflow, HD.copyKernel, IDIR, JDIR, KDIR]

theorem BoundaryEndPeriodic_I (NVAR : ℤ) (data : DataBlock) (Vc : IdefixArray4D) :
    HD.BoundaryEndPeriodic NVAR data IDIR Vc
      = HD.copyKernel NVAR 0 (data.np_tot KDIR) 0 (data.np_tot JDIR)
          (data.np_int IDIR + data.nghost IDIR) (data.np_tot IDIR)
          (fun k => k) (fun j => j) (fun i => i - data.np_int IDIR) Vc := by
  simp [HD.BoundaryEndPeriodic, HD.copyKernel, IDIR, JDIR, KDIR]

theorem BoundaryEndPeriodic_J (NVAR : ℤ) (data : DataBlock) (Vc : IdefixArray4D) :
    HD.BoundaryEndPeriodic NVAR data JDIR Vc
      = HD.copyKernel NVAR 0 (data.np_tot KDIR) (data.np_int JDIR + data.nghost JDIR)
          (data.np_tot JDIR) 0 (data.np_tot IDIR)
          (fun k => k) (fun j => j - data.np_int JDIR) (fun i => i) Vc := by
  simp [HD.BoundaryEndPeriodic, HD.copyKernel, IDIR, JDIR, KDIR]

theorem BoundaryEndPeriodic_K (NVAR : ℤ) (data : DataBlock) (Vc : IdefixArray4D) :
    HD.BoundaryEndPeriodic NVAR data KDIR Vc
      = HD.copyKernel NVAR (data.np_int KDIR + data.nghost KDIR) (data.np_tot KDIR)
          0 (data.np_tot JDIR) 0 (data.np_tot IDIR)
          (fun k => k - data.np_int KDIR) (fun j => j) (fun i => i) Vc := by
  simp [HD.BoundaryEndPeriodic, HD.copyKernel, IDIR, JDIR, KDIR]

theorem BoundaryEndOutflow_I (NVAR : ℤ) (data : DataBlock) (Vc : IdefixArray4D) :
    HD.BoundaryEndOutflow NVAR data IDIR Vc
      = HD.copyKernel NVAR 0 (data.np_tot KDIR) 0 (data.np_tot JDIR)
          (data.np_int IDIR + data.nghost IDIR) (data.np_tot IDIR)
          (fun k => k) (fun j => j)
          (fun _ => data.nghost IDIR + data.np_int IDIR - 1) Vc := by
  simp [HD.BoundaryEndOutflow, HD.copyKernel, IDIR, JDIR, KDIR]

theorem BoundaryEndOutflow_J (NVAR : ℤ) (data : DataBlock) (Vc : IdefixArray4D) :
    HD.BoundaryEndOutflow NVAR data JDIR Vc
      = HD.copyKernel NVAR 0 (data.np_tot KDIR) (data.np_int JDIR + data.nghost JDIR)
          (data.np_tot JDIR) 0 (data.np_tot IDIR)
          (fun k => k) (fun _ => data.nghost JDIR + data.np_int JDIR - 1) (fun i => i) Vc := by
  simp [HD.BoundaryEndOutflow, HD.copyKernel, IDIR, JDIR, KDIR]

theorem BoundaryEndOutflow_K (NVAR : ℤ) (data : DataBlock) (Vc : IdefixArray4D) :
    HD.BoundaryEndOutflow NVAR data KDIR Vc
      = HD.copyKernel NVAR (data.np_int KDIR + data.nghost KDIR) (data.np_tot KDIR)
          0 (data.np_tot JDIR) 0 (data.np_tot IDIR)
          (fun _ => data.nghost KDIR + data.np_int KDIR - 1) (fun j => j) (fun i => i) Vc := by
  simp [HD.BoundaryEndOutflow, HD.copyKernel, IDIR, JDIR, KDIR]

/-- A copy kernel along direction 3 over ghost slabs, reading slabs of the
full extent: the slabs of the active range are not written, and periodicity
along directions 1 and 2 is kept. -/
theorem copyKernel_K_good (NVAR : ℤ) (data : DataBlock) (kb ke : ℤ) (sk : ℤ → ℤ)
    (hsk : ∀ k, kb ≤ k ∧ k < ke → (0 ≤ sk k ∧ sk k < data.np_tot KDIR)
      ∧ ¬ (data.nghost KDIR ≤ k ∧ k < data.nghost KDIR + data.np_int KDIR))
    (V : IdefixArray4D) :
    (∀ n k j i, data.nghost KDIR ≤ k ∧ k < data.nghost KDIR + data.np_int KDIR →
      HD.copyKernel NVAR kb ke 0 (data.np_tot JDIR) 0 (data.np_tot IDIR) sk (fun j => j)
        (fun i => i) V n k j i = V n k j i)
    ∧ (HD.periodicAlong NVAR data IDIR V →
      HD.periodicAlong NVAR data IDIR
        (HD.copyKernel NVAR kb ke 0 (data.np_tot JDIR) 0 (data.np_tot IDIR) sk (fun j => j)
          (fun i => i) V))
    ∧ (HD.periodicAlong NVAR data JDIR V →
      HD.periodicAlong NVAR data JDIR
        (HD.copyKernel NVAR kb ke 0 (data.np_tot JDIR) 0 (data.np_tot IDIR) sk (fun j => j)
          (fun i => i) V)) := by
  refine ⟨fun n k j i hk => ?_, fun h => ?_, fun h => ?_⟩
  · exact copyKernel_outside _ _ _ _ _ _ _ _ _ _ _ _ _ _ _ (fun hh => (hsk k hh.2.1).2 hk)
  · rw [periodicAlong_I] at h ⊢
    intro n k hn hk
    exact copyKernel_slab NVAR kb ke 0 (data.np_tot JDIR) 0 (data.np_tot IDIR)
      (data.np_tot KDIR) sk (fun j => j) (fun i => i) (fun _ => rfl) (fun _ => rfl)
      (fun k hk => (hsk k hk).1)
      (fun S => ∀ j, 0 ≤ j ∧ j < data.np_tot JDIR → ∀ i, 0 ≤ i ∧ i < data.np_tot IDIR →
        0 ≤ i + data.np_int IDIR ∧ i + data.np_int IDIR < data.np_tot IDIR →
        S j i = S j (i + data.np_int IDIR))
      (fun S S' hag hS' j hj i hi hs => by
        rw [hag j i hj hi, hag j (i + data.np_int IDIR) hj hs]
        exact hS' j hj i hi hs)
      V h n k hn hk
  · rw [periodicAlong_J] at h ⊢
    intro n k hn hk
    exact copyKernel_slab NVAR kb ke 0 (data.np_tot JDIR) 0 (data.np_tot IDIR)
      (data.np_tot KDIR) sk (fun j => j) (fun i => i) (fun _ => rfl) (fun _ => rfl)
      (fun k hk => (hsk k hk).1)
      (fun S => ∀ j i, 0 ≤ j ∧ j < data.np_tot JDIR → 0 ≤ i ∧ i < data.np_tot IDIR →
        0 ≤ j + data.np_int JDIR ∧ j + data.np_int JDIR < data.np_tot JDIR →
        S j i = S (j + data.np_int JDIR) i)
      (fun S S' hag hS' j i hj hi hs => by
        rw [hag j i hj hi, hag (j + data.np_int JDIR) i hs hi]
        exact hS' j i hj hi hs)
      V h n k hn hk

/-- A copy kernel along direction 2 over ghost rows, reading rows of the full
extent: the rows of the active range are not written, and periodicity along
direction 1 is kept. -/
theorem copyKernel_J_good (NVAR : ℤ) (data : DataBlock) (jb je : ℤ) (sj : ℤ → ℤ)
    (hsj : ∀ j, jb ≤ j ∧ j < je → (0 ≤ sj j ∧ sj j < data.np_tot JDIR)
      ∧ ¬ (data.nghost JDIR ≤ j ∧ j < data.nghost JDIR + data.np_int JDIR))
    (V : IdefixArray4D) :
    (∀ n k j i, data.nghost JDIR ≤ j ∧ j < data.nghost JDIR + data.np_int JDIR →
      HD.copyKernel NVAR 0 (data.np_tot KDIR) jb je 0 (data.np_tot IDIR) (fun k => k) sj
        (fun i => i) V n k j i = V n k j i)
    ∧ (HD.periodicAlong NVAR data IDIR V →
      HD.periodicAlong NVAR data IDIR
        (HD.copyKernel NVAR 0 (data.np_tot KDIR) jb je 0 (data.np_tot IDIR) (fun k => k) sj
          (fun i => i) V)) := by
  refine ⟨fun n k j i hj => ?_, fun h => ?_⟩
  · exact copyKernel_outside _ _ _ _ _ _ _ _ _ _ _ _ _ _ _ (fun hh => (hsj j hh.2.2.1).2 hj)
  · rw [periodicAlong_I] at h ⊢
    intro n k hn hk j hj
    exact copyKernel_row NVAR 0 (data.np_tot KDIR) jb je 0 (data.np_tot IDIR)
      (data.np_tot KDIR) (data.np_tot JDIR) (fun k => k) sj (fun i => i) (fun _ => rfl)
      (fun _ => rfl) (fun j hj => (hsj j hj).1)
      (fun S => ∀ i, 0 ≤ i ∧ i < data.np_tot IDIR →
        0 ≤ i + data.np_int IDIR ∧ i + data.np_int IDIR < data.np_tot IDIR →
        S i = S (i + data.np_int IDIR))
      (fun S S' hag hS' i hi hs => by
        rw [hag i hi, hag (i + data.np_int IDIR) hs]
        exact hS' i hi hs)
      V (fun n k j hn hk hj => h n k hn hk j hj) n k j hn hk hj

/-- A copy kernel along direction 1 over ghost cells leaves the cells of the
active range as they were. -/
theorem copyKernel_I_good (NVAR : ℤ) (data : DataBlock) (ib ie : ℤ) (si : ℤ → ℤ)
    (hsi : ∀ i, ib ≤ i ∧ i < ie →
      ¬ (data.nghost IDIR ≤ i ∧ i < data.nghost IDIR + data.np_int IDIR))
    (V : IdefixArray4D) (n k j i : ℤ)
    (hi : data.nghost IDIR ≤ i ∧ i < data.nghost IDIR + data.np_int IDIR) :
    HD.copyKernel NVAR 0 (data.np_tot KDIR) 0 (data.np_tot JDIR) ib ie (fun k => k)
      (fun j => j) si V n k j i = V n k j i :=
  copyKernel_outside _ _ _ _ _ _ _ _ _ _ _ _ _ _ _ (fun hh => hsi i hh.2.2.2 hi)

/-! ## The pass of a periodic direction -/

theorem periodic_pass_K (NVAR : ℤ) (data : DataBlock) (V : IdefixArray4D)
    (hext : data.extents KDIR)
    (hsize : data.nghost KDIR ≤ data.np_int KDIR) :
    HD.periodicAlong NVAR data KDIR
      (HD.BoundaryEndPeriodic NVAR data KDIR (HD.BoundaryBegPeriodic NVAR data KDIR V)) := by
  obtain ⟨htot, -, -⟩ := hext
  rw [periodicAlong_K]
  intro n k j i hn hk hj hi hs
  rw [BoundaryEndPeriodic_K, BoundaryBegPeriodic_K]
  have hBin : ∀ k', 0 ≤ k' ∧ k' < data.nghost KDIR →
      HD.copyKernel NVAR 0 (data.nghost KDIR) 0 (data.np_tot JDIR) 0 (data.np_tot IDIR)
        (fun k => k + data.np_int KDIR) (fun j => j) (fun i => i) V n k' j i
      = V n (k' + data.np_int KDIR) j i := fun k' hk' =>
    copyKernel_inside _ _ _ _ _ _ _ _ _ _
      (fun k j i hk _ _ hh => by omega) V n k' j i hn hk' hj hi
  have hBout : ∀ k', ¬ (0 ≤ k' ∧ k' < data.nghost KDIR) →
      HD.copyKernel NVAR 0 (data.nghost KDIR) 0 (data.np_tot JDIR) 0 (data.np_tot IDIR)
        (fun k => k + data.np_int KDIR) (fun j => j) (fun i => i) V n k' j i
      = V n k' j i := fun k' hk' =>
    copyKernel_outside _ _ _ _ _ _ _ _ _ _ _ _ _ _ _ (fun hh => hk' hh.2.1)
  have hEin : ∀ (W : IdefixArray4D) k',
      data.np_int KDIR + data.nghost KDIR ≤ k' ∧ k' < data.np_tot KDIR →
      HD.copyKernel NVAR (data.np_int KDIR + data.nghost KDIR) (data.np_tot KDIR)
        0 (data.np_tot JDIR) 0 (data.np_tot IDIR)
        (fun k => k - data.np_int KDIR) (fun j => j) (fun i => i) W n k' j i
      = W n (k' - data.np_int KDIR) j i := fun W k' hk' =>
    copyKernel_inside _ _ _ _ _ _ _ _ _ _
      (fun k j i hk _ _ hh => by omega) W n k' j i hn hk' hj hi
  have hEout : ∀ (W : IdefixArray4D) k',
      ¬ (data.np_int KDIR + data.nghost KDIR ≤ k' ∧ k' < data.np_tot KDIR) →
      HD.copyKernel NVAR (data.np_int KDIR + data.nghost KDIR) (data.np_tot KDIR)
        0 (data.np_tot JDIR) 0 (data.np_tot IDIR)
        (fun k => k - data.np_int KDIR) (fun j => j) (fun i => i) W n k' j i
      = W n k' j i := fun W k' hk' =>
    copyKernel_outside _ _ _ _ _ _ _ _ _ _ _ _ _ _ _ (fun hh => hk' hh.2.1)
  rw [hEout _ k (by omega)]
  by_cases hkg : k < data.nghost KDIR
  · rw [hBin k ⟨hk.1, hkg⟩, hEout _ _ (by omega), hBout _ (by omega)]
  · rw [hEin _ _ (by omega)]
    have : k + data.np_int KDIR - data.np_int KDIR = k := by omega
    rw [this]

theorem periodic_pass_J (NVAR : ℤ) (data : DataBlock) (V : IdefixArray4D)
    (hext : data.extents JDIR)
    (hsize : data.nghost JDIR ≤ data.np_int JDIR) :
    HD.periodicAlong NVAR data JDIR
      (HD.BoundaryEndPeriodic NVAR data JDIR (HD.BoundaryBegPeriodic NVAR data JDIR V)) := by
  obtain ⟨htot, -, -⟩ := hext
  rw [periodicAlong_J]
  intro n k hn hk j i hj hi hs
  rw [BoundaryEndPeriodic_J, BoundaryBegPeriodic_J]
  have hBin : ∀ j', 0 ≤ j' ∧ j' < data.nghost JDIR →
      HD.copyKernel NVAR 0 (data.np_tot KDIR) 0 (data.nghost JDIR) 0 (data.np_tot IDIR)
        (fun k => k) (fun j => j + data.np_int JDIR) (fun i => i) V n k j' i
      = V n k (j' + data.np_int JDIR) i := fun j' hj' =>
    copyKernel_inside _ _ _ _ _ _ _ _ _ _
      (fun k j i _ hj _ hh => by omega) V n k j' i hn hk hj' hi
  have hBout : ∀ j', ¬ (0 ≤ j' ∧ j' < data.nghost JDIR) →
      HD.copyKernel NVAR 0 (data.np_tot KDIR) 0 (data.nghost JDIR) 0 (data.np_tot IDIR)
        (fun k => k) (fun j => j + data.np_int JDIR) (fun i => i) V n k j' i
      = V n k j' i := fun j' hj' =>
    copyKernel_outside _ _ _ _ _ _ _ _ _ _ _ _ _ _ _ (fun hh => hj' hh.2.2.1)
  have hEin : ∀ (W : IdefixArray4D) j',
      data.np_int JDIR + data.nghost JDIR ≤ j' ∧ j' < data.np_tot JDIR →
      HD.copyKernel NVAR 0 (data.np_tot KDIR) (data.np_int JDIR + data.nghost JDIR)
        (data.np_tot JDIR) 0 (data.np_tot IDIR)
        (fun k => k) (fun j => j - data.np_int JDIR) (fun i => i) W n k j' i
      = W n k (j' - data.np_int JDIR) i := fun W j' hj' =>
    copyKernel_inside _ _ _ _ _ _ _ _ _ _
      (fun k j i _ hj _ hh => by omega) W n k j' i hn hk hj' hi
  have hEout : ∀ (W : IdefixArray4D) j',
      ¬ (data.np_int JDIR + data.nghost JDIR ≤ j' ∧ j' < data.np_tot JDIR) →
      HD.copyKernel NVAR 0 (data.np_tot KDIR) (data.np_int JDIR + data.nghost JDIR)
        (data.np_tot JDIR) 0 (data.np_tot IDIR)
        (fun k => k) (fun j => j - data.np_int JDIR) (fun i => i) W n k j' i
      = W n k j' i := fun W j' hj' =>
    copyKernel_outside _ _ _ _ _ _ _ _ _ _ _ _ _ _ _ (fun hh => hj' hh.2.2.1)
  rw [hEout _ j (by omega)]
  by_cases hjg : j < data.nghost JDIR
  · rw [hBin j ⟨hj.1, hjg⟩, hEout _ _ (by omega), hBout _ (by omega)]
  · rw [hEin _ _ (by omega)]
    have : j + data.np_int JDIR - data.np_int JDIR = j := by omega
    rw [this]

theorem periodic_pass_I (NVAR : ℤ) (data : DataBlock) (V : IdefixArray4D)
    (hext : data.extents IDIR)
    (hsize : data.nghost IDIR ≤ data.np_int IDIR) :
    HD.periodicAlong NVAR data IDIR
      (HD.BoundaryEndPeriodic NVAR data IDIR (HD.BoundaryBegPeriodic NVAR data IDIR V)) := by
  obtain ⟨htot, -, -⟩ := hext
  rw [periodicAlong_I]
  intro n k hn hk j hj i hi hs
  rw [BoundaryEndPeriodic_I, BoundaryBegPeriodic_I]
  have hBin : ∀ i', 0 ≤ i' ∧ i' < data.nghost IDIR →
      HD.copyKernel NVAR 0 (data.np_tot KDIR) 0 (data.np_tot JDIR) 0 (data.nghost IDIR)
        (fun k => k) (fun j => j) (fun i => i + data.np_int IDIR) V n k j i'
      = V n k j (i' + data.np_int IDIR) := fun i' hi' =>
    copyKernel_inside _ _ _ _ _ _ _ _ _ _
      (fun k j i _ _ hi hh => by omega) V n k j i' hn hk hj hi'
  have hBout : ∀ i', ¬ (0 ≤ i' ∧ i' < data.nghost IDIR) →
      HD.copyKernel NVAR 0 (data.np_tot KDIR) 0 (data.np_tot JDIR) 0 (data.nghost IDIR)
        (fun k => k) (fun j => j) (fun i => i + data.np_int IDIR) V n k j i'
      = V n k j i' := fun i' hi' =>
    copyKernel_outside _ _ _ _ _ _ _ _ _ _ _ _ _ _ _ (fun hh => hi' hh.2.2.2)
  have hEin : ∀ (W : IdefixArray4D) i',
      data.np_int IDIR + data.nghost IDIR ≤ i' ∧ i' < data.np_tot IDIR →
      HD.copyKernel NVAR 0 (data.np_tot KDIR) 0 (data.np_tot JDIR)
        (data.np_int IDIR + data.nghost IDIR) (data.np_tot IDIR)
        (fun k => k) (fun j => j) (fun i => i - data.np_int IDIR) W n k j i'
      = W n k j (i' - data.np_int IDIR) := fun W i' hi' =>
    copyKernel_inside _ _ _ _ _ _ _ _ _ _
      (fun k j i _ _ hi hh => by omega) W n k j i' hn hk hj hi'
  have hEout : ∀ (W : IdefixArray4D) i',
      ¬ (data.np_int IDIR + data.nghost IDIR ≤ i' ∧ i' < data.np_tot IDIR) →
      HD.copyKernel NVAR 0 (data.np_tot KDIR) 0 (data.np_tot JDIR)
        (data.np_int IDIR + data.nghost IDIR) (data.np_tot IDIR)
        (fun k => k) (fun j => j) (fun i => i - data.np_int IDIR) W n k j i'
      = W n k j i' := fun W i' hi' =>
    copyKernel_outside _ _ _ _ _ _ _ _ _ _ _ _ _ _ _ (fun hh => hi' hh.2.2.2)
  rw [hEout _ i (by omega)]
  by_cases hig : i < data.nghost IDIR
  · rw [hBin i ⟨hi.1, hig⟩, hEout _ _ (by omega), hBout _ (by omega)]
  · rw [hEin _ _ (by omega)]
    have : i + data.np_int IDIR - data.np_int IDIR = i := by omega
    rw [this]

/-! ## Frame and kept periodicity of the twelve kernels -/

theorem BoundaryBegPeriodic_K_good (NVAR : ℤ) (data : DataBlock) (V : IdefixArray4D)
    (hext : data.extents KDIR) (_hng : 0 ≤ data.nghost KDIR) (hnp : 0 ≤ data.np_int KDIR) :
    (∀ n k j i, data.nghost KDIR ≤ k ∧ k < data.nghost KDIR + data.np_int KDIR →
      HD.BoundaryBegPeriodic NVAR data KDIR V n k j i = V n k j i)
    ∧ (HD.periodicAlong NVAR data IDIR V →
      HD.periodicAlong NVAR data IDIR (HD.BoundaryBegPeriodic NVAR data KDIR V))
    ∧ (HD.periodicAlong NVAR data JDIR V →
      HD.periodicAlong NVAR data JDIR (HD.BoundaryBegPeriodic NVAR data KDIR V)) := by
  obtain ⟨htot, -, -⟩ := hext
  rw [BoundaryBegPeriodic_K]
  exact copyKernel_K_good NVAR data _ _ _ (fun k hk => by constructor <;> omega) V

theorem BoundaryBegPeriodic_J_good (NVAR : ℤ) (data : DataBlock) (V : IdefixArray4D)
    (hext : data.extents JDIR) (_hng : 0 ≤ data.nghost JDIR) (hnp : 0 ≤ data.np_int JDIR) :
    (∀ n k j i, data.nghost JDIR ≤ j ∧ j < data.nghost JDIR + data.np_int JDIR →
      HD.BoundaryBegPeriodic NVAR data JDIR V n k j i = V n k j i)
    ∧ (HD.periodicAlong NVAR data IDIR V →
      HD.periodicAlong NVAR data IDIR (HD.BoundaryBegPeriodic NVAR data JDIR V)) := by
  obtain ⟨htot, -, -⟩ := hext
  rw [BoundaryBegPeriodic_J]
  exact copyKernel_J_good NVAR data _ _ _ (fun j hj => by constructor <;> omega) V

theorem BoundaryBegPeriodic_I_good (NVAR : ℤ) (data : DataBlock) (V : IdefixArray4D)
    (hext : data.extents IDIR) (_hng : 0 ≤ data.nghost IDIR) (_hnp : 0 ≤ data.np_int IDIR)
    (n k j i : ℤ) (hi : data.nghost IDIR ≤ i ∧ i < data.nghost IDIR + data.np_int IDIR) :
    HD.BoundaryBegPeriodic NVAR data IDIR V n k j i = V n k j i := by
  obtain ⟨htot, -, -⟩ := hext
  rw [BoundaryBegPeriodic_I]
  exact copyKernel_I_good NVAR data _ _ _ (fun i hi => by omega) V n k j i hi

theorem BoundaryBegOutflow_K_good (NVAR : ℤ) (data : DataBlock) (V : IdefixArray4D)
    (hext : data.extents KDIR) (hng : 0 ≤ data.nghost KDIR) (hnp : 0 ≤ data.np_int KDIR) :
    (∀ n k j i, data.nghost KDIR ≤ k ∧ k < data.nghost KDIR + data.np_int KDIR →
      HD.BoundaryBegOutflow NVAR data KDIR V n k j i = V n k j i)
    ∧ (HD.periodicAlong NVAR data IDIR V →
      HD.periodicAlong NVAR data IDIR (HD.BoundaryBegOutflow NVAR data KDIR V))
    ∧ (HD.periodicAlong NVAR data JDIR V →
      HD.periodicAlong NVAR data JDIR (HD.BoundaryBegOutflow NVAR data KDIR V)) := by
  obtain ⟨htot, -, -⟩ := hext
  rw [BoundaryBegOutflow_K]
  exact copyKernel_K_good NVAR data _ _ _ (fun k hk => by constructor <;> omega) V

theorem BoundaryBegOutflow_J_good (NVAR : ℤ) (data : DataBlock) (V : IdefixArray4D)
    (hext : data.extents JDIR) (hng : 0 ≤ data.nghost JDIR) (hnp : 0 ≤ data.np_int JDIR) :
    (∀ n k j i, data.nghost JDIR ≤ j ∧ j < data.nghost JDIR + data.np_int JDIR →
      HD.BoundaryBegOutflow NVAR data JDIR V n k j i = V n k j i)
    ∧ (HD.periodicAlong NVAR data IDIR V →
      HD.periodicAlong NVAR data IDIR (HD.BoundaryBegOutflow NVAR data JDIR V)) := by
  obtain ⟨htot, -, -⟩ := hext
  rw [BoundaryBegOutflow_J]
  exact copyKernel_J_good NVAR data _ _ _ (fun j hj => by constructor <;> omega) V

theorem BoundaryBegOutflow_I_good (NVAR : ℤ) (data : DataBlock) (V : IdefixArray4D)
    (hext : data.extents IDIR) (_hng : 0 ≤ data.nghost IDIR) (_hnp : 0 ≤ data.np_int IDIR)
    (n k j i : ℤ) (hi : data.nghost IDIR ≤ i ∧ i < data.nghost IDIR + data.np_int IDIR) :
    HD.BoundaryBegOutflow NVAR data IDIR V n k j i = V n k j i := by
  obtain ⟨htot, -, -⟩ := hext
  rw [BoundaryBegOutflow_I]
  exact copyKernel_I_good NVAR data _ _ _ (fun i hi => by omega) V n k j i hi

theorem BoundaryEndPeriodic_K_good (NVAR : ℤ) (data : DataBlock) (V : IdefixArray4D)
    (hext : data.extents KDIR) (_hng : 0 ≤ data.nghost KDIR) (hnp : 0 ≤ data.np_int KDIR) :
    (∀ n k j i, data.nghost KDIR ≤ k ∧ k < data.nghost KDIR + data.np_int KDIR →
      HD.BoundaryEndPeriodic NVAR data KDIR V n k j i = V n k j i)
    ∧ (HD.periodicAlong NVAR data IDIR V →
      HD.periodicAlong NVAR data IDIR (HD.BoundaryEndPeriodic NVAR data KDIR V))
    ∧ (HD.periodicAlong NVAR data JDIR V →
      HD.periodicAlong NVAR data JDIR (HD.BoundaryEndPeriodic NVAR data KDIR V)) := by
  obtain ⟨htot, -, -⟩ := hext
  rw [BoundaryEndPeriodic_K]
  exact copyKernel_K_good NVAR data _ _ _ (fun k hk => by constructor <;> omega) V

theorem BoundaryEndPeriodic_J_good (NVAR : ℤ) (data : DataBlock) (V : IdefixArray4D)
    (hext : data.extents JDIR) (_hng : 0 ≤ data.nghost JDIR) (hnp : 0 ≤ data.np_int JDIR) :
    (∀ n k j i, data.nghost JDIR ≤ j ∧ j < data.nghost JDIR + data.np_int JDIR →
      HD.BoundaryEndPeriodic NVAR data JDIR V n k j i = V n k j i)
    ∧ (HD.periodicAlong NVAR data IDIR V →
      HD.periodicAlong NVAR data IDIR (HD.BoundaryEndPeriodic NVAR data JDIR V)) := by
  obtain ⟨htot, -, -⟩ := hext
  rw [BoundaryEndPeriodic_J]
  exact copyKernel_J_good NVAR data _ _ _ (fun j hj => by constructor <;> omega) V

theorem BoundaryEndPeriodic_I_good (NVAR : ℤ) (data : DataBlock) (V : IdefixArray4D)
    (hext : data.extents IDIR) (_hng : 0 ≤ data.nghost IDIR) (_hnp : 0 ≤ data.np_int IDIR)
    (n k j i : ℤ) (hi : data.nghost IDIR ≤ i ∧ i < data.nghost IDIR + data.np_int IDIR) :
    HD.BoundaryEndPeriodic NVAR data IDIR V n k j i = V n k j i := by
  obtain ⟨htot, -, -⟩ := hext
  rw [BoundaryEndPeriodic_I]
  exact copyKernel_I_good NVAR data _ _ _ (fun i hi => by omega) V n k j i hi

theorem BoundaryEndOutflow_K_good (NVAR : ℤ) (data : DataBlock) (V : IdefixArray4D)
    (hext : data.extents KDIR) (hng : 0 ≤ data.nghost KDIR) (hnp : 0 ≤ data.np_int KDIR) :
    (∀ n k j i, data.nghost KDIR ≤ k ∧ k < data.nghost KDIR + data.np_int KDIR →
      HD.BoundaryEndOutflow NVAR data KDIR V n k j i = V n k j i)
    ∧ (HD.periodicAlong NVAR data IDIR V →
      HD.periodicAlong NVAR data IDIR (HD.BoundaryEndOutflow NVAR data KDIR V))
    ∧ (HD.periodicAlong NVAR data JDIR V →
      HD.periodicAlong NVAR data JDIR (HD.BoundaryEndOutflow NVAR data KDIR V)) := by
  obtain ⟨htot, -, -⟩ := hext
  rw [BoundaryEndOutflow_K]
  exact copyKernel_K_good NVAR data _ _ _ (fun k hk => by constructor <;> omega) V

theorem BoundaryEndOutflow_J_good (NVAR : ℤ) (data : DataBlock) (V : IdefixArray4D)
    (hext : data.extents JDIR) (hng : 0 ≤ data.nghost JDIR) (hnp : 0 ≤ data.np_int JDIR) :
    (∀ n k j i, data.nghost JDIR ≤ j ∧ j < data.nghost JDIR + data.np_int JDIR →
      HD.BoundaryEndOutflow NVAR data JDIR V n k j i = V n k j i)
    ∧ (HD.periodicAlong NVAR data IDIR V →
      HD.periodicAlong NVAR data IDIR (HD.BoundaryEndOutflow NVAR data JDIR V)) := by
  obtain ⟨htot, -, -⟩ := hext
  rw [BoundaryEndOutflow_J]
  exact copyKernel_J_good NVAR data _ _ _ (fun j hj => by constructor <;> omega) V

theorem BoundaryEndOutflow_I_good (NVAR : ℤ) (data : DataBlock) (V : IdefixArray4D)
    (hext : data.extents IDIR) (_hng : 0 ≤ data.nghost IDIR) (_hnp : 0 ≤ data.np_int IDIR)
    (n k j i : ℤ) (hi : data.nghost IDIR ≤ i ∧ i < data.nghost IDIR + data.np_int IDIR) :
    HD.BoundaryEndOutflow NVAR data IDIR V n k j i = V n k j i := by
  obtain ⟨htot, -, -⟩ := hext
  rw [BoundaryEndOutflow_I]
  exact copyKernel_I_good NVAR data _ _ _ (fun i hi => by omega) V n k j i hi

/-! ## One pass of the loop over the directions -/

theorem SetBoundaryDir_K (NVAR : ℤ) (data : DataBlock) (Vc : IdefixArray4D)
    (hl : data.lbound KDIR = BoundaryType.periodic ∨ data.lbound KDIR = BoundaryType.outflow)
    (hr : data.rbound KDIR = BoundaryType.periodic ∨ data.rbound KDIR = BoundaryType.outflow)
    (hext : data.extents KDIR) (hng : 0 ≤ data.nghost KDIR) (hnp : 0 ≤ data.np_int KDIR) :
    ∃ V', HD.SetBoundaryDir NVAR data Vc KDIR = Except.ok V'
      ∧ (∀ n k j i, data.nghost KDIR ≤ k ∧ k < data.nghost KDIR + data.np_int KDIR →
          V' n k j i = Vc n k j i)
      ∧ (HD.periodicAlong NVAR data IDIR Vc → HD.periodicAlong NVAR data IDIR V')
      ∧ (HD.periodicAlong NVAR data JDIR Vc → HD.periodicAlong NVAR data JDIR V')
      ∧ (data.lbound KDIR = BoundaryType.periodic → data.rbound KDIR = BoundaryType.periodic →
          data.nghost KDIR ≤ data.np_int KDIR → HD.periodicAlong NVAR data KDIR V') := by
  have key : ∀ (B E : IdefixArray4D → IdefixArray4D),
      (∀ V, (∀ n k j i, data.nghost KDIR ≤ k ∧ k < data.nghost KDIR + data.np_int KDIR →
          B V n k j i = V n k j i)
        ∧ (HD.periodicAlong NVAR data IDIR V → HD.periodicAlong NVAR data IDIR (B V))
        ∧ (HD.periodicAlong NVAR data JDIR V → HD.periodicAlong NVAR data JDIR (B V))) →
      (∀ V, (∀ n k j i, data.nghost KDIR ≤ k ∧ k < data.nghost KDIR + data.np_int KDIR →
          E V n k j i = V n k j i)
        ∧ (HD.periodicAlong NVAR data IDIR V → HD.periodicAlong NVAR data IDIR (E V))
        ∧ (HD.periodicAlong NVAR data JDIR V → HD.periodicAlong NVAR data JDIR (E V))) →
      (∀ n k j i, data.nghost KDIR ≤ k ∧ k < data.nghost KDIR + data.np_int KDIR →
          E (B Vc) n k j i = Vc n k j i)
        ∧ (HD.periodicAlong NVAR data IDIR Vc → HD.periodicAlong NVAR data IDIR (E (B Vc)))
        ∧ (HD.periodicAlong NVAR data JDIR Vc → HD.periodicAlong NVAR data JDIR (E (B Vc))) :=
    fun B E hB hE =>
      ⟨fun n k j i hk => ((hE (B Vc)).1 n k j i hk).trans ((hB Vc).1 n k j i hk),
        fun h => (hE (B Vc)).2.1 ((hB Vc).2.1 h),
        fun h => (hE (B Vc)).2.2 ((hB Vc).2.2 h)⟩
  rcases hl with hl | hl <;> rcases hr with hr | hr
  · obtain ⟨k1, k2, k3⟩ := key (HD.BoundaryBegPeriodic NVAR data KDIR)
      (HD.BoundaryEndPeriodic NVAR data KDIR)
      (fun V => BoundaryBegPeriodic_K_good NVAR data V hext hng hnp)
      (fun V => BoundaryEndPeriodic_K_good NVAR data V hext hng hnp)
    exact ⟨_, by simp [HD.SetBoundaryDir, HD.SetBoundaryBeg, HD.SetBoundaryEnd, hl, hr,
      Except.bind], k1, k2, k3, fun _ _ hs => periodic_pass_K NVAR data Vc hext hs⟩
  · obtain ⟨k1, k2, k3⟩ := key (HD.BoundaryBegPeriodic NVAR data KDIR)
      (HD.BoundaryEndOutflow NVAR data KDIR)
      (fun V => BoundaryBegPeriodic_K_good NVAR data V hext hng hnp)
      (fun V => BoundaryEndOutflow_K_good NVAR data V hext hng hnp)
    exact ⟨_, by simp [HD.SetBoundaryDir, HD.SetBoundaryBeg, HD.SetBoundaryEnd, hl, hr,
      Except.bind], k1, k2, k3, fun _ h _ => absurd (hr.symm.trans h) (by decide)⟩
  · obtain ⟨k1, k2, k3⟩ := key (HD.BoundaryBegOutflow NVAR data KDIR)
      (HD.BoundaryEndPeriodic NVAR data KDIR)
      (fun V => BoundaryBegOutflow_K_good NVAR data V hext hng hnp)
      (fun V => BoundaryEndPeriodic_K_good NVAR data V hext hng hnp)
    exact ⟨_, by simp [HD.SetBoundaryDir, HD.SetBoundaryBeg, HD.SetBoundaryEnd, hl, hr,
      Except.bind], k1, k2, k3, fun h _ _ => absurd (hl.symm.trans h) (by decide)⟩
  · obtain ⟨k1, k2, k3⟩ := key (HD.BoundaryBegOutflow NVAR data KDIR)
      (HD.BoundaryEndOutflow NVAR data KDIR)
      (fun V => BoundaryBegOutflow_K_good NVAR data V hext hng hnp)
      (fun V => BoundaryEndOutflow_K_good NVAR data V hext hng hnp)
    exact ⟨_, by simp [HD.SetBoundaryDir, HD.SetBoundaryBeg, HD.SetBoundaryEnd, hl, hr,
      Except.bind], k1, k2, k3, fun h _ _ => absurd (hl.symm.trans h) (by decide)⟩

theorem SetBoundaryDir_J (NVAR : ℤ) (data : DataBlock) (Vc : IdefixArray4D)
    (hl : data.lbound JDIR = BoundaryType.periodic ∨ data.lbound JDIR = BoundaryType.outflow)
    (hr : data.rbound JDIR = BoundaryType.periodic ∨ data.rbound JDIR = BoundaryType.outflow)
    (hext : data.extents JDIR) (hng : 0 ≤ data.nghost JDIR) (hnp : 0 ≤ data.np_int JDIR) :
    ∃ V', HD.SetBoundaryDir NVAR data Vc JDIR = Except.ok V'
      ∧ (∀ n k j i, data.nghost JDIR ≤ j ∧ j < data.nghost JDIR + data.np_int JDIR →
          V' n k j i = Vc n k j i)
      ∧ (HD.periodicAlong NVAR data IDIR Vc → HD.periodicAlong NVAR data IDIR V')
      ∧ (data.lbound JDIR = BoundaryType.periodic → data.rbound JDIR = BoundaryType.periodic →
          data.nghost JDIR ≤ data.np_int JDIR → HD.periodicAlong NVAR data JDIR V') := by
  have key : ∀ (B E : IdefixArray4D → IdefixArray4D),
      (∀ V, (∀ n k j i, data.nghost JDIR ≤ j ∧ j < data.nghost JDIR + data.np_int JDIR →
          B V n k j i = V n k j i)
        ∧ (HD.periodicAlong NVAR data IDIR V → HD.periodicAlong NVAR data IDIR (B V))) →
      (∀ V, (∀ n k j i, data.nghost JDIR ≤ j ∧ j < data.nghost JDIR + data.np_int JDIR →
          E V n k j i = V n k j i)
        ∧ (HD.periodicAlong NVAR data IDIR V → HD.periodicAlong NVAR data IDIR (E V))) →
      (∀ n k j i, data.nghost JDIR ≤ j ∧ j < data.nghost JDIR + data.np_int JDIR →
          E (B Vc) n k j i = Vc n k j i)
        ∧ (HD.periodicAlong NVAR data IDIR Vc → HD.periodicAlong NVAR data IDIR (E (B Vc))) :=
    fun B E hB hE =>
      ⟨fun n k j i hj => ((hE (B Vc)).1 n k j i hj).trans ((hB Vc).1 n k j i hj),
        fun h => (hE (B Vc)).2 ((hB Vc).2 h)⟩
  rcases hl with hl | hl <;> rcases hr with hr | hr
  · obtain ⟨k1, k2⟩ := key (HD.BoundaryBegPeriodic NVAR data JDIR)
      (HD.BoundaryEndPeriodic NVAR data JDIR)
      (fun V => BoundaryBegPeriodic_J_good NVAR data V hext hng hnp)
      (fun V => BoundaryEndPeriodic_J_good NVAR data V hext hng hnp)
    exact ⟨_, by simp [HD.SetBoundaryDir, HD.SetBoundaryBeg, HD.SetBoundaryEnd, hl, hr,
      Except.bind], k1, k2, fun _ _ hs => periodic_pass_J NVAR data Vc hext hs⟩
  · obtain ⟨k1, k2⟩ := key (HD.BoundaryBegPeriodic NVAR data JDIR)
      (HD.BoundaryEndOutflow NVAR data JDIR)
      (fun V => BoundaryBegPeriodic_J_good NVAR data V hext hng hnp)
      (fun V => BoundaryEndOutflow_J_good NVAR data V hext hng hnp)
    exact ⟨_, by simp [HD.SetBoundaryDir, HD.SetBoundaryBeg, HD.SetBoundaryEnd, hl, hr,
      Except.bind], k1, k2, fun _ h _ => absurd (hr.symm.trans h) (by decide)⟩
  · obtain ⟨k1, k2⟩ := key (HD.BoundaryBegOutflow NVAR data JDIR)
      (HD.BoundaryEndPeriodic NVAR data JDIR)
      (fun V => BoundaryBegOutflow_J_good NVAR data V hext hng hnp)
      (fun V => BoundaryEndPeriodic_J_good NVAR data V hext hng hnp)
    exact ⟨_, by simp [HD.SetBoundaryDir, HD.SetBoundaryBeg, HD.SetBoundaryEnd, hl, hr,
      Except.bind], k1, k2, fun h _ _ => absurd (hl.symm.trans h) (by decide)⟩
  · obtain ⟨k1, k2⟩ := key (HD.BoundaryBegOutflow NVAR data JDIR)
      (HD.BoundaryEndOutflow NVAR data JDIR)
      (fun V => BoundaryBegOutflow_J_good NVAR data V hext hng hnp)
      (fun V => BoundaryEndOutflow_J_good NVAR data V hext hng hnp)
    exact ⟨_, by simp [HD.SetBoundaryDir, HD.SetBoundaryBeg, HD.SetBoundaryEnd, hl, hr,
      Except.bind], k1, k2, fun h _ _ => absurd (hl.symm.trans h) (by decide)⟩

theorem SetBoundaryDir_I (NVAR : ℤ) (data : DataBlock) (Vc : IdefixArray4D)
    (hl : data.lbound IDIR = BoundaryType.periodic ∨ data.lbound IDIR = BoundaryType.outflow)
    (hr : data.rbound IDIR = BoundaryType.periodic ∨ data.rbound IDIR = BoundaryType.outflow)
    (hext : data.extents IDIR) (hng : 0 ≤ data.nghost IDIR) (hnp : 0 ≤ data.np_int IDIR) :
    ∃ V', HD.SetBoundaryDir NVAR data Vc IDIR = Except.ok V'
      ∧ (∀ n k j i, data.nghost IDIR ≤ i ∧ i < data.nghost IDIR + data.np_int IDIR →
          V' n k j i = Vc n k j i)
      ∧ (data.lbound IDIR = BoundaryType.periodic → data.rbound IDIR = BoundaryType.periodic →
          data.nghost IDIR ≤ data.np_int IDIR → HD.periodicAlong NVAR data IDIR V') := by
  have key : ∀ (B E : IdefixArray4D → IdefixArray4D),
      (∀ V n k j i, data.nghost IDIR ≤ i ∧ i < data.nghost IDIR + data.np_int IDIR →
          B V n k j i = V n k j i) →
      (∀ V n k j i, data.nghost IDIR ≤ i ∧ i < data.nghost IDIR + data.np_int IDIR →
          E V n k j i = V n k j i) →
      (∀ n k j i, data.nghost IDIR ≤ i ∧ i < data.nghost IDIR + data.np_int IDIR →
          E (B Vc) n k j i = Vc n k j i) :=
    fun B E hB hE n k j i hi => (hE (B Vc) n k j i hi).trans (hB Vc n k j i hi)
  rcases hl with hl | hl <;> rcases hr with hr | hr
  · have k1 := key (HD.BoundaryBegPeriodic NVAR data IDIR)
      (HD.BoundaryEndPeriodic NVAR data IDIR)
      (fun V => BoundaryBegPeriodic_I_good NVAR data V hext hng hnp)
      (fun V => BoundaryEndPeriodic_I_good NVAR data V hext hng hnp)
    exact ⟨_, by simp [HD.SetBoundaryDir, HD.SetBoundaryBeg, HD.SetBoundaryEnd, hl, hr,
      Except.bind], k1, fun _ _ hs => periodic_pass_I NVAR data Vc hext hs⟩
  · have k1 := key (HD.BoundaryBegPeriodic NVAR data IDIR)
      (HD.BoundaryEndOutflow NVAR data IDIR)
      (fun V => BoundaryBegPeriodic_I_good NVAR data V hext hng hnp)
      (fun V => BoundaryEndOutflow_I_good NVAR data V hext hng hnp)
    exact ⟨_, by simp [HD.SetBoundaryDir, HD.SetBoundaryBeg, HD.SetBoundaryEnd, hl, hr,
      Except.bind], k1, fun _ h _ => absurd (hr.symm.trans h) (by decide)⟩
  · have k1 := key (HD.BoundaryBegOutflow NVAR data IDIR)
      (HD.BoundaryEndPeriodic NVAR data IDIR)
      (fun V => BoundaryBegOutflow_I_good NVAR data V hext hng hnp)
      (fun V => BoundaryEndPeriodic_I_good NVAR data V hext hng hnp)
    exact ⟨_, by simp [HD.SetBoundaryDir, HD.SetBoundaryBeg, HD.SetBoundaryEnd, hl, hr,
      Except.bind], k1, fun h _ _ => absurd (hl.symm.trans h) (by decide)⟩
  · have k1 := key (HD.BoundaryBegOutflow NVAR data IDIR)
      (HD.BoundaryEndOutflow NVAR data IDIR)
      (fun V => BoundaryBegOutflow_I_good NVAR data V hext hng hnp)
      (fun V => BoundaryEndOutflow_I_good NVAR data V hext hng hnp)
    exact ⟨_, by simp [HD.SetBoundaryDir, HD.SetBoundaryBeg, HD.SetBoundaryEnd, hl, hr,
      Except.bind], k1, fun h _ _ => absurd (hl.symm.trans h) (by decide)⟩

/-! ## The loop over the directions -/

theorem irange_0_1 : irange 0 1 = [IDIR] := by decide

theorem irange_0_2 : irange 0 2 = [IDIR, JDIR] := by decide

theorem irange_0_3 : irange 0 3 = [IDIR, JDIR, KDIR] := by decide

theorem SetBoundary_passes_1D (NVAR : ℤ) (data : DataBlock) (Vc : IdefixArray4D)
    (hlI : data.lbound IDIR = BoundaryType.periodic ∨ data.lbound IDIR = BoundaryType.outflow)
    (hrI : data.rbound IDIR = BoundaryType.periodic ∨ data.rbound IDIR = BoundaryType.outflow)
    (hextI : data.extents IDIR) (hngI : 0 ≤ data.nghost IDIR) (hnpI : 0 ≤ data.np_int IDIR) :
    ∃ V', [IDIR].foldlM (HD.SetBoundaryDir NVAR data) Vc = Except.ok V'
      ∧ (∀ n k j i, data.nghost IDIR ≤ i ∧ i < data.nghost IDIR + data.np_int IDIR →
          V' n k j i = Vc n k j i)
      ∧ (data.lbound IDIR = BoundaryType.periodic → data.rbound IDIR = BoundaryType.periodic →
          data.nghost IDIR ≤ data.np_int IDIR → HD.periodicAlong NVAR data IDIR V') := by
  obtain ⟨V1, h1, f1, p1⟩ := SetBoundaryDir_I NVAR data Vc hlI hrI hextI hngI hnpI
  refine ⟨V1, ?_, f1, p1⟩
  simp only [List.foldlM_cons, List.foldlM_nil, h1]
  rfl

theorem SetBoundary_passes_2D (NVAR : ℤ) (data : DataBlock) (Vc : IdefixArray4D)
    (hlI : data.lbound IDIR = BoundaryType.periodic ∨ data.lbound IDIR = BoundaryType.outflow)
    (hrI : data.rbound IDIR = BoundaryType.periodic ∨ data.rbound IDIR = BoundaryType.outflow)
    (hextI : data.extents IDIR) (hngI : 0 ≤ data.nghost IDIR) (hnpI : 0 ≤ data.np_int IDIR)
    (hlJ : data.lbound JDIR = BoundaryType.periodic ∨ data.lbound JDIR = BoundaryType.outflow)
    (hrJ : data.rbound JDIR = BoundaryType.periodic ∨ data.rbound JDIR = BoundaryType.outflow)
    (hextJ : data.extents JDIR) (hngJ : 0 ≤ data.nghost JDIR) (hnpJ : 0 ≤ data.np_int JDIR) :
    ∃ V', [IDIR, JDIR].foldlM (HD.SetBoundaryDir NVAR data) Vc = Except.ok V'
      ∧ (∀ n k j i, data.nghost JDIR ≤ j ∧ j < data.nghost JDIR + data.np_int JDIR →
          data.nghost IDIR ≤ i ∧ i < data.nghost IDIR + data.np_int IDIR →
          V' n k j i = Vc n k j i)
      ∧ (data.lbound IDIR = BoundaryType.periodic → data.rbound IDIR = BoundaryType.periodic →
          data.nghost IDIR ≤ data.np_int IDIR → HD.periodicAlong NVAR data IDIR V')
      ∧ (data.lbound JDIR = BoundaryType.periodic → data.rbound JDIR = BoundaryType.periodic →
          data.nghost JDIR ≤ data.np_int JDIR → HD.periodicAlong NVAR data JDIR V') := by
  obtain ⟨V1, h1, f1, p1⟩ := SetBoundaryDir_I NVAR data Vc hlI hrI hextI hngI hnpI
  obtain ⟨V2, h2, f2, k2, p2⟩ := SetBoundaryDir_J NVAR data V1 hlJ hrJ hextJ hngJ hnpJ
  refine ⟨V2, ?_, fun n k j i hj hi => (f2 n k j i hj).trans (f1 n k j i hi),
    fun a b c => k2 (p1 a b c), p2⟩
  simp only [List.foldlM_cons, List.foldlM_nil, h1]
  show HD.SetBoundaryDir NVAR data V1 JDIR >>= pure = _
  rw [h2]
  rfl

theorem SetBoundary_passes_3D (NVAR : ℤ) (data : DataBlock) (Vc : IdefixArray4D)
    (hlI : data.lbound IDIR = BoundaryType.periodic ∨ data.lbound IDIR = BoundaryType.outflow)
    (hrI : data.rbound IDIR = BoundaryType.periodic ∨ data.rbound IDIR = BoundaryType.outflow)
    (hextI : data.extents IDIR) (hngI : 0 ≤ data.nghost IDIR) (hnpI : 0 ≤ data.np_int IDIR)
    (hlJ : data.lbound JDIR = BoundaryType.periodic ∨ data.lbound JDIR = BoundaryType.outflow)
    (hrJ : data.rbound JDIR = BoundaryType.periodic ∨ data.rbound JDIR = BoundaryType.outflow)
    (hextJ : data.extents JDIR) (hngJ : 0 ≤ data.nghost JDIR) (hnpJ : 0 ≤ data.np_int JDIR)
    (hlK : data.lbound KDIR = BoundaryType.periodic ∨ data.lbound KDIR = BoundaryType.outflow)
    (hrK : data.rbound KDIR = BoundaryType.periodic ∨ data.rbound KDIR = BoundaryType.outflow)
    (hextK : data.extents KDIR) (hngK : 0 ≤ data.nghost KDIR) (hnpK : 0 ≤ data.np_int KDIR) :
    ∃ V', [IDIR, JDIR, KDIR].foldlM (HD.SetBoundaryDir NVAR data) Vc = Except.ok V'
      ∧ (∀ n k j i, data.nghost KDIR ≤ k ∧ k < data.nghost KDIR + data.np_int KDIR →
          data.nghost JDIR ≤ j ∧ j < data.nghost JDIR + data.np_int JDIR →
          data.nghost IDIR ≤ i ∧ i < data.nghost IDIR + data.np_int IDIR →
          V' n k j i = Vc n k j i)
      ∧ (data.lbound IDIR = BoundaryType.periodic → data.rbound IDIR = BoundaryType.periodic →
          data.nghost IDIR ≤ data.np_int IDIR → HD.periodicAlong NVAR data IDIR V')
      ∧ (data.lbound JDIR = BoundaryType.periodic → data.rbound JDIR = BoundaryType.periodic →
          data.nghost JDIR ≤ data.np_int JDIR → HD.periodicAlong NVAR data JDIR V')
      ∧ (data.lbound KDIR = BoundaryType.periodic → data.rbound KDIR = BoundaryType.periodic →
          data.nghost KDIR ≤ data.np_int KDIR → HD.periodicAlong NVAR data KDIR V') := by
  obtain ⟨V1, h1, f1, p1⟩ := SetBoundaryDir_I NVAR data Vc hlI hrI hextI hngI hnpI
  obtain ⟨V2, h2, f2, k2, p2⟩ := SetBoundaryDir_J NVAR data V1 hlJ hrJ hextJ hngJ hnpJ
  obtain ⟨V3, h3, f3, k3, l3, p3⟩ := SetBoundaryDir_K NVAR data V2 hlK hrK hextK hngK hnpK
  refine ⟨V3, ?_,
    fun n k j i hk hj hi => ((f3 n k j i hk).trans (f2 n k j i hj)).trans (f1 n k j i hi),
    fun a b c => k3 (k2 (p1 a b c)), fun a b c => l3 (p2 a b c), p3⟩
  simp only [List.foldlM_cons, List.foldlM_nil, h1]
  show HD.SetBoundaryDir NVAR data V1 JDIR >>= _ = _
  rw [h2]
  show HD.SetBoundaryDir NVAR data V2 KDIR >>= pure = _
  rw [h3]
  rfl

/-- C20. Periodic boundaries make the state periodic: for the HD
`SetBoundary` of a 1D, 2D or 3D build on a block with the extents of the data
model, with direction `d` periodic on both sides and `np_int[d] >= nghost[d]`
(the other directions periodic or outflow), the call returns without error,
active cells are unchanged, and afterwards `V_c(n,x) = V_c(n, x + np_int[d]*e_d)`
for every channel `n` and every pair of cells `x`, `x + np_int[d]*e_d` inside
the full extent. -/
theorem SetBoundary_periodic_state (DIMENSIONS : ℕ) (NVAR : ℤ) (data : DataBlock) (t : real)
    (d : ℤ) (hD : DIMENSIONS = 1 ∨ DIMENSIONS = 2 ∨ DIMENSIONS = 3)
    (hd : 0 ≤ d ∧ d < (DIMENSIONS : ℤ))
    (hper : data.lbound d = BoundaryType.periodic ∧ data.rbound d = BoundaryType.periodic)
    (hsize : data.nghost d ≤ data.np_int d)
    (hbound : ∀ e : ℤ, 0 ≤ e ∧ e < (DIMENSIONS : ℤ) →
      (data.lbound e = BoundaryType.periodic ∨ data.lbound e = BoundaryType.outflow)
      ∧ (data.rbound e = BoundaryType.periodic ∨ data.rbound e = BoundaryType.outflow))
    (hgrid : ∀ e : ℤ, 0 ≤ e ∧ e < (DIMENSIONS : ℤ) →
      data.extents e ∧ 0 ≤ data.nghost e ∧ 0 ≤ data.np_int e) :
    ∃ data', HD.Physics.SetBoundary DIMENSIONS NVAR data t = Except.ok data'
      ∧ (∀ n k j i, (3 ≤ DIMENSIONS → data.beg KDIR ≤ k ∧ k < data.end_ KDIR) →
          (2 ≤ DIMENSIONS → data.beg JDIR ≤ j ∧ j < data.end_ JDIR) →
          data.beg IDIR ≤ i ∧ i < data.end_ IDIR →
          data'.Vc n k j i = data.Vc n k j i)
      ∧ (∀ n k j i, 0 ≤ n ∧ n < NVAR →
          (0 ≤ k ∧ k < data.np_tot KDIR) ∧ (0 ≤ j ∧ j < data.np_tot JDIR)
            ∧ (0 ≤ i ∧ i < data.np_tot IDIR) →
          (0 ≤ k + sweepOffset d KDIR * data.np_int d
              ∧ k + sweepOffset d KDIR * data.np_int d < data.np_tot KDIR)
            ∧ (0 ≤ j + sweepOffset d JDIR * data.np_int d
              ∧ j + sweepOffset d JDIR * data.np_int d < data.np_tot JDIR)
            ∧ (0 ≤ i + sweepOffset d IDIR * data.np_int d
              ∧ i + sweepOffset d IDIR * data.np_int d < data.np_tot IDIR) →
          data'.Vc n k j i = data'.Vc n (k + sweepOffset d KDIR * data.np_int d)
            (j + sweepOffset d JDIR * data.np_int d)
            (i + sweepOffset d IDIR * data.np_int d)) := by
  rcases hD with rfl | rfl | rfl
  · obtain rfl : d = IDIR := by unfold IDIR; omega
    obtain ⟨⟨hextI, hngI, hnpI⟩, hlI, hrI⟩ := And.intro (hgrid IDIR (by decide))
      (hbound IDIR (by decide))
    obtain ⟨V', hV, hf, hpI⟩ := SetBoundary_passes_1D NVAR data data.Vc hlI hrI hextI hngI hnpI
    refine ⟨{ data with Vc := V' }, ?_, fun n k j i _ _ hi => ?_, hpI hper.1 hper.2 hsize⟩
    · simp only [HD.Physics.SetBoundary, Nat.cast_one, irange_0_1, hV]
      rfl
    · exact hf n k j i (by obtain ⟨-, h1, h2⟩ := hextI; omega)
  · obtain ⟨⟨hextI, hngI, hnpI⟩, hlI, hrI⟩ := And.intro (hgrid IDIR (by decide))
      (hbound IDIR (by decide))
    obtain ⟨⟨hextJ, hngJ, hnpJ⟩, hlJ, hrJ⟩ := And.intro (hgrid JDIR (by decide))
      (hbound JDIR (by decide))
    obtain ⟨V', hV, hf, hpI, hpJ⟩ := SetBoundary_passes_2D NVAR data data.Vc hlI hrI hextI hngI
      hnpI hlJ hrJ hextJ hngJ hnpJ
    refine ⟨{ data with Vc := V' }, ?_, fun n k j i _ hj hi => ?_, ?_⟩
    · simp only [HD.Physics.SetBoundary, Nat.cast_ofNat, irange_0_2, hV]
      rfl
    · exact hf n k j i (by obtain ⟨-, h1, h2⟩ := hextJ; have := hj (le_refl 2); omega)
        (by obtain ⟨-, h1, h2⟩ := hextI; omega)
    · have hd' : d = IDIR ∨ d = JDIR := by
        unfold IDIR JDIR
        have := hd.2
        norm_num at this
        omega
      rcases hd' with rfl | rfl
      · exact hpI hper.1 hper.2 hsize
      · exact hpJ hper.1 hper.2 hsize
  · obtain ⟨⟨hextI, hngI, hnpI⟩, hlI, hrI⟩ := And.intro (hgrid IDIR (by decide))
      (hbound IDIR (by decide))
    obtain ⟨⟨hextJ, hngJ, hnpJ⟩, hlJ, hrJ⟩ := And.intro (hgrid JDIR (by decide))
      (hbound JDIR (by decide))
    obtain ⟨⟨hextK, hngK, hnpK⟩, hlK, hrK⟩ := And.intro (hgrid KDIR (by decide))
      (hbound KDIR (by decide))
    obtain ⟨V', hV, hf, hpI, hpJ, hpK⟩ := SetBoundary_passes_3D NVAR data data.Vc hlI hrI hextI
      hngI hnpI hlJ hrJ hextJ hngJ hnpJ hlK hrK hextK hngK hnpK
    refine ⟨{ data with Vc := V' }, ?_, fun n k j i hk hj hi => ?_, ?_⟩
    · simp only [HD.Physics.SetBoundary, Nat.cast_ofNat, irange_0_3, hV]
      rfl
    · exact hf n k j i (by obtain ⟨-, h1, h2⟩ := hextK; have := hk (le_refl 3); omega)
        (by obtain ⟨-, h1, h2⟩ := hextJ; have := hj (by decide); omega)
        (by obtain ⟨-, h1, h2⟩ := hextI; omega)
    · have hd' : d = IDIR ∨ d = JDIR ∨ d = KDIR := by
        unfold IDIR JDIR KDIR
        have := hd.2
        norm_num at this
        omega
      rcases hd' with rfl | rfl | rfl
      · exact hpI hper.1 hper.2 hsize
      · exact hpJ hper.1 hper.2 hsize
      · exact hpK hper.1 hper.2 hsize

/-- The 1D grid with the ramp `V_c = i*i` (four active cells, two ghost layers,
periodic on both sides): the ghost cell `i = 1` and the active cell `i = 5`
agree after `SetBoundary`, and the active cell `i = 3` keeps its value. -/
theorem SetBoundary_periodic_state_witness :
    ∃ data', HD.Physics.SetBoundary 1 5 grid1D_ramp 0 = Except.ok data'
      ∧ data'.Vc RHO 0 0 3 = grid1D_ramp.Vc RHO 0 0 3
      ∧ data'.Vc RHO 0 0 1
          = data'.Vc RHO (0 + sweepOffset IDIR KDIR * grid1D_ramp.np_int IDIR)
              (0 + sweepOffset IDIR JDIR * grid1D_ramp.np_int IDIR)
              (1 + sweepOffset IDIR IDIR * grid1D_ramp.np_int IDIR) :=
  (SetBoundary_periodic_state 1 5 grid1D_ramp 0 IDIR (Or.inl rfl) (by decide) ⟨rfl, rfl⟩
    (by decide)
    (fun e he => by
      obtain rfl : e = 0 := by
        have := he.2
        norm_num at this
        omega
      exact ⟨Or.inl rfl, Or.inl rfl⟩)
    (fun e he => by
      obtain rfl : e = 0 := by
        have := he.2
        norm_num at this
        omega
      exact ⟨⟨by decide, by decide, by decide⟩, by decide, by decide⟩)).imp
    (fun _ h => ⟨h.1, h.2.1 RHO 0 0 3 (fun h3 => absurd h3 (by decide))
        (fun h2 => absurd h2 (by decide)) (by decide),
      h.2.2 RHO 0 0 1 (by decide) (by decide) (by decide)⟩)

/-! ## Boundary conditions: the error path -/

theorem foldlM_ok {σ ι : Type} (f : σ → ι → Except String σ) (l : List ι)
    (h : ∀ e ∈ l, ∀ s, ∃ s', f s e = Except.ok s') (s : σ) :
    ∃ s', l.foldlM f s = Except.ok s' := by
  induction l generalizing s with
  | nil => exact ⟨s, rfl⟩
  | cons a l ih =>
    obtain ⟨s1, h1⟩ := h a (List.mem_cons_self _ _) s
    obtain ⟨s2, h2⟩ := ih (fun e he => h e (List.mem_cons_of_mem _ he)) s1
    refine ⟨s2, ?_⟩
    rw [List.foldlM_cons, h1]
    exact h2

theorem foldlM_error {σ ι : Type} (f : σ → ι → Except String σ) (msg : String) (l : List ι)
    (hall : ∀ e ∈ l, ∀ s, (∃ s', f s e = Except.ok s') ∨ f s e = Except.error msg)
    (hbad : ∃ e ∈ l, ∀ s, f s e = Except.error msg) (s : σ) :
    l.foldlM f s = Except.error msg := by
  induction l generalizing s with
  | nil =>
    obtain ⟨e, he, -⟩ := hbad
    cases he
  | cons a l ih =>
    rw [List.foldlM_cons]
    rcases hall a (List.mem_cons_self _ _) s with ⟨s1, h1⟩ | h1
    · rw [h1]
      obtain ⟨e, he, hb⟩ := hbad
      rcases List.mem_cons.1 he with rfl | hl
      · rw [hb s] at h1
        cases h1
      · exact ih (fun e he => hall e (List.mem_cons_of_mem _ he)) ⟨e, hl, hb⟩ s1
    · rw [h1]
      rfl

theorem HD_SetBoundaryBeg_cases (NVAR : ℤ) (data : DataBlock) (dir : ℤ) (Vc : IdefixArray4D) :
    (data.lbound dir = BoundaryType.periodic →
      HD.SetBoundaryBeg NVAR data dir Vc = Except.ok (HD.BoundaryBegPeriodic NVAR data dir Vc))
    ∧ (data.lbound dir = BoundaryType.outflow →
      HD.SetBoundaryBeg NVAR data dir Vc = Except.ok (HD.BoundaryBegOutflow NVAR data dir Vc))
    ∧ (¬ (data.lbound dir = BoundaryType.periodic ∨ data.lbound dir = BoundaryType.outflow) →
      HD.SetBoundaryBeg NVAR data dir Vc
        = Except.error "Boundary condition type is not yet implemented") := by
  unfold HD.SetBoundaryBeg
  cases h : data.lbound dir <;> simp

theorem HD_SetBoundaryEnd_cases (NVAR : ℤ) (data : DataBlock) (dir : ℤ) (Vc : IdefixArray4D) :
    (data.rbound dir = BoundaryType.periodic →
      HD.SetBoundaryEnd NVAR data dir Vc = Except.ok (HD.BoundaryEndPeriodic NVAR data dir Vc))
    ∧ (data.rbound dir = BoundaryType.outflow →
      HD.SetBoundaryEnd NVAR data dir Vc = Except.ok (HD.BoundaryEndOutflow NVAR data dir Vc))
    ∧ (¬ (data.rbound dir = BoundaryType.periodic ∨ data.rbound dir = BoundaryType.outflow) →
      HD.SetBoundaryEnd NVAR data dir Vc
        = Except.error "Boundary condition type is not yet implemented") := by
  unfold HD.SetBoundaryEnd
  cases h : data.rbound dir <;> simp

theorem MHD_SetBoundaryBeg_cases (DIMENSIONS : ℕ) (NVAR : ℤ) (data : DataBlock) (dir : ℤ)
    (S : IdefixArray4D × IdefixArray4D) :
    (data.lbound dir = BoundaryType.periodic →
      MHD.SetBoundaryBeg DIMENSIONS NVAR data dir S
        = Except.ok (HD.BoundaryBegPeriodic NVAR data dir S.1,
            MHD.BoundaryBegPeriodicVs DIMENSIONS data dir S.2))
    ∧ (data.lbound dir = BoundaryType.outflow →
      MHD.SetBoundaryBeg DIMENSIONS NVAR data dir S
        = Except.ok (HD.BoundaryBegOutflow NVAR data dir S.1,
            MHD.BoundaryBegOutflowVs DIMENSIONS data dir S.2))
    ∧ (¬ (data.lbound dir = BoundaryType.periodic ∨ data.lbound dir = BoundaryType.outflow) →
      MHD.SetBoundaryBeg DIMENSIONS NVAR data dir S
        = Except.error "Boundary condition type is not yet implemented") := by
  unfold MHD.SetBoundaryBeg
  cases h : data.lbound dir <;> simp

theorem MHD_SetBoundaryEnd_cases (DIMENSIONS : ℕ) (NVAR : ℤ) (data : DataBlock) (dir : ℤ)
    (S : IdefixArray4D × IdefixArray4D) :
    (data.rbound dir = BoundaryType.periodic →
      MHD.SetBoundaryEnd DIMENSIONS NVAR data dir S
        = Except.ok (HD.BoundaryEndPeriodic NVAR data dir S.1,
            MHD.BoundaryEndPeriodicVs DIMENSIONS data dir S.2))
    ∧ (data.rbound dir = BoundaryType.outflow →
      MHD.SetBoundaryEnd DIMENSIONS NVAR data dir S
        = Except.ok (HD.BoundaryEndOutflow NVAR data dir S.1,
            MHD.BoundaryEndOutflowVs DIMENSIONS data dir S.2))
    ∧ (¬ (data.rbound dir = BoundaryType.periodic ∨ data.rbound dir = BoundaryType.outflow) →
      MHD.SetBoundaryEnd DIMENSIONS NVAR data dir S
        = Except.error "Boundary condition type is not yet implemented") := by
  unfold MHD.SetBoundaryEnd
  cases h : data.rbound dir <;> simp

/-- A pass of the HD loop returns when both sides are implemented, and ends
with the error otherwise. -/
theorem HD_SetBoundaryDir_cases (NVAR : ℤ) (data : DataBlock) (dir : ℤ) (Vc : IdefixArray4D) :
    ((data.lbound dir = BoundaryType.periodic ∨ data.lbound dir = BoundaryType.outflow)
        ∧ (data.rbound dir = BoundaryType.periodic ∨ data.rbound dir = BoundaryType.outflow) →
      ∃ V', HD.SetBoundaryDir NVAR data Vc dir = Except.ok V')
    ∧ (¬ ((data.lbound dir = BoundaryType.periodic ∨ data.lbound dir = BoundaryType.outflow)
        ∧ (data.rbound dir = BoundaryType.periodic ∨ data.rbound dir = BoundaryType.outflow)) →
      HD.SetBoundaryDir NVAR data Vc dir
        = Except.error "Boundary condition type is not yet implemented") := by
  unfold HD.SetBoundaryDir
  by_cases hl : data.lbound dir = BoundaryType.periodic ∨ data.lbound dir = BoundaryType.outflow
  · have hB : ∃ W, HD.SetBoundaryBeg NVAR data dir Vc = Except.ok W := by
      rcases hl with h | h
      · exact ⟨_, (HD_SetBoundaryBeg_cases NVAR data dir Vc).1 h⟩
      · exact ⟨_, (HD_SetBoundaryBeg_cases NVAR data dir Vc).2.1 h⟩
    obtain ⟨W, hW⟩ := hB
    rw [hW]
    by_cases hr : data.rbound dir = BoundaryType.periodic
        ∨ data.rbound dir = BoundaryType.outflow
    · refine ⟨fun _ => ?_, fun h => absurd ⟨hl, hr⟩ h⟩
      rcases hr with h | h
      · exact ⟨_, (HD_SetBoundaryEnd_cases NVAR data dir W).1 h⟩
      · exact ⟨_, (HD_SetBoundaryEnd_cases NVAR data dir W).2.1 h⟩
    · exact ⟨fun h => absurd h.2 hr, fun _ => (HD_SetBoundaryEnd_cases NVAR data dir W).2.2 hr⟩
  · rw [(HD_SetBoundaryBeg_cases NVAR data dir Vc).2.2 hl]
    exact ⟨fun h => absurd h.1 hl, fun _ => rfl⟩

/-- A pass of the MHD loop returns when both sides are implemented, and ends
with the error otherwise. -/
theorem MHD_SetBoundaryDir_cases (DIMENSIONS : ℕ) (NVAR : ℤ) (data : DataBlock) (dir : ℤ)
    (S : IdefixArray4D × IdefixArray4D) :
    ((data.lbound dir = BoundaryType.periodic ∨ data.lbound dir = BoundaryType.outflow)
        ∧ (data.rbound dir = BoundaryType.periodic ∨ data.rbound dir = BoundaryType.outflow) →
      ∃ S', MHD.SetBoundaryDir DIMENSIONS NVAR data S dir = Except.ok S')
    ∧ (¬ ((data.lbound dir = BoundaryType.periodic ∨ data.lbound dir = BoundaryType.outflow)
        ∧ (data.rbound dir = BoundaryType.periodic ∨ data.rbound dir = BoundaryType.outflow)) →
      MHD.SetBoundaryDir DIMENSIONS NVAR data S dir
        = Except.error "Boundary condition type is not yet implemented") := by
  unfold MHD.SetBoundaryDir
  by_cases hl : data.lbound dir = BoundaryType.periodic ∨ data.lbound dir = BoundaryType.outflow
  · have hB : ∃ W, MHD.SetBoundaryBeg DIMENSIONS NVAR data dir S = Except.ok W := by
      rcases hl with h | h
      · exact ⟨_, (MHD_SetBoundaryBeg_cases DIMENSIONS NVAR data dir S).1 h⟩
      · exact ⟨_, (MHD_SetBoundaryBeg_cases DIMENSIONS NVAR data dir S).2.1 h⟩
    obtain ⟨W, hW⟩ := hB
    rw [hW]
    by_cases hr : data.rbound dir = BoundaryType.periodic
        ∨ data.rbound dir = BoundaryType.outflow
    · refine ⟨fun _ => ?_, fun h => absurd ⟨hl, hr⟩ h⟩
      rcases hr with h | h
      · exact ⟨_, (MHD_SetBoundaryEnd_cases DIMENSIONS NVAR data dir W).1 h⟩
      · exact ⟨_, (MHD_SetBoundaryEnd_cases DIMENSIONS NVAR data dir W).2.1 h⟩
    · exact ⟨fun h => absurd h.2 hr,
        fun _ => (MHD_SetBoundaryEnd_cases DIMENSIONS NVAR data dir W).2.2 hr⟩
  · rw [(MHD_SetBoundaryBeg_cases DIMENSIONS NVAR data dir S).2.2 hl]
    exact ⟨fun h => absurd h.1 hl, fun _ => rfl⟩

/-- The loops over the directions: they return when every side of every
direction of the build is implemented, and end with the error as soon as one
is not. -/
theorem SetBoundary_loops (DIMENSIONS : ℕ) (NVAR : ℤ) (data : DataBlock) :
    ((∀ e : ℤ, 0 ≤ e ∧ e < (DIMENSIONS : ℤ) →
        (data.lbound e = BoundaryType.periodic ∨ data.lbound e = BoundaryType.outflow)
        ∧ (data.rbound e = BoundaryType.periodic ∨ data.rbound e = BoundaryType.outflow)) →
      (∃ V', (irange 0 (DIMENSIONS : ℤ)).foldlM (HD.SetBoundaryDir NVAR data) data.Vc
          = Except.ok V')
      ∧ (∃ S', MHD.SetBoundaryLoop DIMENSIONS NVAR data = Except.ok S'))
    ∧ ((∃ e : ℤ, (0 ≤ e ∧ e < (DIMENSIONS : ℤ))
        ∧ ¬ ((data.lbound e = BoundaryType.periodic ∨ data.lbound e = BoundaryType.outflow)
          ∧ (data.rbound e = BoundaryType.periodic ∨ data.rbound e = BoundaryType.outflow))) →
      (irange 0 (DIMENSIONS : ℤ)).foldlM (HD.SetBoundaryDir NVAR data) data.Vc
          = Except.error "Boundary condition type is not yet implemented"
      ∧ MHD.SetBoundaryLoop DIMENSIONS NVAR data
          = Except.error "Boundary condition type is not yet implemented") := by
  constructor
  · intro h
    exact ⟨foldlM_ok _ _ (fun e he s =>
        (HD_SetBoundaryDir_cases NVAR data e s).1 (h e ((mem_irange _ _ _).1 he))) _,
      foldlM_ok _ _ (fun e he s =>
        (MHD_SetBoundaryDir_cases DIMENSIONS NVAR data e s).1 (h e ((mem_irange _ _ _).1 he))) _⟩
  · rintro ⟨e, he, hbad⟩
    constructor
    · exact foldlM_error _ _ _
        (fun e' _ s => by
          by_cases hg : (data.lbound e' = BoundaryType.periodic
              ∨ data.lbound e' = BoundaryType.outflow)
            ∧ (data.rbound e' = BoundaryType.periodic ∨ data.rbound e' = BoundaryType.outflow)
          · exact Or.inl ((HD_SetBoundaryDir_cases NVAR data e' s).1 hg)
          · exact Or.inr ((HD_SetBoundaryDir_cases NVAR data e' s).2 hg))
        ⟨e, (mem_irange _ _ _).2 he, fun s => (HD_SetBoundaryDir_cases NVAR data e s).2 hbad⟩ _
    · exact foldlM_error _ _ _
        (fun e' _ s => by
          by_cases hg : (data.lbound e' = BoundaryType.periodic
              ∨ data.lbound e' = BoundaryType.outflow)
            ∧ (data.rbound e' = BoundaryType.periodic ∨ data.rbound e' = BoundaryType.outflow)
          · exact Or.inl ((MHD_SetBoundaryDir_cases DIMENSIONS NVAR data e' s).1 hg)
          · exact Or.inr ((MHD_SetBoundaryDir_cases DIMENSIONS NVAR data e' s).2 hg))
        ⟨e, (mem_irange _ _ _).2 he,
          fun s => (MHD_SetBoundaryDir_cases DIMENSIONS NVAR data e s).2 hbad⟩ _

/-! ## Boundary conditions of the HD solver: the passes as two copy kernels -/

/-- The pass for direction 1 is a copy kernel over the left ghost cells followed by
a copy kernel over the right ghost cells; the source index is the periodic
image under a periodic side and the nearest active layer under an outflow
side. -/
theorem HD_SetBoundaryDir_I_form (NVAR : ℤ) (data : DataBlock) (Vc : IdefixArray4D)
    (hl : data.lbound IDIR = BoundaryType.periodic ∨ data.lbound IDIR = BoundaryType.outflow)
    (hr : data.rbound IDIR = BoundaryType.periodic ∨ data.rbound IDIR = BoundaryType.outflow) :
    HD.SetBoundaryDir NVAR data Vc IDIR = Except.ok
      (HD.copyKernel NVAR 0 (data.np_tot KDIR) 0 (data.np_tot JDIR)
        (data.np_int IDIR + data.nghost IDIR) (data.np_tot IDIR) (fun k => k) (fun j => j)
        (fun i : ℤ => if data.rbound IDIR = BoundaryType.periodic
          then i - data.np_int IDIR else data.nghost IDIR + data.np_int IDIR - 1)
        (HD.copyKernel NVAR 0 (data.np_tot KDIR) 0 (data.np_tot JDIR) 0 (data.nghost IDIR)
          (fun k => k) (fun j => j)
          (fun i : ℤ => if data.lbound IDIR = BoundaryType.periodic
            then i + data.np_int IDIR else data.nghost IDIR) Vc)) := by
  unfold HD.SetBoundaryDir
  rcases hl with hl | hl <;> rcases hr with hr | hr
  · have e1 : (fun i : ℤ => if data.lbound IDIR = BoundaryType.periodic
        then i + data.np_int IDIR else data.nghost IDIR) = fun i => i + data.np_int IDIR := by
      funext i
      rw [if_pos hl]
    have e2 : (fun i : ℤ => if data.rbound IDIR = BoundaryType.periodic
        then i - data.np_int IDIR else data.nghost IDIR + data.np_int IDIR - 1)
        = fun i => i - data.np_int IDIR := by
      funext i
      rw [if_pos hr]
    rw [e1, e2, (HD_SetBoundaryBeg_cases NVAR data IDIR Vc).1 hl, ← BoundaryBegPeriodic_I,
      ← BoundaryEndPeriodic_I]
    exact (HD_SetBoundaryEnd_cases NVAR data IDIR _).1 hr
  · have e1 : (fun i : ℤ => if data.lbound IDIR = BoundaryType.periodic
        then i + data.np_int IDIR else data.nghost IDIR) = fun i => i + data.np_int IDIR := by
      funext i
      rw [if_pos hl]
    have e2 : (fun i : ℤ => if data.rbound IDIR = BoundaryType.periodic
        then i - data.np_int IDIR else data.nghost IDIR + data.np_int IDIR - 1)
        = fun _ => data.nghost IDIR + data.np_int IDIR - 1 := by
      funext i
      rw [if_neg (by rw [hr]; decide)]
    rw [e1, e2, (HD_SetBoundaryBeg_cases NVAR data IDIR Vc).1 hl, ← BoundaryBegPeriodic_I,
      ← BoundaryEndOutflow_I]
    exact (HD_SetBoundaryEnd_cases NVAR data IDIR _).2.1 hr
  · have e1 : (fun i : ℤ => if data.lbound IDIR = BoundaryType.periodic
        then i + data.np_int IDIR else data.nghost IDIR) = fun _ => data.nghost IDIR := by
      funext i
      rw [if_neg (by rw [hl]; decide)]
    have e2 : (fun i : ℤ => if data.rbound IDIR = BoundaryType.periodic
        then i - data.np_int IDIR else data.nghost IDIR + data.np_int IDIR - 1)
        = fun i => i - data.np_int IDIR := by
      funext i
      rw [if_pos hr]
    rw [e1, e2, (HD_SetBoundaryBeg_cases NVAR data IDIR Vc).2.1 hl, ← BoundaryBegOutflow_I,
      ← BoundaryEndPeriodic_I]
    exact (HD_SetBoundaryEnd_cases NVAR data IDIR _).1 hr
  · have e1 : (fun i : ℤ => if data.lbound IDIR = BoundaryType.periodic
        then i + data.np_int IDIR else data.nghost IDIR) = fun _ => data.nghost IDIR := by
      funext i
      rw [if_neg (by rw [hl]; decide)]
    have e2 : (fun i : ℤ => if data.rbound IDIR = BoundaryType.periodic
        then i - data.np_int IDIR else data.nghost IDIR + data.np_int IDIR - 1)
        = fun _ => data.nghost IDIR + data.np_int IDIR - 1 := by
      funext i
      rw [if_neg (by rw [hr]; decide)]
    rw [e1, e2, (HD_SetBoundaryBeg_cases NVAR data IDIR Vc).2.1 hl, ← BoundaryBegOutflow_I,
      ← BoundaryEndOutflow_I]
    exact (HD_SetBoundaryEnd_cases NVAR data IDIR _).2.1 hr

/-- The pass for direction 2 is a copy kernel over the left ghost cells followed by
a copy kernel over the right ghost cells; the source index is the periodic
image under a periodic side and the nearest active layer under an outflow
side. -/
theorem HD_SetBoundaryDir_J_form (NVAR : ℤ) (data : DataBlock) (Vc : IdefixArray4D)
    (hl : data.lbound JDIR = BoundaryType.periodic ∨ data.lbound JDIR = BoundaryType.outflow)
    (hr : data.rbound JDIR = BoundaryType.periodic ∨ data.rbound JDIR = BoundaryType.outflow) :
    HD.SetBoundaryDir NVAR data Vc JDIR = Except.ok
      (HD.copyKernel NVAR 0 (data.np_tot KDIR) (data.np_int JDIR + data.nghost JDIR)
        (data.np_tot JDIR) 0 (data.np_tot IDIR) (fun k => k)
        (fun j : ℤ => if data.rbound JDIR = BoundaryType.periodic
          then j - data.np_int JDIR else data.nghost JDIR + data.np_int JDIR - 1) (fun i => i)
        (HD.copyKernel NVAR 0 (data.np_tot KDIR) 0 (data.nghost JDIR) 0 (data.np_tot IDIR)
          (fun k => k)
          (fun j : ℤ => if data.lbound JDIR = BoundaryType.periodic
            then j + data.np_int JDIR else data.nghost JDIR) (fun i => i) Vc)) := by
  unfold HD.SetBoundaryDir
  rcases hl with hl | hl <;> rcases hr with hr | hr
  · have e1 : (fun j : ℤ => if data.lbound JDIR = BoundaryType.periodic
        then j + data.np_int JDIR else data.nghost JDIR) = fun j => j + data.np_int JDIR := by
      funext j
      rw [if_pos hl]
    have e2 : (fun j : ℤ => if data.rbound JDIR = BoundaryType.periodic
        then j - data.np_int JDIR else data.nghost JDIR + data.np_int JDIR - 1)
        = fun j => j - data.np_int JDIR := by
      funext j
      rw [if_pos hr]
    rw [e1, e2, (HD_SetBoundaryBeg_cases NVAR data JDIR Vc).1 hl, ← BoundaryBegPeriodic_J,
      ← BoundaryEndPeriodic_J]
    exact (HD_SetBoundaryEnd_cases NVAR data JDIR _).1 hr
  · have e1 : (fun j : ℤ => if data.lbound JDIR = BoundaryType.periodic
        then j + data.np_int JDIR else data.nghost JDIR) = fun j => j + data.np_int JDIR := by
      funext j
      rw [if_pos hl]
    have e2 : (fun j : ℤ => if data.rbound JDIR = BoundaryType.periodic
        then j - data.np_int JDIR else data.nghost JDIR + data.np_int JDIR - 1)
        = fun _ => data.nghost JDIR + data.np_int JDIR - 1 := by
      funext j
      rw [if_neg (by rw [hr]; decide)]
    rw [e1, e2, (HD_SetBoundaryBeg_cases NVAR data JDIR Vc).1 hl, ← BoundaryBegPeriodic_J,
      ← BoundaryEndOutflow_J]
    exact (HD_SetBoundaryEnd_cases NVAR data JDIR _).2.1 hr
  · have e1 : (fun j : ℤ => if data.lbound JDIR = BoundaryType.periodic
        then j + data.np_int JDIR else data.nghost JDIR) = fun _ => data.nghost JDIR := by
      funext j
      rw [if_neg (by rw [hl]; decide)]
    have e2 : (fun j : ℤ => if data.rbound JDIR = BoundaryType.periodic
        then j - data.np_int JDIR else data.nghost JDIR + data.np_int JDIR - 1)
        = fun j => j - data.np_int JDIR := by
      funext j
      rw [if_pos hr]
    rw [e1, e2, (HD_SetBoundaryBeg_cases NVAR data JDIR Vc).2.1 hl, ← BoundaryBegOutflow_J,
      ← BoundaryEndPeriodic_J]
    exact (HD_SetBoundaryEnd_cases NVAR data JDIR _).1 hr
  · have e1 : (fun j : ℤ => if data.lbound JDIR = BoundaryType.periodic
        then j + data.np_int JDIR else data.nghost JDIR) = fun _ => data.nghost JDIR := by
      funext j
      rw [if_neg (by rw [hl]; decide)]
    have e2 : (fun j : ℤ => if data.rbound JDIR = BoundaryType.periodic
        then j - data.np_int JDIR else data.nghost JDIR + data.np_int JDIR - 1)
        = fun _ => data.nghost JDIR + data.np_int JDIR - 1 := by
      funext j
      rw [if_neg (by rw [hr]; decide)]
    rw [e1, e2, (HD_SetBoundaryBeg_cases NVAR data JDIR Vc).2.1 hl, ← BoundaryBegOutflow_J,
      ← BoundaryEndOutflow_J]
    exact (HD_SetBoundaryEnd_cases NVAR data JDIR _).2.1 hr

/-- The pass for direction 3 is a copy kernel over the left ghost cells followed by
a copy kernel over the right ghost cells; the source index is the periodic
image under a periodic side and the nearest active layer under an outflow
side. -/
theorem HD_SetBoundaryDir_K_form (NVAR : ℤ) (data : DataBlock) (Vc : IdefixArray4D)
    (hl : data.lbound KDIR = BoundaryType.periodic ∨ data.lbound KDIR = BoundaryType.outflow)
    (hr : data.rbound KDIR = BoundaryType.periodic ∨ data.rbound KDIR = BoundaryType.outflow) :
    HD.SetBoundaryDir NVAR data Vc KDIR = Except.ok
      (HD.copyKernel NVAR (data.np_int KDIR + data.nghost KDIR) (data.np_tot KDIR)
        0 (data.np_tot JDIR) 0 (data.np_tot IDIR)
        (fun k : ℤ => if data.rbound KDIR = BoundaryType.periodic
          then k - data.np_int KDIR else data.nghost KDIR + data.np_int KDIR - 1)
        (fun j => j) (fun i => i)
        (HD.copyKernel NVAR 0 (data.nghost KDIR) 0 (data.np_tot JDIR) 0 (data.np_tot IDIR)
          (fun k : ℤ => if data.lbound KDIR = BoundaryType.periodic
            then k + data.np_int KDIR else data.nghost KDIR) (fun j => j) (fun i => i) Vc)) := by
  unfold HD.SetBoundaryDir
  rcases hl with hl | hl <;> rcases hr with hr | hr
  · have e1 : (fun k : ℤ => if data.lbound KDIR = BoundaryType.periodic
        then k + data.np_int KDIR else data.nghost KDIR) = fun k => k + data.np_int KDIR := by
      funext k
      rw [if_pos hl]
    have e2 : (fun k : ℤ => if data.rbound KDIR = BoundaryType.periodic
        then k - data.np_int KDIR else data.nghost KDIR + data.np_int KDIR - 1)
        = fun k => k - data.np_int KDIR := by
      funext k
      rw [if_pos hr]
    rw [e1, e2, (HD_SetBoundaryBeg_cases NVAR data KDIR Vc).1 hl, ← BoundaryBegPeriodic_K,
      ← BoundaryEndPeriodic_K]
    exact (HD_SetBoundaryEnd_cases NVAR data KDIR _).1 hr
  · have e1 : (fun k : ℤ => if data.lbound KDIR = BoundaryType.periodic
        then k + data.np_int KDIR else data.nghost KDIR) = fun k => k + data.np_int KDIR := by
      funext k
      rw [if_pos hl]
    have e2 : (fun k : ℤ => if data.rbound KDIR = BoundaryType.periodic
        then k - data.np_int KDIR else data.nghost KDIR + data.np_int KDIR - 1)
        = fun _ => data.nghost KDIR + data.np_int KDIR - 1 := by
      funext k
      rw [if_neg (by rw [hr]; decide)]
    rw [e1, e2, (HD_SetBoundaryBeg_cases NVAR data KDIR Vc).1 hl, ← BoundaryBegPeriodic_K,
      ← BoundaryEndOutflow_K]
    exact (HD_SetBoundaryEnd_cases NVAR data KDIR _).2.1 hr
  · have e1 : (fun k : ℤ => if data.lbound KDIR = BoundaryType.periodic
        then k + data.np_int KDIR else data.nghost KDIR) = fun _ => data.nghost KDIR := by
      funext k
      rw [if_neg (by rw [hl]; decide)]
    have e2 : (fun k : ℤ => if data.rbound KDIR = BoundaryType.periodic
        then k - data.np_int KDIR else data.nghost KDIR + data.np_int KDIR - 1)
        = fun k => k - data.np_int KDIR := by
      funext k
      rw [if_pos hr]
    rw [e1, e2, (HD_SetBoundaryBeg_cases NVAR data KDIR Vc).2.1 hl, ← BoundaryBegOutflow_K,
      ← BoundaryEndPeriodic_K]
    exact (HD_SetBoundaryEnd_cases NVAR data KDIR _).1 hr
  · have e1 : (fun k : ℤ => if data.lbound KDIR = BoundaryType.periodic
        then k + data.np_int KDIR else data.nghost KDIR) = fun _ => data.nghost KDIR := by
      funext k
      rw [if_neg (by rw [hl]; decide)]
    have e2 : (fun k : ℤ => if data.rbound KDIR = BoundaryType.periodic
        then k - data.np_int KDIR else data.nghost KDIR + data.np_int KDIR - 1)
        = fun _ => data.nghost KDIR + data.np_int KDIR - 1 := by
      funext k
      rw [if_neg (by rw [hr]; decide)]
    rw [e1, e2, (HD_SetBoundaryBeg_cases NVAR data KDIR Vc).2.1 hl, ← BoundaryBegOutflow_K,
      ← BoundaryEndOutflow_K]
    exact (HD_SetBoundaryEnd_cases NVAR data KDIR _).2.1 hr

/-! ## Copy kernels with a constant source layer, and two runs of a copy kernel -/

/-- A copy kernel that reads the fixed layer `c` of direction 1, outside its
box: afterwards every cell of the box equals the cell of the layer `c` with
the same transverse indices. -/
theorem copyKernel_const_I (NVAR kb ke jb je ib ie c : ℤ) (hc : ¬ (ib ≤ c ∧ c < ie))
    (W : IdefixArray4D) (n k j i : ℤ) (hn : 0 ≤ n ∧ n < NVAR) (hk : kb ≤ k ∧ k < ke)
    (hj : jb ≤ j ∧ j < je) (hi : ib ≤ i ∧ i < ie) :
    HD.copyKernel NVAR kb ke jb je ib ie (fun k => k) (fun j => j) (fun _ => c) W n k j i
      = HD.copyKernel NVAR kb ke jb je ib ie (fun k => k) (fun j => j) (fun _ => c) W n k j c := by
  rw [copyKernel_inside NVAR kb ke jb je ib ie _ _ _ (fun _ _ _ _ _ _ hh => hc hh.2.2) W n k j i
      hn hk hj hi,
    copyKernel_outside NVAR kb ke jb je ib ie _ _ _ W n k j c (fun hh => hc hh.2.2.2)]

/-- The same along direction 2. -/
theorem copyKernel_const_J (NVAR kb ke jb je ib ie c : ℤ) (hc : ¬ (jb ≤ c ∧ c < je))
    (W : IdefixArray4D) (n k j i : ℤ) (hn : 0 ≤ n ∧ n < NVAR) (hk : kb ≤ k ∧ k < ke)
    (hj : jb ≤ j ∧ j < je) (hi : ib ≤ i ∧ i < ie) :
    HD.copyKernel NVAR kb ke jb je ib ie (fun k => k) (fun _ => c) (fun i => i) W n k j i
      = HD.copyKernel NVAR kb ke jb je ib ie (fun k => k) (fun _ => c) (fun i => i) W n k c i := by
  rw [copyKernel_inside NVAR kb ke jb je ib ie _ _ _ (fun _ _ _ _ _ _ hh => hc hh.2.1) W n k j i
      hn hk hj hi,
    copyKernel_outside NVAR kb ke jb je ib ie _ _ _ W n k c i (fun hh => hc hh.2.2.1)]

/-- The same along direction 3. -/
theorem copyKernel_const_K (NVAR kb ke jb je ib ie c : ℤ) (hc : ¬ (kb ≤ c ∧ c < ke))
    (W : IdefixArray4D) (n k j i : ℤ) (hn : 0 ≤ n ∧ n < NVAR) (hk : kb ≤ k ∧ k < ke)
    (hj : jb ≤ j ∧ j < je) (hi : ib ≤ i ∧ i < ie) :
    HD.copyKernel NVAR kb ke jb je ib ie (fun _ => c) (fun j => j) (fun i => i) W n k j i
      = HD.copyKernel NVAR kb ke jb je ib ie (fun _ => c) (fun j => j) (fun i => i) W n c j i := by
  rw [copyKernel_inside NVAR kb ke jb je ib ie _ _ _ (fun _ _ _ _ _ _ hh => hc hh.1) W n k j i
      hn hk hj hi,
    copyKernel_outside NVAR kb ke jb je ib ie _ _ _ W n c j i (fun hh => hc hh.2.1)]

/-- Two runs of a copy kernel whose source cells lie outside its box: the
results agree at a cell when the inputs agree at its source cell (inside the
box) or at the cell itself (outside the box). -/
theorem copyKernel_agree (NVAR kb ke jb je ib ie : ℤ) (sk sj si : ℤ → ℤ)
    (hclean : ∀ k j i, (kb ≤ k ∧ k < ke) → (jb ≤ j ∧ j < je) → (ib ≤ i ∧ i < ie) →
      ¬ ((kb ≤ sk k ∧ sk k < ke) ∧ (jb ≤ sj j ∧ sj j < je) ∧ (ib ≤ si i ∧ si i < ie)))
    (V W : IdefixArray4D) (n k j i : ℤ) (hn : 0 ≤ n ∧ n < NVAR)
    (hin : (kb ≤ k ∧ k < ke) ∧ (jb ≤ j ∧ j < je) ∧ (ib ≤ i ∧ i < ie) →
      V n (sk k) (sj j) (si i) = W n (sk k) (sj j) (si i))
    (hout : ¬ ((kb ≤ k ∧ k < ke) ∧ (jb ≤ j ∧ j < je) ∧ (ib ≤ i ∧ i < ie)) →
      V n k j i = W n k j i) :
    HD.copyKernel NVAR kb ke jb je ib ie sk sj si V n k j i
      = HD.copyKernel NVAR kb ke jb je ib ie sk sj si W n k j i := by
  by_cases hb : (kb ≤ k ∧ k < ke) ∧ (jb ≤ j ∧ j < je) ∧ (ib ≤ i ∧ i < ie)
  · rw [copyKernel_inside NVAR kb ke jb je ib ie sk sj si hclean V n k j i hn hb.1 hb.2.1 hb.2.2,
      copyKernel_inside NVAR kb ke jb je ib ie sk sj si hclean W n k j i hn hb.1 hb.2.1 hb.2.2]
    exact hin hb
  · rw [copyKernel_outside NVAR kb ke jb je ib ie sk sj si V n k j i (fun hh => hb hh.2),
      copyKernel_outside NVAR kb ke jb je ib ie sk sj si W n k j i (fun hh => hb hh.2)]
    exact hout hb

/-! ## One pass of the HD loop: frame and outflow sides -/

/-- The pass for direction 1 leaves the cells of the active range along 1 as
they were; under an outflow side every ghost cell of that side equals the
nearest active layer with the same transverse indices. -/
theorem HD_pass_I_outflow (NVAR : ℤ) (data : DataBlock) (Vc V' : IdefixArray4D)
    (hl : data.lbound IDIR = BoundaryType.periodic ∨ data.lbound IDIR = BoundaryType.outflow)
    (hr : data.rbound IDIR = BoundaryType.periodic ∨ data.rbound IDIR = BoundaryType.outflow)
    (hnp : 1 ≤ data.np_int IDIR)
    (h : HD.SetBoundaryDir NVAR data Vc IDIR = Except.ok V') :
    (∀ n k j i, data.nghost IDIR ≤ i ∧ i < data.nghost IDIR + data.np_int IDIR →
      V' n k j i = Vc n k j i)
    ∧ (data.lbound IDIR = BoundaryType.outflow →
      ∀ n k j i, 0 ≤ n ∧ n < NVAR → 0 ≤ k ∧ k < data.np_tot KDIR →
        0 ≤ j ∧ j < data.np_tot JDIR → 0 ≤ i ∧ i < data.nghost IDIR →
        V' n k j i = V' n k j (data.nghost IDIR))
    ∧ (data.rbound IDIR = BoundaryType.outflow →
      ∀ n k j i, 0 ≤ n ∧ n < NVAR → 0 ≤ k ∧ k < data.np_tot KDIR →
        0 ≤ j ∧ j < data.np_tot JDIR →
        data.nghost IDIR + data.np_int IDIR ≤ i ∧ i < data.np_tot IDIR →
        V' n k j i = V' n k j (data.nghost IDIR + data.np_int IDIR - 1)) := by
  have h' := (HD_SetBoundaryDir_I_form NVAR data Vc hl hr).symm.trans h
  injection h' with h'
  subst h'
  refine ⟨fun n k j i hi => ?_, fun ho n k j i hn hk hj hi => ?_,
    fun ho n k j i hn hk hj hi => ?_⟩
  · exact (copyKernel_outside _ _ _ _ _ _ _ _ _ _ _ n k j i (fun hh => by omega)).trans
      (copyKernel_outside _ _ _ _ _ _ _ _ _ _ _ n k j i (fun hh => by omega))
  · have eL : (fun i : ℤ => if data.lbound IDIR = BoundaryType.periodic
        then i + data.np_int IDIR else data.nghost IDIR) = fun _ => data.nghost IDIR := by
      funext i
      rw [if_neg (by rw [ho]; decide)]
    rw [eL]
    exact (copyKernel_outside _ _ _ _ _ _ _ _ _ _ _ n k j i (fun hh => by omega)).trans
      ((copyKernel_const_I _ _ _ _ _ _ _ _ (fun hh => by omega) Vc n k j i hn hk hj hi).trans
        (copyKernel_outside _ _ _ _ _ _ _ _ _ _ _ n k j (data.nghost IDIR)
          (fun hh => by omega)).symm)
  · have eR : (fun i : ℤ => if data.rbound IDIR = BoundaryType.periodic
        then i - data.np_int IDIR else data.nghost IDIR + data.np_int IDIR - 1)
        = fun _ => data.nghost IDIR + data.np_int IDIR - 1 := by
      funext i
      rw [if_neg (by rw [ho]; decide)]
    rw [eR]
    exact copyKernel_const_I _ _ _ _ _ _ _ _ (fun hh => by omega) _ n k j i hn hk hj
      ⟨by omega, hi.2⟩

/-- The pass for direction 2: frame and outflow sides. -/
theorem HD_pass_J_outflow (NVAR : ℤ) (data : DataBlock) (Vc V' : IdefixArray4D)
    (hl : data.lbound JDIR = BoundaryType.periodic ∨ data.lbound JDIR = BoundaryType.outflow)
    (hr : data.rbound JDIR = BoundaryType.periodic ∨ data.rbound JDIR = BoundaryType.outflow)
    (hnp : 1 ≤ data.np_int JDIR)
    (h : HD.SetBoundaryDir NVAR data Vc JDIR = Except.ok V') :
    (∀ n k j i, data.nghost JDIR ≤ j ∧ j < data.nghost JDIR + data.np_int JDIR →
      V' n k j i = Vc n k j i)
    ∧ (data.lbound JDIR = BoundaryType.outflow →
      ∀ n k j i, 0 ≤ n ∧ n < NVAR → 0 ≤ k ∧ k < data.np_tot KDIR →
        0 ≤ j ∧ j < data.nghost JDIR → 0 ≤ i ∧ i < data.np_tot IDIR →
        V' n k j i = V' n k (data.nghost JDIR) i)
    ∧ (data.rbound JDIR = BoundaryType.outflow →
      ∀ n k j i, 0 ≤ n ∧ n < NVAR → 0 ≤ k ∧ k < data.np_tot KDIR →
        data.nghost JDIR + data.np_int JDIR ≤ j ∧ j < data.np_tot JDIR →
        0 ≤ i ∧ i < data.np_tot IDIR →
        V' n k j i = V' n k (data.nghost JDIR + data.np_int JDIR - 1) i) := by
  have h' := (HD_SetBoundaryDir_J_form NVAR data Vc hl hr).symm.trans h
  injection h' with h'
  subst h'
  refine ⟨fun n k j i hi => ?_, fun ho n k j i hn hk hj hi => ?_,
    fun ho n k j i hn hk hj hi => ?_⟩
  · exact (copyKernel_outside _ _ _ _ _ _ _ _ _ _ _ n k j i (fun hh => by omega)).trans
      (copyKernel_outside _ _ _ _ _ _ _ _ _ _ _ n k j i (fun hh => by omega))
  · have eL : (fun j : ℤ => if data.lbound JDIR = BoundaryType.periodic
        then j + data.np_int JDIR else data.nghost JDIR) = fun _ => data.nghost JDIR := by
      funext j
      rw [if_neg (by rw [ho]; decide)]
    rw [eL]
    exact (copyKernel_outside _ _ _ _ _ _ _ _ _ _ _ n k j i (fun hh => by omega)).trans
      ((copyKernel_const_J _ _ _ _ _ _ _ _ (fun hh => by omega) Vc n k j i hn hk hj hi).trans
        (copyKernel_outside _ _ _ _ _ _ _ _ _ _ _ n k (data.nghost JDIR) i
          (fun hh => by omega)).symm)
  · have eR : (fun j : ℤ => if data.rbound JDIR = BoundaryType.periodic
        then j - data.np_int JDIR else data.nghost JDIR + data.np_int JDIR - 1)
        = fun _ => data.nghost JDIR + data.np_int JDIR - 1 := by
      funext j
      rw [if_neg (by rw [ho]; decide)]
    rw [eR]
    exact copyKernel_const_J _ _ _ _ _ _ _ _ (fun hh => by omega) _ n k j i hn hk
      ⟨by omega, hj.2⟩ hi

/-- The pass for direction 3: frame and outflow sides. -/
theorem HD_pass_K_outflow (NVAR : ℤ) (data : DataBlock) (Vc V' : IdefixArray4D)
    (hl : data.lbound KDIR = BoundaryType.periodic ∨ data.lbound KDIR = BoundaryType.outflow)
    (hr : data.rbound KDIR = BoundaryType.periodic ∨ data.rbound KDIR = BoundaryType.outflow)
    (hnp : 1 ≤ data.np_int KDIR)
    (h : HD.SetBoundaryDir NVAR data Vc KDIR = Except.ok V') :
    (∀ n k j i, data.nghost KDIR ≤ k ∧ k < data.nghost KDIR + data.np_int KDIR →
      V' n k j i = Vc n k j i)
    ∧ (data.lbound KDIR = BoundaryType.outflow →
      ∀ n k j i, 0 ≤ n ∧ n < NVAR → 0 ≤ k ∧ k < data.nghost KDIR →
        0 ≤ j ∧ j < data.np_tot JDIR → 0 ≤ i ∧ i < data.np_tot IDIR →
        V' n k j i = V' n (data.nghost KDIR) j i)
    ∧ (data.rbound KDIR = BoundaryType.outflow →
      ∀ n k j i, 0 ≤ n ∧ n < NVAR →
        data.nghost KDIR + data.np_int KDIR ≤ k ∧ k < data.np_tot KDIR →
        0 ≤ j ∧ j < data.np_tot JDIR → 0 ≤ i ∧ i < data.np_tot IDIR →
        V' n k j i = V' n (data.nghost KDIR + data.np_int KDIR - 1) j i) := by
  have h' := (HD_SetBoundaryDir_K_form NVAR data Vc hl hr).symm.trans h
  injection h' with h'
  subst h'
  refine ⟨fun n k j i hi => ?_, fun ho n k j i hn hk hj hi => ?_,
    fun ho n k j i hn hk hj hi => ?_⟩
  · exact (copyKernel_outside _ _ _ _ _ _ _ _ _ _ _ n k j i (fun hh => by omega)).trans
      (copyKernel_outside _ _ _ _ _ _ _ _ _ _ _ n k j i (fun hh => by omega))
  · have eL : (fun k : ℤ => if data.lbound KDIR = BoundaryType.periodic
        then k + data.np_int KDIR else data.nghost KDIR) = fun _ => data.nghost KDIR := by
      funext k
      rw [if_neg (by rw [ho]; decide)]
    rw [eL]
    exact (copyKernel_outside _ _ _ _ _ _ _ _ _ _ _ n k j i (fun hh => by omega)).trans
      ((copyKernel_const_K _ _ _ _ _ _ _ _ (fun hh => by omega) Vc n k j i hn hk hj hi).trans
        (copyKernel_outside _ _ _ _ _ _ _ _ _ _ _ n (data.nghost KDIR) j i
          (fun hh => by omega)).symm)
  · have eR : (fun k : ℤ => if data.rbound KDIR = BoundaryType.periodic
        then k - data.np_int KDIR else data.nghost KDIR + data.np_int KDIR - 1)
        = fun _ => data.nghost KDIR + data.np_int KDIR - 1 := by
      funext k
      rw [if_neg (by rw [ho]; decide)]
    rw [eR]
    exact copyKernel_const_K _ _ _ _ _ _ _ _ (fun hh => by omega) _ n k j i hn
      ⟨by omega, hk.2⟩ hj hi

/-! ## One pass of the HD loop: rows, slabs and two runs -/

/-- The pass for direction 2 keeps every property of the rows
`i -> Vc(n,k,j,i)` of the full extent. -/
theorem HD_pass_J_rows (NVAR : ℤ) (data : DataBlock) (Vc V' : IdefixArray4D)
    (hl : data.lbound JDIR = BoundaryType.periodic ∨ data.lbound JDIR = BoundaryType.outflow)
    (hr : data.rbound JDIR = BoundaryType.periodic ∨ data.rbound JDIR = BoundaryType.outflow)
    (hext : data.extents JDIR) (hng : 0 ≤ data.nghost JDIR) (hnp : 0 ≤ data.np_int JDIR)
    (h : HD.SetBoundaryDir NVAR data Vc JDIR = Except.ok V')
    (Q : (ℤ → real) → Prop)
    (hQ : ∀ S S' : ℤ → real, (∀ i, 0 ≤ i ∧ i < data.np_tot IDIR → S i = S' i) → Q S' → Q S)
    (hV : ∀ n k j, 0 ≤ n ∧ n < NVAR → 0 ≤ k ∧ k < data.np_tot KDIR →
      0 ≤ j ∧ j < data.np_tot JDIR → Q (fun i => Vc n k j i))
    (n k j : ℤ) (hn : 0 ≤ n ∧ n < NVAR) (hk : 0 ≤ k ∧ k < data.np_tot KDIR)
    (hj : 0 ≤ j ∧ j < data.np_tot JDIR) : Q (fun i => V' n k j i) := by
  have h' := (HD_SetBoundaryDir_J_form NVAR data Vc hl hr).symm.trans h
  injection h' with h'
  subst h'
  obtain ⟨e1, _, _⟩ := hext
  refine copyKernel_row NVAR _ _ _ _ _ _ (data.np_tot KDIR) (data.np_tot JDIR) _ _ _
    (fun _ => rfl) (fun _ => rfl)
    (fun j hj => by
      split_ifs <;> omega) Q hQ _ ?_ n k j hn hk hj
  intro n k j hn hk hj
  exact copyKernel_row NVAR _ _ _ _ _ _ (data.np_tot KDIR) (data.np_tot JDIR) _ _ _
    (fun _ => rfl) (fun _ => rfl)
    (fun j hj => by
      split_ifs <;> omega) Q hQ _ hV n k j hn hk hj

/-- The pass for direction 3 keeps every property of the slabs
`(j,i) -> Vc(n,k,j,i)` of the full extent. -/
theorem HD_pass_K_slabs (NVAR : ℤ) (data : DataBlock) (Vc V' : IdefixArray4D)
    (hl : data.lbound KDIR = BoundaryType.periodic ∨ data.lbound KDIR = BoundaryType.outflow)
    (hr : data.rbound KDIR = BoundaryType.periodic ∨ data.rbound KDIR = BoundaryType.outflow)
    (hext : data.extents KDIR) (hng : 0 ≤ data.nghost KDIR) (hnp : 0 ≤ data.np_int KDIR)
    (h : HD.SetBoundaryDir NVAR data Vc KDIR = Except.ok V')
    (Q : (ℤ → ℤ → real) → Prop)
    (hQ : ∀ S S' : ℤ → ℤ → real,
      (∀ j i, 0 ≤ j ∧ j < data.np_tot JDIR → 0 ≤ i ∧ i < data.np_tot IDIR → S j i = S' j i) →
      Q S' → Q S)
    (hV : ∀ n k, 0 ≤ n ∧ n < NVAR → 0 ≤ k ∧ k < data.np_tot KDIR → Q (fun j i => Vc n k j i))
    (n k : ℤ) (hn : 0 ≤ n ∧ n < NVAR) (hk : 0 ≤ k ∧ k < data.np_tot KDIR) :
    Q (fun j i => V' n k j i) := by
  have h' := (HD_SetBoundaryDir_K_form NVAR data Vc hl hr).symm.trans h
  injection h' with h'
  subst h'
  obtain ⟨e1, _, _⟩ := hext
  refine copyKernel_slab NVAR _ _ _ _ _ _ (data.np_tot KDIR) _ _ _
    (fun _ => rfl) (fun _ => rfl)
    (fun k hk => by
      split_ifs <;> omega) Q hQ _ ?_ n k hn hk
  intro n k hn hk
  exact copyKernel_slab NVAR _ _ _ _ _ _ (data.np_tot KDIR) _ _ _
    (fun _ => rfl) (fun _ => rfl)
    (fun k hk => by
      split_ifs <;> omega) Q hQ _ hV n k hn hk

/-- Two runs of the pass for direction 1: where the inputs agree on the
active cells of a line along 1, the results agree on the whole line. -/
theorem HD_pass_I_agree (NVAR : ℤ) (data : DataBlock) (V W V' W' : IdefixArray4D)
    (hl : data.lbound IDIR = BoundaryType.periodic ∨ data.lbound IDIR = BoundaryType.outflow)
    (hr : data.rbound IDIR = BoundaryType.periodic ∨ data.rbound IDIR = BoundaryType.outflow)
    (hext : data.extents IDIR) (hng : 0 ≤ data.nghost IDIR)
    (hle : data.nghost IDIR ≤ data.np_int IDIR)
    (hV : HD.SetBoundaryDir NVAR data V IDIR = Except.ok V')
    (hW : HD.SetBoundaryDir NVAR data W IDIR = Except.ok W')
    (n k j : ℤ) (hn : 0 ≤ n ∧ n < NVAR) (hk : 0 ≤ k ∧ k < data.np_tot KDIR)
    (hj : 0 ≤ j ∧ j < data.np_tot JDIR)
    (hact : ∀ i, data.nghost IDIR ≤ i ∧ i < data.nghost IDIR + data.np_int IDIR →
      V n k j i = W n k j i)
    (i : ℤ) (hi : 0 ≤ i ∧ i < data.np_tot IDIR) : V' n k j i = W' n k j i := by
  have hV' := (HD_SetBoundaryDir_I_form NVAR data V hl hr).symm.trans hV
  have hW' := (HD_SetBoundaryDir_I_form NVAR data W hl hr).symm.trans hW
  injection hV' with hV'
  injection hW' with hW'
  subst hV' hW'
  obtain ⟨e1, _, _⟩ := hext
  have hcleanL : ∀ k j i : ℤ, (0 ≤ k ∧ k < data.np_tot KDIR) → (0 ≤ j ∧ j < data.np_tot JDIR) →
      (0 ≤ i ∧ i < data.nghost IDIR) →
      ¬ ((0 ≤ (fun k : ℤ => k) k ∧ (fun k : ℤ => k) k < data.np_tot KDIR)
        ∧ (0 ≤ (fun j : ℤ => j) j ∧ (fun j : ℤ => j) j < data.np_tot JDIR)
        ∧ (0 ≤ (fun i : ℤ => if data.lbound IDIR = BoundaryType.periodic
            then i + data.np_int IDIR else data.nghost IDIR) i
          ∧ (fun i : ℤ => if data.lbound IDIR = BoundaryType.periodic
            then i + data.np_int IDIR else data.nghost IDIR) i < data.nghost IDIR)) := by
    intro k j i _ _ hi hh
    have := hh.2.2.2
    dsimp only at this
    split_ifs at this <;> omega
  have hL : ∀ i', (0 ≤ i' ∧ i' < data.np_tot IDIR) →
      ¬ (data.np_int IDIR + data.nghost IDIR ≤ i' ∧ i' < data.np_tot IDIR) →
      HD.copyKernel NVAR 0 (data.np_tot KDIR) 0 (data.np_tot JDIR) 0 (data.nghost IDIR)
          (fun k => k) (fun j => j)
          (fun i : ℤ => if data.lbound IDIR = BoundaryType.periodic
            then i + data.np_int IDIR else data.nghost IDIR) V n k j i'
        = HD.copyKernel NVAR 0 (data.np_tot KDIR) 0 (data.np_tot JDIR) 0 (data.nghost IDIR)
          (fun k => k) (fun j => j)
          (fun i : ℤ => if data.lbound IDIR = BoundaryType.periodic
            then i + data.np_int IDIR else data.nghost IDIR) W n k j i' := by
    intro i' hi' hnr
    refine copyKernel_agree NVAR _ _ _ _ _ _ _ _ _ hcleanL V W n k j i' hn (fun hb => ?_)
      (fun hb => ?_)
    · refine hact _ ?_
      have := hb.2.2
      split_ifs <;> omega
    · refine hact _ ?_
      have : ¬ (0 ≤ i' ∧ i' < data.nghost IDIR) := fun hc => hb ⟨hk, hj, hc⟩
      omega
  refine copyKernel_agree NVAR _ _ _ _ _ _ _ _ _ ?_ _ _ n k j i hn (fun hb => ?_) (fun hb => ?_)
  · intro k j i _ _ hi hh
    have := hh.2.2.1
    split_ifs at this <;> omega
  · have hb' := hb.2.2
    refine hL _ ?_ ?_
    · dsimp only
      split_ifs <;> omega
    · dsimp only
      split_ifs <;> omega
  · exact hL i hi (fun hc => hb ⟨hk, hj, hc⟩)

/-- Two runs of the pass for direction 2: where the inputs agree on the
active cells of a line along 2, the results agree on the whole line. -/
theorem HD_pass_J_agree (NVAR : ℤ) (data : DataBlock) (V W V' W' : IdefixArray4D)
    (hl : data.lbound JDIR = BoundaryType.periodic ∨ data.lbound JDIR = BoundaryType.outflow)
    (hr : data.rbound JDIR = BoundaryType.periodic ∨ data.rbound JDIR = BoundaryType.outflow)
    (hext : data.extents JDIR) (hng : 0 ≤ data.nghost JDIR)
    (hle : data.nghost JDIR ≤ data.np_int JDIR)
    (hV : HD.SetBoundaryDir NVAR data V JDIR = Except.ok V')
    (hW : HD.SetBoundaryDir NVAR data W JDIR = Except.ok W')
    (n k i : ℤ) (hn : 0 ≤ n ∧ n < NVAR) (hk : 0 ≤ k ∧ k < data.np_tot KDIR)
    (hi : 0 ≤ i ∧ i < data.np_tot IDIR)
    (hact : ∀ j, data.nghost JDIR ≤ j ∧ j < data.nghost JDIR + data.np_int JDIR →
      V n k j i = W n k j i)
    (j : ℤ) (hj : 0 ≤ j ∧ j < data.np_tot JDIR) : V' n k j i = W' n k j i := by
  have hV' := (HD_SetBoundaryDir_J_form NVAR data V hl hr).symm.trans hV
  have hW' := (HD_SetBoundaryDir_J_form NVAR data W hl hr).symm.trans hW
  injection hV' with hV'
  injection hW' with hW'
  subst hV' hW'
  obtain ⟨e1, _, _⟩ := hext
  have hcleanL : ∀ k j i : ℤ, (0 ≤ k ∧ k < data.np_tot KDIR) → (0 ≤ j ∧ j < data.nghost JDIR) →
      (0 ≤ i ∧ i < data.np_tot IDIR) →
      ¬ ((0 ≤ (fun k : ℤ => k) k ∧ (fun k : ℤ => k) k < data.np_tot KDIR)
        ∧ (0 ≤ (fun j : ℤ => if data.lbound JDIR = BoundaryType.periodic
            then j + data.np_int JDIR else data.nghost JDIR) j
          ∧ (fun j : ℤ => if data.lbound JDIR = BoundaryType.periodic
            then j + data.np_int JDIR else data.nghost JDIR) j < data.nghost JDIR)
        ∧ (0 ≤ (fun i : ℤ => i) i ∧ (fun i : ℤ => i) i < data.np_tot IDIR)) := by
    intro k j i _ hj _ hh
    have := hh.2.1.2
    dsimp only at this
    split_ifs at this <;> omega
  have hL : ∀ j', (0 ≤ j' ∧ j' < data.np_tot JDIR) →
      ¬ (data.np_int JDIR + data.nghost JDIR ≤ j' ∧ j' < data.np_tot JDIR) →
      HD.copyKernel NVAR 0 (data.np_tot KDIR) 0 (data.nghost JDIR) 0 (data.np_tot IDIR)
          (fun k => k)
          (fun j : ℤ => if data.lbound JDIR = BoundaryType.periodic
            then j + data.np_int JDIR else data.nghost JDIR) (fun i => i) V n k j' i
        = HD.copyKernel NVAR 0 (data.np_tot KDIR) 0 (data.nghost JDIR) 0 (data.np_tot IDIR)
          (fun k => k)
          (fun j : ℤ => if data.lbound JDIR = BoundaryType.periodic
            then j + data.np_int JDIR else data.nghost JDIR) (fun i => i) W n k j' i := by
    intro j' hj' hnr
    refine copyKernel_agree NVAR _ _ _ _ _ _ _ _ _ hcleanL V W n k j' i hn (fun hb => ?_)
      (fun hb => ?_)
    · refine hact _ ?_
      have := hb.2.1
      split_ifs <;> omega
    · refine hact _ ?_
      have : ¬ (0 ≤ j' ∧ j' < data.nghost JDIR) := fun hc => hb ⟨hk, hc, hi⟩
      omega
  refine copyKernel_agree NVAR _ _ _ _ _ _ _ _ _ ?_ _ _ n k j i hn (fun hb => ?_) (fun hb => ?_)
  · intro k j i _ hj _ hh
    have := hh.2.1.1
    split_ifs at this <;> omega
  · have hb' := hb.2.1
    refine hL _ ?_ ?_
    · split_ifs <;> omega
    · split_ifs <;> omega
  · exact hL j hj (fun hc => hb ⟨hk, hc, hi⟩)

/-- Two runs of the pass for direction 3: where the inputs agree on the
active cells of a line along 3, the results agree on the whole line. -/
theorem HD_pass_K_agree (NVAR : ℤ) (data : DataBlock) (V W V' W' : IdefixArray4D)
    (hl : data.lbound KDIR = BoundaryType.periodic ∨ data.lbound KDIR = BoundaryType.outflow)
    (hr : data.rbound KDIR = BoundaryType.periodic ∨ data.rbound KDIR = BoundaryType.outflow)
    (hext : data.extents KDIR) (hng : 0 ≤ data.nghost KDIR)
    (hle : data.nghost KDIR ≤ data.np_int KDIR)
    (hV : HD.SetBoundaryDir NVAR data V KDIR = Except.ok V')
    (hW : HD.SetBoundaryDir NVAR data W KDIR = Except.ok W')
    (n j i : ℤ) (hn : 0 ≤ n ∧ n < NVAR) (hj : 0 ≤ j ∧ j < data.np_tot JDIR)
    (hi : 0 ≤ i ∧ i < data.np_tot IDIR)
    (hact : ∀ k, data.nghost KDIR ≤ k ∧ k < data.nghost KDIR + data.np_int KDIR →
      V n k j i = W n k j i)
    (k : ℤ) (hk : 0 ≤ k ∧ k < data.np_tot KDIR) : V' n k j i = W' n k j i := by
  have hV' := (HD_SetBoundaryDir_K_form NVAR data V hl hr).symm.trans hV
  have hW' := (HD_SetBoundaryDir_K_form NVAR data W hl hr).symm.trans hW
  injection hV' with hV'
  injection hW' with hW'
  subst hV' hW'
  obtain ⟨e1, _, _⟩ := hext
  have hcleanL : ∀ k j i : ℤ, (0 ≤ k ∧ k < data.nghost KDIR) → (0 ≤ j ∧ j < data.np_tot JDIR) →
      (0 ≤ i ∧ i < data.np_tot IDIR) →
      ¬ ((0 ≤ (fun k : ℤ => if data.lbound KDIR = BoundaryType.periodic
            then k + data.np_int KDIR else data.nghost KDIR) k
          ∧ (fun k : ℤ => if data.lbound KDIR = BoundaryType.periodic
            then k + data.np_int KDIR else data.nghost KDIR) k < data.nghost KDIR)
        ∧ (0 ≤ (fun j : ℤ => j) j ∧ (fun j : ℤ => j) j < data.np_tot JDIR)
        ∧ (0 ≤ (fun i : ℤ => i) i ∧ (fun i : ℤ => i) i < data.np_tot IDIR)) := by
    intro k j i hk _ _ hh
    have := hh.1.2
    dsimp only at this
    split_ifs at this <;> omega
  have hL : ∀ k', (0 ≤ k' ∧ k' < data.np_tot KDIR) →
      ¬ (data.np_int KDIR + data.nghost KDIR ≤ k' ∧ k' < data.np_tot KDIR) →
      HD.copyKernel NVAR 0 (data.nghost KDIR) 0 (data.np_tot JDIR) 0 (data.np_tot IDIR)
          (fun k : ℤ => if data.lbound KDIR = BoundaryType.periodic
            then k + data.np_int KDIR else data.nghost KDIR) (fun j => j) (fun i => i)
          V n k' j i
        = HD.copyKernel NVAR 0 (data.nghost KDIR) 0 (data.np_tot JDIR) 0 (data.np_tot IDIR)
          (fun k : ℤ => if data.lbound KDIR = BoundaryType.periodic
            then k + data.np_int KDIR else data.nghost KDIR) (fun j => j) (fun i => i)
          W n k' j i := by
    intro k' hk' hnr
    refine copyKernel_agree NVAR _ _ _ _ _ _ _ _ _ hcleanL V W n k' j i hn (fun hb => ?_)
      (fun hb => ?_)
    · refine hact _ ?_
      have := hb.1
      split_ifs <;> omega
    · refine hact _ ?_
      have : ¬ (0 ≤ k' ∧ k' < data.nghost KDIR) := fun hc => hb ⟨hc, hj, hi⟩
      omega
  refine copyKernel_agree NVAR _ _ _ _ _ _ _ _ _ ?_ _ _ n k j i hn (fun hb => ?_) (fun hb => ?_)
  · intro k j i hk _ _ hh
    have := hh.1.1
    split_ifs at this <;> omega
  · have hb' := hb.1
    refine hL _ ?_ ?_
    · split_ifs <;> omega
    · split_ifs <;> omega
  · exact hL k hk (fun hc => hb ⟨hc, hj, hi⟩)

/-! ## The HD loop over the directions, pass by pass -/

theorem HD_SetBoundary_1D (NVAR : ℤ) (data : DataBlock) (t : real) (V1 : IdefixArray4D)
    (h1 : HD.SetBoundaryDir NVAR data data.Vc IDIR = Except.ok V1) :
    HD.Physics.SetBoundary 1 NVAR data t = Except.ok { data with Vc := V1 } := by
  unfold HD.Physics.SetBoundary
  have hr : irange 0 ((1 : ℕ) : ℤ) = [IDIR] := by decide
  rw [hr]
  simp only [List.foldlM_cons, List.foldlM_nil]
  show Except.map _ (HD.SetBoundaryDir NVAR data data.Vc IDIR >>= pure) = _
  rw [h1]
  rfl

theorem HD_SetBoundary_2D (NVAR : ℤ) (data : DataBlock) (t : real) (V1 V2 : IdefixArray4D)
    (h1 : HD.SetBoundaryDir NVAR data data.Vc IDIR = Except.ok V1)
    (h2 : HD.SetBoundaryDir NVAR data V1 JDIR = Except.ok V2) :
    HD.Physics.SetBoundary 2 NVAR data t = Except.ok { data with Vc := V2 } := by
  unfold HD.Physics.SetBoundary
  have hr : irange 0 ((2 : ℕ) : ℤ) = [IDIR, JDIR] := by decide
  rw [hr]
  simp only [List.foldlM_cons, List.foldlM_nil]
  rw [h1]
  show Except.map _ (HD.SetBoundaryDir NVAR data V1 JDIR >>= pure) = _
  rw [h2]
  rfl

theorem HD_SetBoundary_3D (NVAR : ℤ) (data : DataBlock) (t : real) (V1 V2 V3 : IdefixArray4D)
    (h1 : HD.SetBoundaryDir NVAR data data.Vc IDIR = Except.ok V1)
    (h2 : HD.SetBoundaryDir NVAR data V1 JDIR = Except.ok V2)
    (h3 : HD.SetBoundaryDir NVAR data V2 KDIR = Except.ok V3) :
    HD.Physics.SetBoundary 3 NVAR data t = Except.ok { data with Vc := V3 } := by
  unfold HD.Physics.SetBoundary
  have hr : irange 0 ((3 : ℕ) : ℤ) = [IDIR, JDIR, KDIR] := by decide
  rw [hr]
  simp only [List.foldlM_cons, List.foldlM_nil]
  rw [h1]
  show Except.map _ (HD.SetBoundaryDir NVAR data V1 JDIR >>= _) = _
  rw [h2]
  show Except.map _ (HD.SetBoundaryDir NVAR data V2 KDIR >>= pure) = _
  rw [h3]
  rfl

/-- The kernels of a pass read the sizes and the boundary codes of the block
only: a block that differs in `Vc` gives the same pass. -/
theorem HD_SetBoundaryDir_congr (NVAR : ℤ) (data : DataBlock) (Vc2 V : IdefixArray4D)
    (dir : ℤ) :
    HD.SetBoundaryDir NVAR { data with Vc := Vc2 } V dir = HD.SetBoundaryDir NVAR data V dir :=
  rfl

/-! ## Outflow sides: later passes keep the zero gradient of earlier ones -/

/-- The pass for direction 2 keeps the zero gradient along direction 1. -/
theorem HD_pass_J_keeps_I (NVAR : ℤ) (data : DataBlock) (V1 V2 : IdefixArray4D)
    (hl : data.lbound JDIR = BoundaryType.periodic ∨ data.lbound JDIR = BoundaryType.outflow)
    (hr : data.rbound JDIR = BoundaryType.periodic ∨ data.rbound JDIR = BoundaryType.outflow)
    (hext : data.extents JDIR) (hng : 0 ≤ data.nghost JDIR) (hnp : 0 ≤ data.np_int JDIR)
    (hextI : data.extents IDIR) (hngI : 0 ≤ data.nghost IDIR) (hnpI : 1 ≤ data.np_int IDIR)
    (h : HD.SetBoundaryDir NVAR data V1 JDIR = Except.ok V2) :
    ((∀ n k j i, 0 ≤ n ∧ n < NVAR → 0 ≤ k ∧ k < data.np_tot KDIR →
        0 ≤ j ∧ j < data.np_tot JDIR → 0 ≤ i ∧ i < data.nghost IDIR →
        V1 n k j i = V1 n k j (data.nghost IDIR)) →
      ∀ n k j i, 0 ≤ n ∧ n < NVAR → 0 ≤ k ∧ k < data.np_tot KDIR →
        0 ≤ j ∧ j < data.np_tot JDIR → 0 ≤ i ∧ i < data.nghost IDIR →
        V2 n k j i = V2 n k j (data.nghost IDIR))
    ∧ ((∀ n k j i, 0 ≤ n ∧ n < NVAR → 0 ≤ k ∧ k < data.np_tot KDIR →
        0 ≤ j ∧ j < data.np_tot JDIR →
        data.nghost IDIR + data.np_int IDIR ≤ i ∧ i < data.np_tot IDIR →
        V1 n k j i = V1 n k j (data.nghost IDIR + data.np_int IDIR - 1)) →
      ∀ n k j i, 0 ≤ n ∧ n < NVAR → 0 ≤ k ∧ k < data.np_tot KDIR →
        0 ≤ j ∧ j < data.np_tot JDIR →
        data.nghost IDIR + data.np_int IDIR ≤ i ∧ i < data.np_tot IDIR →
        V2 n k j i = V2 n k j (data.nghost IDIR + data.np_int IDIR - 1)) := by
  obtain ⟨eI, _, _⟩ := hextI
  constructor
  · intro hP n k j i hn hk hj hi
    exact HD_pass_J_rows NVAR data V1 V2 hl hr hext hng hnp h
      (fun S => ∀ i, 0 ≤ i ∧ i < data.nghost IDIR → S i = S (data.nghost IDIR))
      (fun S S' hag hS' i hi =>
        (hag i ⟨hi.1, by omega⟩).trans
          ((hS' i hi).trans (hag (data.nghost IDIR) ⟨hngI, by omega⟩).symm))
      (fun n k j hn hk hj i hi => hP n k j i hn hk hj hi) n k j hn hk hj i hi
  · intro hP n k j i hn hk hj hi
    exact HD_pass_J_rows NVAR data V1 V2 hl hr hext hng hnp h
      (fun S => ∀ i, data.nghost IDIR + data.np_int IDIR ≤ i ∧ i < data.np_tot IDIR →
        S i = S (data.nghost IDIR + data.np_int IDIR - 1))
      (fun S S' hag hS' i hi =>
        (hag i ⟨by omega, hi.2⟩).trans
          ((hS' i hi).trans
            (hag (data.nghost IDIR + data.np_int IDIR - 1) ⟨by omega, by omega⟩).symm))
      (fun n k j hn hk hj i hi => hP n k j i hn hk hj hi) n k j hn hk hj i hi

/-- The pass for direction 3 keeps the zero gradient along directions 1 and
2. -/
theorem HD_pass_K_keeps_IJ (NVAR : ℤ) (data : DataBlock) (V2 V3 : IdefixArray4D)
    (hl : data.lbound KDIR = BoundaryType.periodic ∨ data.lbound KDIR = BoundaryType.outflow)
    (hr : data.rbound KDIR = BoundaryType.periodic ∨ data.rbound KDIR = BoundaryType.outflow)
    (hext : data.extents KDIR) (hng : 0 ≤ data.nghost KDIR) (hnp : 0 ≤ data.np_int KDIR)
    (hextI : data.extents IDIR) (hngI : 0 ≤ data.nghost IDIR) (hnpI : 1 ≤ data.np_int IDIR)
    (hextJ : data.extents JDIR) (hngJ : 0 ≤ data.nghost JDIR) (hnpJ : 1 ≤ data.np_int JDIR)
    (h : HD.SetBoundaryDir NVAR data V2 KDIR = Except.ok V3) :
    ((∀ n k j i, 0 ≤ n ∧ n < NVAR → 0 ≤ k ∧ k < data.np_tot KDIR →
        0 ≤ j ∧ j < data.np_tot JDIR → 0 ≤ i ∧ i < data.nghost IDIR →
        V2 n k j i = V2 n k j (data.nghost IDIR)) →
      ∀ n k j i, 0 ≤ n ∧ n < NVAR → 0 ≤ k ∧ k < data.np_tot KDIR →
        0 ≤ j ∧ j < data.np_tot JDIR → 0 ≤ i ∧ i < data.nghost IDIR →
        V3 n k j i = V3 n k j (data.nghost IDIR))
    ∧ ((∀ n k j i, 0 ≤ n ∧ n < NVAR → 0 ≤ k ∧ k < data.np_tot KDIR →
        0 ≤ j ∧ j < data.np_tot JDIR →
        data.nghost IDIR + data.np_int IDIR ≤ i ∧ i < data.np_tot IDIR →
        V2 n k j i = V2 n k j (data.nghost IDIR + data.np_int IDIR - 1)) →
      ∀ n k j i, 0 ≤ n ∧ n < NVAR → 0 ≤ k ∧ k < data.np_tot KDIR →
        0 ≤ j ∧ j < data.np_tot JDIR →
        data.nghost IDIR + data.np_int IDIR ≤ i ∧ i < data.np_tot IDIR →
        V3 n k j i = V3 n k j (data.nghost IDIR + data.np_int IDIR - 1))
    ∧ ((∀ n k j i, 0 ≤ n ∧ n < NVAR → 0 ≤ k ∧ k < data.np_tot KDIR →
        0 ≤ j ∧ j < data.nghost JDIR → 0 ≤ i ∧ i < data.np_tot IDIR →
        V2 n k j i = V2 n k (data.nghost JDIR) i) →
      ∀ n k j i, 0 ≤ n ∧ n < NVAR → 0 ≤ k ∧ k < data.np_tot KDIR →
        0 ≤ j ∧ j < data.nghost JDIR → 0 ≤ i ∧ i < data.np_tot IDIR →
        V3 n k j i = V3 n k (data.nghost JDIR) i)
    ∧ ((∀ n k j i, 0 ≤ n ∧ n < NVAR → 0 ≤ k ∧ k < data.np_tot KDIR →
        data.nghost JDIR + data.np_int JDIR ≤ j ∧ j < data.np_tot JDIR →
        0 ≤ i ∧ i < data.np_tot IDIR →
        V2 n k j i = V2 n k (data.nghost JDIR + data.np_int JDIR - 1) i) →
      ∀ n k j i, 0 ≤ n ∧ n < NVAR → 0 ≤ k ∧ k < data.np_tot KDIR →
        data.nghost JDIR + data.np_int JDIR ≤ j ∧ j < data.np_tot JDIR →
        0 ≤ i ∧ i < data.np_tot IDIR →
        V3 n k j i = V3 n k (data.nghost JDIR + data.np_int JDIR - 1) i) := by
  obtain ⟨eI, _, _⟩ := hextI
  obtain ⟨eJ, _, _⟩ := hextJ
  refine ⟨?_, ?_, ?_, ?_⟩
  · intro hP n k j i hn hk hj hi
    exact HD_pass_K_slabs NVAR data V2 V3 hl hr hext hng hnp h
      (fun S => ∀ j i, 0 ≤ j ∧ j < data.np_tot JDIR → 0 ≤ i ∧ i < data.nghost IDIR →
        S j i = S j (data.nghost IDIR))
      (fun S S' hag hS' j i hj hi =>
        (hag j i hj ⟨hi.1, by omega⟩).trans
          ((hS' j i hj hi).trans (hag j (data.nghost IDIR) hj ⟨hngI, by omega⟩).symm))
      (fun n k hn hk j i hj hi => hP n k j i hn hk hj hi) n k hn hk j i hj hi
  · intro hP n k j i hn hk hj hi
    exact HD_pass_K_slabs NVAR data V2 V3 hl hr hext hng hnp h
      (fun S => ∀ j i, 0 ≤ j ∧ j < data.np_tot JDIR →
        data.nghost IDIR + data.np_int IDIR ≤ i ∧ i < data.np_tot IDIR →
        S j i = S j (data.nghost IDIR + data.np_int IDIR - 1))
      (fun S S' hag hS' j i hj hi =>
        (hag j i hj ⟨by omega, hi.2⟩).trans
          ((hS' j i hj hi).trans
            (hag j (data.nghost IDIR + data.np_int IDIR - 1) hj ⟨by omega, by omega⟩).symm))
      (fun n k hn hk j i hj hi => hP n k j i hn hk hj hi) n k hn hk j i hj hi
  · intro hP n k j i hn hk hj hi
    exact HD_pass_K_slabs NVAR data V2 V3 hl hr hext hng hnp h
      (fun S => ∀ j i, 0 ≤ j ∧ j < data.nghost JDIR → 0 ≤ i ∧ i < data.np_tot IDIR →
        S j i = S (data.nghost JDIR) i)
      (fun S S' hag hS' j i hj hi =>
        (hag j i ⟨hj.1, by omega⟩ hi).trans
          ((hS' j i hj hi).trans (hag (data.nghost JDIR) i ⟨hngJ, by omega⟩ hi).symm))
      (fun n k hn hk j i hj hi => hP n k j i hn hk hj hi) n k hn hk j i hj hi
  · intro hP n k j i hn hk hj hi
    exact HD_pass_K_slabs NVAR data V2 V3 hl hr hext hng hnp h
      (fun S => ∀ j i, data.nghost JDIR + data.np_int JDIR ≤ j ∧ j < data.np_tot JDIR →
        0 ≤ i ∧ i < data.np_tot IDIR →
        S j i = S (data.nghost JDIR + data.np_int JDIR - 1) i)
      (fun S S' hag hS' j i hj hi =>
        (hag j i ⟨by omega, hj.2⟩ hi).trans
          ((hS' j i hj hi).trans
            (hag (data.nghost JDIR + data.np_int JDIR - 1) i ⟨by omega, by omega⟩ hi).symm))
      (fun n k hn hk j i hj hi => hP n k j i hn hk hj hi) n k hn hk j i hj hi

/-- C21. Outflow boundaries are zero-gradient. For the HD `SetBoundary` of a
1D, 2D or 3D build whose sides are all periodic or outflow, on a block with
the extents of the data model and at least one active cell along every
direction of the build, the call returns; active cells are unchanged; and for
every direction `d` of the build with an outflow side, every ghost cell of that
side in the full transverse extent (corners included) holds afterwards, in
every channel, the value of the nearest active layer along `d` with the same
transverse indices: `V_c(n,x) = V_c(n, x with d-index := beg[d])` on the left
side and `V_c(n, x with d-index := end[d]-1)` on the right side. -/
theorem SetBoundary_outflow_zero_gradient (DIMENSIONS : ℕ) (NVAR : ℤ) (data : DataBlock)
    (t : real) (hD : 1 ≤ DIMENSIONS ∧ DIMENSIONS ≤ 3)
    (hb : ∀ e : ℤ, 0 ≤ e ∧ e < (DIMENSIONS : ℤ) →
      (data.lbound e = BoundaryType.periodic ∨ data.lbound e = BoundaryType.outflow)
      ∧ (data.rbound e = BoundaryType.periodic ∨ data.rbound e = BoundaryType.outflow))
    (hgrid : ∀ e : ℤ, 0 ≤ e ∧ e < (DIMENSIONS : ℤ) →
      data.extents e ∧ 0 ≤ data.nghost e ∧ 1 ≤ data.np_int e) :
    ∃ data', HD.Physics.SetBoundary DIMENSIONS NVAR data t = Except.ok data'
      ∧ (∀ n k j i, (3 ≤ DIMENSIONS → data.beg KDIR ≤ k ∧ k < data.end_ KDIR) →
          (2 ≤ DIMENSIONS → data.beg JDIR ≤ j ∧ j < data.end_ JDIR) →
          data.beg IDIR ≤ i ∧ i < data.end_ IDIR → data'.Vc n k j i = data.Vc n k j i)
      ∧ (∀ n k j i, 0 ≤ n ∧ n < NVAR → 0 ≤ k ∧ k < data.np_tot KDIR →
          0 ≤ j ∧ j < data.np_tot JDIR → 0 ≤ i ∧ i < data.np_tot IDIR →
          (data.lbound IDIR = BoundaryType.outflow → i < data.beg IDIR →
            data'.Vc n k j i = data'.Vc n k j (data.beg IDIR))
          ∧ (data.rbound IDIR = BoundaryType.outflow → data.end_ IDIR ≤ i →
            data'.Vc n k j i = data'.Vc n k j (data.end_ IDIR - 1))
          ∧ (2 ≤ DIMENSIONS → data.lbound JDIR = BoundaryType.outflow → j < data.beg JDIR →
            data'.Vc n k j i = data'.Vc n k (data.beg JDIR) i)
          ∧ (2 ≤ DIMENSIONS → data.rbound JDIR = BoundaryType.outflow → data.end_ JDIR ≤ j →
            data'.Vc n k j i = data'.Vc n k (data.end_ JDIR - 1) i)
          ∧ (3 ≤ DIMENSIONS → data.lbound KDIR = BoundaryType.outflow → k < data.beg KDIR →
            data'.Vc n k j i = data'.Vc n (data.beg KDIR) j i)
          ∧ (3 ≤ DIMENSIONS → data.rbound KDIR = BoundaryType.outflow → data.end_ KDIR ≤ k →
            data'.Vc n k j i = data'.Vc n (data.end_ KDIR - 1) j i)) := by
  obtain ⟨hD1, hD3⟩ := hD
  obtain ⟨hlI, hrI⟩ := hb IDIR ⟨by decide, by
    have : IDIR = 0 := rfl
    omega⟩
  obtain ⟨hextI, hngI, hnpI⟩ := hgrid IDIR ⟨by decide, by
    have : IDIR = 0 := rfl
    omega⟩
  have hextI' := hextI
  obtain ⟨eI, bI, nI⟩ := hextI'
  obtain ⟨V1, h1⟩ := (HD_SetBoundaryDir_cases NVAR data IDIR data.Vc).1 ⟨hlI, hrI⟩
  obtain ⟨f1, a1, b1⟩ := HD_pass_I_outflow NVAR data data.Vc V1 hlI hrI hnpI h1
  by_cases hD2 : 2 ≤ DIMENSIONS
  · obtain ⟨hlJ, hrJ⟩ := hb JDIR ⟨by decide, by
      have : JDIR = 1 := rfl
      omega⟩
    obtain ⟨hextJ, hngJ, hnpJ⟩ := hgrid JDIR ⟨by decide, by
      have : JDIR = 1 := rfl
      omega⟩
    have hextJ' := hextJ
    obtain ⟨eJ, bJ, nJ⟩ := hextJ'
    obtain ⟨V2, h2⟩ := (HD_SetBoundaryDir_cases NVAR data JDIR V1).1 ⟨hlJ, hrJ⟩
    obtain ⟨f2, a2, b2⟩ := HD_pass_J_outflow NVAR data V1 V2 hlJ hrJ hnpJ h2
    obtain ⟨ka1, kb1⟩ := HD_pass_J_keeps_I NVAR data V1 V2 hlJ hrJ hextJ hngJ (by omega)
      hextI hngI hnpI h2
    by_cases hD3' : 3 ≤ DIMENSIONS
    · have hDe : DIMENSIONS = 3 := by omega
      subst hDe
      obtain ⟨hlK, hrK⟩ := hb KDIR (by decide)
      obtain ⟨hextK, hngK, hnpK⟩ := hgrid KDIR (by decide)
      have hextK' := hextK
      obtain ⟨eK, bK, nK⟩ := hextK'
      obtain ⟨V3, h3⟩ := (HD_SetBoundaryDir_cases NVAR data KDIR V2).1 ⟨hlK, hrK⟩
      obtain ⟨f3, a3, b3⟩ := HD_pass_K_outflow NVAR data V2 V3 hlK hrK hnpK h3
      obtain ⟨la1, lb1, la2, lb2⟩ := HD_pass_K_keeps_IJ NVAR data V2 V3 hlK hrK hextK hngK
        (by omega) hextI hngI hnpI hextJ hngJ hnpJ h3
      refine ⟨_, HD_SetBoundary_3D NVAR data t V1 V2 V3 h1 h2 h3, ?_, ?_⟩
      · intro n k j i hk hj hi
        have hk' := hk (le_refl _)
        have hj' := hj (by decide)
        exact ((f3 n k j i (by omega)).trans (f2 n k j i (by omega))).trans
          (f1 n k j i (by omega))
      · intro n k j i hn hk hj hi
        refine ⟨fun ho hlt => ?_, fun ho hle => ?_, fun _ ho hlt => ?_, fun _ ho hle => ?_,
          fun _ ho hlt => ?_, fun _ ho hle => ?_⟩
        · rw [bI]
          exact la1 (ka1 (a1 ho)) n k j i hn hk hj ⟨hi.1, by omega⟩
        · rw [nI]
          exact lb1 (kb1 (b1 ho)) n k j i hn hk hj ⟨by omega, hi.2⟩
        · rw [bJ]
          exact la2 (a2 ho) n k j i hn hk ⟨hj.1, by omega⟩ hi
        · rw [nJ]
          exact lb2 (b2 ho) n k j i hn hk ⟨by omega, hj.2⟩ hi
        · rw [bK]
          exact a3 ho n k j i hn ⟨hk.1, by omega⟩ hj hi
        · rw [nK]
          exact b3 ho n k j i hn ⟨by omega, hk.2⟩ hj hi
    · have hDe : DIMENSIONS = 2 := by omega
      subst hDe
      refine ⟨_, HD_SetBoundary_2D NVAR data t V1 V2 h1 h2, ?_, ?_⟩
      · intro n k j i _ hj hi
        have hj' := hj (le_refl _)
        exact (f2 n k j i (by omega)).trans (f1 n k j i (by omega))
      · intro n k j i hn hk hj hi
        refine ⟨fun ho hlt => ?_, fun ho hle => ?_, fun _ ho hlt => ?_, fun _ ho hle => ?_,
          fun h3 => absurd h3 (by decide), fun h3 => absurd h3 (by decide)⟩
        · rw [bI]
          exact ka1 (a1 ho) n k j i hn hk hj ⟨hi.1, by omega⟩
        · rw [nI]
          exact kb1 (b1 ho) n k j i hn hk hj ⟨by omega, hi.2⟩
        · rw [bJ]
          exact a2 ho n k j i hn hk ⟨hj.1, by omega⟩ hi
        · rw [nJ]
          exact b2 ho n k j i hn hk ⟨by omega, hj.2⟩ hi
  · have hDe : DIMENSIONS = 1 := by omega
    subst hDe
    refine ⟨_, HD_SetBoundary_1D NVAR data t V1 h1, ?_, ?_⟩
    · intro n k j i _ _ hi
      exact f1 n k j i (by omega)
    · intro n k j i hn hk hj hi
      refine ⟨fun ho hlt => ?_, fun ho hle => ?_, fun h2 => absurd h2 (by decide),
        fun h2 => absurd h2 (by decide), fun h3 => absurd h3 (by decide),
        fun h3 => absurd h3 (by decide)⟩
      · rw [bI]
        exact a1 ho n k j i hn hk hj ⟨hi.1, by omega⟩
      · rw [nI]
        exact b1 ho n k j i hn hk hj ⟨by omega, hi.2⟩

/-- The 1D grid with the ramp `V_c = i*i` and outflow on both sides: the call
returns, the left ghost cell `i = 0` equals the first active cell `i = beg`,
the right ghost cell `i = 7` equals the last active cell `i = end - 1`, and
the active cell `i = 3` keeps its value. -/
theorem SetBoundary_outflow_zero_gradient_witness :
    ∃ data', HD.Physics.SetBoundary 1 5 grid1D_outflow 0 = Except.ok data'
      ∧ data'.Vc RHO 0 0 3 = grid1D_outflow.Vc RHO 0 0 3
      ∧ data'.Vc RHO 0 0 0 = data'.Vc RHO 0 0 (grid1D_outflow.beg IDIR)
      ∧ data'.Vc RHO 0 0 7 = data'.Vc RHO 0 0 (grid1D_outflow.end_ IDIR - 1) :=
  (SetBoundary_outflow_zero_gradient 1 5 grid1D_outflow 0 ⟨le_refl _, by decide⟩
    (fun e he => by
      obtain rfl : e = 0 := by
        have := he.2
        norm_num at this
        omega
      exact ⟨Or.inr rfl, Or.inr rfl⟩)
    (fun e he => by
      obtain rfl : e = 0 := by
        have := he.2
        norm_num at this
        omega
      exact ⟨⟨by decide, by decide, by decide⟩, by decide, by decide⟩)).imp
    (fun _ h => ⟨h.1, h.2.1 RHO 0 0 3 (fun h3 => absurd h3 (by decide))
        (fun h2 => absurd h2 (by decide)) (by decide),
      (h.2.2 RHO 0 0 0 (by decide) (by decide) (by decide) (by decide)).1 rfl (by decide),
      (h.2.2 RHO 0 0 7 (by decide) (by decide) (by decide) (by decide)).2.1 rfl (by decide)⟩)

/-! ## Boundary conditions of the MHD solver: the staggered field -/

/-- A guarded kernel `if(n != dir) Vs(n,k,j,i) = ...` leaves the component
`dir` and every cell outside its box as they were. -/
theorem guarded_for4_untouched (b0 e0 b1 e1 b2 e2 b3 e3 dir : ℤ)
    (src : ℤ → ℤ → ℤ → ℤ → IdefixArray4D → real) (Vs : IdefixArray4D) (n k j i : ℤ)
    (h : n = dir
      ∨ ¬ ((b0 ≤ n ∧ n < e0) ∧ (b1 ≤ k ∧ k < e1) ∧ (b2 ≤ j ∧ j < e2) ∧ (b3 ≤ i ∧ i < e3))) :
    idefix_for4 b0 e0 b1 e1 b2 e2 b3 e3
      (fun n k j i Vs => if n ≠ dir then set4 Vs n k j i (src n k j i Vs) else Vs) Vs n k j i
      = Vs n k j i := by
  unfold idefix_for4
  exact foldl_untouched
    (fun (x : ℤ × ℤ × ℤ × ℤ) (Vs : IdefixArray4D) =>
      if x.1 ≠ dir then set4 Vs x.1 x.2.1 x.2.2.1 x.2.2.2 (src x.1 x.2.1 x.2.2.1 x.2.2.2 Vs)
      else Vs)
    (fun (U : IdefixArray4D) (x : ℤ × ℤ × ℤ × ℤ) => U x.1 x.2.1 x.2.2.1 x.2.2.2)
    (n, k, j, i) _
    (fun x hx s => by
      dsimp only
      by_cases hg : x.1 ≠ dir
      · rw [if_pos hg]
        apply set4_ne
        rintro ⟨h1, h2, h3, h4⟩
        rcases h with h | h
        · exact hg (h1 ▸ h)
        · apply h
          have hx' := (mem_box4 _ _ _ _ _ _ _ _ _ _ _ _).1 hx
          rw [h1, h2, h3, h4]
          exact hx'
      · rw [if_neg hg]) Vs

/-- A guarded copy kernel whose source cells lie outside the box it writes:
every cell of the box in a component other than `dir` receives the old
content of its source cell. -/
theorem guardedCopyKernel_inside (DIMENSIONS : ℕ) (dir kb ke jb je ib ie : ℤ)
    (sk sj si : ℤ → ℤ)
    (hclean : ∀ k j i, (kb ≤ k ∧ k < ke) → (jb ≤ j ∧ j < je) → (ib ≤ i ∧ i < ie) →
      ¬ ((kb ≤ sk k ∧ sk k < ke) ∧ (jb ≤ sj j ∧ sj j < je) ∧ (ib ≤ si i ∧ si i < ie)))
    (Vs : IdefixArray4D) (n k j i : ℤ)
    (hn : 0 ≤ n ∧ n < (DIMENSIONS : ℤ)) (hd : n ≠ dir) (hk : kb ≤ k ∧ k < ke)
    (hj : jb ≤ j ∧ j < je) (hi : ib ≤ i ∧ i < ie) :
    MHD.guardedCopyKernel DIMENSIONS dir kb ke jb je ib ie sk sj si Vs n k j i
      = Vs n (sk k) (sj j) (si i) := by
  unfold MHD.guardedCopyKernel idefix_for4
  have key := foldl_copy
    (fun (x : ℤ × ℤ × ℤ × ℤ) (Vs : IdefixArray4D) =>
      if x.1 ≠ dir then
        set4 Vs x.1 x.2.1 x.2.2.1 x.2.2.2 (Vs x.1 (sk x.2.1) (sj x.2.2.1) (si x.2.2.2))
      else Vs)
    (fun (U : IdefixArray4D) (x : ℤ × ℤ × ℤ × ℤ) => U x.1 x.2.1 x.2.2.1 x.2.2.2)
    (fun (U : IdefixArray4D) (x : ℤ × ℤ × ℤ × ℤ) =>
      if x.1 ≠ dir then U x.1 (sk x.2.1) (sj x.2.2.1) (si x.2.2.2)
      else U x.1 x.2.1 x.2.2.1 x.2.2.2)
    (box4 0 (DIMENSIONS : ℤ) kb ke jb je ib ie) (nodup_box4 _ _ _ _ _ _ _ _)
    (fun x _ s => by
      dsimp only
      by_cases hg : x.1 ≠ dir
      · rw [if_pos hg, if_pos hg, set4_self]
      · rw [if_neg hg, if_neg hg])
    (fun x _ y _ hxy s => by
      dsimp only
      by_cases hg : x.1 ≠ dir
      · rw [if_pos hg]
        apply set4_ne
        intro h
        apply hxy
        obtain ⟨h1, h2, h3, h4⟩ := h
        ext <;> dsimp only <;> omega
      · rw [if_neg hg])
    (fun x hx y hy s => by
      obtain ⟨xn, xk, xj, xi⟩ := x
      obtain ⟨yn, yk, yj, yi⟩ := y
      have hx' := (mem_box4 _ _ _ _ _ _ _ _ _ _ _ _).1 hx
      have hy' := (mem_box4 _ _ _ _ _ _ _ _ _ _ _ _).1 hy
      dsimp only
      by_cases hg : xn ≠ dir
      · rw [if_pos hg]
        by_cases hy0 : yn ≠ dir
        · rw [if_pos hy0, if_pos hy0]
          apply set4_ne
          rintro ⟨_, h2, h3, h4⟩
          apply hclean yk yj yi hy'.2.1 hy'.2.2.1 hy'.2.2.2
          rw [h2, h3, h4]
          exact hx'.2
        · rw [if_neg hy0, if_neg hy0]
          apply set4_ne
          rintro ⟨h1, _, _, _⟩
          exact hg (h1 ▸ not_not.1 hy0)
      · rw [if_neg hg])
    Vs (n, k, j, i) ((mem_box4 _ _ _ _ _ _ _ _ _ _ _ _).2 ⟨hn, hk, hj, hi⟩)
  dsimp only at key
  rw [if_pos hd] at key
  exact key

/-- The cells that the staggered kernels of the pass for direction `dir` leave
alone: the whole component `dir`, the components outside `[0, DIMENSIONS)`,
and every cell whose index along `dir` is in the active range. -/
theorem MHD_BoundaryVs_untouched (DIMENSIONS : ℕ) (data : DataBlock) (dir : ℤ)
    (Vs : IdefixArray4D) (n k j i : ℤ)
    (h : n = dir ∨ ¬ (0 ≤ n ∧ n < (DIMENSIONS : ℤ))
      ∨ (dir = KDIR ∧ data.nghost KDIR ≤ k ∧ k < data.nghost KDIR + data.np_int KDIR)
      ∨ (dir = JDIR ∧ data.nghost JDIR ≤ j ∧ j < data.nghost JDIR + data.np_int JDIR)
      ∨ (dir = IDIR ∧ data.nghost IDIR ≤ i ∧ i < data.nghost IDIR + data.np_int IDIR)) :
    MHD.BoundaryBegPeriodicVs DIMENSIONS data dir Vs n k j i = Vs n k j i
    ∧ MHD.BoundaryBegOutflowVs DIMENSIONS data dir Vs n k j i = Vs n k j i
    ∧ MHD.BoundaryEndPeriodicVs DIMENSIONS data dir Vs n k j i = Vs n k j i
    ∧ MHD.BoundaryEndOutflowVs DIMENSIONS data dir Vs n k j i = Vs n k j i := by
  have hbeg : n = dir ∨ ¬ ((0 ≤ n ∧ n < (DIMENSIONS : ℤ))
      ∧ (0 ≤ k ∧ k < if dir = KDIR then data.nghost KDIR else data.np_tot KDIR)
      ∧ (0 ≤ j ∧ j < if dir = JDIR then data.nghost JDIR else data.np_tot JDIR)
      ∧ (0 ≤ i ∧ i < if dir = IDIR then data.nghost IDIR else data.np_tot IDIR)) := by
    rcases h with h | h | ⟨h, h1, _⟩ | ⟨h, h1, _⟩ | ⟨h, h1, _⟩
    · exact Or.inl h
    · exact Or.inr (fun hh => h hh.1)
    · refine Or.inr (fun hh => ?_)
      have := hh.2.1.2
      rw [if_pos h] at this
      omega
    · refine Or.inr (fun hh => ?_)
      have := hh.2.2.1.2
      rw [if_pos h] at this
      omega
    · refine Or.inr (fun hh => ?_)
      have := hh.2.2.2.2
      rw [if_pos h] at this
      omega
  have hend : n = dir ∨ ¬ ((0 ≤ n ∧ n < (DIMENSIONS : ℤ))
      ∧ ((if dir = KDIR then (if dir = KDIR then data.np_int KDIR else 0) + data.nghost KDIR
          else 0) ≤ k ∧ k < data.np_tot KDIR)
      ∧ ((if dir = JDIR then (if dir = JDIR then data.np_int JDIR else 0) + data.nghost JDIR
          else 0) ≤ j ∧ j < data.np_tot JDIR)
      ∧ ((if dir = IDIR then (if dir = IDIR then data.np_int IDIR else 0) + data.nghost IDIR
          else 0) ≤ i ∧ i < data.np_tot IDIR)) := by
    rcases h with h | h | ⟨h, _, h1⟩ | ⟨h, _, h1⟩ | ⟨h, _, h1⟩
    · exact Or.inl h
    · exact Or.inr (fun hh => h hh.1)
    · refine Or.inr (fun hh => ?_)
      have := hh.2.1.1
      rw [if_pos h, if_pos h] at this
      omega
    · refine Or.inr (fun hh => ?_)
      have := hh.2.2.1.1
      rw [if_pos h, if_pos h] at this
      omega
    · refine Or.inr (fun hh => ?_)
      have := hh.2.2.2.1
      rw [if_pos h, if_pos h] at this
      omega
  refine ⟨?_, ?_, ?_, ?_⟩
  · exact guarded_for4_untouched _ _ _ _ _ _ _ _ dir
      (fun n k j i Vs => Vs n (k + if dir = KDIR then data.np_int KDIR else 0)
        (j + if dir = JDIR then data.np_int JDIR else 0)
        (i + if dir = IDIR then data.np_int IDIR else 0)) Vs n k j i hbeg
  · exact guarded_for4_untouched _ _ _ _ _ _ _ _ dir
      (fun n k j i Vs => Vs n (if dir = KDIR then data.nghost KDIR else k)
        (if dir = JDIR then data.nghost JDIR else j)
        (if dir = IDIR then data.nghost IDIR else i)) Vs n k j i hbeg
  · exact guarded_for4_untouched _ _ _ _ _ _ _ _ dir
      (fun n k j i Vs => Vs n (k - if dir = KDIR then data.np_int KDIR else 0)
        (j - if dir = JDIR then data.np_int JDIR else 0)
        (i - if dir = IDIR then data.np_int IDIR else 0)) Vs n k j i hend
  · exact guarded_for4_untouched _ _ _ _ _ _ _ _ dir
      (fun n k j i Vs => Vs n
        (if dir = KDIR then data.nghost KDIR + (if dir = KDIR then data.np_int KDIR else 0) - 1
          else k)
        (if dir = JDIR then data.nghost JDIR + (if dir = JDIR then data.np_int JDIR else 0) - 1
          else j)
        (if dir = IDIR then data.nghost IDIR + (if dir = IDIR then data.np_int IDIR else 0) - 1
          else i)) Vs n k j i hend

/-- The result of a pass of the MHD loop that returns: one of the two left
kernels, then one of the two right kernels, on `Vc` and on `Vs`. -/
theorem MHD_SetBoundaryDir_inv (DIMENSIONS : ℕ) (NVAR : ℤ) (data : DataBlock) (dir : ℤ)
    (S S' : IdefixArray4D × IdefixArray4D)
    (h : MHD.SetBoundaryDir DIMENSIONS NVAR data S dir = Except.ok S') :
    ∃ B E : IdefixArray4D → IdefixArray4D,
      (B = MHD.BoundaryBegPeriodicVs DIMENSIONS data dir
        ∨ B = MHD.BoundaryBegOutflowVs DIMENSIONS data dir)
      ∧ (E = MHD.BoundaryEndPeriodicVs DIMENSIONS data dir
        ∨ E = MHD.BoundaryEndOutflowVs DIMENSIONS data dir)
      ∧ S'.2 = E (B S.2) := by
  unfold MHD.SetBoundaryDir at h
  by_cases hl : data.lbound dir = BoundaryType.periodic ∨ data.lbound dir = BoundaryType.outflow
  · by_cases hr : data.rbound dir = BoundaryType.periodic
        ∨ data.rbound dir = BoundaryType.outflow
    · rcases hl with hl | hl <;> rcases hr with hr | hr
      · rw [(MHD_SetBoundaryBeg_cases DIMENSIONS NVAR data dir S).1 hl] at h
        have h2 := (MHD_SetBoundaryEnd_cases DIMENSIONS NVAR data dir
          (HD.BoundaryBegPeriodic NVAR data dir S.1,
            MHD.BoundaryBegPeriodicVs DIMENSIONS data dir S.2)).1 hr
        have h3 : Except.ok _ = Except.ok S' := h2.symm.trans h
        injection h3 with h3
        exact ⟨_, _, Or.inl rfl, Or.inl rfl, by rw [← h3]⟩
      · rw [(MHD_SetBoundaryBeg_cases DIMENSIONS NVAR data dir S).1 hl] at h
        have h2 := (MHD_SetBoundaryEnd_cases DIMENSIONS NVAR data dir
          (HD.BoundaryBegPeriodic NVAR data dir S.1,
            MHD.BoundaryBegPeriodicVs DIMENSIONS data dir S.2)).2.1 hr
        have h3 : Except.ok _ = Except.ok S' := h2.symm.trans h
        injection h3 with h3
        exact ⟨_, _, Or.inl rfl, Or.inr rfl, by rw [← h3]⟩
      · rw [(MHD_SetBoundaryBeg_cases DIMENSIONS NVAR data dir S).2.1 hl] at h
        have h2 := (MHD_SetBoundaryEnd_cases DIMENSIONS NVAR data dir
          (HD.BoundaryBegOutflow NVAR data dir S.1,
            MHD.BoundaryBegOutflowVs DIMENSIONS data dir S.2)).1 hr
        have h3 : Except.ok _ = Except.ok S' := h2.symm.trans h
        injection h3 with h3
        exact ⟨_, _, Or.inr rfl, Or.inl rfl, by rw [← h3]⟩
      · rw [(MHD_SetBoundaryBeg_cases DIMENSIONS NVAR data dir S).2.1 hl] at h
        have h2 := (MHD_SetBoundaryEnd_cases DIMENSIONS NVAR data dir
          (HD.BoundaryBegOutflow NVAR data dir S.1,
            MHD.BoundaryBegOutflowVs DIMENSIONS data dir S.2)).2.1 hr
        have h3 : Except.ok _ = Except.ok S' := h2.symm.trans h
        injection h3 with h3
        exact ⟨_, _, Or.inr rfl, Or.inr rfl, by rw [← h3]⟩
    · have hbad := (MHD_SetBoundaryDir_cases DIMENSIONS NVAR data dir S).2 (fun hh => hr hh.2)
      unfold MHD.SetBoundaryDir at hbad
      rw [hbad] at h
      cases h
  · have hbad := (MHD_SetBoundaryDir_cases DIMENSIONS NVAR data dir S).2 (fun hh => hl hh.1)
    unfold MHD.SetBoundaryDir at hbad
    rw [hbad] at h
    cases h

/-- A pass of the MHD loop leaves the normal component, the components outside
`[0, DIMENSIONS)` and the cells of the active range along its direction as
they were. -/
theorem MHD_SetBoundaryDir_Vs_frame (DIMENSIONS : ℕ) (NVAR : ℤ) (data : DataBlock) (dir : ℤ)
    (S S' : IdefixArray4D × IdefixArray4D)
    (h : MHD.SetBoundaryDir DIMENSIONS NVAR data S dir = Except.ok S') (n k j i : ℤ)
    (hx : n = dir ∨ ¬ (0 ≤ n ∧ n < (DIMENSIONS : ℤ))
      ∨ (dir = KDIR ∧ data.nghost KDIR ≤ k ∧ k < data.nghost KDIR + data.np_int KDIR)
      ∨ (dir = JDIR ∧ data.nghost JDIR ≤ j ∧ j < data.nghost JDIR + data.np_int JDIR)
      ∨ (dir = IDIR ∧ data.nghost IDIR ≤ i ∧ i < data.nghost IDIR + data.np_int IDIR)) :
    S'.2 n k j i = S.2 n k j i := by
  obtain ⟨B, E, hB, hE, hS⟩ := MHD_SetBoundaryDir_inv DIMENSIONS NVAR data dir S S' h
  rw [hS]
  have hE' : E (B S.2) n k j i = B S.2 n k j i := by
    rcases hE with rfl | rfl
    · exact (MHD_BoundaryVs_untouched DIMENSIONS data dir _ n k j i hx).2.2.1
    · exact (MHD_BoundaryVs_untouched DIMENSIONS data dir _ n k j i hx).2.2.2
  have hB' : B S.2 n k j i = S.2 n k j i := by
    rcases hB with rfl | rfl
    · exact (MHD_BoundaryVs_untouched DIMENSIONS data dir _ n k j i hx).1
    · exact (MHD_BoundaryVs_untouched DIMENSIONS data dir _ n k j i hx).2.1
  exact hE'.trans hB'

theorem foldlM_frame {σ ι : Type} (f : σ → ι → Except String σ) (P : σ → σ → Prop)
    (hrefl : ∀ s, P s s) (htrans : ∀ a b c, P a b → P b c → P a c) (l : List ι)
    (hstep : ∀ e ∈ l, ∀ s s', f s e = Except.ok s' → P s s') (s s' : σ)
    (h : l.foldlM f s = Except.ok s') : P s s' := by
  induction l generalizing s with
  | nil =>
    have h' : Except.ok s = Except.ok s' := h
    injection h' with h'
    rw [← h']
    exact hrefl s
  | cons a l ih =>
    rw [List.foldlM_cons] at h
    cases h1 : f s a with
    | error m =>
      rw [h1] at h
      cases h
    | ok s1 =>
      rw [h1] at h
      exact htrans _ _ _ (hstep a (List.mem_cons_self _ _) s s1 h1)
        (ih (fun e he => hstep e (List.mem_cons_of_mem _ he)) s1 h)

/-- The loop over the directions of the MHD `SetBoundary` leaves `V_s(n,k,j,i)`
as it was when, for every direction `e` of the build other than `n`, the index
along `e` is in the active range. -/
theorem MHD_SetBoundaryLoop_Vs_frame (DIMENSIONS : ℕ) (NVAR : ℤ) (data : DataBlock)
    (S' : IdefixArray4D × IdefixArray4D)
    (h : MHD.SetBoundaryLoop DIMENSIONS NVAR data = Except.ok S') (n k j i : ℤ)
    (hx : ∀ e : ℤ, 0 ≤ e ∧ e < (DIMENSIONS : ℤ) → e ≠ n →
      (e = KDIR ∧ data.nghost KDIR ≤ k ∧ k < data.nghost KDIR + data.np_int KDIR)
      ∨ (e = JDIR ∧ data.nghost JDIR ≤ j ∧ j < data.nghost JDIR + data.np_int JDIR)
      ∨ (e = IDIR ∧ data.nghost IDIR ≤ i ∧ i < data.nghost IDIR + data.np_int IDIR)) :
    S'.2 n k j i = data.Vs n k j i := by
  unfold MHD.SetBoundaryLoop at h
  exact foldlM_frame (MHD.SetBoundaryDir DIMENSIONS NVAR data)
    (fun (a b : IdefixArray4D × IdefixArray4D) => b.2 n k j i = a.2 n k j i)
    (fun _ => rfl) (fun a b c h1 h2 => h2.trans h1) _
    (fun e he s s' hs => by
      have he' := (mem_irange _ _ _).1 he
      refine MHD_SetBoundaryDir_Vs_frame DIMENSIONS NVAR data e s s' hs n k j i ?_
      by_cases hen : e = n
      · exact Or.inl hen.symm
      · exact Or.inr (Or.inr (hx e he' hen)))
    _ _ h

theorem guardedCopyKernel_outside (DIMENSIONS : ℕ) (dir kb ke jb je ib ie : ℤ)
    (sk sj si : ℤ → ℤ) (Vs : IdefixArray4D) (n k j i : ℤ)
    (h : n = dir ∨ ¬ ((0 ≤ n ∧ n < (DIMENSIONS : ℤ)) ∧ (kb ≤ k ∧ k < ke) ∧ (jb ≤ j ∧ j < je)
      ∧ (ib ≤ i ∧ i < ie))) :
    MHD.guardedCopyKernel DIMENSIONS dir kb ke jb je ib ie sk sj si Vs n k j i
      = Vs n k j i := by
  unfold MHD.guardedCopyKernel
  exact guarded_for4_untouched _ _ _ _ _ _ _ _ dir
    (fun n k j i Vs => Vs n (sk k) (sj j) (si i)) Vs n k j i h

theorem BoundaryBegPeriodicVs_J (DIMENSIONS : ℕ) (data : DataBlock) (Vs : IdefixArray4D) :
    MHD.BoundaryBegPeriodicVs DIMENSIONS data JDIR Vs
      = MHD.guardedCopyKernel DIMENSIONS JDIR 0 (data.np_tot KDIR) 0 (data.nghost JDIR)
          0 (data.np_tot IDIR) (fun k => k) (fun j => j + data.np_int JDIR) (fun i => i) Vs := by
  simp [MHD.BoundaryBegPeriodicVs, MHD.guardedCopyKernel, IDIR, JDIR, KDIR]

theorem BoundaryEndPeriodicVs_J (DIMENSIONS : ℕ) (data : DataBlock) (Vs : IdefixArray4D) :
    MHD.BoundaryEndPeriodicVs DIMENSIONS data JDIR Vs
      = MHD.guardedCopyKernel DIMENSIONS JDIR 0 (data.np_tot KDIR)
          (data.np_int JDIR + data.nghost JDIR) (data.np_tot JDIR) 0 (data.np_tot IDIR)
          (fun k => k) (fun j => j - data.np_int JDIR) (fun i => i) Vs := by
  simp [MHD.BoundaryEndPeriodicVs, MHD.guardedCopyKernel, IDIR, JDIR, KDIR]

/-- A pass of the MHD loop with both sides periodic. -/
theorem MHD_SetBoundaryDir_periodic (DIMENSIONS : ℕ) (NVAR : ℤ) (data : DataBlock) (dir : ℤ)
    (Vc Vs : IdefixArray4D)
    (hl : data.lbound dir = BoundaryType.periodic)
    (hr : data.rbound dir = BoundaryType.periodic) :
    MHD.SetBoundaryDir DIMENSIONS NVAR data (Vc, Vs) dir
      = Except.ok (HD.BoundaryEndPeriodic NVAR data dir (HD.BoundaryBegPeriodic NVAR data dir Vc),
          MHD.BoundaryEndPeriodicVs DIMENSIONS data dir
            (MHD.BoundaryBegPeriodicVs DIMENSIONS data dir Vs)) := by
  unfold MHD.SetBoundaryDir
  rw [(MHD_SetBoundaryBeg_cases DIMENSIONS NVAR data dir (Vc, Vs)).1 hl]
  exact (MHD_SetBoundaryEnd_cases DIMENSIONS NVAR data dir _).1 hr

/-- The loop of a 2D build is the pass for direction 1 followed by the pass
for direction 2. -/
theorem MHD_SetBoundaryLoop_2D (NVAR : ℤ) (data : DataBlock)
    (S1 S2 : IdefixArray4D × IdefixArray4D)
    (h1 : MHD.SetBoundaryDir 2 NVAR data (data.Vc, data.Vs) IDIR = Except.ok S1)
    (h2 : MHD.SetBoundaryDir 2 NVAR data S1 JDIR = Except.ok S2) :
    MHD.SetBoundaryLoop 2 NVAR data = Except.ok S2 := by
  unfold MHD.SetBoundaryLoop
  have hr : irange 0 ((2 : ℕ) : ℤ) = [IDIR, JDIR] := by decide
  rw [hr]
  simp only [List.foldlM_cons, List.foldlM_nil]
  rw [h1]
  show MHD.SetBoundaryDir 2 NVAR data S1 JDIR >>= pure = _
  rw [h2]
  rfl

/-- C22 (counterexample). On the periodic 2D grid the pass for direction 2
writes the normal component of direction 1 at the corner ghost face `(k,j,i) = (0,0,1)`, which
is in the ghost layer of direction 1 (`i = 1 < nghost = 2`): the face holds
`0` before the pass and `3`, the content of the face `(0,3,1)`, after it and
at the end of the loop. -/
theorem SetBoundary_Vs_corner_counterexample :
    ∃ S1 S2 : IdefixArray4D × IdefixArray4D,
      MHD.SetBoundaryDir 2 8 grid2D (grid2D.Vc, grid2D.Vs) IDIR = Except.ok S1
      ∧ MHD.SetBoundaryDir 2 8 grid2D S1 JDIR = Except.ok S2
      ∧ MHD.SetBoundaryLoop 2 8 grid2D = Except.ok S2
      ∧ (0 ≤ (1 : ℤ) ∧ (1 : ℤ) < grid2D.nghost IDIR)
      ∧ S1.2 BX1s 0 0 1 = 0
      ∧ S2.2 BX1s 0 0 1 = 3 := by
  have h1 := MHD_SetBoundaryDir_periodic 2 8 grid2D IDIR grid2D.Vc grid2D.Vs rfl rfl
  have hf := fun k j i =>
    MHD_SetBoundaryDir_Vs_frame 2 8 grid2D IDIR _ _ h1 BX1s k j i (Or.inl rfl)
  dsimp only at hf
  have h2 := MHD_SetBoundaryDir_periodic 2 8 grid2D JDIR
    (HD.BoundaryEndPeriodic 8 grid2D IDIR (HD.BoundaryBegPeriodic 8 grid2D IDIR grid2D.Vc))
    (MHD.BoundaryEndPeriodicVs 2 grid2D IDIR
      (MHD.BoundaryBegPeriodicVs 2 grid2D IDIR grid2D.Vs)) rfl rfl
  refine ⟨_, _, h1, h2, MHD_SetBoundaryLoop_2D 8 grid2D _ _ h1 h2, by decide, ?_, ?_⟩
  · dsimp only
    rw [hf]
    simp [grid2D, BX1s]
  · dsimp only
    rw [BoundaryEndPeriodicVs_J, guardedCopyKernel_outside _ _ _ _ _ _ _ _ _ _ _ _ _ _ _ _
      (Or.inr (by simp [grid2D, gridBlock, JDIR, KDIR]))]
    rw [BoundaryBegPeriodicVs_J, guardedCopyKernel_inside 2 JDIR _ _ _ _ _ _ _ _ _
      (fun k j i _ hj _ hh => by
        have a := hj.1
        have b := hh.2.1.2
        simp [grid2D, gridBlock, JDIR, KDIR] at a b
        omega)
      _ BX1s 0 0 1 (by decide) (by decide) (by simp [grid2D, gridBlock, KDIR])
      (by simp [grid2D, gridBlock, JDIR, KDIR]) (by simp [grid2D, gridBlock, IDIR, KDIR])]
    rw [hf]
    simp [grid2D, gridBlock, BX1s, JDIR, KDIR]

/-- C22 (amended). The pass for direction `d` of the MHD `SetBoundary` never
writes the normal staggered component: each of its four kernels, and the pass
as a whole (which returns when both sides of `d` are periodic or outflow),
leaves `V_s(d,k,j,i)` unchanged at every index. The passes for the other
directions `e != d` do write `V_s(d)` in their own ghost layers over the full
transverse extent, corner faces included: over the whole loop `V_s(n,k,j,i)` is
unchanged wherever, for every direction `e` of the build other than `n`, the
index along `e` is in the active range. The staggered field that `SetBoundary`
returns is the one `ReconstructNormalField` makes of the result of the loop. -/
theorem SetBoundary_normal_component_frame (DIMENSIONS : ℕ) (NVAR : ℤ) (data : DataBlock)
    (t : real) :
    (∀ (d : ℤ) (Vs : IdefixArray4D) (k j i : ℤ),
      MHD.BoundaryBegPeriodicVs DIMENSIONS data d Vs d k j i = Vs d k j i
      ∧ MHD.BoundaryBegOutflowVs DIMENSIONS data d Vs d k j i = Vs d k j i
      ∧ MHD.BoundaryEndPeriodicVs DIMENSIONS data d Vs d k j i = Vs d k j i
      ∧ MHD.BoundaryEndOutflowVs DIMENSIONS data d Vs d k j i = Vs d k j i)
    ∧ (∀ (d : ℤ) (S S' : IdefixArray4D × IdefixArray4D),
      MHD.SetBoundaryDir DIMENSIONS NVAR data S d = Except.ok S' →
      ∀ k j i, S'.2 d k j i = S.2 d k j i)
    ∧ (∀ (d : ℤ) (S : IdefixArray4D × IdefixArray4D),
      (data.lbound d = BoundaryType.periodic ∨ data.lbound d = BoundaryType.outflow)
        ∧ (data.rbound d = BoundaryType.periodic ∨ data.rbound d = BoundaryType.outflow) →
      ∃ S', MHD.SetBoundaryDir DIMENSIONS NVAR data S d = Except.ok S')
    ∧ (∀ S' : IdefixArray4D × IdefixArray4D,
      MHD.SetBoundaryLoop DIMENSIONS NVAR data = Except.ok S' →
      ∀ n k j i : ℤ,
        (∀ e : ℤ, 0 ≤ e ∧ e < (DIMENSIONS : ℤ) → e ≠ n →
          (e = KDIR ∧ data.nghost KDIR ≤ k ∧ k < data.nghost KDIR + data.np_int KDIR)
          ∨ (e = JDIR ∧ data.nghost JDIR ≤ j ∧ j < data.nghost JDIR + data.np_int JDIR)
          ∨ (e = IDIR ∧ data.nghost IDIR ≤ i ∧ i < data.nghost IDIR + data.np_int IDIR)) →
        S'.2 n k j i = data.Vs n k j i)
    ∧ (∀ data' : DataBlock, MHD.Physics.SetBoundary DIMENSIONS NVAR data t = Except.ok data' →
      ∃ S' : IdefixArray4D × IdefixArray4D,
        MHD.SetBoundaryLoop DIMENSIONS NVAR data = Except.ok S'
        ∧ data'.Vs = (MHD.Physics.ReconstructNormalField DIMENSIONS
            { data with Vc := S'.1, Vs := S'.2 }).Vs)
    ∧ ((∀ e : ℤ, 0 ≤ e ∧ e < (DIMENSIONS : ℤ) →
        (data.lbound e = BoundaryType.periodic ∨ data.lbound e = BoundaryType.outflow)
        ∧ (data.rbound e = BoundaryType.periodic ∨ data.rbound e = BoundaryType.outflow)) →
      ∃ data', MHD.Physics.SetBoundary DIMENSIONS NVAR data t = Except.ok data') := by
  refine ⟨fun d Vs k j i => MHD_BoundaryVs_untouched DIMENSIONS data d Vs d k j i (Or.inl rfl),
    fun d S S' h k j i =>
      MHD_SetBoundaryDir_Vs_frame DIMENSIONS NVAR data d S S' h d k j i (Or.inl rfl),
    fun d S h => (MHD_SetBoundaryDir_cases DIMENSIONS NVAR data d S).1 h,
    fun S' h n k j i hx => MHD_SetBoundaryLoop_Vs_frame DIMENSIONS NVAR data S' h n k j i hx,
    fun data' h => ?_, fun h => ?_⟩
  · unfold MHD.Physics.SetBoundary at h
    cases hloop : MHD.SetBoundaryLoop DIMENSIONS NVAR data with
    | error m =>
      rw [hloop] at h
      cases h
    | ok S' =>
      rw [hloop] at h
      have h' : Except.ok _ = Except.ok data' := h
      injection h' with h'
      exact ⟨S', rfl, by rw [← h']; rfl⟩
  · obtain ⟨S, hS⟩ := ((SetBoundary_loops DIMENSIONS NVAR data).1 h).2
    unfold MHD.Physics.SetBoundary
    rw [hS]
    exact ⟨_, rfl⟩

/-- On the periodic 2D grid: the call returns, and the pass for direction 2
leaves the component of direction 2 as it was. -/
theorem SetBoundary_normal_component_frame_witness :
    (∃ data', MHD.Physics.SetBoundary 2 8 grid2D 0 = Except.ok data')
    ∧ (∃ S', MHD.SetBoundaryDir 2 8 grid2D (grid2D.Vc, grid2D.Vs) JDIR = Except.ok S'
      ∧ ∀ k j i, S'.2 JDIR k j i = grid2D.Vs JDIR k j i) := by
  have h := SetBoundary_normal_component_frame 2 8 grid2D 0
  refine ⟨h.2.2.2.2.2 (fun _ _ => ⟨Or.inl rfl, Or.inl rfl⟩), ?_⟩
  obtain ⟨S', hS'⟩ := h.2.2.1 JDIR (grid2D.Vc, grid2D.Vs) ⟨Or.inl rfl, Or.inl rfl⟩
  exact ⟨S', hS', fun k j i => h.2.1 JDIR _ S' hS' k j i⟩

/-! ## Ghost coverage of the HD boundary conditions -/

/-- C23. Ghost coverage as a two-run statement. For the HD `SetBoundary` of a
1D, 2D or 3D build with every side of the build periodic or outflow, on a
block with the extents of the data model and `np_int[d] >= nghost[d]` in each
direction of the build: if two states `V_c` and `V_c'` agree on every active
cell, both calls return and the two results agree on every cell of the full
extent `[0,np_tot)` along every direction of the build (corner ghost cells
included), the index along a direction outside the build being active: every
ghost value is overwritten and depends only on active-cell values. -/
theorem SetBoundary_ghost_coverage (DIMENSIONS : ℕ) (NVAR : ℤ) (data : DataBlock) (t : real)
    (Vc2 : IdefixArray4D) (hD : 1 ≤ DIMENSIONS ∧ DIMENSIONS ≤ 3)
    (hb : ∀ e : ℤ, 0 ≤ e ∧ e < (DIMENSIONS : ℤ) →
      (data.lbound e = BoundaryType.periodic ∨ data.lbound e = BoundaryType.outflow)
      ∧ (data.rbound e = BoundaryType.periodic ∨ data.rbound e = BoundaryType.outflow))
    (hgrid : ∀ e : ℤ, e = IDIR ∨ e = JDIR ∨ e = KDIR → data.extents e ∧ 0 ≤ data.nghost e)
    (hsize : ∀ e : ℤ, 0 ≤ e ∧ e < (DIMENSIONS : ℤ) → data.nghost e ≤ data.np_int e)
    (hagree : ∀ n k j i, 0 ≤ n ∧ n < NVAR → data.beg KDIR ≤ k ∧ k < data.end_ KDIR →
      data.beg JDIR ≤ j ∧ j < data.end_ JDIR → data.beg IDIR ≤ i ∧ i < data.end_ IDIR →
      data.Vc n k j i = Vc2 n k j i) :
    ∃ d1 d2 : DataBlock,
      HD.Physics.SetBoundary DIMENSIONS NVAR data t = Except.ok d1
      ∧ HD.Physics.SetBoundary DIMENSIONS NVAR { data with Vc := Vc2 } t = Except.ok d2
      ∧ ∀ n k j i, 0 ≤ n ∧ n < NVAR → 0 ≤ k ∧ k < data.np_tot KDIR →
          0 ≤ j ∧ j < data.np_tot JDIR → 0 ≤ i ∧ i < data.np_tot IDIR →
          (3 ≤ DIMENSIONS ∨ (data.beg KDIR ≤ k ∧ k < data.end_ KDIR)) →
          (2 ≤ DIMENSIONS ∨ (data.beg JDIR ≤ j ∧ j < data.end_ JDIR)) →
          d1.Vc n k j i = d2.Vc n k j i := by
  obtain ⟨hD1, hD3⟩ := hD
  obtain ⟨hextI, hngI⟩ := hgrid IDIR (Or.inl rfl)
  obtain ⟨hextJ, hngJ⟩ := hgrid JDIR (Or.inr (Or.inl rfl))
  obtain ⟨hextK, hngK⟩ := hgrid KDIR (Or.inr (Or.inr rfl))
  have hextI' := hextI
  have hextJ' := hextJ
  have hextK' := hextK
  obtain ⟨eI, bI, nI⟩ := hextI'
  obtain ⟨eJ, bJ, nJ⟩ := hextJ'
  obtain ⟨eK, bK, nK⟩ := hextK'
  have hI : 0 ≤ IDIR ∧ IDIR < (DIMENSIONS : ℤ) := ⟨by decide, by
    have : IDIR = 0 := rfl
    omega⟩
  obtain ⟨hlI, hrI⟩ := hb IDIR hI
  have hleI := hsize IDIR hI
  obtain ⟨V1, h1⟩ := (HD_SetBoundaryDir_cases NVAR data IDIR data.Vc).1 ⟨hlI, hrI⟩
  obtain ⟨W1, g1⟩ := (HD_SetBoundaryDir_cases NVAR data IDIR Vc2).1 ⟨hlI, hrI⟩
  have ag1 : ∀ n k j i, 0 ≤ n ∧ n < NVAR → data.beg KDIR ≤ k ∧ k < data.end_ KDIR →
      data.beg JDIR ≤ j ∧ j < data.end_ JDIR → 0 ≤ i ∧ i < data.np_tot IDIR →
      V1 n k j i = W1 n k j i := by
    intro n k j i hn hk hj hi
    exact HD_pass_I_agree NVAR data data.Vc Vc2 V1 W1 hlI hrI hextI hngI hleI h1 g1 n k j hn
      (by omega) (by omega)
      (fun i' hi' => hagree n k j i' hn hk hj (by omega)) i hi
  by_cases hD2 : 2 ≤ DIMENSIONS
  · have hJ : 0 ≤ JDIR ∧ JDIR < (DIMENSIONS : ℤ) := ⟨by decide, by
      have : JDIR = 1 := rfl
      omega⟩
    obtain ⟨hlJ, hrJ⟩ := hb JDIR hJ
    have hleJ := hsize JDIR hJ
    obtain ⟨V2, h2⟩ := (HD_SetBoundaryDir_cases NVAR data JDIR V1).1 ⟨hlJ, hrJ⟩
    obtain ⟨W2, g2⟩ := (HD_SetBoundaryDir_cases NVAR data JDIR W1).1 ⟨hlJ, hrJ⟩
    have ag2 : ∀ n k j i, 0 ≤ n ∧ n < NVAR → data.beg KDIR ≤ k ∧ k < data.end_ KDIR →
        0 ≤ j ∧ j < data.np_tot JDIR → 0 ≤ i ∧ i < data.np_tot IDIR →
        V2 n k j i = W2 n k j i := by
      intro n k j i hn hk hj hi
      exact HD_pass_J_agree NVAR data V1 W1 V2 W2 hlJ hrJ hextJ hngJ hleJ h2 g2 n k i hn
        (by omega) hi
        (fun j' hj' => ag1 n k j' i hn hk (by omega) hi) j hj
    by_cases hD3' : 3 ≤ DIMENSIONS
    · have hDe : DIMENSIONS = 3 := by omega
      subst hDe
      have hK : 0 ≤ KDIR ∧ KDIR < ((3 : ℕ) : ℤ) := by decide
      obtain ⟨hlK, hrK⟩ := hb KDIR hK
      have hleK := hsize KDIR hK
      obtain ⟨V3, h3⟩ := (HD_SetBoundaryDir_cases NVAR data KDIR V2).1 ⟨hlK, hrK⟩
      obtain ⟨W3, g3⟩ := (HD_SetBoundaryDir_cases NVAR data KDIR W2).1 ⟨hlK, hrK⟩
      refine ⟨_, _, HD_SetBoundary_3D NVAR data t V1 V2 V3 h1 h2 h3,
        HD_SetBoundary_3D NVAR { data with Vc := Vc2 } t W1 W2 W3 g1 g2 g3, ?_⟩
      intro n k j i hn hk hj hi _ _
      exact HD_pass_K_agree NVAR data V2 W2 V3 W3 hlK hrK hextK hngK hleK h3 g3 n j i hn hj hi
        (fun k' hk' => ag2 n k' j i hn (by omega) hj hi) k hk
    · have hDe : DIMENSIONS = 2 := by omega
      subst hDe
      refine ⟨_, _, HD_SetBoundary_2D NVAR data t V1 V2 h1 h2,
        HD_SetBoundary_2D NVAR { data with Vc := Vc2 } t W1 W2 g1 g2, ?_⟩
      intro n k j i hn hk hj hi hk' _
      rcases hk' with hk' | hk'
      · exact absurd hk' (by decide)
      · exact ag2 n k j i hn hk' hj hi
  · have hDe : DIMENSIONS = 1 := by omega
    subst hDe
    refine ⟨_, _, HD_SetBoundary_1D NVAR data t V1 h1,
      HD_SetBoundary_1D NVAR { data with Vc := Vc2 } t W1 g1, ?_⟩
    intro n k j i hn hk hj hi hk' hj'
    rcases hk' with hk' | hk'
    · exact absurd hk' (by decide)
    · rcases hj' with hj' | hj'
      · exact absurd hj' (by decide)
      · exact ag1 n k j i hn hk' hj' hi

/-- The 1D periodic grid with the ramp `V_c = i*i` and a second state that
agrees with it on the active cells `2 <= i < 6` only: both calls return and
the results agree in the ghost cell `i = 0`. -/
theorem SetBoundary_ghost_coverage_witness :
    (∀ n k j i, 0 ≤ n ∧ n < (5 : ℤ) →
      grid1D_ramp.beg KDIR ≤ k ∧ k < grid1D_ramp.end_ KDIR →
      grid1D_ramp.beg JDIR ≤ j ∧ j < grid1D_ramp.end_ JDIR →
      grid1D_ramp.beg IDIR ≤ i ∧ i < grid1D_ramp.end_ IDIR →
      grid1D_ramp.Vc n k j i = Vc_ramp_active n k j i)
    ∧ grid1D_ramp.Vc RHO 0 0 0 ≠ Vc_ramp_active RHO 0 0 0
    ∧ ∃ d1 d2 : DataBlock,
      HD.Physics.SetBoundary 1 5 grid1D_ramp 0 = Except.ok d1
      ∧ HD.Physics.SetBoundary 1 5 { grid1D_ramp with Vc := Vc_ramp_active } 0 = Except.ok d2
      ∧ d1.Vc RHO 0 0 0 = d2.Vc RHO 0 0 0 := by
  have hag : ∀ n k j i, 0 ≤ n ∧ n < (5 : ℤ) →
      grid1D_ramp.beg KDIR ≤ k ∧ k < grid1D_ramp.end_ KDIR →
      grid1D_ramp.beg JDIR ≤ j ∧ j < grid1D_ramp.end_ JDIR →
      grid1D_ramp.beg IDIR ≤ i ∧ i < grid1D_ramp.end_ IDIR →
      grid1D_ramp.Vc n k j i = Vc_ramp_active n k j i := by
    intro n k j i _ _ _ hi
    have h1 : grid1D_ramp.beg IDIR = 2 := by decide
    have h2 : grid1D_ramp.end_ IDIR = 6 := by decide
    rw [h1, h2] at hi
    simp only [grid1D_ramp, Vc_ramp_active, if_pos hi]
  refine ⟨hag, by simp [grid1D_ramp, Vc_ramp_active], ?_⟩
  obtain ⟨d1, d2, e1, e2, h⟩ := SetBoundary_ghost_coverage 1 5 grid1D_ramp 0 Vc_ramp_active
    ⟨le_refl _, by decide⟩
    (fun e he => by
      obtain rfl : e = 0 := by
        have := he.2
        norm_num at this
        omega
      exact ⟨Or.inl rfl, Or.inl rfl⟩)
    (fun e he => by
      rcases he with rfl | rfl | rfl <;> exact ⟨⟨by decide, by decide, by decide⟩, by decide⟩)
    (fun e he => by
      obtain rfl : e = 0 := by
        have := he.2
        norm_num at this
        omega
      decide)
    hag
  exact ⟨d1, d2, e1, e2, h RHO 0 0 0 (by decide) (by decide) (by decide) (by decide)
    (Or.inr (by decide)) (Or.inr (by decide))⟩

/-! ## Boundary conditions: the `userdef` policy -/

/-- C24 (counterexample). On the 1D block with a `userdef` left side,
`SetBoundary` of both builds ends with the error instead of calling the hook
of the setup. -/
theorem SetBoundary_userdef_counterexample :
    grid1D_userdef.lbound IDIR = BoundaryType.userdef
    ∧ HD.Physics.SetBoundary 1 5 grid1D_userdef 0
        = Except.error "Boundary condition type is not yet implemented"
    ∧ MHD.Physics.SetBoundary 1 8 grid1D_userdef 0
        = Except.error "Boundary condition type is not yet implemented" := by
  have h := (SetBoundary_loops 1 5 grid1D_userdef).2
    ⟨0, by decide, by simp [grid1D_userdef]⟩
  have h' := (SetBoundary_loops 1 8 grid1D_userdef).2
    ⟨0, by decide, by simp [grid1D_userdef]⟩
  refine ⟨rfl, ?_, ?_⟩
  · unfold HD.Physics.SetBoundary
    rw [h.1]
    rfl
  · unfold MHD.Physics.SetBoundary
    rw [h'.2]
    rfl

/-- C24 (amended). A `userdef` side is not delegated: when a side of a
direction `0 <= d < DIMENSIONS` is configured `userdef`, the `switch` of that
side takes its `default` case, and `SetBoundary` of the HD and of the MHD
build ends with the error "Boundary condition type is not yet implemented";
neither method has a call of `SetUserdefBoundary`. -/
theorem SetBoundary_userdef_is_error (DIMENSIONS : ℕ) (NVAR : ℤ) (data : DataBlock) (t : real)
    (d : ℤ) (hd : 0 ≤ d ∧ d < (DIMENSIONS : ℤ))
    (hu : data.lbound d = BoundaryType.userdef ∨ data.rbound d = BoundaryType.userdef) :
    (data.lbound d = BoundaryType.userdef →
      (∀ Vc, HD.SetBoundaryBeg NVAR data d Vc
        = Except.error "Boundary condition type is not yet implemented")
      ∧ (∀ S, MHD.SetBoundaryBeg DIMENSIONS NVAR data d S
        = Except.error "Boundary condition type is not yet implemented"))
    ∧ (data.rbound d = BoundaryType.userdef →
      (∀ Vc, HD.SetBoundaryEnd NVAR data d Vc
        = Except.error "Boundary condition type is not yet implemented")
      ∧ (∀ S, MHD.SetBoundaryEnd DIMENSIONS NVAR data d S
        = Except.error "Boundary condition type is not yet implemented"))
    ∧ HD.Physics.SetBoundary DIMENSIONS NVAR data t
        = Except.error "Boundary condition type is not yet implemented"
    ∧ MHD.Physics.SetBoundary DIMENSIONS NVAR data t
        = Except.error "Boundary condition type is not yet implemented" := by
  have hbad : ¬ ((data.lbound d = BoundaryType.periodic ∨ data.lbound d = BoundaryType.outflow)
      ∧ (data.rbound d = BoundaryType.periodic ∨ data.rbound d = BoundaryType.outflow)) := by
    rintro ⟨h1, h2⟩
    rcases hu with h | h
    · rw [h] at h1
      rcases h1 with h1 | h1 <;> cases h1
    · rw [h] at h2
      rcases h2 with h2 | h2 <;> cases h2
  obtain ⟨hV, hS⟩ := (SetBoundary_loops DIMENSIONS NVAR data).2 ⟨d, hd, hbad⟩
  refine ⟨fun h => ⟨fun Vc => ?_, fun S => ?_⟩, fun h => ⟨fun Vc => ?_, fun S => ?_⟩, ?_, ?_⟩
  · exact (HD_SetBoundaryBeg_cases NVAR data d Vc).2.2 (by rw [h]; decide)
  · exact (MHD_SetBoundaryBeg_cases DIMENSIONS NVAR data d S).2.2 (by rw [h]; decide)
  · exact (HD_SetBoundaryEnd_cases NVAR data d Vc).2.2 (by rw [h]; decide)
  · exact (MHD_SetBoundaryEnd_cases DIMENSIONS NVAR data d S).2.2 (by rw [h]; decide)
  · unfold HD.Physics.SetBoundary
    rw [hV]
    rfl
  · unfold MHD.Physics.SetBoundary
    rw [hS]
    rfl

/-- On the 1D grid with a `userdef` left side, at `d = 0`. -/
theorem SetBoundary_userdef_is_error_witness :
    (0 ≤ (0 : ℤ) ∧ (0 : ℤ) < ((1 : ℕ) : ℤ))
    ∧ (grid1D_userdef.lbound 0 = BoundaryType.userdef
      ∨ grid1D_userdef.rbound 0 = BoundaryType.userdef)
    ∧ HD.Physics.SetBoundary 1 5 grid1D_userdef 0
        = Except.error "Boundary condition type is not yet implemented"
    ∧ MHD.Physics.SetBoundary 1 8 grid1D_userdef 0
        = Except.error "Boundary condition type is not yet implemented" :=
  ⟨by decide, Or.inl rfl,
    (SetBoundary_userdef_is_error 1 5 grid1D_userdef 0 0 (by decide) (Or.inl rfl)).2.2.1,
    (SetBoundary_userdef_is_error 1 8 grid1D_userdef 0 0 (by decide) (Or.inl rfl)).2.2.2⟩

/-- C25. `SetBoundary` of the HD and of the MHD build ends with the error
"Boundary condition type is not yet implemented" exactly when a side of a
direction of the build is configured with a code other than `periodic` and
`outflow`: each of the two `switch` statements of a pass gives that error if
and only if the code of its side is not one of the two implemented policies,
the whole call gives it if and only if some side of some direction
`0 <= e < DIMENSIONS` is so configured, and with every such side periodic or
outflow the call completes and returns a block. -/
theorem SetBoundary_unsupported_boundary (DIMENSIONS : ℕ) (NVAR : ℤ) (data : DataBlock)
    (t : real) :
    (∀ dir Vc, HD.SetBoundaryBeg NVAR data dir Vc
        = Except.error "Boundary condition type is not yet implemented"
      ↔ ¬ (data.lbound dir = BoundaryType.periodic ∨ data.lbound dir = BoundaryType.outflow))
    ∧ (∀ dir Vc, HD.SetBoundaryEnd NVAR data dir Vc
        = Except.error "Boundary condition type is not yet implemented"
      ↔ ¬ (data.rbound dir = BoundaryType.periodic ∨ data.rbound dir = BoundaryType.outflow))
    ∧ (∀ dir S, MHD.SetBoundaryBeg DIMENSIONS NVAR data dir S
        = Except.error "Boundary condition type is not yet implemented"
      ↔ ¬ (data.lbound dir = BoundaryType.periodic ∨ data.lbound dir = BoundaryType.outflow))
    ∧ (∀ dir S, MHD.SetBoundaryEnd DIMENSIONS NVAR data dir S
        = Except.error "Boundary condition type is not yet implemented"
      ↔ ¬ (data.rbound dir = BoundaryType.periodic ∨ data.rbound dir = BoundaryType.outflow))
    ∧ (HD.Physics.SetBoundary DIMENSIONS NVAR data t
        = Except.error "Boundary condition type is not yet implemented"
      ↔ ∃ e : ℤ, (0 ≤ e ∧ e < (DIMENSIONS : ℤ))
        ∧ ¬ ((data.lbound e = BoundaryType.periodic ∨ data.lbound e = BoundaryType.outflow)
          ∧ (data.rbound e = BoundaryType.periodic ∨ data.rbound e = BoundaryType.outflow)))
    ∧ (MHD.Physics.SetBoundary DIMENSIONS NVAR data t
        = Except.error "Boundary condition type is not yet implemented"
      ↔ ∃ e : ℤ, (0 ≤ e ∧ e < (DIMENSIONS : ℤ))
        ∧ ¬ ((data.lbound e = BoundaryType.periodic ∨ data.lbound e = BoundaryType.outflow)
          ∧ (data.rbound e = BoundaryType.periodic ∨ data.rbound e = BoundaryType.outflow)))
    ∧ ((∀ e : ℤ, 0 ≤ e ∧ e < (DIMENSIONS : ℤ) →
        (data.lbound e = BoundaryType.periodic ∨ data.lbound e = BoundaryType.outflow)
        ∧ (data.rbound e = BoundaryType.periodic ∨ data.rbound e = BoundaryType.outflow)) →
      (∃ data', HD.Physics.SetBoundary DIMENSIONS NVAR data t = Except.ok data')
      ∧ (∃ data', MHD.Physics.SetBoundary DIMENSIONS NVAR data t = Except.ok data')) := by
  have side : ∀ {α : Type} (r : Except String α) (P : Prop),
      (P → ∃ a, r = Except.ok a) →
      (¬ P → r = Except.error "Boundary condition type is not yet implemented") →
      (r = Except.error "Boundary condition type is not yet implemented" ↔ ¬ P) := by
    intro α r P h1 h2
    constructor
    · intro he hP
      obtain ⟨a, ha⟩ := h1 hP
      rw [ha] at he
      cases he
    · exact h2
  have hok : (∀ e : ℤ, 0 ≤ e ∧ e < (DIMENSIONS : ℤ) →
        (data.lbound e = BoundaryType.periodic ∨ data.lbound e = BoundaryType.outflow)
        ∧ (data.rbound e = BoundaryType.periodic ∨ data.rbound e = BoundaryType.outflow)) →
      (∃ data', HD.Physics.SetBoundary DIMENSIONS NVAR data t = Except.ok data')
      ∧ (∃ data', MHD.Physics.SetBoundary DIMENSIONS NVAR data t = Except.ok data') := by
    intro h
    obtain ⟨⟨V, hV⟩, ⟨S, hS⟩⟩ := (SetBoundary_loops DIMENSIONS NVAR data).1 h
    constructor
    · unfold HD.Physics.SetBoundary
      rw [hV]
      exact ⟨_, rfl⟩
    · unfold MHD.Physics.SetBoundary
      rw [hS]
      exact ⟨_, rfl⟩
  have hbad : (∃ e : ℤ, (0 ≤ e ∧ e < (DIMENSIONS : ℤ))
        ∧ ¬ ((data.lbound e = BoundaryType.periodic ∨ data.lbound e = BoundaryType.outflow)
          ∧ (data.rbound e = BoundaryType.periodic ∨ data.rbound e = BoundaryType.outflow))) →
      HD.Physics.SetBoundary DIMENSIONS NVAR data t
        = Except.error "Boundary condition type is not yet implemented"
      ∧ MHD.Physics.SetBoundary DIMENSIONS NVAR data t
        = Except.error "Boundary condition type is not yet implemented" := by
    intro h
    obtain ⟨hV, hS⟩ := (SetBoundary_loops DIMENSIONS NVAR data).2 h
    constructor
    · unfold HD.Physics.SetBoundary
      rw [hV]
      rfl
    · unfold MHD.Physics.SetBoundary
      rw [hS]
      rfl
  refine ⟨fun dir Vc => side _ _ ?_ (HD_SetBoundaryBeg_cases NVAR data dir Vc).2.2,
    fun dir Vc => side _ _ ?_ (HD_SetBoundaryEnd_cases NVAR data dir Vc).2.2,
    fun dir S => side _ _ ?_ (MHD_SetBoundaryBeg_cases DIMENSIONS NVAR data dir S).2.2,
    fun dir S => side _ _ ?_ (MHD_SetBoundaryEnd_cases DIMENSIONS NVAR data dir S).2.2,
    ⟨fun he => ?_, fun h => (hbad h).1⟩, ⟨fun he => ?_, fun h => (hbad h).2⟩, hok⟩
  · rintro (h | h)
    · exact ⟨_, (HD_SetBoundaryBeg_cases NVAR data dir Vc).1 h⟩
    · exact ⟨_, (HD_SetBoundaryBeg_cases NVAR data dir Vc).2.1 h⟩
  · rintro (h | h)
    · exact ⟨_, (HD_SetBoundaryEnd_cases NVAR data dir Vc).1 h⟩
    · exact ⟨_, (HD_SetBoundaryEnd_cases NVAR data dir Vc).2.1 h⟩
  · rintro (h | h)
    · exact ⟨_, (MHD_SetBoundaryBeg_cases DIMENSIONS NVAR data dir S).1 h⟩
    · exact ⟨_, (MHD_SetBoundaryBeg_cases DIMENSIONS NVAR data dir S).2.1 h⟩
  · rintro (h | h)
    · exact ⟨_, (MHD_SetBoundaryEnd_cases DIMENSIONS NVAR data dir S).1 h⟩
    · exact ⟨_, (MHD_SetBoundaryEnd_cases DIMENSIONS NVAR data dir S).2.1 h⟩
  · by_contra hne
    have hall : ∀ e : ℤ, 0 ≤ e ∧ e < (DIMENSIONS : ℤ) →
        (data.lbound e = BoundaryType.periodic ∨ data.lbound e = BoundaryType.outflow)
        ∧ (data.rbound e = BoundaryType.periodic ∨ data.rbound e = BoundaryType.outflow) := by
      intro e he'
      by_contra hc
      exact hne ⟨e, he', hc⟩
    obtain ⟨d', hd'⟩ := (hok hall).1
    rw [hd'] at he
    cases he
  · by_contra hne
    have hall : ∀ e : ℤ, 0 ≤ e ∧ e < (DIMENSIONS : ℤ) →
        (data.lbound e = BoundaryType.periodic ∨ data.lbound e = BoundaryType.outflow)
        ∧ (data.rbound e = BoundaryType.periodic ∨ data.rbound e = BoundaryType.outflow) := by
      intro e he'
      by_contra hc
      exact hne ⟨e, he', hc⟩
    obtain ⟨d', hd'⟩ := (hok hall).2
    rw [hd'] at he
    cases he

/-- On the 2D grid whose right side of direction 2 is `internal`, both
`SetBoundary` end with the error; on the periodic 2D grid both return. -/
theorem SetBoundary_unsupported_boundary_witness :
    HD.Physics.SetBoundary 2 5 grid2D_internal 0
        = Except.error "Boundary condition type is not yet implemented"
    ∧ MHD.Physics.SetBoundary 2 8 grid2D_internal 0
        = Except.error "Boundary condition type is not yet implemented"
    ∧ (∃ data', HD.Physics.SetBoundary 2 5 grid2D 0 = Except.ok data')
    ∧ (∃ data', MHD.Physics.SetBoundary 2 8 grid2D 0 = Except.ok data') :=
  ⟨(SetBoundary_unsupported_boundary 2 5 grid2D_internal 0).2.2.2.2.1.2
      ⟨1, by decide, by simp [grid2D_internal, JDIR]⟩,
    (SetBoundary_unsupported_boundary 2 8 grid2D_internal 0).2.2.2.2.2.1.2
      ⟨1, by decide, by simp [grid2D_internal, JDIR]⟩,
    ((SetBoundary_unsupported_boundary 2 5 grid2D 0).2.2.2.2.2.2
      (fun _ _ => ⟨Or.inl rfl, Or.inl rfl⟩)).1,
    ((SetBoundary_unsupported_boundary 2 8 grid2D 0).2.2.2.2.2.2
      (fun _ _ => ⟨Or.inl rfl, Or.inl rfl⟩)).2⟩

/-! ## The constructor of the MHD `Physics` -/

/-- C26. Solver selection in the MHD `Physics` constructor: the constructor
succeeds if and only if the `Solver/Solver` input string is exactly one of
`"tvdlf"`, `"hll"`, `"hlld"`, `"roe"` (case-sensitive), selecting `TVDLF`,
`HLL`, `HLLD`, `ROE` respectively; for every other string it ends with the
error `"Unknown MHD solver type "` followed by the offending string; on
success `gamma = 5/3` and `C2Iso = 1`. -/
theorem Physics_constructor_solver (input : Input) :
    (input.GetString "Solver" "Solver" 0 = "tvdlf" →
      MHD.Physics.Physics input = Except.ok ⟨5 / 3, 1, MHD.Solver.TVDLF⟩)
    ∧ (input.GetString "Solver" "Solver" 0 = "hll" →
      MHD.Physics.Physics input = Except.ok ⟨5 / 3, 1, MHD.Solver.HLL⟩)
    ∧ (input.GetString "Solver" "Solver" 0 = "hlld" →
      MHD.Physics.Physics input = Except.ok ⟨5 / 3, 1, MHD.Solver.HLLD⟩)
    ∧ (input.GetString "Solver" "Solver" 0 = "roe" →
      MHD.Physics.Physics input = Except.ok ⟨5 / 3, 1, MHD.Solver.ROE⟩)
    ∧ (¬ (input.GetString "Solver" "Solver" 0 = "tvdlf"
          ∨ input.GetString "Solver" "Solver" 0 = "hll"
          ∨ input.GetString "Solver" "Solver" 0 = "hlld"
          ∨ input.GetString "Solver" "Solver" 0 = "roe") →
      MHD.Physics.Physics input
        = Except.error ("Unknown MHD solver type " ++ input.GetString "Solver" "Solver" 0))
    ∧ ((∃ p, MHD.Physics.Physics input = Except.ok p) ↔
      (input.GetString "Solver" "Solver" 0 = "tvdlf"
        ∨ input.GetString "Solver" "Solver" 0 = "hll"
        ∨ input.GetString "Solver" "Solver" 0 = "hlld"
        ∨ input.GetString "Solver" "Solver" 0 = "roe"))
    ∧ (∀ p, MHD.Physics.Physics input = Except.ok p → p.gamma = 5 / 3 ∧ p.C2Iso = 1) := by
  have h1 : input.GetString "Solver" "Solver" 0 = "tvdlf" →
      MHD.Physics.Physics input = Except.ok ⟨5 / 3, 1, MHD.Solver.TVDLF⟩ := by
    intro h
    simp only [MHD.Physics.Physics, h, if_true]
  have h2 : input.GetString "Solver" "Solver" 0 = "hll" →
      MHD.Physics.Physics input = Except.ok ⟨5 / 3, 1, MHD.Solver.HLL⟩ := by
    intro h
    simp [MHD.Physics.Physics, h]
  have h3 : input.GetString "Solver" "Solver" 0 = "hlld" →
      MHD.Physics.Physics input = Except.ok ⟨5 / 3, 1, MHD.Solver.HLLD⟩ := by
    intro h
    simp [MHD.Physics.Physics, h]
  have h4 : input.GetString "Solver" "Solver" 0 = "roe" →
      MHD.Physics.Physics input = Except.ok ⟨5 / 3, 1, MHD.Solver.ROE⟩ := by
    intro h
    simp [MHD.Physics.Physics, h]
  have h5 : ¬ (input.GetString "Solver" "Solver" 0 = "tvdlf"
          ∨ input.GetString "Solver" "Solver" 0 = "hll"
          ∨ input.GetString "Solver" "Solver" 0 = "hlld"
          ∨ input.GetString "Solver" "Solver" 0 = "roe") →
      MHD.Physics.Physics input
        = Except.error ("Unknown MHD solver type " ++ input.GetString "Solver" "Solver" 0) := by
    intro h
    simp only [MHD.Physics.Physics]
    rw [if_neg (fun e => h (Or.inl e)), if_neg (fun e => h (Or.inr (Or.inl e))),
      if_neg (fun e => h (Or.inr (Or.inr (Or.inl e)))),
      if_neg (fun e => h (Or.inr (Or.inr (Or.inr e))))]
  refine ⟨h1, h2, h3, h4, h5, ⟨fun ⟨p, hp⟩ => ?_, fun h => ?_⟩, fun p hp => ?_⟩
  · by_contra hne
    rw [h5 hne] at hp
    cases hp
  · rcases h with h | h | h | h
    · exact ⟨_, h1 h⟩
    · exact ⟨_, h2 h⟩
    · exact ⟨_, h3 h⟩
    · exact ⟨_, h4 h⟩
  · by_cases hne : input.GetString "Solver" "Solver" 0 = "tvdlf"
        ∨ input.GetString "Solver" "Solver" 0 = "hll"
        ∨ input.GetString "Solver" "Solver" 0 = "hlld"
        ∨ input.GetString "Solver" "Solver" 0 = "roe"
    · rcases hne with h | h | h | h
      · rw [h1 h] at hp
        cases hp
        exact ⟨rfl, rfl⟩
      · rw [h2 h] at hp
        cases hp
        exact ⟨rfl, rfl⟩
      · rw [h3 h] at hp
        cases hp
        exact ⟨rfl, rfl⟩
      · rw [h4 h] at hp
        cases hp
        exact ⟨rfl, rfl⟩
    · rw [h5 hne] at hp
      cases hp

/-- The input strings `"hlld"` (accepted) and `"TVDLF"` (refused: the
comparison is case-sensitive). -/
theorem Physics_constructor_solver_witness :
    MHD.Physics.Physics (inputWith "hlld") = Except.ok ⟨5 / 3, 1, MHD.Solver.HLLD⟩
    ∧ MHD.Physics.Physics (inputWith "TVDLF")
        = Except.error ("Unknown MHD solver type " ++ "TVDLF") :=
  ⟨(Physics_constructor_solver (inputWith "hlld")).2.2.1 rfl,
    (Physics_constructor_solver (inputWith "TVDLF")).2.2.2.2.1 (by decide)⟩

/-! ## The uniform state (HD) -/

theorem HD_Extrapolate1_PrimL (NVAR : ℤ) (data : DataBlock) (dir : ℤ) (n k j i : ℤ)
    (hn : 0 ≤ n ∧ n < NVAR)
    (hk : data.beg KDIR ≤ k ∧ k < data.end_ KDIR + sweepOffset dir KDIR)
    (hj : data.beg JDIR ≤ j ∧ j < data.end_ JDIR + sweepOffset dir JDIR)
    (hi : data.beg IDIR ≤ i ∧ i < data.end_ IDIR + sweepOffset dir IDIR) :
    (HD.Physics.ExtrapolatePrimVar 1 NVAR data dir).PrimL n k j i
      = data.Vc n (k - sweepOffset dir KDIR) (j - sweepOffset dir JDIR)
          (i - sweepOffset dir IDIR) := by
  simp only [HD.Physics.ExtrapolatePrimVar]
  norm_num
  exact idefix_for4_pointwise _ _ _ _ _ _ _ _ _
    (fun (P : IdefixArray4D × IdefixArray4D) (x : ℤ × ℤ × ℤ × ℤ) => P.1 x.1 x.2.1 x.2.2.1 x.2.2.2)
    (fun x _ => data.Vc x.1 (x.2.1 - sweepOffset dir KDIR) (x.2.2.1 - sweepOffset dir JDIR)
          (x.2.2.2 - sweepOffset dir IDIR))
    (fun x s => by simp [HD.Extrapolate_body1, set4_self])
    (fun x y s hxy => by
      simp only [HD.Extrapolate_body1]
      apply set4_ne
      intro h
      apply hxy
      obtain ⟨h1, h2, h3, h4⟩ := h
      ext <;> dsimp only <;> omega)
    _ n k j i hn hk hj hi

theorem HD_Extrapolate1_PrimR (NVAR : ℤ) (data : DataBlock) (dir : ℤ) (n k j i : ℤ)
    (hn : 0 ≤ n ∧ n < NVAR)
    (hk : data.beg KDIR ≤ k ∧ k < data.end_ KDIR + sweepOffset dir KDIR)
    (hj : data.beg JDIR ≤ j ∧ j < data.end_ JDIR + sweepOffset dir JDIR)
    (hi : data.beg IDIR ≤ i ∧ i < data.end_ IDIR + sweepOffset dir IDIR) :
    (HD.Physics.ExtrapolatePrimVar 1 NVAR data dir).PrimR n k j i = data.Vc n k j i := by
  simp only [HD.Physics.ExtrapolatePrimVar]
  norm_num
  exact idefix_for4_pointwise _ _ _ _ _ _ _ _ _
    (fun (P : IdefixArray4D × IdefixArray4D) (x : ℤ × ℤ × ℤ × ℤ) => P.2 x.1 x.2.1 x.2.2.1 x.2.2.2)
    (fun x _ => data.Vc x.1 x.2.1 x.2.2.1 x.2.2.2)
    (fun x s => by simp [HD.Extrapolate_body1, set4_self])
    (fun x y s hxy => by
      simp only [HD.Extrapolate_body1]
      apply set4_ne
      intro h
      apply hxy
      obtain ⟨h1, h2, h3, h4⟩ := h
      ext <;> dsimp only <;> omega)
    _ n k j i hn hk hj hi

/-- The reconstruction writes `PrimL` and `PrimR` only. -/
theorem HD_Extrapolate_others (ORDER : ℕ) (NVAR : ℤ) (data : DataBlock) (dir : ℤ) :
    (HD.Physics.ExtrapolatePrimVar ORDER NVAR data dir).beg = data.beg
    ∧ (HD.Physics.ExtrapolatePrimVar ORDER NVAR data dir).end_ = data.end_
    ∧ (HD.Physics.ExtrapolatePrimVar ORDER NVAR data dir).dx = data.dx
    ∧ (HD.Physics.ExtrapolatePrimVar ORDER NVAR data dir).Uc = data.Uc := by
  unfold HD.Physics.ExtrapolatePrimVar
  dsimp only
  split_ifs <;> exact ⟨rfl, rfl, rfl, rfl⟩

/-- The reconstruction of a state that is uniform on the full extent: `PrimL`
and `PrimR` hold the uniform vector on every interface of the Riemann range. -/
theorem HD_Extrapolate_uniform (ORDER : ℕ) (NVAR : ℤ) (data : DataBlock) (dir : ℤ)
    (v : IdefixArray1D) (hO : ORDER = 1 ∨ ORDER = 2)
    (hgrid : ∀ e : ℤ, e = IDIR ∨ e = JDIR ∨ e = KDIR → data.extents e ∧ 0 ≤ data.nghost e)
    (hghost : (ORDER : ℤ) ≤ data.nghost dir)
    (hV : ∀ n k j i, 0 ≤ n ∧ n < NVAR → 0 ≤ k ∧ k < data.np_tot KDIR →
      0 ≤ j ∧ j < data.np_tot JDIR → 0 ≤ i ∧ i < data.np_tot IDIR → data.Vc n k j i = v n)
    (n k j i : ℤ) (hn : 0 ≤ n ∧ n < NVAR)
    (hk : data.beg KDIR ≤ k ∧ k < data.end_ KDIR + sweepOffset dir KDIR)
    (hj : data.beg JDIR ≤ j ∧ j < data.end_ JDIR + sweepOffset dir JDIR)
    (hi : data.beg IDIR ≤ i ∧ i < data.end_ IDIR + sweepOffset dir IDIR) :
    (HD.Physics.ExtrapolatePrimVar ORDER NVAR data dir).PrimL n k j i = v n
    ∧ (HD.Physics.ExtrapolatePrimVar ORDER NVAR data dir).PrimR n k j i = v n := by
  obtain ⟨⟨tI, bI, eI⟩, gI⟩ := hgrid IDIR (Or.inl rfl)
  obtain ⟨⟨tJ, bJ, eJ⟩, gJ⟩ := hgrid JDIR (Or.inr (Or.inl rfl))
  obtain ⟨⟨tK, bK, eK⟩, gK⟩ := hgrid KDIR (Or.inr (Or.inr rfl))
  have sI : sweepOffset dir IDIR = 0 ∨ (sweepOffset dir IDIR = 1 ∧ dir = IDIR) := by
    unfold sweepOffset
    split_ifs with h
    · exact Or.inr ⟨rfl, h⟩
    · exact Or.inl rfl
  have sJ : sweepOffset dir JDIR = 0 ∨ (sweepOffset dir JDIR = 1 ∧ dir = JDIR) := by
    unfold sweepOffset
    split_ifs with h
    · exact Or.inr ⟨rfl, h⟩
    · exact Or.inl rfl
  have sK : sweepOffset dir KDIR = 0 ∨ (sweepOffset dir KDIR = 1 ∧ dir = KDIR) := by
    unfold sweepOffset
    split_ifs with h
    · exact Or.inr ⟨rfl, h⟩
    · exact Or.inl rfl
  have gI' : sweepOffset dir IDIR * (ORDER : ℤ) ≤ data.nghost IDIR := by
    rcases sI with h | ⟨h, rfl⟩ <;> rw [h] <;> omega
  have gJ' : sweepOffset dir JDIR * (ORDER : ℤ) ≤ data.nghost JDIR := by
    rcases sJ with h | ⟨h, rfl⟩ <;> rw [h] <;> omega
  have gK' : sweepOffset dir KDIR * (ORDER : ℤ) ≤ data.nghost KDIR := by
    rcases sK with h | ⟨h, rfl⟩ <;> rw [h] <;> omega
  have oI : 0 ≤ sweepOffset dir IDIR ∧ sweepOffset dir IDIR ≤ 1 := by
    rcases sI with h | ⟨h, -⟩ <;> omega
  have oJ : 0 ≤ sweepOffset dir JDIR ∧ sweepOffset dir JDIR ≤ 1 := by
    rcases sJ with h | ⟨h, -⟩ <;> omega
  have oK : 0 ≤ sweepOffset dir KDIR ∧ sweepOffset dir KDIR ≤ 1 := by
    rcases sK with h | ⟨h, -⟩ <;> omega
  rcases hO with rfl | rfl
  · rw [HD_Extrapolate1_PrimL NVAR data dir n k j i hn hk hj hi,
      HD_Extrapolate1_PrimR NVAR data dir n k j i hn hk hj hi]
    push_cast at gI' gJ' gK'
    exact ⟨hV n _ _ _ hn (by omega) (by omega) (by omega),
      hV n _ _ _ hn (by omega) (by omega) (by omega)⟩
  · push_cast at gI' gJ' gK'
    have hR := HD_Extrapolate2_PrimR NVAR data dir n k j i hn (by omega) (by omega) (by omega)
    have hL := HD_Extrapolate2_PrimL NVAR data dir n (k - sweepOffset dir KDIR)
      (j - sweepOffset dir JDIR) (i - sweepOffset dir IDIR) hn (by omega) (by omega) (by omega)
    rw [show k - sweepOffset dir KDIR + sweepOffset dir KDIR = k by ring,
      show j - sweepOffset dir JDIR + sweepOffset dir JDIR = j by ring,
      show i - sweepOffset dir IDIR + sweepOffset dir IDIR = i by ring] at hL
    rw [hL, hR]
    rw [hV n k j i hn (by omega) (by omega) (by omega),
      hV n (k - sweepOffset dir KDIR) (j - sweepOffset dir JDIR) (i - sweepOffset dir IDIR) hn
        (by omega) (by omega) (by omega),
      hV n (k + sweepOffset dir KDIR) (j + sweepOffset dir JDIR) (i + sweepOffset dir IDIR) hn
        (by omega) (by omega) (by omega),
      hV n (k - sweepOffset dir KDIR - sweepOffset dir KDIR)
        (j - sweepOffset dir JDIR - sweepOffset dir JDIR)
        (i - sweepOffset dir IDIR - sweepOffset dir IDIR) hn (by omega) (by omega) (by omega)]
    simp [HD.VanLeer, ZERO_F]

/-- C27. A uniform state is a fixed point of the HD directional sweep: if `V_c`
holds the same primitive vector `v` in every cell of the full extent (with at
least `ORDER` ghost layers along `d`), then for every direction `d`, every `dt`
and all cell widths the sequence `ExtrapolatePrimVar(d)`, `CalcRiemannFlux(d)`,
`CalcRightHandSide(d,dt)` gives `PrimL = PrimR = v` on every interface of the
range, the same flux `K_Flux(v, K_PrimToCons(v))` at every interface, and
leaves `U_c` unchanged in every cell (exact arithmetic, `ORDER` 1 and 2). -/
theorem uniform_state_fixed_point (this : HD.Physics) (HAVE_ENERGY ISOTHERMAL : Bool)
    (SQRT : real → real) (ORDER : ℕ) (NVAR : ℤ) (data : DataBlock) (dir : ℤ) (dt : real)
    (v : IdefixArray1D) (hO : ORDER = 1 ∨ ORDER = 2)
    (hgrid : ∀ e : ℤ, e = IDIR ∨ e = JDIR ∨ e = KDIR → data.extents e ∧ 0 ≤ data.nghost e)
    (hghost : (ORDER : ℤ) ≤ data.nghost dir)
    (hV : ∀ n k j i, 0 ≤ n ∧ n < NVAR → 0 ≤ k ∧ k < data.np_tot KDIR →
      0 ≤ j ∧ j < data.np_tot JDIR → 0 ≤ i ∧ i < data.np_tot IDIR → data.Vc n k j i = v n) :
    (∀ n k j i, 0 ≤ n ∧ n < NVAR →
      data.beg KDIR ≤ k ∧ k < data.end_ KDIR + sweepOffset dir KDIR →
      data.beg JDIR ≤ j ∧ j < data.end_ JDIR + sweepOffset dir JDIR →
      data.beg IDIR ≤ i ∧ i < data.end_ IDIR + sweepOffset dir IDIR →
      (HD.Physics.ExtrapolatePrimVar ORDER NVAR data dir).PrimL n k j i = v n
      ∧ (HD.Physics.ExtrapolatePrimVar ORDER NVAR data dir).PrimR n k j i = v n
      ∧ (this.CalcRiemannFlux HAVE_ENERGY ISOTHERMAL SQRT NVAR
            (HD.Physics.ExtrapolatePrimVar ORDER NVAR data dir) dir).FluxRiemann n k j i
          = HD.K_Flux HAVE_ENERGY ISOTHERMAL localArray
              (fun m => if 0 ≤ m ∧ m < NVAR then v m else localArray m)
              (HD.K_PrimToCons HAVE_ENERGY localArray
                (fun m => if 0 ≤ m ∧ m < NVAR then v m else localArray m)
                (this.gamma - ONE_F)) this.C2Iso dir n)
    ∧ (∀ n k j i,
      (HD.Physics.CalcRightHandSide NVAR
          (this.CalcRiemannFlux HAVE_ENERGY ISOTHERMAL SQRT NVAR
            (HD.Physics.ExtrapolatePrimVar ORDER NVAR data dir) dir) dir dt).Uc n k j i
        = data.Uc n k j i) := by
  obtain ⟨eb, ee, ex, eu⟩ := HD_Extrapolate_others ORDER NVAR data dir
  have hP : ∀ n k j i, 0 ≤ n ∧ n < NVAR →
      data.beg KDIR ≤ k ∧ k < data.end_ KDIR + sweepOffset dir KDIR →
      data.beg JDIR ≤ j ∧ j < data.end_ JDIR + sweepOffset dir JDIR →
      data.beg IDIR ≤ i ∧ i < data.end_ IDIR + sweepOffset dir IDIR →
      (HD.Physics.ExtrapolatePrimVar ORDER NVAR data dir).PrimL n k j i = v n
      ∧ (HD.Physics.ExtrapolatePrimVar ORDER NVAR data dir).PrimR n k j i = v n :=
    fun n k j i hn hk hj hi =>
      HD_Extrapolate_uniform ORDER NVAR data dir v hO hgrid hghost hV n k j i hn hk hj hi
  have hF : ∀ n k j i, 0 ≤ n ∧ n < NVAR →
      data.beg KDIR ≤ k ∧ k < data.end_ KDIR + sweepOffset dir KDIR →
      data.beg JDIR ≤ j ∧ j < data.end_ JDIR + sweepOffset dir JDIR →
      data.beg IDIR ≤ i ∧ i < data.end_ IDIR + sweepOffset dir IDIR →
      (this.CalcRiemannFlux HAVE_ENERGY ISOTHERMAL SQRT NVAR
            (HD.Physics.ExtrapolatePrimVar ORDER NVAR data dir) dir).FluxRiemann n k j i
          = HD.K_Flux HAVE_ENERGY ISOTHERMAL localArray
              (fun m => if 0 ≤ m ∧ m < NVAR then v m else localArray m)
              (HD.K_PrimToCons HAVE_ENERGY localArray
                (fun m => if 0 ≤ m ∧ m < NVAR then v m else localArray m)
                (this.gamma - ONE_F)) this.C2Iso dir n := by
    intro n k j i hn hk hj hi
    rw [HD_CalcRiemannFlux_cell this HAVE_ENERGY ISOTHERMAL SQRT NVAR _ dir n k j i hn
      (by rw [eb, ee]; exact hk) (by rw [eb, ee]; exact hj) (by rw [eb, ee]; exact hi)]
    have cL : cellVector NVAR (HD.Physics.ExtrapolatePrimVar ORDER NVAR data dir).PrimL k j i
        = fun m => if 0 ≤ m ∧ m < NVAR then v m else localArray m := by
      funext m
      unfold cellVector
      split_ifs with hm
      · exact (hP m k j i hm hk hj hi).1
      · rfl
    have cR : cellVector NVAR (HD.Physics.ExtrapolatePrimVar ORDER NVAR data dir).PrimR k j i
        = fun m => if 0 ≤ m ∧ m < NVAR then v m else localArray m := by
      funext m
      unfold cellVector
      split_ifs with hm
      · exact (hP m k j i hm hk hj hi).2
      · rfl
    rw [cL, cR, HALF_F]
    ring
  refine ⟨fun n k j i hn hk hj hi =>
    ⟨(hP n k j i hn hk hj hi).1, (hP n k j i hn hk hj hi).2, hF n k j i hn hk hj hi⟩, ?_⟩
  intro n k j i
  have hU : (this.CalcRiemannFlux HAVE_ENERGY ISOTHERMAL SQRT NVAR
      (HD.Physics.ExtrapolatePrimVar ORDER NVAR data dir) dir).Uc = data.Uc := eu
  have hb : (this.CalcRiemannFlux HAVE_ENERGY ISOTHERMAL SQRT NVAR
      (HD.Physics.ExtrapolatePrimVar ORDER NVAR data dir) dir).beg = data.beg := eb
  have he : (this.CalcRiemannFlux HAVE_ENERGY ISOTHERMAL SQRT NVAR
      (HD.Physics.ExtrapolatePrimVar ORDER NVAR data dir) dir).end_ = data.end_ := ee
  by_cases h : (0 ≤ n ∧ n < NVAR) ∧ (data.beg KDIR ≤ k ∧ k < data.end_ KDIR)
      ∧ (data.beg JDIR ≤ j ∧ j < data.end_ JDIR) ∧ (data.beg IDIR ≤ i ∧ i < data.end_ IDIR)
  · obtain ⟨hn, hk, hj, hi⟩ := h
    have oI := sweepOffset_nonneg dir IDIR
    have oJ := sweepOffset_nonneg dir JDIR
    have oK := sweepOffset_nonneg dir KDIR
    rw [HD_RightHandSide_active NVAR _ dir dt n k j i hn (by rw [hb, he]; exact hk)
      (by rw [hb, he]; exact hj) (by rw [hb, he]; exact hi), hU,
      hF n k j i hn (by omega) (by omega) (by omega),
      hF n (k + sweepOffset dir KDIR) (j + sweepOffset dir JDIR) (i + sweepOffset dir IDIR) hn
        (by omega) (by omega) (by omega)]
    ring
  · rw [HD_RightHandSide_ghost NVAR _ dir dt n k j i (by rw [hb, he]; exact h), hU]

/-- The 1D grid with the state `(rho, v, P) = (1, (2,0,0), 3)` in every cell
and `U_c = 0`, second order, `dt = 1/2`: the interface `i = 2` and the cell
`i = 3`. -/
theorem uniform_state_fixed_point_witness :
    (HD.Physics.ExtrapolatePrimVar 2 5 grid1D_uniform IDIR).PrimL RHO 0 0 2 = 1
    ∧ (HD.Physics.CalcRightHandSide 5
        (HD.physicsDefault.CalcRiemannFlux true false id 5
          (HD.Physics.ExtrapolatePrimVar 2 5 grid1D_uniform IDIR) IDIR) IDIR (1 / 2)).Uc
          RHO 0 0 3 = grid1D_uniform.Uc RHO 0 0 3 :=
  ⟨((uniform_state_fixed_point HD.physicsDefault true false id 2 5 grid1D_uniform IDIR (1 / 2)
      (cellState 1 2 0 0 3) (Or.inr rfl)
      (fun e he => by
        rcases he with rfl | rfl | rfl <;>
          exact ⟨⟨by decide, by decide, by decide⟩, by decide⟩)
      (by decide) (fun _ _ _ _ _ _ _ _ => rfl)).1 RHO 0 0 2 (by decide) (by decide) (by decide)
      (by decide)).1,
    (uniform_state_fixed_point HD.physicsDefault true false id 2 5 grid1D_uniform IDIR (1 / 2)
      (cellState 1 2 0 0 3) (Or.inr rfl)
      (fun e he => by
        rcases he with rfl | rfl | rfl <;>
          exact ⟨⟨by decide, by decide, by decide⟩, by decide⟩)
      (by decide) (fun _ _ _ _ _ _ _ _ => rfl)).2 RHO 0 0 3⟩

/-! ## The time-step accumulator (HD) -/

theorem max_abs_add_sub (v c : real) (hc : 0 ≤ c) : max |v + c| |v - c| = |v| + c := by
  rcases le_total 0 v with hv | hv
  · rw [abs_of_nonneg hv, abs_of_nonneg (by linarith : 0 ≤ v + c)]
    apply max_eq_left
    rw [abs_le]
    constructor <;> linarith
  · rw [abs_of_nonpos hv, abs_of_nonpos (by linarith : v - c ≤ 0)]
    rw [max_eq_right]
    · ring
    · rw [abs_le]
      constructor <;> linarith

/-- The signal speed of an interface is `|v_d| + c`, hence nonnegative, when
the square root is nonnegative. -/
theorem signalSpeed_eq (HAVE_ENERGY : Bool) (SQRT : real → real) (hS : ∀ x, 0 ≤ SQRT x)
    (vRL : IdefixArray1D) (gamma_m1 C2Iso : real) (dir : ℤ) :
    HD.signalSpeed HAVE_ENERGY SQRT vRL gamma_m1 C2Iso dir
        = |vRL (VX1 + dir)|
          + (if HAVE_ENERGY then SQRT ((gamma_m1 + ONE_F) * (vRL PRS / vRL RHO))
              else SQRT C2Iso)
    ∧ 0 ≤ HD.signalSpeed HAVE_ENERGY SQRT vRL gamma_m1 C2Iso dir := by
  have hc : 0 ≤ (if HAVE_ENERGY then SQRT ((gamma_m1 + ONE_F) * (vRL PRS / vRL RHO))
      else SQRT C2Iso) := by
    split_ifs
    · exact hS _
    · exact hS _
  have e : HD.signalSpeed HAVE_ENERGY SQRT vRL gamma_m1 C2Iso dir
      = |vRL (VX1 + dir)|
        + (if HAVE_ENERGY then SQRT ((gamma_m1 + ONE_F) * (vRL PRS / vRL RHO))
            else SQRT C2Iso) := by
    unfold HD.signalSpeed
    simp only [FMAX, FABS]
    exact max_abs_add_sub _ _ hc
  refine ⟨e, ?_⟩
  rw [e]
  exact add_nonneg (abs_nonneg _) hc

theorem RiemannFlux_body_invDt (HAVE_ENERGY ISOTHERMAL : Bool) (SQRT : real → real) (NVAR : ℤ)
    (PrimL PrimR : IdefixArray4D) (dx : IdefixArray1D) (gamma_m1 C2Iso : real)
    (dir koffset joffset ioffset : ℤ) (k j i : ℤ) (S : IdefixArray4D × IdefixArray3D)
    (k' j' i' : ℤ) :
    (HD.RiemannFlux_body HAVE_ENERGY ISOTHERMAL SQRT NVAR PrimL PrimR dx gamma_m1 C2Iso dir
        koffset joffset ioffset k j i S).2 k' j' i'
      = if k' = k ∧ j' = j ∧ i' = i then
          S.2 k j i + HD.signalSpeed HAVE_ENERGY SQRT
              (fun m => if 0 ≤ m ∧ m < NVAR then HALF_F * (PrimL m k j i + PrimR m k j i)
                else localArray m) gamma_m1 C2Iso dir
            / dx (ioffset * i + joffset * j + koffset * k)
        else S.2 k' j' i' := by
  unfold HD.RiemannFlux_body
  simp only [RiemannStates_eq]
  by_cases h : k' = k ∧ j' = j ∧ i' = i
  · obtain ⟨rfl, rfl, rfl⟩ := h
    rw [if_pos ⟨rfl, rfl, rfl⟩]
    exact set3_self _ _ _ _ _
  · rw [if_neg h]
    exact set3_ne _ _ _ _ _ _ _ _ h

theorem HD_CalcRiemannFlux_invDt (this : HD.Physics) (HAVE_ENERGY ISOTHERMAL : Bool)
    (SQRT : real → real) (NVAR : ℤ) (data : DataBlock) (dir : ℤ) (k j i : ℤ) :
    (this.CalcRiemannFlux HAVE_ENERGY ISOTHERMAL SQRT NVAR data dir).InvDtHyp k j i
      = if (data.beg KDIR ≤ k ∧ k < data.end_ KDIR + sweepOffset dir KDIR)
            ∧ (data.beg JDIR ≤ j ∧ j < data.end_ JDIR + sweepOffset dir JDIR)
            ∧ (data.beg IDIR ≤ i ∧ i < data.end_ IDIR + sweepOffset dir IDIR) then
          data.InvDtHyp k j i + HD.signalSpeed HAVE_ENERGY SQRT
              (fun m => if 0 ≤ m ∧ m < NVAR then
                  HALF_F * (data.PrimL m k j i + data.PrimR m k j i)
                else localArray m) (this.gamma - ONE_F) this.C2Iso dir
            / data.dx dir (sweepOffset dir IDIR * i + sweepOffset dir JDIR * j
                + sweepOffset dir KDIR * k)
        else data.InvDtHyp k j i := by
  simp only [HD.Physics.CalcRiemannFlux]
  by_cases h : (data.beg KDIR ≤ k ∧ k < data.end_ KDIR + sweepOffset dir KDIR)
      ∧ (data.beg JDIR ≤ j ∧ j < data.end_ JDIR + sweepOffset dir JDIR)
      ∧ (data.beg IDIR ≤ i ∧ i < data.end_ IDIR + sweepOffset dir IDIR)
  · rw [if_pos h]
    exact idefix_for3_pointwise _ _ _ _ _ _
      (HD.RiemannFlux_body HAVE_ENERGY ISOTHERMAL SQRT NVAR data.PrimL data.PrimR (data.dx dir)
        (this.gamma - ONE_F) this.C2Iso dir (sweepOffset dir KDIR) (sweepOffset dir JDIR)
        (sweepOffset dir IDIR))
      (fun (S : IdefixArray4D × IdefixArray3D) (x : ℤ × ℤ × ℤ) => S.2 x.1 x.2.1 x.2.2)
      (fun x u => u + HD.signalSpeed HAVE_ENERGY SQRT
              (fun m => if 0 ≤ m ∧ m < NVAR then
                  HALF_F * (data.PrimL m x.1 x.2.1 x.2.2 + data.PrimR m x.1 x.2.1 x.2.2)
                else localArray m) (this.gamma - ONE_F) this.C2Iso dir
            / data.dx dir (sweepOffset dir IDIR * x.2.2 + sweepOffset dir JDIR * x.2.1
                + sweepOffset dir KDIR * x.1))
      (fun x s => by
        dsimp only
        rw [RiemannFlux_body_invDt, if_pos ⟨rfl, rfl, rfl⟩])
      (fun x y s hxy => by
        dsimp only
        rw [RiemannFlux_body_invDt, if_neg]
        rintro ⟨h2, h3, h4⟩
        exact hxy (by ext <;> dsimp only <;> omega))
      (data.FluxRiemann, data.InvDtHyp) k j i h.1 h.2.1 h.2.2
  · rw [if_neg h]
    exact idefix_for3_untouched _ _ _ _ _ _
      (HD.RiemannFlux_body HAVE_ENERGY ISOTHERMAL SQRT NVAR data.PrimL data.PrimR (data.dx dir)
        (this.gamma - ONE_F) this.C2Iso dir (sweepOffset dir KDIR) (sweepOffset dir JDIR)
        (sweepOffset dir IDIR))
      (fun (S : IdefixArray4D × IdefixArray3D) (x : ℤ × ℤ × ℤ) => S.2 x.1 x.2.1 x.2.2)
      (fun x y s hxy => by
        dsimp only
        rw [RiemannFlux_body_invDt, if_neg]
        rintro ⟨h2, h3, h4⟩
        exact hxy (by ext <;> dsimp only <;> omega))
      (data.FluxRiemann, data.InvDtHyp) k j i h

/-- C28. Time-step accumulator: `CalcRiemannFlux` along `d` adds
`c_max/dx[d](x_d)` to `invDt` at every cell `x` of the interface range
(`[beg, end]` along `d`, the active range across) and leaves `invDt` unchanged
elsewhere, where `c_max = max(|v_d + c|, |v_d - c|)` is the signal speed of that
interface, computed from the average state; with a nonnegative square root
`c >= 0`, so `c_max = |v_d| + c >= 0`, and with positive cell widths `invDt`
does not decrease. -/
theorem CalcRiemannFlux_invDt_accumulates (this : HD.Physics) (HAVE_ENERGY ISOTHERMAL : Bool)
    (SQRT : real → real) (NVAR : ℤ) (data : DataBlock) (dir : ℤ)
    (hdir : dir = IDIR ∨ dir = JDIR ∨ dir = KDIR) (hS : ∀ x, 0 ≤ SQRT x) (k j i : ℤ) :
    let vRL : IdefixArray1D := fun m =>
      if 0 ≤ m ∧ m < NVAR then HALF_F * (data.PrimL m k j i + data.PrimR m k j i)
      else localArray m
    let vd := vRL (VX1 + dir)
    let c := if HAVE_ENERGY then SQRT ((this.gamma - ONE_F + ONE_F) * (vRL PRS / vRL RHO))
      else SQRT this.C2Iso
    let cmax := HD.signalSpeed HAVE_ENERGY SQRT vRL (this.gamma - ONE_F) this.C2Iso dir
    let xd := if dir = IDIR then i else if dir = JDIR then j else k
    ((data.beg KDIR ≤ k ∧ k < data.end_ KDIR + sweepOffset dir KDIR)
        ∧ (data.beg JDIR ≤ j ∧ j < data.end_ JDIR + sweepOffset dir JDIR)
        ∧ (data.beg IDIR ≤ i ∧ i < data.end_ IDIR + sweepOffset dir IDIR) →
      (this.CalcRiemannFlux HAVE_ENERGY ISOTHERMAL SQRT NVAR data dir).InvDtHyp k j i
        = data.InvDtHyp k j i + cmax / data.dx dir xd)
    ∧ (¬ ((data.beg KDIR ≤ k ∧ k < data.end_ KDIR + sweepOffset dir KDIR)
        ∧ (data.beg JDIR ≤ j ∧ j < data.end_ JDIR + sweepOffset dir JDIR)
        ∧ (data.beg IDIR ≤ i ∧ i < data.end_ IDIR + sweepOffset dir IDIR)) →
      (this.CalcRiemannFlux HAVE_ENERGY ISOTHERMAL SQRT NVAR data dir).InvDtHyp k j i
        = data.InvDtHyp k j i)
    ∧ cmax = max |vd + c| |vd - c|
    ∧ 0 ≤ c
    ∧ cmax = |vd| + c
    ∧ 0 ≤ cmax
    ∧ (0 < data.dx dir xd →
      data.InvDtHyp k j i
        ≤ (this.CalcRiemannFlux HAVE_ENERGY ISOTHERMAL SQRT NVAR data dir).InvDtHyp k j i) := by
  intro vRL vd c cmax xd
  have hig : sweepOffset dir IDIR * i + sweepOffset dir JDIR * j + sweepOffset dir KDIR * k
      = xd := by
    rcases hdir with rfl | rfl | rfl <;> simp [xd, sweepOffset, IDIR, JDIR, KDIR]
  have hval := HD_CalcRiemannFlux_invDt this HAVE_ENERGY ISOTHERMAL SQRT NVAR data dir k j i
  rw [hig] at hval
  have hc : 0 ≤ c := by
    simp only [c]
    split_ifs
    · exact hS _
    · exact hS _
  obtain ⟨hs1, hs2⟩ := signalSpeed_eq HAVE_ENERGY SQRT hS vRL (this.gamma - ONE_F) this.C2Iso dir
  refine ⟨fun h => ?_, fun h => ?_, ?_, hc, hs1, hs2, fun hdx => ?_⟩
  · rw [hval, if_pos h]
  · rw [hval, if_neg h]
  · exact hs1.trans (max_abs_add_sub vd c hc).symm
  · rw [hval]
    split_ifs
    · have : 0 ≤ cmax / data.dx dir xd := div_nonneg hs2 (le_of_lt hdx)
      linarith
    · exact le_refl _

/-- The sweep along direction 1 of the 1D grid with the left state
`(1, (2,0,0), 3)` and the right state `(2, (1,0,0), 3)`, the square root
replaced by the absolute value: the accumulator of the cell `i = 2`. -/
theorem CalcRiemannFlux_invDt_accumulates_witness :
    grid1D_riemann.InvDtHyp 0 0 2
      ≤ (HD.physicsDefault.CalcRiemannFlux true false (fun x => |x|) 5 grid1D_riemann
          IDIR).InvDtHyp 0 0 2 :=
  (CalcRiemannFlux_invDt_accumulates HD.physicsDefault true false (fun x => |x|) 5
    grid1D_riemann IDIR (Or.inl rfl) (fun x => abs_nonneg x) 0 0 2).2.2.2.2.2.2
    (by norm_num [grid1D_riemann, grid1D, gridBlock])

/-! ## The shock-tube setup -/

/-- The nested host loops of `InitFlow` visit the cells in the order of a
three-index kernel. -/
theorem InitFlow_eq (DIMENSIONS : ℕ) (HAVE_ENERGY : Bool) (data : DataBlock) :
    Setup.InitFlow DIMENSIONS HAVE_ENERGY data
      = { data with
          Vc := (idefix_for3 0 (data.np_tot KDIR) 0 (data.np_tot JDIR) 0 (data.np_tot IDIR)
            (Setup.InitFlow_body DIMENSIONS HAVE_ENERGY (data.x IDIR) (data.xl IDIR))
            (data.Vc, data.Vs)).1,
          Vs := (idefix_for3 0 (data.np_tot KDIR) 0 (data.np_tot JDIR) 0 (data.np_tot IDIR)
            (Setup.InitFlow_body DIMENSIONS HAVE_ENERGY (data.x IDIR) (data.xl IDIR))
            (data.Vc, data.Vs)).2 } := by
  unfold Setup.InitFlow idefix_for3 box3 box2 forLoop
  simp only [foldl_product]

theorem InitFlow_body_Vc (DIMENSIONS : ℕ) (HAVE_ENERGY : Bool) (x1 xl1 : IdefixArray1D)
    (k j i : ℤ) (S : IdefixArray4D × IdefixArray4D) (n k' j' i' : ℤ) :
    (Setup.InitFlow_body DIMENSIONS HAVE_ENERGY x1 xl1 k j i S).1 n k' j' i'
      = if (k' = k ∧ j' = j ∧ i' = i)
            ∧ (n = RHO ∨ n = VX1 ∨ (n = PRS ∧ HAVE_ENERGY = true) ∨ n = BX1 ∨ n = BX2) then
          (if n = RHO then (if x1 i < 50 then 1 else 1 / 8)
            else if n = VX1 then 0
            else if n = PRS then (if x1 i < 50 then 1 else 1 / 10)
            else if n = BX1 then 3 / 4
            else (if x1 i < 50 then 1 else -1))
        else S.1 n k' j' i' := by
  unfold Setup.InitFlow_body
  by_cases hc : k' = k ∧ j' = j ∧ i' = i
  · obtain ⟨rfl, rfl, rfl⟩ := hc
    cases HAVE_ENERGY <;>
      by_cases h0 : n = RHO <;> by_cases h1 : n = VX1 <;> by_cases h4 : n = PRS <;>
      by_cases h5 : n = BX1 <;> by_cases h6 : n = BX2 <;>
      simp_all [set4, RHO, VX1, PRS, BX1, BX2, ZERO_F]
  · cases HAVE_ENERGY <;> simp [set4, hc]

theorem InitFlow_body_Vs (DIMENSIONS : ℕ) (HAVE_ENERGY : Bool) (x1 xl1 : IdefixArray1D)
    (k j i : ℤ) (S : IdefixArray4D × IdefixArray4D) (n k' j' i' : ℤ) :
    (Setup.InitFlow_body DIMENSIONS HAVE_ENERGY x1 xl1 k j i S).2 n k' j' i'
      = if (k' = k ∧ j' = j ∧ i' = i) ∧ (n = BX1s ∨ (n = BX2s ∧ 2 ≤ DIMENSIONS)) then
          (if n = BX1s then 3 / 4 else (if xl1 i < 50 then 1 else -1))
        else S.2 n k' j' i' := by
  unfold Setup.InitFlow_body
  dsimp only
  by_cases h2 : 2 ≤ DIMENSIONS
  · rw [if_pos h2]
    by_cases hc : k' = k ∧ j' = j ∧ i' = i
    · obtain ⟨rfl, rfl, rfl⟩ := hc
      by_cases h0 : n = BX1s <;> by_cases h1 : n = BX2s <;>
        simp_all [set4, BX1s, BX2s]
    · simp [set4, hc]
  · rw [if_neg h2]
    by_cases hc : k' = k ∧ j' = j ∧ i' = i
    · obtain ⟨rfl, rfl, rfl⟩ := hc
      simp only [BX1s, BX2s]
      by_cases h0 : n = 0
      · subst h0
        simp [set4]
      · simp [set4, h0, h2]
    · simp [set4, hc]

theorem InitFlow_Vc (DIMENSIONS : ℕ) (HAVE_ENERGY : Bool) (data : DataBlock) (n k j i : ℤ)
    (hk : 0 ≤ k ∧ k < data.np_tot KDIR) (hj : 0 ≤ j ∧ j < data.np_tot JDIR)
    (hi : 0 ≤ i ∧ i < data.np_tot IDIR) :
    (Setup.InitFlow DIMENSIONS HAVE_ENERGY data).Vc n k j i
      = if n = RHO ∨ n = VX1 ∨ (n = PRS ∧ HAVE_ENERGY = true) ∨ n = BX1 ∨ n = BX2 then
          (if n = RHO then (if data.x IDIR i < 50 then 1 else 1 / 8)
            else if n = VX1 then 0
            else if n = PRS then (if data.x IDIR i < 50 then 1 else 1 / 10)
            else if n = BX1 then 3 / 4
            else (if data.x IDIR i < 50 then 1 else -1))
        else data.Vc n k j i := by
  rw [InitFlow_eq]
  exact idefix_for3_store
    (Setup.InitFlow_body DIMENSIONS HAVE_ENERGY (data.x IDIR) (data.xl IDIR))
    (fun S => S.1 n)
    (n = RHO ∨ n = VX1 ∨ (n = PRS ∧ HAVE_ENERGY = true) ∨ n = BX1 ∨ n = BX2)
    (fun _ _ i => if n = RHO then (if data.x IDIR i < 50 then 1 else 1 / 8)
            else if n = VX1 then 0
            else if n = PRS then (if data.x IDIR i < 50 then 1 else 1 / 10)
            else if n = BX1 then 3 / 4
            else (if data.x IDIR i < 50 then 1 else -1))
    (fun k j i S k' j' i' => by dsimp only; rw [InitFlow_body_Vc])
    (data.Vc, data.Vs) k j i hk hj hi

theorem InitFlow_Vs (DIMENSIONS : ℕ) (HAVE_ENERGY : Bool) (data : DataBlock) (n k j i : ℤ)
    (hk : 0 ≤ k ∧ k < data.np_tot KDIR) (hj : 0 ≤ j ∧ j < data.np_tot JDIR)
    (hi : 0 ≤ i ∧ i < data.np_tot IDIR) :
    (Setup.InitFlow DIMENSIONS HAVE_ENERGY data).Vs n k j i
      = if n = BX1s ∨ (n = BX2s ∧ 2 ≤ DIMENSIONS) then
          (if n = BX1s then 3 / 4 else (if data.xl IDIR i < 50 then 1 else -1))
        else data.Vs n k j i := by
  rw [InitFlow_eq]
  exact idefix_for3_store
    (Setup.InitFlow_body DIMENSIONS HAVE_ENERGY (data.x IDIR) (data.xl IDIR))
    (fun S => S.2 n)
    (n = BX1s ∨ (n = BX2s ∧ 2 ≤ DIMENSIONS))
    (fun _ _ i => if n = BX1s then 3 / 4 else (if data.xl IDIR i < 50 then 1 else -1))
    (fun k j i S k' j' i' => by dsimp only; rw [InitFlow_body_Vs])
    (data.Vc, data.Vs) k j i hk hj hi

/-- C29. The shock-tube setup produces the specified divergence-free initial
state: for every cell of the full extent `InitFlow` sets `VX1 = 0`,
`BX1 = 0.75` and `V_s(BX1s) = 0.75`, and `RHO = 1`, `PRS = 1`, `BX2 = 1` where
`x1 < 50` and `RHO = 0.125`, `PRS = 0.1`, `BX2 = -1` otherwise (the pressure
with the energy equation, `V_s(BX2s)` is `1` or `-1` by the face coordinate `xl1 < 50`
in builds with a second dimension); hence in the 1D and 2D builds with
`nghost >= 1` the discrete divergence of `V_s` is zero in every active cell and
`V_c(BX1) = (1/2)*(V_s(BX1s,i) + V_s(BX1s,i+1))` for every cell with
`i+1 < np_tot`. -/
theorem InitFlow_shock_tube (DIMENSIONS : ℕ) (HAVE_ENERGY : Bool) (data : DataBlock) :
    (∀ k j i, 0 ≤ k ∧ k < data.np_tot KDIR → 0 ≤ j ∧ j < data.np_tot JDIR →
        0 ≤ i ∧ i < data.np_tot IDIR →
      (Setup.InitFlow DIMENSIONS HAVE_ENERGY data).Vc VX1 k j i = 0
      ∧ (Setup.InitFlow DIMENSIONS HAVE_ENERGY data).Vc BX1 k j i = 3 / 4
      ∧ (Setup.InitFlow DIMENSIONS HAVE_ENERGY data).Vs BX1s k j i = 3 / 4
      ∧ (data.x IDIR i < 50 →
          (Setup.InitFlow DIMENSIONS HAVE_ENERGY data).Vc RHO k j i = 1
          ∧ (HAVE_ENERGY = true →
            (Setup.InitFlow DIMENSIONS HAVE_ENERGY data).Vc PRS k j i = 1)
          ∧ (Setup.InitFlow DIMENSIONS HAVE_ENERGY data).Vc BX2 k j i = 1)
      ∧ (¬ data.x IDIR i < 50 →
          (Setup.InitFlow DIMENSIONS HAVE_ENERGY data).Vc RHO k j i = 1 / 8
          ∧ (HAVE_ENERGY = true →
            (Setup.InitFlow DIMENSIONS HAVE_ENERGY data).Vc PRS k j i = 1 / 10)
          ∧ (Setup.InitFlow DIMENSIONS HAVE_ENERGY data).Vc BX2 k j i = -1)
      ∧ (2 ≤ DIMENSIONS →
          (Setup.InitFlow DIMENSIONS HAVE_ENERGY data).Vs BX2s k j i
            = if data.xl IDIR i < 50 then 1 else -1))
    ∧ (DIMENSIONS = 1 ∨ DIMENSIONS = 2 →
        (∀ e : ℤ, e = IDIR ∨ e = JDIR ∨ e = KDIR → data.extents e ∧ 0 ≤ data.nghost e) →
        (∀ e : ℤ, 0 ≤ e ∧ e < (DIMENSIONS : ℤ) → 1 ≤ data.nghost e) →
        ∀ k j i, data.beg KDIR ≤ k ∧ k < data.end_ KDIR →
          data.beg JDIR ≤ j ∧ j < data.end_ JDIR → data.beg IDIR ≤ i ∧ i < data.end_ IDIR →
          MHD.divB DIMENSIONS (Setup.InitFlow DIMENSIONS HAVE_ENERGY data).Vs
            (data.dx IDIR) (data.dx JDIR) (data.dx KDIR) k j i = 0)
    ∧ (∀ k j i, 0 ≤ k ∧ k < data.np_tot KDIR → 0 ≤ j ∧ j < data.np_tot JDIR →
        0 ≤ i ∧ i + 1 < data.np_tot IDIR →
      (Setup.InitFlow DIMENSIONS HAVE_ENERGY data).Vc BX1 k j i
        = (1 / 2) * ((Setup.InitFlow DIMENSIONS HAVE_ENERGY data).Vs BX1s k j i
            + (Setup.InitFlow DIMENSIONS HAVE_ENERGY data).Vs BX1s k j (i + 1))) := by
  have hB1s : ∀ k j i, 0 ≤ k ∧ k < data.np_tot KDIR → 0 ≤ j ∧ j < data.np_tot JDIR →
      0 ≤ i ∧ i < data.np_tot IDIR →
      (Setup.InitFlow DIMENSIONS HAVE_ENERGY data).Vs BX1s k j i = 3 / 4 := by
    intro k j i hk hj hi
    rw [InitFlow_Vs DIMENSIONS HAVE_ENERGY data BX1s k j i hk hj hi]
    simp
  have hB2s : 2 ≤ DIMENSIONS → ∀ k j i, 0 ≤ k ∧ k < data.np_tot KDIR →
      0 ≤ j ∧ j < data.np_tot JDIR → 0 ≤ i ∧ i < data.np_tot IDIR →
      (Setup.InitFlow DIMENSIONS HAVE_ENERGY data).Vs BX2s k j i
        = if data.xl IDIR i < 50 then 1 else -1 := by
    intro h2 k j i hk hj hi
    rw [InitFlow_Vs DIMENSIONS HAVE_ENERGY data BX2s k j i hk hj hi]
    simp [BX1s, BX2s, h2]
  have hB1 : ∀ k j i, 0 ≤ k ∧ k < data.np_tot KDIR → 0 ≤ j ∧ j < data.np_tot JDIR →
      0 ≤ i ∧ i < data.np_tot IDIR →
      (Setup.InitFlow DIMENSIONS HAVE_ENERGY data).Vc BX1 k j i = 3 / 4 := by
    intro k j i hk hj hi
    rw [InitFlow_Vc DIMENSIONS HAVE_ENERGY data BX1 k j i hk hj hi]
    simp [RHO, VX1, PRS, BX1, BX2]
  refine ⟨fun k j i hk hj hi => ⟨?_, hB1 k j i hk hj hi, hB1s k j i hk hj hi, fun hx => ⟨?_, ?_, ?_⟩,
    fun hx => ⟨?_, ?_, ?_⟩, fun h2 => hB2s h2 k j i hk hj hi⟩, ?_, ?_⟩
  · rw [InitFlow_Vc DIMENSIONS HAVE_ENERGY data VX1 k j i hk hj hi]
    simp [RHO, VX1, PRS, BX1, BX2]
  · rw [InitFlow_Vc DIMENSIONS HAVE_ENERGY data RHO k j i hk hj hi]
    simp [hx]
  · intro hE
    rw [InitFlow_Vc DIMENSIONS HAVE_ENERGY data PRS k j i hk hj hi]
    simp [RHO, VX1, PRS, BX1, BX2, hx, hE]
  · rw [InitFlow_Vc DIMENSIONS HAVE_ENERGY data BX2 k j i hk hj hi]
    simp [RHO, VX1, PRS, BX1, BX2, hx]
  · rw [InitFlow_Vc DIMENSIONS HAVE_ENERGY data RHO k j i hk hj hi]
    simp [hx]
  · intro hE
    rw [InitFlow_Vc DIMENSIONS HAVE_ENERGY data PRS k j i hk hj hi]
    simp [RHO, VX1, PRS, BX1, BX2, hx, hE]
  · rw [InitFlow_Vc DIMENSIONS HAVE_ENERGY data BX2 k j i hk hj hi]
    simp [RHO, VX1, PRS, BX1, BX2, hx]
  · intro hD hgrid hghost k j i hk hj hi
    obtain ⟨⟨tI, bI, eI⟩, gI⟩ := hgrid IDIR (Or.inl rfl)
    obtain ⟨⟨tJ, bJ, eJ⟩, gJ⟩ := hgrid JDIR (Or.inr (Or.inl rfl))
    obtain ⟨⟨tK, bK, eK⟩, gK⟩ := hgrid KDIR (Or.inr (Or.inr rfl))
    have gI1 : 1 ≤ data.nghost IDIR := hghost IDIR (by
      rcases hD with rfl | rfl <;> decide)
    unfold MHD.divB
    rw [hB1s k j i (by omega) (by omega) (by omega),
      hB1s k j (i + 1) (by omega) (by omega) (by omega)]
    rcases hD with rfl | rfl
    · simp [D_EXPAND]
    · have gJ1 : 1 ≤ data.nghost JDIR := hghost JDIR (by decide)
      rw [hB2s (le_refl 2) k j i (by omega) (by omega) (by omega),
        hB2s (le_refl 2) k (j + 1) i (by omega) (by omega) (by omega)]
      simp [D_EXPAND]
  · intro k j i hk hj hi
    rw [hB1 k j i hk hj ⟨hi.1, by omega⟩, hB1s k j i hk hj ⟨hi.1, by omega⟩,
      hB1s k j (i + 1) hk hj ⟨by omega, hi.2⟩]
    norm_num

/-- The 1D grid of four active cells with cell centres `i + 1/2`, with the
energy equation: the cell `i = 3` is on the left of `x = 50`, and the active
cell `i = 2` is divergence-free. -/
theorem InitFlow_shock_tube_witness :
    (Setup.InitFlow 1 true grid1D).Vc RHO 0 0 3 = 1
    ∧ MHD.divB 1 (Setup.InitFlow 1 true grid1D).Vs (grid1D.dx IDIR) (grid1D.dx JDIR)
        (grid1D.dx KDIR) 0 0 2 = 0 :=
  ⟨(((InitFlow_shock_tube 1 true grid1D).1 0 0 3 (by decide) (by decide) (by decide)).2.2.2.1
      (by norm_num [grid1D, gridBlock])).1,
    (InitFlow_shock_tube 1 true grid1D).2.1 (Or.inl rfl)
      (fun e he => by
        rcases he with rfl | rfl | rfl <;>
          exact ⟨⟨by decide, by decide, by decide⟩, by decide⟩)
      (fun e he => by
        obtain rfl : e = IDIR := by
          have := he.2
          unfold IDIR
          norm_num at this
          omega
        decide)
      0 0 2 (by decide) (by decide) (by decide)⟩

/-! ## Ghost faces of `BX3s`: the copy -/

/-- A chain of equal neighbours below `m`: if every index `y` of `[lo, m)` holds
the value of `y + 1`, every index of `[lo, m]` holds the value of `m`. -/
theorem chain_down (f : ℤ → real) (lo m : ℤ) (h : ∀ y, lo ≤ y ∧ y < m → f y = f (y + 1))
    (k : ℤ) (hk : lo ≤ k ∧ k ≤ m) : f k = f m := by
  obtain ⟨n, hn⟩ : ∃ n : ℕ, m - k = n := ⟨(m - k).toNat, by omega⟩
  induction n generalizing k with
  | zero =>
    have : k = m := by omega
    rw [this]
  | succ n ih =>
    rw [h k (by omega)]
    exact ih (k + 1) (by omega) (by push_cast at hn ⊢; omega)

/-- A chain of equal neighbours above `m`: if every index `y` of `[m, hi)`
passes its value to `y + 1`, every index of `[m, hi]` holds the value of `m`. -/
theorem chain_up (f : ℤ → real) (m hi : ℤ) (h : ∀ y, m ≤ y ∧ y < hi → f y = f (y + 1))
    (k : ℤ) (hk : m ≤ k ∧ k ≤ hi) : f k = f m := by
  obtain ⟨n, hn⟩ : ∃ n : ℕ, k - m = n := ⟨(k - m).toNat, by omega⟩
  induction n generalizing k with
  | zero =>
    have : k = m := by omega
    rw [this]
  | succ n ih =>
    have h1 := h (k - 1) (by omega)
    rw [show k - 1 + 1 = k by ring] at h1
    rw [← h1]
    exact ih (k - 1) (by omega) (by push_cast at hn ⊢; omega)

/-- C30. In the 3D `BX3s` branch of `ReconstructNormalField` the transverse
differences are identically zero, so the reconstruction is a copy: for every
prior `V_s` and cell widths, after the kernel
`V_s(BX3s,k,j,i) = V_s(BX3s,nghost[K],j,i)` for every `0 <= k < nghost[K]` and
`V_s(BX3s,k,j,i) = V_s(BX3s,end[K]-1,j,i)` for every `end[K] <= k <= np_tot[K]`,
the two source faces keeping their prior value, whatever the values of
`V_s(BX1s)` and `V_s(BX2s)`; the same holds after `ReconstructNormalField`. -/
theorem ReconstructBX3s_is_copy (data : DataBlock) (Vs : IdefixArray4D)
    (hext : data.extents KDIR) (hnp : 1 ≤ data.np_int KDIR)
    (j i : ℤ) (hj : 0 ≤ j ∧ j < data.np_tot JDIR) (hi : 0 ≤ i ∧ i < data.np_tot IDIR) :
    (∀ k, 0 ≤ k ∧ k < data.nghost KDIR →
      MHD.ReconstructBX3s data Vs BX3s k j i
          = MHD.ReconstructBX3s data Vs BX3s (data.nghost KDIR) j i
        ∧ MHD.ReconstructBX3s data Vs BX3s k j i = Vs BX3s (data.nghost KDIR) j i)
    ∧ (∀ k, data.end_ KDIR ≤ k ∧ k ≤ data.np_tot KDIR →
      MHD.ReconstructBX3s data Vs BX3s k j i
          = MHD.ReconstructBX3s data Vs BX3s (data.end_ KDIR - 1) j i
        ∧ MHD.ReconstructBX3s data Vs BX3s k j i = Vs BX3s (data.end_ KDIR - 1) j i)
    ∧ (∀ k, 0 ≤ k ∧ k < data.nghost KDIR →
      (MHD.Physics.ReconstructNormalField 3 data).Vs BX3s k j i
        = (MHD.Physics.ReconstructNormalField 3 data).Vs BX3s (data.nghost KDIR) j i)
    ∧ (∀ k, data.end_ KDIR ≤ k ∧ k ≤ data.np_tot KDIR →
      (MHD.Physics.ReconstructNormalField 3 data).Vs BX3s k j i
        = (MHD.Physics.ReconstructNormalField 3 data).Vs BX3s (data.end_ KDIR - 1) j i) := by
  obtain ⟨htot, -, hend⟩ := hext
  have hmid : data.nghost KDIR - 1 < data.np_tot KDIR - data.nghost KDIR - 1 := by omega
  have low : ∀ (s : IdefixArray4D) k, 0 ≤ k ∧ k < data.nghost KDIR →
      MHD.ReconstructBX3s data s BX3s k j i
        = MHD.ReconstructBX3s data s BX3s (data.nghost KDIR) j i := fun s k hk =>
    chain_down (fun y => MHD.ReconstructBX3s data s BX3s y j i) 0 (data.nghost KDIR)
      (fun y hy => ReconstructBX3s_rel data s hmid j i y hj hi (Or.inl ⟨hy.1, by omega⟩))
      k ⟨hk.1, by omega⟩
  have high : ∀ (s : IdefixArray4D) k, data.end_ KDIR ≤ k ∧ k ≤ data.np_tot KDIR →
      MHD.ReconstructBX3s data s BX3s k j i
        = MHD.ReconstructBX3s data s BX3s (data.end_ KDIR - 1) j i := fun s k hk =>
    chain_up (fun y => MHD.ReconstructBX3s data s BX3s y j i) (data.end_ KDIR - 1)
      (data.np_tot KDIR)
      (fun y hy => ReconstructBX3s_rel data s hmid j i y hj hi
        (Or.inr ⟨by omega, hy.2⟩))
      k ⟨by omega, hk.2⟩
  refine ⟨fun k hk => ⟨low Vs k hk, ?_⟩, fun k hk => ⟨high Vs k hk, ?_⟩, fun k hk => ?_,
    fun k hk => ?_⟩
  · rw [low Vs k hk]
    exact ReconstructBX3s_frame data Vs BX3s j i (data.nghost KDIR) (fun _ => by omega)
  · rw [high Vs k hk]
    exact ReconstructBX3s_frame data Vs BX3s j i (data.end_ KDIR - 1) (fun _ => by omega)
  · rw [ReconstructNormalField_Vs_3D]
    exact low _ k hk
  · rw [ReconstructNormalField_Vs_3D]
    exact high _ k hk

/-- The 3D grid with the field `B = (x,0,-z)` (one ghost layer, two active
cells per direction): the ghost faces `k = 0` and `k = 4` of the cell column
`(j,i) = (1,1)`. -/
theorem ReconstructBX3s_is_copy_witness :
    MHD.ReconstructBX3s grid3D_linear grid3D_linear.Vs BX3s 0 1 1
        = grid3D_linear.Vs BX3s (grid3D_linear.nghost KDIR) 1 1
    ∧ MHD.ReconstructBX3s grid3D_linear grid3D_linear.Vs BX3s 4 1 1
        = grid3D_linear.Vs BX3s (grid3D_linear.end_ KDIR - 1) 1 1 :=
  ⟨((ReconstructBX3s_is_copy grid3D_linear grid3D_linear.Vs ⟨by decide, by decide, by decide⟩
      (by decide) 1 1 (by decide) (by decide)).1 0 (by decide)).2,
    ((ReconstructBX3s_is_copy grid3D_linear grid3D_linear.Vs ⟨by decide, by decide, by decide⟩
      (by decide) 1 1 (by decide) (by decide)).2.1 4 (by decide)).2⟩

/-! ## Checked loops -/

/-- A checked loop whose every iteration passes its check runs like the
unchecked loop. -/
theorem foldlM_eq_some {σ ι : Type} (f : σ → ι → Option σ) (g : ι → σ → σ) (l : List ι)
    (h : ∀ x ∈ l, ∀ s, f s x = some (g x s)) (s : σ) :
    l.foldlM f s = some (l.foldl (fun s x => g x s) s) := by
  induction l generalizing s with
  | nil => rfl
  | cons a l ih =>
    rw [List.foldlM_cons, h a (List.mem_cons_self _ _) s, List.foldl_cons]
    exact ih (fun x hx => h x (List.mem_cons_of_mem _ hx)) (g a s)

/-- A checked loop with an iteration that fails its check does not finish. -/
theorem foldlM_eq_none {σ ι : Type} (f : σ → ι → Option σ) (l : List ι)
    (h : ∃ x ∈ l, ∀ s, f s x = none) (s : σ) : l.foldlM f s = none := by
  induction l generalizing s with
  | nil =>
    obtain ⟨x, hx, -⟩ := h
    cases hx
  | cons a l ih =>
    rw [List.foldlM_cons]
    cases hfa : f s a with
    | none => rfl
    | some s1 =>
      obtain ⟨x, hx, hn⟩ := h
      rcases List.mem_cons.1 hx with rfl | hl
      · rw [hn s] at hfa
        cases hfa
      · exact ih ⟨x, hl, hn⟩ s1

theorem foldl_pair {α β ι : Type} (f : ι → α → α) (g : ι → β → β) (l : List ι) (s : α × β) :
    l.foldl (fun (s : α × β) x => (f x s.1, g x s.2)) s
      = (l.foldl (fun a x => f x a) s.1, l.foldl (fun b x => g x b) s.2) := by
  induction l generalizing s with
  | nil => rfl
  | cons a l ih =>
    rw [List.foldl_cons, List.foldl_cons, List.foldl_cons]
    exact ih _

/-! ## Marks -/

theorem mark_self (W : Written) (n k j i : ℤ) : mark W n k j i n k j i = true := by
  simp [mark]

theorem mark_mono (W : Written) (n k j i n' k' j' i' : ℤ) (h : W n' k' j' i' = true) :
    mark W n k j i n' k' j' i' = true := by
  unfold mark
  split_ifs
  · rfl
  · exact h

/-- A loop of marking steps: an entry that some iteration marks is marked at
the end. -/
theorem foldl_marked {ι : Type} (body : ι → Written → Written)
    (hmono : ∀ x W n k j i, W n k j i = true → body x W n k j i = true)
    (l : List ι) (W : Written) (n k j i : ℤ)
    (h : ∃ x ∈ l, ∀ W, body x W n k j i = true) :
    (l.foldl (fun W x => body x W) W) n k j i = true := by
  induction l generalizing W with
  | nil =>
    obtain ⟨x, hx, -⟩ := h
    cases hx
  | cons a l ih =>
    rw [List.foldl_cons]
    obtain ⟨x, hx, hb⟩ := h
    rcases List.mem_cons.1 hx with rfl | hl
    · exact foldl_preserve body (fun W' => W' n k j i = true) l
        (fun y _ W' hW' => hmono y W' n k j i hW') _ (hb W)
    · exact ih _ ⟨x, hl, hb⟩

/-- The marks of the channels `[0, NVAR)` of a cell. -/
theorem forLoop_mark (NVAR : ℤ) (W : Written) (k j i : ℤ) (n k' j' i' : ℤ) :
    (W n k' j' i' = true →
      forLoop (irange 0 NVAR) (fun nv W => mark W nv k j i) W n k' j' i' = true)
    ∧ ((0 ≤ n ∧ n < NVAR) → k' = k → j' = j → i' = i →
      forLoop (irange 0 NVAR) (fun nv W => mark W nv k j i) W n k' j' i' = true) := by
  unfold forLoop
  constructor
  · intro h
    exact foldl_preserve (fun nv (W : Written) => mark W nv k j i)
      (fun W' => W' n k' j' i' = true) _
      (fun y _ W' hW' => mark_mono W' y k j i n k' j' i' hW') W h
  · rintro hn rfl rfl rfl
    exact foldl_marked (fun nv (W : Written) => mark W nv k' j' i')
      (fun x W' n' k j i hW' => mark_mono W' x k' j' i' n' k j i hW') _ W n k' j' i'
      ⟨n, (mem_irange _ _ _).2 hn, fun W' => mark_self W' n k' j' i'⟩

/-! ## The three kernels of a sweep pass their checks -/

/-- With two ghost layers along the sweep, every check of the `ORDER == 2`
`ExtrapolatePrimVar` passes: the checked kernel returns the block of the
unchecked one, and `PrimL`, `PrimR` are marked on the whole range of
`CalcRiemannFlux`. -/
theorem HD_ExtrapolatePrimVar_checked2 (NVAR : ℤ) (data : DataBlock) (dir : ℤ)
    (W : Written × Written) (hdir : dir = IDIR ∨ dir = JDIR ∨ dir = KDIR)
    (hgrid : ∀ e : ℤ, e = IDIR ∨ e = JDIR ∨ e = KDIR → data.extents e ∧ 0 ≤ data.nghost e)
    (hghost : 2 ≤ data.nghost dir) :
    ∃ WL WR : Written,
      HD.Physics.ExtrapolatePrimVar_checked 2 NVAR data dir W
        = some (HD.Physics.ExtrapolatePrimVar 2 NVAR data dir, (WL, WR))
      ∧ ∀ n k j i, 0 ≤ n ∧ n < NVAR →
          data.beg KDIR ≤ k ∧ k < data.end_ KDIR + sweepOffset dir KDIR →
          data.beg JDIR ≤ j ∧ j < data.end_ JDIR + sweepOffset dir JDIR →
          data.beg IDIR ≤ i ∧ i < data.end_ IDIR + sweepOffset dir IDIR →
          WL n k j i = true ∧ WR n k j i = true := by
  obtain ⟨⟨tI, bI, eI⟩, gI⟩ := hgrid IDIR (Or.inl rfl)
  obtain ⟨⟨tJ, bJ, eJ⟩, gJ⟩ := hgrid JDIR (Or.inr (Or.inl rfl))
  obtain ⟨⟨tK, bK, eK⟩, gK⟩ := hgrid KDIR (Or.inr (Or.inr rfl))
  obtain ⟨l, hl⟩ : ∃ l, l = box4 0 NVAR (data.beg KDIR - sweepOffset dir KDIR)
      (data.end_ KDIR + sweepOffset dir KDIR) (data.beg JDIR - sweepOffset dir JDIR)
      (data.end_ JDIR + sweepOffset dir JDIR) (data.beg IDIR - sweepOffset dir IDIR)
      (data.end_ IDIR + sweepOffset dir IDIR) := ⟨_, rfl⟩
  obtain ⟨mL, hmL⟩ : ∃ mL : ℤ × ℤ × ℤ × ℤ → Written → Written,
      mL = fun x Wm => mark Wm x.1 (x.2.1 + sweepOffset dir KDIR)
        (x.2.2.1 + sweepOffset dir JDIR) (x.2.2.2 + sweepOffset dir IDIR) := ⟨_, rfl⟩
  obtain ⟨mR, hmR⟩ : ∃ mR : ℤ × ℤ × ℤ × ℤ → Written → Written,
      mR = fun x Wm => mark Wm x.1 x.2.1 x.2.2.1 x.2.2.2 := ⟨_, rfl⟩
  obtain ⟨b, hb⟩ : ∃ b : ℤ × ℤ × ℤ × ℤ → IdefixArray4D × IdefixArray4D
        → IdefixArray4D × IdefixArray4D,
      b = fun x P => HD.Extrapolate_body2 data.Vc (sweepOffset dir KDIR) (sweepOffset dir JDIR)
        (sweepOffset dir IDIR) x.1 x.2.1 x.2.2.1 x.2.2.2 P := ⟨_, rfl⟩
  have hstep : ∀ x ∈ l, ∀ S : (IdefixArray4D × IdefixArray4D) × (Written × Written),
      HD.Extrapolate_checked2 data (sweepOffset dir KDIR) (sweepOffset dir JDIR)
          (sweepOffset dir IDIR) x.1 x.2.1 x.2.2.1 x.2.2.2 S
        = some (b x S.1, (mL x S.2.1, mR x S.2.2)) := by
    rintro ⟨n, k, j, i⟩ hx S
    rw [hl] at hx
    have hx' := (mem_box4 _ _ _ _ _ _ _ _ _ _ _ _).1 hx
    unfold HD.Extrapolate_checked2
    rw [if_pos, hb, hmL, hmR]
    unfold DataBlock.inside
    dsimp only
    obtain ⟨_, hk, hj, hi⟩ := hx'
    rcases hdir with rfl | rfl | rfl
    · simp only [sweepOffset_II, sweepOffset_IJ, sweepOffset_IK] at hk hj hi ⊢
      omega
    · simp only [sweepOffset_JI, sweepOffset_JJ, sweepOffset_JK] at hk hj hi ⊢
      omega
    · simp only [sweepOffset_KI, sweepOffset_KJ, sweepOffset_KK] at hk hj hi ⊢
      omega
  have hrun := foldlM_eq_some
    (fun (S : (IdefixArray4D × IdefixArray4D) × (Written × Written)) (x : ℤ × ℤ × ℤ × ℤ) =>
      HD.Extrapolate_checked2 data (sweepOffset dir KDIR) (sweepOffset dir JDIR)
        (sweepOffset dir IDIR) x.1 x.2.1 x.2.2.1 x.2.2.2 S)
    (fun x S => (b x S.1, (mL x S.2.1, mR x S.2.2))) l hstep ((data.PrimL, data.PrimR), W)
  have hsplit := foldl_pair b (fun x (S : Written × Written) => (mL x S.1, mR x S.2)) l
    ((data.PrimL, data.PrimR), W)
  rw [foldl_pair mL mR l W] at hsplit
  rw [hsplit] at hrun
  refine ⟨l.foldl (fun Wm x => mL x Wm) W.1, l.foldl (fun Wm x => mR x Wm) W.2, ?_, ?_⟩
  · unfold HD.Physics.ExtrapolatePrimVar_checked HD.Physics.ExtrapolatePrimVar
      idefix_for4_checked idefix_for4
    simp only [if_neg (show ¬ (2 : ℕ) = 1 by decide), if_true]
    rw [← hl, hrun, hb]
    rfl
  · intro n k j i hn hk hj hi
    constructor
    · refine foldl_marked mL
        (fun x W' n k j i hW' => by rw [hmL]; exact mark_mono W' _ _ _ _ n k j i hW')
        l _ n k j i
        ⟨(n, k - sweepOffset dir KDIR, j - sweepOffset dir JDIR, i - sweepOffset dir IDIR),
          ?_, fun W' => ?_⟩
      · rw [hl]
        refine (mem_box4 _ _ _ _ _ _ _ _ _ _ _ _).2 ⟨hn, ?_, ?_, ?_⟩
        · have := sweepOffset_nonneg dir KDIR
          omega
        · have := sweepOffset_nonneg dir JDIR
          omega
        · have := sweepOffset_nonneg dir IDIR
          omega
      · rw [hmL]
        dsimp only
        rw [sub_add_cancel, sub_add_cancel, sub_add_cancel]
        exact mark_self W' n k j i
    · refine foldl_marked mR
        (fun x W' n k j i hW' => by rw [hmR]; exact mark_mono W' _ _ _ _ n k j i hW')
        l _ n k j i ⟨(n, k, j, i), ?_, fun W' => by rw [hmR]; exact mark_self W' n k j i⟩
      rw [hl]
      refine (mem_box4 _ _ _ _ _ _ _ _ _ _ _ _).2 ⟨hn, ?_, ?_, ?_⟩
      · have := sweepOffset_nonneg dir KDIR
        omega
      · have := sweepOffset_nonneg dir JDIR
        omega
      · have := sweepOffset_nonneg dir IDIR
        omega

/-- With `PrimL`, `PrimR` marked on its range and one ghost layer along the
sweep, every check of `CalcRiemannFlux` passes: the checked kernel returns the
block of the unchecked one, and `Flux` is marked on the whole range. -/
theorem HD_CalcRiemannFlux_checked_ok (this : HD.Physics) (HAVE_ENERGY ISOTHERMAL : Bool)
    (SQRT : real → real) (NVAR : ℤ) (data : DataBlock) (dir : ℤ) (WL WR WF : Written)
    (hdir : dir = IDIR ∨ dir = JDIR ∨ dir = KDIR)
    (hgrid : ∀ e : ℤ, e = IDIR ∨ e = JDIR ∨ e = KDIR → data.extents e ∧ 0 ≤ data.nghost e)
    (hghost : 1 ≤ data.nghost dir)
    (hW : ∀ n k j i, 0 ≤ n ∧ n < NVAR →
      data.beg KDIR ≤ k ∧ k < data.end_ KDIR + sweepOffset dir KDIR →
      data.beg JDIR ≤ j ∧ j < data.end_ JDIR + sweepOffset dir JDIR →
      data.beg IDIR ≤ i ∧ i < data.end_ IDIR + sweepOffset dir IDIR →
      WL n k j i = true ∧ WR n k j i = true) :
    ∃ WF' : Written,
      this.CalcRiemannFlux_checked HAVE_ENERGY ISOTHERMAL SQRT NVAR data dir WL WR WF
        = some (this.CalcRiemannFlux HAVE_ENERGY ISOTHERMAL SQRT NVAR data dir, WF')
      ∧ ∀ n k j i, 0 ≤ n ∧ n < NVAR →
          data.beg KDIR ≤ k ∧ k < data.end_ KDIR + sweepOffset dir KDIR →
          data.beg JDIR ≤ j ∧ j < data.end_ JDIR + sweepOffset dir JDIR →
          data.beg IDIR ≤ i ∧ i < data.end_ IDIR + sweepOffset dir IDIR →
          WF' n k j i = true := by
  obtain ⟨⟨tI, bI, eI⟩, gI⟩ := hgrid IDIR (Or.inl rfl)
  obtain ⟨⟨tJ, bJ, eJ⟩, gJ⟩ := hgrid JDIR (Or.inr (Or.inl rfl))
  obtain ⟨⟨tK, bK, eK⟩, gK⟩ := hgrid KDIR (Or.inr (Or.inr rfl))
  obtain ⟨l, hl⟩ : ∃ l, l = box3 (data.beg KDIR) (data.end_ KDIR + sweepOffset dir KDIR)
      (data.beg JDIR) (data.end_ JDIR + sweepOffset dir JDIR) (data.beg IDIR)
      (data.end_ IDIR + sweepOffset dir IDIR) := ⟨_, rfl⟩
  obtain ⟨m, hm⟩ : ∃ m : ℤ × ℤ × ℤ → Written → Written,
      m = fun x Wm => forLoop (irange 0 NVAR) (fun nv W => mark W nv x.1 x.2.1 x.2.2) Wm :=
    ⟨_, rfl⟩
  obtain ⟨b, hb⟩ : ∃ b : ℤ × ℤ × ℤ → IdefixArray4D × IdefixArray3D
        → IdefixArray4D × IdefixArray3D,
      b = fun x P => HD.RiemannFlux_body HAVE_ENERGY ISOTHERMAL SQRT NVAR data.PrimL data.PrimR
        (data.dx dir) (this.gamma - ONE_F) this.C2Iso dir (sweepOffset dir KDIR)
        (sweepOffset dir JDIR) (sweepOffset dir IDIR) x.1 x.2.1 x.2.2 P := ⟨_, rfl⟩
  have hstep : ∀ x ∈ l, ∀ S : (IdefixArray4D × IdefixArray3D) × Written,
      HD.RiemannFlux_checked HAVE_ENERGY ISOTHERMAL SQRT NVAR data WL WR (this.gamma - ONE_F)
          this.C2Iso dir (sweepOffset dir KDIR) (sweepOffset dir JDIR) (sweepOffset dir IDIR)
          x.1 x.2.1 x.2.2 S
        = some (b x S.1, m x S.2) := by
    rintro ⟨k, j, i⟩ hx S
    rw [hl] at hx
    obtain ⟨hk, hj, hi⟩ := (mem_box3 _ _ _ _ _ _ _ _ _).1 hx
    unfold HD.RiemannFlux_checked
    dsimp only
    rw [if_pos, hb, hm]
    refine ⟨?_, fun nv hnv => hW nv k j i ((mem_irange _ _ _).1 hnv) hk hj hi, ?_⟩
    · unfold DataBlock.inside
      have h1 := sweepOffset_nonneg dir KDIR
      have h2 := sweepOffset_nonneg dir JDIR
      have h3 := sweepOffset_nonneg dir IDIR
      rcases hdir with rfl | rfl | rfl
      · simp only [sweepOffset_II, sweepOffset_IJ, sweepOffset_IK] at hk hj hi ⊢
        omega
      · simp only [sweepOffset_JI, sweepOffset_JJ, sweepOffset_JK] at hk hj hi ⊢
        omega
      · simp only [sweepOffset_KI, sweepOffset_KJ, sweepOffset_KK] at hk hj hi ⊢
        omega
    · rcases hdir with rfl | rfl | rfl
      · simp only [sweepOffset_II, sweepOffset_IJ, sweepOffset_IK] at hk hj hi ⊢
        omega
      · simp only [sweepOffset_JI, sweepOffset_JJ, sweepOffset_JK] at hk hj hi ⊢
        omega
      · simp only [sweepOffset_KI, sweepOffset_KJ, sweepOffset_KK] at hk hj hi ⊢
        omega
  have hrun := foldlM_eq_some
    (fun (S : (IdefixArray4D × IdefixArray3D) × Written) (x : ℤ × ℤ × ℤ) =>
      HD.RiemannFlux_checked HAVE_ENERGY ISOTHERMAL SQRT NVAR data WL WR (this.gamma - ONE_F)
        this.C2Iso dir (sweepOffset dir KDIR) (sweepOffset dir JDIR) (sweepOffset dir IDIR)
        x.1 x.2.1 x.2.2 S)
    (fun x S => (b x S.1, m x S.2)) l hstep ((data.FluxRiemann, data.InvDtHyp), WF)
  rw [foldl_pair b m l ((data.FluxRiemann, data.InvDtHyp), WF)] at hrun
  refine ⟨l.foldl (fun Wm x => m x Wm) WF, ?_, ?_⟩
  · unfold HD.Physics.CalcRiemannFlux_checked HD.Physics.CalcRiemannFlux
      idefix_for3_checked idefix_for3
    dsimp only
    rw [← hl, hrun, hb]
    rfl
  · intro n k j i hn hk hj hi
    refine foldl_marked m
      (fun x W' n k j i hW' => by
        rw [hm]
        exact (forLoop_mark NVAR W' _ _ _ n k j i).1 hW')
      l _ n k j i ⟨(k, j, i), ?_, fun W' => ?_⟩
    · rw [hl]
      exact (mem_box3 _ _ _ _ _ _ _ _ _).2 ⟨hk, hj, hi⟩
    · rw [hm]
      exact (forLoop_mark NVAR W' k j i n k j i).2 hn rfl rfl rfl

/-- With `Flux` marked on the range of `CalcRiemannFlux` and one ghost layer
along the sweep, every check of `CalcRightHandSide` passes. -/
theorem HD_CalcRightHandSide_checked_ok (NVAR : ℤ) (data : DataBlock) (dir : ℤ) (dt : real)
    (WF : Written) (hdir : dir = IDIR ∨ dir = JDIR ∨ dir = KDIR)
    (hgrid : ∀ e : ℤ, e = IDIR ∨ e = JDIR ∨ e = KDIR → data.extents e ∧ 0 ≤ data.nghost e)
    (hghost : 1 ≤ data.nghost dir)
    (hW : ∀ n k j i, 0 ≤ n ∧ n < NVAR →
      data.beg KDIR ≤ k ∧ k < data.end_ KDIR + sweepOffset dir KDIR →
      data.beg JDIR ≤ j ∧ j < data.end_ JDIR + sweepOffset dir JDIR →
      data.beg IDIR ≤ i ∧ i < data.end_ IDIR + sweepOffset dir IDIR →
      WF n k j i = true) :
    HD.Physics.CalcRightHandSide_checked NVAR data dir dt WF
      = some (HD.Physics.CalcRightHandSide NVAR data dir dt) := by
  obtain ⟨⟨tI, bI, eI⟩, gI⟩ := hgrid IDIR (Or.inl rfl)
  obtain ⟨⟨tJ, bJ, eJ⟩, gJ⟩ := hgrid JDIR (Or.inr (Or.inl rfl))
  obtain ⟨⟨tK, bK, eK⟩, gK⟩ := hgrid KDIR (Or.inr (Or.inr rfl))
  have hstep : ∀ x ∈ box4 0 NVAR (data.beg KDIR) (data.end_ KDIR) (data.beg JDIR)
        (data.end_ JDIR) (data.beg IDIR) (data.end_ IDIR), ∀ Uc : IdefixArray4D,
      HD.RightHandSide_checked data WF dir dt (sweepOffset dir KDIR) (sweepOffset dir JDIR)
          (sweepOffset dir IDIR) x.1 x.2.1 x.2.2.1 x.2.2.2 Uc
        = some (HD.RightHandSide_body (data.dx dir) data.FluxRiemann dt (sweepOffset dir KDIR)
            (sweepOffset dir JDIR) (sweepOffset dir IDIR) x.1 x.2.1 x.2.2.1 x.2.2.2 Uc) := by
    rintro ⟨n, k, j, i⟩ hx Uc
    obtain ⟨hn, hk, hj, hi⟩ := (mem_box4 _ _ _ _ _ _ _ _ _ _ _ _).1 hx
    unfold HD.RightHandSide_checked
    dsimp only
    rw [if_pos]
    have h1 := sweepOffset_nonneg dir KDIR
    have h2 := sweepOffset_nonneg dir JDIR
    have h3 := sweepOffset_nonneg dir IDIR
    refine ⟨?_, ?_, ⟨hW n _ _ _ hn ⟨by omega, by omega⟩ ⟨by omega, by omega⟩
      ⟨by omega, by omega⟩, hW n k j i hn ⟨hk.1, by omega⟩ ⟨hj.1, by omega⟩ ⟨hi.1, by omega⟩⟩,
      ?_⟩
    · unfold DataBlock.inside
      omega
    · unfold DataBlock.inside
      rcases hdir with rfl | rfl | rfl
      · simp only [sweepOffset_II, sweepOffset_IJ, sweepOffset_IK]
        omega
      · simp only [sweepOffset_JI, sweepOffset_JJ, sweepOffset_JK]
        omega
      · simp only [sweepOffset_KI, sweepOffset_KJ, sweepOffset_KK]
        omega
    · rcases hdir with rfl | rfl | rfl
      · simp only [sweepOffset_II, sweepOffset_IJ, sweepOffset_IK]
        omega
      · simp only [sweepOffset_JI, sweepOffset_JJ, sweepOffset_JK]
        omega
      · simp only [sweepOffset_KI, sweepOffset_KJ, sweepOffset_KK]
        omega
  unfold HD.Physics.CalcRightHandSide_checked HD.Physics.CalcRightHandSide
    idefix_for4_checked idefix_for4
  dsimp only
  rw [foldlM_eq_some _ _ _ hstep]
  rfl

/-- With at most one ghost layer along the sweep the `ORDER == 2`
`ExtrapolatePrimVar` fails its check: the first iteration along the sweep
reads `Vc` two cells below `beg`, outside the array. -/
theorem HD_ExtrapolatePrimVar_checked2_fails (NVAR : ℤ) (data : DataBlock) (dir : ℤ)
    (W : Written × Written) (hdir : dir = IDIR ∨ dir = JDIR ∨ dir = KDIR) (hN : 1 ≤ NVAR)
    (hgrid : ∀ e : ℤ, e = IDIR ∨ e = JDIR ∨ e = KDIR → data.extents e ∧ 1 ≤ data.np_int e)
    (hghost : data.nghost dir ≤ 1) :
    HD.Physics.ExtrapolatePrimVar_checked 2 NVAR data dir W = none := by
  obtain ⟨⟨tI, bI, eI⟩, gI⟩ := hgrid IDIR (Or.inl rfl)
  obtain ⟨⟨tJ, bJ, eJ⟩, gJ⟩ := hgrid JDIR (Or.inr (Or.inl rfl))
  obtain ⟨⟨tK, bK, eK⟩, gK⟩ := hgrid KDIR (Or.inr (Or.inr rfl))
  unfold HD.Physics.ExtrapolatePrimVar_checked idefix_for4_checked
  simp only [if_neg (show ¬ (2 : ℕ) = 1 by decide), if_true]
  rw [foldlM_eq_none _ _ ⟨(0, data.beg KDIR - sweepOffset dir KDIR,
    data.beg JDIR - sweepOffset dir JDIR, data.beg IDIR - sweepOffset dir IDIR), ?_, ?_⟩]
  · rfl
  · have h1 := sweepOffset_nonneg dir KDIR
    have h2 := sweepOffset_nonneg dir JDIR
    have h3 := sweepOffset_nonneg dir IDIR
    exact (mem_box4 _ _ _ _ _ _ _ _ _ _ _ _).2
      ⟨⟨le_refl _, by omega⟩, ⟨le_refl _, by omega⟩, ⟨le_refl _, by omega⟩,
        ⟨le_refl _, by omega⟩⟩
  · intro S
    unfold HD.Extrapolate_checked2
    rw [if_neg]
    rintro ⟨hin, -, -⟩
    unfold DataBlock.inside at hin
    dsimp only at hin
    rcases hdir with rfl | rfl | rfl
    · simp only [sweepOffset_II, sweepOffset_IJ, sweepOffset_IK] at hin
      omega
    · simp only [sweepOffset_JI, sweepOffset_JJ, sweepOffset_JK] at hin
      omega
    · simp only [sweepOffset_KI, sweepOffset_KJ, sweepOffset_KK] at hin
      omega

/-- The checked sweep needs its two ghost layers: with `nghost[d] <= 1` the
`ORDER == 2` sweep stops at an access outside the arrays. -/
theorem sweep_checked_needs_two_ghost_layers (this : HD.Physics)
    (HAVE_ENERGY ISOTHERMAL : Bool) (SQRT : real → real) (NVAR : ℤ) (data : DataBlock)
    (dir : ℤ) (dt : real) (hdir : dir = IDIR ∨ dir = JDIR ∨ dir = KDIR) (hN : 1 ≤ NVAR)
    (hgrid : ∀ e : ℤ, e = IDIR ∨ e = JDIR ∨ e = KDIR → data.extents e ∧ 1 ≤ data.np_int e)
    (hghost : data.nghost dir ≤ 1) :
    HD.Physics.sweep_checked this HAVE_ENERGY ISOTHERMAL SQRT 2 NVAR data dir dt = none := by
  unfold HD.Physics.sweep_checked
  rw [HD_ExtrapolatePrimVar_checked2_fails NVAR data dir _ hdir hN hgrid hghost]
  rfl

/-- C31. Scratch buffers are fully written before they are read within one HD
directional sweep (`ORDER == 2`, `nghost[d] >= 2`, a block with the extents of
the data model): started with no entry of `PrimL`, `PrimR`, `Flux` written, the
sweep `ExtrapolatePrimVar(d)`, `CalcRiemannFlux(d)`, `CalcRightHandSide(d,dt)`
passes every check, so every `PrimL` and `PrimR` entry read by `CalcRiemannFlux`
was written by the preceding `ExtrapolatePrimVar`, every `Flux` entry read by
`CalcRightHandSide` was written by that `CalcRiemannFlux`, and every index the
three kernels access lies inside `[0, np_tot)`; the checked sweep returns the
block of the unchecked kernels. -/
theorem sweep_scratch_written_before_read (this : HD.Physics)
    (HAVE_ENERGY ISOTHERMAL : Bool) (SQRT : real → real) (NVAR : ℤ) (data : DataBlock)
    (dir : ℤ) (dt : real) (hdir : dir = IDIR ∨ dir = JDIR ∨ dir = KDIR)
    (hgrid : ∀ e : ℤ, e = IDIR ∨ e = JDIR ∨ e = KDIR → data.extents e ∧ 0 ≤ data.nghost e)
    (hghost : 2 ≤ data.nghost dir) :
    (∃ WL WR WF : Written,
      HD.Physics.ExtrapolatePrimVar_checked 2 NVAR data dir
          (fun _ _ _ _ => false, fun _ _ _ _ => false)
        = some (HD.Physics.ExtrapolatePrimVar 2 NVAR data dir, (WL, WR))
      ∧ this.CalcRiemannFlux_checked HAVE_ENERGY ISOTHERMAL SQRT NVAR
          (HD.Physics.ExtrapolatePrimVar 2 NVAR data dir) dir WL WR (fun _ _ _ _ => false)
        = some (this.CalcRiemannFlux HAVE_ENERGY ISOTHERMAL SQRT NVAR
            (HD.Physics.ExtrapolatePrimVar 2 NVAR data dir) dir, WF)
      ∧ HD.Physics.CalcRightHandSide_checked NVAR
          (this.CalcRiemannFlux HAVE_ENERGY ISOTHERMAL SQRT NVAR
            (HD.Physics.ExtrapolatePrimVar 2 NVAR data dir) dir) dir dt WF
        = some (HD.Physics.CalcRightHandSide NVAR
            (this.CalcRiemannFlux HAVE_ENERGY ISOTHERMAL SQRT NVAR
              (HD.Physics.ExtrapolatePrimVar 2 NVAR data dir) dir) dir dt))
    ∧ HD.Physics.sweep_checked this HAVE_ENERGY ISOTHERMAL SQRT 2 NVAR data dir dt
      = some (HD.Physics.CalcRightHandSide NVAR
          (this.CalcRiemannFlux HAVE_ENERGY ISOTHERMAL SQRT NVAR
            (HD.Physics.ExtrapolatePrimVar 2 NVAR data dir) dir) dir dt) := by
  obtain ⟨WL, WR, hE, hLR⟩ := HD_ExtrapolatePrimVar_checked2 NVAR data dir
    (fun _ _ _ _ => false, fun _ _ _ _ => false) hdir hgrid hghost
  obtain ⟨WF, hR, hF⟩ := HD_CalcRiemannFlux_checked_ok this HAVE_ENERGY ISOTHERMAL SQRT NVAR
    (HD.Physics.ExtrapolatePrimVar 2 NVAR data dir) dir WL WR (fun _ _ _ _ => false) hdir
    (fun e he => hgrid e he) (show 1 ≤ data.nghost dir by omega) hLR
  have hH := HD_CalcRightHandSide_checked_ok NVAR
    (this.CalcRiemannFlux HAVE_ENERGY ISOTHERMAL SQRT NVAR
      (HD.Physics.ExtrapolatePrimVar 2 NVAR data dir) dir) dir dt WF hdir
    (fun e he => hgrid e he) (show 1 ≤ data.nghost dir by omega) hF
  refine ⟨⟨WL, WR, WF, hE, hR, hH⟩, ?_⟩
  unfold HD.Physics.sweep_checked
  rw [hE]
  show (this.CalcRiemannFlux_checked HAVE_ENERGY ISOTHERMAL SQRT NVAR
      (HD.Physics.ExtrapolatePrimVar 2 NVAR data dir) dir WL WR (fun _ _ _ _ => false)).bind _
    = _
  rw [hR]
  exact hH

/-- The sweep along direction 1 of the 1D grid with the ramp `V_c = i*i` (two
ghost layers): the checked sweep passes every check. -/
theorem sweep_scratch_written_before_read_witness :
    HD.Physics.sweep_checked HD.physicsDefault true false id 2 5 grid1D_ramp IDIR (1 / 2)
      = some (HD.Physics.CalcRightHandSide 5
          (HD.physicsDefault.CalcRiemannFlux true false id 5
            (HD.Physics.ExtrapolatePrimVar 2 5 grid1D_ramp IDIR) IDIR) IDIR (1 / 2)) :=
  (sweep_scratch_written_before_read HD.physicsDefault true false id 5 grid1D_ramp IDIR (1 / 2)
    (Or.inl rfl)
    (fun e he => by
      rcases he with rfl | rfl | rfl <;> exact ⟨⟨by decide, by decide, by decide⟩, by decide⟩)
    (by decide)).2
/-! ## Consistency of the numerical flux (HD) -/

/-- C32. The HD numerical flux is consistent with the physical flux: for every
primitive state `V`, every `gamma`, `C2Iso`, direction `d` and every square
root (so every signal speed `c_max`), if `PrimL = PrimR = V` in the channels
`[0,NVAR)` at an interface of the range of `CalcRiemannFlux`, then the kernel
writes `Flux(n) = K_Flux(V, K_PrimToCons(V), d)(n)` for every channel `n` of
`[0,NVAR)` at that interface. -/
theorem CalcRiemannFlux_consistent (this : HD.Physics) (HAVE_ENERGY ISOTHERMAL : Bool)
    (SQRT : real → real) (NVAR : ℤ) (data : DataBlock) (dir : ℤ) (V : IdefixArray1D)
    (n k j i : ℤ) (hn : 0 ≤ n ∧ n < NVAR)
    (hk : data.beg KDIR ≤ k ∧ k < data.end_ KDIR + sweepOffset dir KDIR)
    (hj : data.beg JDIR ≤ j ∧ j < data.end_ JDIR + sweepOffset dir JDIR)
    (hi : data.beg IDIR ≤ i ∧ i < data.end_ IDIR + sweepOffset dir IDIR)
    (hL : ∀ m, 0 ≤ m ∧ m < NVAR → data.PrimL m k j i = V m)
    (hR : ∀ m, 0 ≤ m ∧ m < NVAR → data.PrimR m k j i = V m) :
    (this.CalcRiemannFlux HAVE_ENERGY ISOTHERMAL SQRT NVAR data dir).FluxRiemann n k j i
      = HD.K_Flux HAVE_ENERGY ISOTHERMAL localArray
          (fun m => if 0 ≤ m ∧ m < NVAR then V m else localArray m)
          (HD.K_PrimToCons HAVE_ENERGY localArray
            (fun m => if 0 ≤ m ∧ m < NVAR then V m else localArray m) (this.gamma - ONE_F))
          this.C2Iso dir n := by
  have eL : cellVector NVAR data.PrimL k j i
      = fun m => if 0 ≤ m ∧ m < NVAR then V m else localArray m := by
    funext m
    unfold cellVector
    by_cases hm : 0 ≤ m ∧ m < NVAR
    · rw [if_pos hm, if_pos hm, hL m hm]
    · rw [if_neg hm, if_neg hm]
  have eR : cellVector NVAR data.PrimR k j i
      = fun m => if 0 ≤ m ∧ m < NVAR then V m else localArray m := by
    funext m
    unfold cellVector
    by_cases hm : 0 ≤ m ∧ m < NVAR
    · rw [if_pos hm, if_pos hm, hR m hm]
    · rw [if_neg hm, if_neg hm]
  rw [HD_CalcRiemannFlux_cell this HAVE_ENERGY ISOTHERMAL SQRT NVAR data dir n k j i hn hk hj hi,
    eL, eR]
  simp only [HALF_F]
  ring

/-- The sweep along direction 1 of the 1D grid `grid1D_equalStates` at the
interface `i = 2`, with the square root replaced by the identity: the mass
flux is `rho*v = 2`. -/
theorem CalcRiemannFlux_consistent_witness :
    (HD.physicsDefault.CalcRiemannFlux true false id 5 grid1D_equalStates IDIR).FluxRiemann RHO
        0 0 2 = 2 :=
  (CalcRiemannFlux_consistent HD.physicsDefault true false id 5 grid1D_equalStates IDIR
    (cellState 1 2 0 0 3) RHO 0 0 2 (by decide) (by decide) (by decide) (by decide)
    (fun _ _ => rfl) (fun _ _ => rfl)).trans (by
      norm_num [HD.K_Flux, HD.K_PrimToCons, set1, localArray, RHO, VX1, VX2, VX3, MX1, MX2, MX3,
        PRS, ENG, IDIR, ONE_F, HD.physicsDefault, cellState])
/-! ## The frame of `ReconstructNormalField` -/

/-- The three kernels of `ReconstructNormalField` leave every face outside
their two loops as it was, in every build. -/
theorem ReconstructNormalField_frame_any (DIMENSIONS : ℕ) (data : DataBlock) (n k j i : ℤ)
    (h1 : n = BX1s → data.nghost IDIR - 1 < i ∧ i ≤ data.np_tot IDIR - data.nghost IDIR - 1)
    (h2 : n = BX2s → data.nghost JDIR - 1 < j ∧ j ≤ data.np_tot JDIR - data.nghost JDIR - 1)
    (h3 : n = BX3s → data.nghost KDIR - 1 < k ∧ k ≤ data.np_tot KDIR - data.nghost KDIR - 1) :
    (MHD.Physics.ReconstructNormalField DIMENSIONS data).Vs n k j i = data.Vs n k j i := by
  simp only [MHD.Physics.ReconstructNormalField]
  by_cases hD3 : DIMENSIONS = 3
  · rw [if_pos hD3, ReconstructBX3s_frame data _ n j i k h3]
    by_cases hD2 : 2 ≤ DIMENSIONS
    · rw [if_pos hD2, ReconstructBX2s_frame DIMENSIONS data _ n k i j h2,
        ReconstructBX1s_frame DIMENSIONS data _ n k j i h1]
    · rw [if_neg hD2, ReconstructBX1s_frame DIMENSIONS data _ n k j i h1]
  · rw [if_neg hD3]
    by_cases hD2 : 2 ≤ DIMENSIONS
    · rw [if_pos hD2, ReconstructBX2s_frame DIMENSIONS data _ n k i j h2,
        ReconstructBX1s_frame DIMENSIONS data _ n k j i h1]
    · rw [if_neg hD2, ReconstructBX1s_frame DIMENSIONS data _ n k j i h1]

/-- The kernels `ReconstructBX2s` and `ReconstructBX3s` do not write `BX1s`:
after `ReconstructNormalField` the component `BX1s` is the one
`ReconstructBX1s` leaves. -/
theorem ReconstructNormalField_BX1s (DIMENSIONS : ℕ) (data : DataBlock) (k j i : ℤ) :
    (MHD.Physics.ReconstructNormalField DIMENSIONS data).Vs BX1s k j i
      = MHD.ReconstructBX1s DIMENSIONS data data.Vs BX1s k j i := by
  have h2 : BX1s = BX2s → data.nghost JDIR - 1 < j
      ∧ j ≤ data.np_tot JDIR - data.nghost JDIR - 1 := fun h => absurd h (by decide)
  have h3 : BX1s = BX3s → data.nghost KDIR - 1 < k
      ∧ k ≤ data.np_tot KDIR - data.nghost KDIR - 1 := fun h => absurd h (by decide)
  simp only [MHD.Physics.ReconstructNormalField]
  by_cases hD3 : DIMENSIONS = 3
  · rw [if_pos hD3, ReconstructBX3s_frame data _ BX1s j i k h3]
    by_cases hD2 : 2 ≤ DIMENSIONS
    · rw [if_pos hD2, ReconstructBX2s_frame DIMENSIONS data _ BX1s k i j h2]
    · rw [if_neg hD2]
  · rw [if_neg hD3]
    by_cases hD2 : 2 ≤ DIMENSIONS
    · rw [if_pos hD2, ReconstructBX2s_frame DIMENSIONS data _ BX1s k i j h2]
    · rw [if_neg hD2]

/-- The face `end[I]` after `ReconstructNormalField`: the first iteration of the
upper loop of `ReconstructBX1s` recomputes it from the last active cell. -/
theorem ReconstructNormalField_BX1s_end (DIMENSIONS : ℕ) (data : DataBlock)
    (hext : data.extents IDIR) (hng : 0 ≤ data.nghost IDIR) (hnp : 1 ≤ data.np_int IDIR)
    (k j : ℤ) (hk : 0 ≤ k ∧ k < data.np_tot KDIR) (hj : 0 ≤ j ∧ j < data.np_tot JDIR) :
    (MHD.Physics.ReconstructNormalField DIMENSIONS data).Vs BX1s k j (data.end_ IDIR)
      = data.Vs BX1s k j (data.end_ IDIR - 1)
        - data.dx IDIR (data.end_ IDIR - 1) * (D_EXPAND DIMENSIONS ZERO_F
            ((data.Vs BX2s k (j + 1) (data.end_ IDIR - 1)
              - data.Vs BX2s k j (data.end_ IDIR - 1)) / data.dx JDIR j)
            ((data.Vs BX3s (k + 1) j (data.end_ IDIR - 1)
              - data.Vs BX3s k j (data.end_ IDIR - 1)) / data.dx KDIR k)) := by
  obtain ⟨htot, -, hend⟩ := hext
  have hrel := ReconstructBX1s_rel DIMENSIONS data data.Vs (by omega) k j (data.end_ IDIR - 1)
    hk hj (Or.inr ⟨by omega, by omega⟩)
  unfold MHD.faceRel1 at hrel
  have f1 : MHD.ReconstructBX1s DIMENSIONS data data.Vs BX1s k j (data.end_ IDIR - 1)
      = data.Vs BX1s k j (data.end_ IDIR - 1) :=
    ReconstructBX1s_frame DIMENSIONS data data.Vs BX1s k j _ (fun _ => ⟨by omega, by omega⟩)
  have f2 : ∀ k' j' i', MHD.ReconstructBX1s DIMENSIONS data data.Vs BX2s k' j' i'
      = data.Vs BX2s k' j' i' := fun k' j' i' =>
    ReconstructBX1s_frame DIMENSIONS data data.Vs BX2s k' j' i' (fun h => absurd h (by decide))
  have f3 : ∀ k' j' i', MHD.ReconstructBX1s DIMENSIONS data data.Vs BX3s k' j' i'
      = data.Vs BX3s k' j' i' := fun k' j' i' =>
    ReconstructBX1s_frame DIMENSIONS data data.Vs BX3s k' j' i' (fun h => absurd h (by decide))
  rw [f1, f2, f2, f3, f3] at hrel
  have he : data.end_ IDIR - 1 + 1 = data.end_ IDIR := by ring
  rw [he] at hrel
  rw [ReconstructNormalField_BX1s, hrel]
  ring

/-- C33. `ReconstructNormalField` does not keep every normal face that bounds
an active cell. On the 1D grid (`beg[I] = 2`, `end[I] = 6`) with
`V_s(BX1s,k,j,i) = i`: the face `i = end[I] = 6`, the upper face of the last
active cell, holds `6` before and `5` after, the content of the face `5`,
because the upper loop of `ReconstructBX1s` starts at the last active cell
(`nend = np_tot - nghost - 1 = end - 1`) and its first write is the face
`end`; the lower loop starts at the first ghost cell (`nstart = nghost - 1`),
and the face `i = beg[I] = 2` keeps its value. -/
theorem ReconstructNormalField_end_face_at_failing_input :
    (grid1D_VsRamp.beg IDIR = 2 ∧ grid1D_VsRamp.end_ IDIR = 6)
    ∧ grid1D_VsRamp.Vs BX1s 0 0 6 = 6
    ∧ (MHD.Physics.ReconstructNormalField 1 grid1D_VsRamp).Vs BX1s 0 0 6 = 5
    ∧ (MHD.Physics.ReconstructNormalField 1 grid1D_VsRamp).Vs BX1s 0 0 2
        = grid1D_VsRamp.Vs BX1s 0 0 2 := by
  refine ⟨⟨by decide, by decide⟩, by simp [grid1D_VsRamp], ?_, ?_⟩
  · have h := ReconstructNormalField_BX1s_end 1 grid1D_VsRamp ⟨by decide, by decide, by decide⟩
      (by decide) (by decide) 0 0 (by decide) (by decide)
    have he : grid1D_VsRamp.end_ IDIR = 6 := by decide
    rw [he] at h
    rw [h]
    simp [grid1D_VsRamp, D_EXPAND, ZERO_F]
  · exact ReconstructNormalField_frame_any 1 grid1D_VsRamp BX1s 0 0 2
      (fun _ => ⟨by decide, by decide⟩) (fun h => absurd h (by decide))
      (fun h => absurd h (by decide))

/-- The faces `ReconstructNormalField` keeps and the one it overwrites, for
every prior `V_s`: `V_s(BX1s,k,j,i)` is unchanged for `beg[I] <= i < end[I]`
(likewise `V_s(BX2s)` for `beg[J] <= j < end[J]` and `V_s(BX3s)` for
`beg[K] <= k < end[K]`), so that the lower loops write ghost faces only. The
upper loop of `ReconstructBX1s` starts one cell too low: the face `i = end[I]`,
which bounds the last active cell, is overwritten with
`V_s(BX1s,k,j,end-1) - dx1(end-1)*[transverse differences of the cell end-1]`;
the overwrite goes unnoticed exactly when that cell was solenoidal (for
`dx1(end-1) != 0`). -/
theorem ReconstructNormalField_frame (DIMENSIONS : ℕ) (data : DataBlock)
    (hext : ∀ e : ℤ, e = IDIR ∨ e = JDIR ∨ e = KDIR → data.extents e) :
    (∀ k j i, data.beg IDIR ≤ i ∧ i < data.end_ IDIR →
      (MHD.Physics.ReconstructNormalField DIMENSIONS data).Vs BX1s k j i = data.Vs BX1s k j i)
    ∧ (∀ k j i, data.beg JDIR ≤ j ∧ j < data.end_ JDIR →
      (MHD.Physics.ReconstructNormalField DIMENSIONS data).Vs BX2s k j i = data.Vs BX2s k j i)
    ∧ (∀ k j i, data.beg KDIR ≤ k ∧ k < data.end_ KDIR →
      (MHD.Physics.ReconstructNormalField DIMENSIONS data).Vs BX3s k j i = data.Vs BX3s k j i)
    ∧ (0 ≤ data.nghost IDIR → 1 ≤ data.np_int IDIR →
      ∀ k j, 0 ≤ k ∧ k < data.np_tot KDIR → 0 ≤ j ∧ j < data.np_tot JDIR →
        (MHD.Physics.ReconstructNormalField DIMENSIONS data).Vs BX1s k j (data.end_ IDIR)
            = data.Vs BX1s k j (data.end_ IDIR - 1)
              - data.dx IDIR (data.end_ IDIR - 1) * (D_EXPAND DIMENSIONS ZERO_F
                  ((data.Vs BX2s k (j + 1) (data.end_ IDIR - 1)
                    - data.Vs BX2s k j (data.end_ IDIR - 1)) / data.dx JDIR j)
                  ((data.Vs BX3s (k + 1) j (data.end_ IDIR - 1)
                    - data.Vs BX3s k j (data.end_ IDIR - 1)) / data.dx KDIR k))
        ∧ (data.dx IDIR (data.end_ IDIR - 1) ≠ 0 →
          ((MHD.Physics.ReconstructNormalField DIMENSIONS data).Vs BX1s k j (data.end_ IDIR)
              = data.Vs BX1s k j (data.end_ IDIR)
            ↔ MHD.divB DIMENSIONS data.Vs (data.dx IDIR) (data.dx JDIR) (data.dx KDIR)
                k j (data.end_ IDIR - 1) = 0))) := by
  obtain ⟨tI, bI, eI⟩ := hext IDIR (Or.inl rfl)
  obtain ⟨tJ, bJ, eJ⟩ := hext JDIR (Or.inr (Or.inl rfl))
  obtain ⟨tK, bK, eK⟩ := hext KDIR (Or.inr (Or.inr rfl))
  refine ⟨fun k j i hi => ?_, fun k j i hj => ?_, fun k j i hk => ?_, fun hng hnp k j hk hj => ?_⟩
  · exact ReconstructNormalField_frame_any DIMENSIONS data BX1s k j i
      (fun _ => ⟨by omega, by omega⟩) (fun h => absurd h (by decide))
      (fun h => absurd h (by decide))
  · exact ReconstructNormalField_frame_any DIMENSIONS data BX2s k j i
      (fun h => absurd h (by decide)) (fun _ => ⟨by omega, by omega⟩)
      (fun h => absurd h (by decide))
  · exact ReconstructNormalField_frame_any DIMENSIONS data BX3s k j i
      (fun h => absurd h (by decide)) (fun h => absurd h (by decide))
      (fun _ => ⟨by omega, by omega⟩)
  · have hend := ReconstructNormalField_BX1s_end DIMENSIONS data ⟨tI, bI, eI⟩ hng hnp k j hk hj
    refine ⟨hend, fun hdx => ?_⟩
    rw [hend]
    have he : data.end_ IDIR - 1 + 1 = data.end_ IDIR := by ring
    have hdiv : MHD.divB DIMENSIONS data.Vs (data.dx IDIR) (data.dx JDIR) (data.dx KDIR)
          k j (data.end_ IDIR - 1)
        = (data.Vs BX1s k j (data.end_ IDIR) - data.Vs BX1s k j (data.end_ IDIR - 1))
            / data.dx IDIR (data.end_ IDIR - 1)
          + D_EXPAND DIMENSIONS ZERO_F
            ((data.Vs BX2s k (j + 1) (data.end_ IDIR - 1)
              - data.Vs BX2s k j (data.end_ IDIR - 1)) / data.dx JDIR j)
            ((data.Vs BX3s (k + 1) j (data.end_ IDIR - 1)
              - data.Vs BX3s k j (data.end_ IDIR - 1)) / data.dx KDIR k) := by
      simp only [MHD.divB, he, D_EXPAND, ZERO_F]
      split_ifs <;> ring
    rw [hdiv]
    constructor
    · intro h
      field_simp
      linear_combination -h
    · intro h
      field_simp at h
      linear_combination -h

/-- On the 1D grid with `V_s(BX1s) = i`: the first active face `i = 2` keeps
its value. -/
theorem ReconstructNormalField_frame_example :
    (MHD.Physics.ReconstructNormalField 1 grid1D_VsRamp).Vs BX1s 0 0 2
      = grid1D_VsRamp.Vs BX1s 0 0 2 :=
  (ReconstructNormalField_frame 1 grid1D_VsRamp
    (fun e he => by
      rcases he with rfl | rfl | rfl <;> exact ⟨by decide, by decide, by decide⟩)).1 0 0 2
    (by decide)

/-! ## Lookup table: the index search -/

/-- The scan ends at the first index at or above `x_n` when some index `b`
within reach of the fuel is at or above `x_n`. -/
theorem scan_spec (this : LookupTableHost) (n : ℤ) (x_n : real) (b : ℤ)
    (hx : ¬ this.xin (this.offset n + b) < x_n) :
    ∀ (fuel : ℕ) (i : ℤ), i ≤ b → b - i < fuel →
      ∃ j, this.scan n x_n fuel i = some j ∧ i ≤ j ∧ j ≤ b
        ∧ x_n ≤ this.xin (this.offset n + j)
        ∧ ∀ m, i ≤ m → m < j → this.xin (this.offset n + m) < x_n := by
  intro fuel
  induction fuel with
  | zero =>
    intro i hi hf
    simp only [Nat.cast_zero] at hf
    omega
  | succ fuel ih =>
    intro i hi hf
    unfold LookupTableHost.scan
    by_cases hlt : this.xin (this.offset n + i) < x_n
    · rw [if_pos hlt]
      have hne : i ≠ b := by
        rintro rfl
        exact hx hlt
      obtain ⟨j, hj, h1, h2, h3, h4⟩ := ih (i + 1) (by omega) (by push_cast at hf; omega)
      refine ⟨j, hj, by omega, h2, h3, ?_⟩
      intro m hm1 hm2
      by_cases hmi : m = i
      · rw [hmi]
        exact hlt
      · exact h4 m (by omega) hm2
    · rw [if_neg hlt]
      exact ⟨i, rfl, le_refl _, hi, not_lt.1 hlt, fun m h1 h2 => by omega⟩

/-- Truncation of a real in `[0, M)` is an integer in `[0, M-1]`. -/
theorem static_cast_int_range (q : real) (M : ℤ) (h0 : 0 ≤ q) (h1 : q < (M : real)) :
    0 ≤ static_cast_int q ∧ static_cast_int q ≤ M - 1 := by
  unfold static_cast_int
  rw [if_pos h0]
  refine ⟨Int.floor_nonneg.2 h0, ?_⟩
  have : ⌊q⌋ < M := Int.floor_lt.2 h1
  omega

/-- Truncation of an integer is the integer. -/
theorem static_cast_int_intCast (m : ℤ) : static_cast_int (m : real) = m := by
  unfold static_cast_int
  split_ifs <;> simp

/-- For a coordinate inside the bounds of its axis the even-spacing guess is an
index of `[0, dimensions(n)-2]`. -/
theorem guess_range (this : LookupTableHost) (n : ℤ) (x_n : real)
    (hdim : 1 ≤ this.dimensions n)
    (hlo : this.xin (this.offset n) ≤ x_n)
    (hhi : x_n < this.xin (this.offset n + this.dimensions n - 1)) :
    0 ≤ this.guess n x_n ∧ this.guess n x_n ≤ this.dimensions n - 2 := by
  unfold LookupTableHost.guess
  dsimp only
  have hw : 0 < this.xin (this.offset n + this.dimensions n - 1) - this.xin (this.offset n) := by
    linarith
  have hd : 2 ≤ this.dimensions n := by
    by_contra hcon
    have h1 : this.dimensions n = 1 := by omega
    rw [h1] at hhi
    have : this.offset n + 1 - 1 = this.offset n := by ring
    rw [this] at hhi
    linarith
  have hM : (0 : real) < ((this.dimensions n - 1 : ℤ) : real) := by
    have : (0 : ℤ) < this.dimensions n - 1 := by omega
    exact_mod_cast this
  have ht0 : 0 ≤ (x_n - this.xin (this.offset n))
      / (this.xin (this.offset n + this.dimensions n - 1) - this.xin (this.offset n)) :=
    div_nonneg (by linarith) hw.le
  have ht1 : (x_n - this.xin (this.offset n))
      / (this.xin (this.offset n + this.dimensions n - 1) - this.xin (this.offset n)) < 1 := by
    rw [div_lt_one hw]
    linarith
  have h := static_cast_int_range _ (this.dimensions n - 1) (mul_nonneg ht0 hM.le)
    (by nlinarith)
  omega

/-- The index search returns for every coordinate inside the bounds of its
axis, with fuel for one pass over the axis. -/
theorem search_returns (this : LookupTableHost) (fuel : ℕ) (n : ℤ) (x_n : real)
    (hdim : 1 ≤ this.dimensions n) (hfuel : this.dimensions n ≤ fuel)
    (hhi : x_n < this.xin (this.offset n + this.dimensions n - 1)) :
    ∃ i, this.search fuel n x_n = some i := by
  unfold LookupTableHost.search
  dsimp only
  split_ifs with h
  · obtain ⟨j, hj, -⟩ := scan_spec this n x_n (this.dimensions n - 1)
      (by
        have : this.offset n + (this.dimensions n - 1) = this.offset n + this.dimensions n - 1 := by
          ring
        rw [this]
        exact not_lt.2 hhi.le) fuel 0 (by omega) (by omega)
    exact ⟨j - 1, by rw [hj]; rfl⟩
  · exact ⟨_, rfl⟩

/-- The index search on an axis of strictly increasing coordinates: for a
coordinate inside the bounds it returns an index `i` of `[0, dimensions(n)-2]`
with `xin(offset(n)+i) <= x_n <= xin(offset(n)+i+1)`. -/
theorem search_spec (this : LookupTableHost) (fuel : ℕ) (n : ℤ) (x_n : real)
    (hdim : 1 ≤ this.dimensions n) (hfuel : this.dimensions n ≤ fuel)
    (hinc : ∀ i, 0 ≤ i → i + 1 < this.dimensions n →
      this.xin (this.offset n + i) < this.xin (this.offset n + i + 1))
    (hlo : this.xin (this.offset n) ≤ x_n)
    (hhi : x_n < this.xin (this.offset n + this.dimensions n - 1)) :
    ∃ i, this.search fuel n x_n = some i ∧ 0 ≤ i ∧ i ≤ this.dimensions n - 2
      ∧ this.xin (this.offset n + i) ≤ x_n ∧ x_n ≤ this.xin (this.offset n + i + 1) := by
  have hg := guess_range this n x_n hdim hlo hhi
  unfold LookupTableHost.search
  dsimp only
  split_ifs with h
  · have hb : this.offset n + (this.dimensions n - 1) = this.offset n + this.dimensions n - 1 := by
      ring
    obtain ⟨j, hj, h0, hjb, hxj, hbelow⟩ := scan_spec this n x_n (this.dimensions n - 1)
      (by rw [hb]; exact not_lt.2 hhi.le) fuel 0 (by omega) (by omega)
    have hj1 : 1 ≤ j := by
      by_contra hcon
      have hj0 : j = 0 := by omega
      rw [hj0, add_zero] at hxj
      have hx0 : x_n = this.xin (this.offset n) := le_antisymm hxj hlo
      have hgz : this.guess n x_n = 0 := by
        unfold LookupTableHost.guess
        dsimp only
        rw [hx0, sub_self, zero_div, zero_mul]
        exact static_cast_int_intCast 0
      rw [hgz, add_zero] at h
      have h01 := hinc 0 (le_refl _) (by omega)
      rw [add_zero] at h01
      rcases h with h | h
      · exact absurd h (by rw [hx0]; exact lt_irrefl _)
      · rw [hx0] at h
        exact absurd h (not_lt.2 h01.le)
    refine ⟨j - 1, by rw [hj]; rfl, by omega, by omega, ?_, ?_⟩
    · exact (hbelow (j - 1) (by omega) (by omega)).le
    · have : this.offset n + (j - 1) + 1 = this.offset n + j := by ring
      rw [this]
      exact hxj
  · rw [not_or, not_lt, not_lt] at h
    exact ⟨_, rfl, hg.1, hg.2, h.1, h.2⟩

/-! ## Lookup table: piecewise-linear interpolation in one dimension -/

/-- A coordinate inside the bounds of its axis passes both checks unchanged,
whatever `errorIfOutOfBound`. -/
theorem checkBounds_inside (this : LookupTableHost) (SMALL_NUMBER : real) (n : ℤ) (x_n : real)
    (hlo : this.xin (this.offset n) ≤ x_n)
    (hhi : x_n < this.xin (this.offset n + this.dimensions n - 1)) :
    this.checkBounds SMALL_NUMBER n x_n = Except.ok x_n := by
  unfold LookupTableHost.checkBounds
  rw [if_neg (not_lt.2 hlo)]
  show (if x_n ≥ this.xin (this.offset n + this.dimensions n - 1) then _ else _) = _
  rw [if_neg (not_le.2 hhi)]

/-- The coordinates visited by the first loop of a one-dimensional table. -/
theorem irange_kDim_one : irange 0 ((1 : ℕ) : ℤ) = [0] := by
  decide

/-- The coordinates visited by the first loop of a two-dimensional table. -/
theorem irange_kDim_two : irange 0 ((2 : ℕ) : ℤ) = [0, 1] := by
  decide

/-- The two vertices of a one-dimensional table: the left neighbour `idx[0]`
with weight `1 - delta[0]`, the right neighbour with weight `delta[0]`. -/
theorem vertex_kDim_one (this : LookupTableHost) (idx : ℤ → ℤ) (delta : ℤ → real) :
    this.vertex 1 idx delta 0 = (idx 0, 1 - delta 0)
      ∧ this.vertex 1 idx delta 1 = (idx 0 + 1, delta 0) := by
  constructor <;> simp [LookupTableHost.vertex, List.range_succ]

/-- The interpolation sum of a one-dimensional table. -/
theorem interpolate_kDim_one (this : LookupTableHost) (idx : ℤ → ℤ) (delta : ℤ → real) :
    this.interpolate 1 idx delta
      = (1 - delta 0) * this.data (idx 0) + delta 0 * this.data (idx 0 + 1) := by
  have h2 : List.range (1 <<< 1) = [0, 1] := by decide
  unfold LookupTableHost.interpolate
  rw [h2, List.foldl_cons, List.foldl_cons, List.foldl_nil, (vertex_kDim_one this idx delta).1,
    (vertex_kDim_one this idx delta).2]
  ring

/-- One-dimensional `Get` when the bound checks pass with `x_n` and the index
search returns `i`. -/
theorem Get_kDim_one (this : LookupTableHost) (SMALL_NUMBER : real) (fuel : ℕ)
    (x : ℤ → Option real) (x0 x_n : real) (i : ℤ) (hx : x 0 = some x0)
    (hcheck : this.checkBounds SMALL_NUMBER 0 x0 = Except.ok x_n)
    (hsearch : this.search fuel 0 x_n = some i) :
    this.Get SMALL_NUMBER 1 fuel x
      = some (Except.ok (some ((1 - this.ratio 0 i x_n) * this.data i
          + this.ratio 0 i x_n * this.data (i + 1)))) := by
  unfold LookupTableHost.Get
  rw [irange_kDim_one]
  simp only [LookupTableHost.locate, hx, hcheck, hsearch, Option.map_some', Except.map,
    interpolate_kDim_one, set1, if_true]

/-- C34. `LookupTableHost<1>::Get` is piecewise-linear interpolation: for a
table with `N >= 2` strictly increasing coordinates (evenly spaced or not) and
every `x` with `xin(0) <= x < xin(N-1)` (entries counted from `offset(0)`), the
index search, given fuel for one pass over the axis, terminates with an index
`i` in `[0, N-2]` such that `xin(i) <= x <= xin(i+1)`, and `Get` returns
`data(i) + (x - xin(i))/(xin(i+1) - xin(i))*(data(i+1) - data(i))`; in
particular `Get(xin(m)) = data(m)` for every node `m < N-1`. -/
theorem Get_piecewise_linear (this : LookupTableHost) (SMALL_NUMBER : real) (fuel : ℕ)
    (hN : 2 ≤ this.dimensions 0) (hfuel : this.dimensions 0 ≤ fuel)
    (hinc : ∀ i, 0 ≤ i → i + 1 < this.dimensions 0 →
      this.xin (this.offset 0 + i) < this.xin (this.offset 0 + i + 1)) :
    (∀ x : real, this.xin (this.offset 0) ≤ x →
      x < this.xin (this.offset 0 + this.dimensions 0 - 1) →
      ∃ i, this.search fuel 0 x = some i ∧ 0 ≤ i ∧ i ≤ this.dimensions 0 - 2
        ∧ this.xin (this.offset 0 + i) ≤ x ∧ x ≤ this.xin (this.offset 0 + i + 1)
        ∧ this.Get SMALL_NUMBER 1 fuel (fun _ => some x)
          = some (Except.ok (some (this.data i
              + (x - this.xin (this.offset 0 + i))
                / (this.xin (this.offset 0 + i + 1) - this.xin (this.offset 0 + i))
                * (this.data (i + 1) - this.data i)))))
    ∧ ∀ m, 0 ≤ m → m < this.dimensions 0 - 1 →
      this.Get SMALL_NUMBER 1 fuel (fun _ => some (this.xin (this.offset 0 + m)))
        = some (Except.ok (some (this.data m))) := by
  have hmono : ∀ (a : ℤ), 0 ≤ a → ∀ d : ℕ, a + d < this.dimensions 0 →
      this.xin (this.offset 0 + a) ≤ this.xin (this.offset 0 + (a + d)) := by
    intro a ha d
    induction d with
    | zero =>
      intro _
      simp
    | succ d ih =>
      intro hd
      push_cast at hd
      have h1 := ih (by omega)
      have h2 := hinc (a + d) (by omega) (by omega)
      have e1 : this.offset 0 + (a + d) + 1 = this.offset 0 + (a + ((d + 1 : ℕ) : ℤ)) := by
        push_cast
        ring
      rw [e1] at h2
      exact h1.trans h2.le
  have hmain : ∀ x : real, this.xin (this.offset 0) ≤ x →
      x < this.xin (this.offset 0 + this.dimensions 0 - 1) →
      ∃ i, this.search fuel 0 x = some i ∧ 0 ≤ i ∧ i ≤ this.dimensions 0 - 2
        ∧ this.xin (this.offset 0 + i) ≤ x ∧ x ≤ this.xin (this.offset 0 + i + 1)
        ∧ this.Get SMALL_NUMBER 1 fuel (fun _ => some x)
          = some (Except.ok (some (this.data i
              + (x - this.xin (this.offset 0 + i))
                / (this.xin (this.offset 0 + i + 1) - this.xin (this.offset 0 + i))
                * (this.data (i + 1) - this.data i)))) := by
    intro x hlo hhi
    obtain ⟨i, hs, h0, h1, h2, h3⟩ :=
      search_spec this fuel 0 x (by omega) hfuel hinc hlo hhi
    refine ⟨i, hs, h0, h1, h2, h3, ?_⟩
    rw [Get_kDim_one this SMALL_NUMBER fuel _ x x i rfl
      (checkBounds_inside this SMALL_NUMBER 0 x hlo hhi) hs]
    unfold LookupTableHost.ratio
    congr 3
    ring
  refine ⟨hmain, ?_⟩
  intro m hm0 hm1
  have hlo : this.xin (this.offset 0) ≤ this.xin (this.offset 0 + m) := by
    have h := hmono 0 (le_refl _) m.toNat (by omega)
    rw [add_zero, zero_add, Int.toNat_of_nonneg hm0] at h
    exact h
  have hhi : this.xin (this.offset 0 + m) < this.xin (this.offset 0 + this.dimensions 0 - 1) := by
    have h := hmono (m + 1) (by omega) (this.dimensions 0 - 1 - (m + 1)).toNat (by omega)
    rw [Int.toNat_of_nonneg (by omega)] at h
    have e : this.offset 0 + (m + 1 + (this.dimensions 0 - 1 - (m + 1)))
        = this.offset 0 + this.dimensions 0 - 1 := by ring
    rw [e] at h
    have h2 := hinc m hm0 (by omega)
    have e2 : this.offset 0 + m + 1 = this.offset 0 + (m + 1) := by ring
    rw [e2] at h2
    exact lt_of_lt_of_le h2 h
  obtain ⟨i, -, h0, h1, h2, h3, hG⟩ := hmain _ hlo hhi
  rw [hG]
  -- the bracket of a node is the cell at its left or the cell at its right
  have hlt := hinc i h0 (by omega)
  have hcases : i = m ∨ i + 1 = m := by
    by_contra hcon
    rw [not_or] at hcon
    rcases lt_or_gt_of_ne hcon.1 with hlt1 | hgt1
    · -- i + 1 < m: xin(i+1) < xin(m)
      have hlt2 : i + 1 < m := by omega
      have h := hmono (i + 2) (by omega) (m - (i + 2)).toNat (by omega)
      rw [Int.toNat_of_nonneg (by omega)] at h
      have e : this.offset 0 + (i + 2 + (m - (i + 2))) = this.offset 0 + m := by ring
      rw [e] at h
      have h4 := hinc (i + 1) (by omega) (by omega)
      have e4 : this.offset 0 + (i + 1) + 1 = this.offset 0 + (i + 2) := by ring
      have e5 : this.offset 0 + (i + 1) = this.offset 0 + i + 1 := by ring
      rw [e4, e5] at h4
      linarith
    · -- m < i: xin(m) < xin(i)
      have h := hmono (m + 1) (by omega) (i - (m + 1)).toNat (by omega)
      rw [Int.toNat_of_nonneg (by omega)] at h
      have e : this.offset 0 + (m + 1 + (i - (m + 1))) = this.offset 0 + i := by ring
      rw [e] at h
      have h4 := hinc m hm0 (by omega)
      have e4 : this.offset 0 + m + 1 = this.offset 0 + (m + 1) := by ring
      rw [e4] at h4
      linarith
  rcases hcases with rfl | rfl
  · rw [sub_self, zero_div, zero_mul, add_zero]
  · have e : this.offset 0 + (i + 1) = this.offset 0 + i + 1 := by ring
    rw [e, div_self (by linarith), one_mul]
    ring_nf

/-- The table `0, 1, 4, 5` with data `10, 20, 50, 40` at `x = 2`: the guess
`1` is accepted and `Get` returns `20 + (2-1)/(4-1)*(50-20) = 30`; at the node
`x = 4` it returns `50`. -/
theorem Get_piecewise_linear_witness :
    (∃ i, table1D.search 4 0 2 = some i ∧ 0 ≤ i ∧ i ≤ table1D.dimensions 0 - 2
      ∧ table1D.xin (table1D.offset 0 + i) ≤ 2 ∧ 2 ≤ table1D.xin (table1D.offset 0 + i + 1)
      ∧ table1D.Get (1 / 10000000000) 1 4 (fun _ => some 2)
        = some (Except.ok (some (table1D.data i
            + (2 - table1D.xin (table1D.offset 0 + i))
              / (table1D.xin (table1D.offset 0 + i + 1) - table1D.xin (table1D.offset 0 + i))
              * (table1D.data (i + 1) - table1D.data i)))))
    ∧ table1D.Get (1 / 10000000000) 1 4 (fun _ => some (table1D.xin (table1D.offset 0 + 2)))
        = some (Except.ok (some (table1D.data 2))) :=
  have h := Get_piecewise_linear table1D (1 / 10000000000) 4 (by decide) (by decide)
    (fun i h0 h1 => by
      have h1 : i + 1 < 4 := h1
      have hi : i = 0 ∨ i = 1 ∨ i = 2 := by omega
      rcases hi with rfl | rfl | rfl <;> norm_num [table1D])
  ⟨h.1 2 (by norm_num [table1D]) (by norm_num [table1D]), h.2 2 (by decide) (by decide)⟩

/-! ## Lookup table: queries outside the bounds -/

/-- With `errorIfOutOfBound` a coordinate outside the bounds of its axis
aborts. -/
theorem checkBounds_abort (this : LookupTableHost) (SMALL_NUMBER : real) (n : ℤ) (x_n : real)
    (herr : this.errorIfOutOfBound = true) (hout : ¬ this.inBounds n x_n) :
    ∃ msg, this.checkBounds SMALL_NUMBER n x_n = Except.error msg := by
  unfold LookupTableHost.checkBounds
  by_cases hlo : x_n < this.xin (this.offset n)
  · rw [if_pos hlo, if_pos herr]
    exact ⟨_, rfl⟩
  · rw [if_neg hlo]
    have hhi : x_n ≥ this.xin (this.offset n + this.dimensions n - 1) := by
      by_contra hcon
      exact hout ⟨not_lt.1 hlo, not_le.1 hcon⟩
    refine ⟨"LookupTableHost:: ERROR! Attempt to interpolate above your upper bound.", ?_⟩
    show (if x_n ≥ this.xin (this.offset n + this.dimensions n - 1) then _ else _) = _
    rw [if_pos hhi, if_pos herr]

/-- The first loop of `Get` with `errorIfOutOfBound`, over an increasing list of
axes with at least one coordinate each and fuel for one pass over each: it
ends; without `NaN` it aborts exactly when a coordinate is outside its bounds;
it returns `NaN` at a `NaN` coordinate whose predecessors are inside their
bounds; it returns the indices when all the coordinates are inside. -/
theorem locate_errorIfOutOfBound (this : LookupTableHost) (SMALL_NUMBER : real) (fuel : ℕ)
    (x : ℤ → Option real) (herr : this.errorIfOutOfBound = true) :
    ∀ (l : List ℤ) (S : (ℤ → ℤ) × (ℤ → real)), l.Pairwise (fun a b => a < b) →
      (∀ n ∈ l, 1 ≤ this.dimensions n ∧ this.dimensions n ≤ fuel) →
      ∃ r, this.locate SMALL_NUMBER fuel x l S = some r
        ∧ ((∀ n ∈ l, x n ≠ none) →
            ((∃ msg, r = Except.error msg)
              ↔ ∃ n ∈ l, ∃ v, x n = some v ∧ ¬ this.inBounds n v))
        ∧ (∀ n ∈ l, x n = none →
            (∀ m ∈ l, m < n → ∃ v, x m = some v ∧ this.inBounds m v) → r = Except.ok none)
        ∧ ((∀ n ∈ l, ∃ v, x n = some v ∧ this.inBounds n v) → ∃ S', r = Except.ok (some S')) := by
  intro l
  induction l with
  | nil =>
    intro S _ _
    refine ⟨_, rfl, ?_, ?_, ?_⟩
    · intro _
      constructor
      · rintro ⟨msg, h⟩
        cases h
      · rintro ⟨n, hn, -⟩
        cases hn
    · intro n hn
      cases hn
    · intro _
      exact ⟨S, rfl⟩
  | cons a l ih =>
    intro S hpair hdim
    have hlt : ∀ b ∈ l, a < b := (List.pairwise_cons.1 hpair).1
    have hpair' : l.Pairwise (fun a b => a < b) := (List.pairwise_cons.1 hpair).2
    have hdim' : ∀ n ∈ l, 1 ≤ this.dimensions n ∧ this.dimensions n ≤ fuel :=
      fun n hn => hdim n (List.mem_cons_of_mem _ hn)
    cases hxa : x a with
    | none =>
      refine ⟨Except.ok none, ?_, ?_, ?_, ?_⟩
      · simp only [LookupTableHost.locate, hxa]
      · intro hno
        exact absurd hxa (hno a (List.mem_cons_self _ _))
      · intro _ _ _ _
        rfl
      · intro hall
        obtain ⟨v, hv, -⟩ := hall a (List.mem_cons_self _ _)
        rw [hxa] at hv
        cases hv
    | some v =>
      by_cases hin : this.inBounds a v
      · obtain ⟨i, hi⟩ := search_returns this fuel a v (hdim a (List.mem_cons_self _ _)).1
          (hdim a (List.mem_cons_self _ _)).2 hin.2
        obtain ⟨r, hr, h1, h2, h3⟩ := ih
          (fun m => if m = a then i else S.1 m, set1 S.2 a (this.ratio a i v)) hpair' hdim'
        refine ⟨r, ?_, ?_, ?_, ?_⟩
        · simp only [LookupTableHost.locate, hxa,
            checkBounds_inside this SMALL_NUMBER a v hin.1 hin.2, hi]
          exact hr
        · intro hno
          rw [h1 (fun n hn => hno n (List.mem_cons_of_mem _ hn))]
          constructor
          · rintro ⟨n, hn, w, hw, hout⟩
            exact ⟨n, List.mem_cons_of_mem _ hn, w, hw, hout⟩
          · rintro ⟨n, hn, w, hw, hout⟩
            rcases List.mem_cons.1 hn with rfl | hn'
            · rw [hxa] at hw
              cases hw
              exact absurd hin hout
            · exact ⟨n, hn', w, hw, hout⟩
        · intro n hn hxn hbefore
          rcases List.mem_cons.1 hn with rfl | hn'
          · rw [hxa] at hxn
            cases hxn
          · exact h2 n hn' hxn (fun m hm hmn => hbefore m (List.mem_cons_of_mem _ hm) hmn)
        · intro hall
          exact h3 (fun n hn => hall n (List.mem_cons_of_mem _ hn))
      · obtain ⟨msg, hmsg⟩ := checkBounds_abort this SMALL_NUMBER a v herr hin
        refine ⟨Except.error msg, ?_, ?_, ?_, ?_⟩
        · simp only [LookupTableHost.locate, hxa, hmsg]
        · intro _
          constructor
          · intro _
            exact ⟨a, List.mem_cons_self _ _, v, hxa, hin⟩
          · intro _
            exact ⟨msg, rfl⟩
        · intro n hn hxn hbefore
          rcases List.mem_cons.1 hn with rfl | hn'
          · rw [hxa] at hxn
            cases hxn
          · obtain ⟨w, hw, hwin⟩ := hbefore a (List.mem_cons_self _ _) (hlt n hn')
            rw [hxa] at hw
            cases hw
            exact absurd hwin hin
        · intro hall
          obtain ⟨w, hw, hwin⟩ := hall a (List.mem_cons_self _ _)
          rw [hxa] at hw
          cases hw
          exact absurd hwin hin

/-- C35. Out-of-range handling of `LookupTableHost::Get` with
`errorIfOutOfBound = true`, for a table whose `kDim` axes have at least one
coordinate each and fuel for one pass over each axis: `Get` ends; for a query
with no `NaN` coordinate it aborts if and only if some coordinate `n` has
`x_n < xin(offset(n))` or `x_n >= xin(offset(n)+dimensions(n)-1)` (a query
exactly at the upper bound aborts); a `NaN` coordinate returns `NaN` without
aborting provided all earlier coordinates are in range. -/
theorem Get_errorIfOutOfBound (this : LookupTableHost) (SMALL_NUMBER : real) (kDim fuel : ℕ)
    (x : ℤ → Option real) (herr : this.errorIfOutOfBound = true)
    (hdim : ∀ n : ℤ, 0 ≤ n → n < kDim → 1 ≤ this.dimensions n ∧ this.dimensions n ≤ fuel) :
    ∃ r, this.Get SMALL_NUMBER kDim fuel x = some r
      ∧ ((∀ n : ℤ, 0 ≤ n → n < kDim → x n ≠ none) →
          ((∃ msg, r = Except.error msg)
            ↔ ∃ n : ℤ, 0 ≤ n ∧ n < kDim ∧ ∃ v, x n = some v
                ∧ (v < this.xin (this.offset n)
                  ∨ v ≥ this.xin (this.offset n + this.dimensions n - 1))))
      ∧ (∀ n : ℤ, 0 ≤ n → n < kDim → x n = none →
          (∀ m : ℤ, 0 ≤ m → m < n → ∃ v, x m = some v ∧ this.xin (this.offset m) ≤ v
            ∧ v < this.xin (this.offset m + this.dimensions m - 1)) →
          r = Except.ok none) := by
  obtain ⟨r, hr, h1, h2, -⟩ := locate_errorIfOutOfBound this SMALL_NUMBER fuel x herr
    (irange 0 kDim) (fun _ => 0, fun _ => 0) (pairwise_irange 0 kDim)
    (fun n hn => hdim n ((mem_irange _ _ _).1 hn).1 ((mem_irange _ _ _).1 hn).2)
  refine ⟨r.map (fun o => o.map (fun S => this.interpolate kDim S.1 S.2)), ?_, ?_, ?_⟩
  · unfold LookupTableHost.Get
    rw [hr]
    rfl
  · intro hno
    have hiff := h1 (fun n hn => hno n ((mem_irange _ _ _).1 hn).1 ((mem_irange _ _ _).1 hn).2)
    constructor
    · rintro ⟨msg, hmsg⟩
      have hr' : ∃ msg, r = Except.error msg := by
        cases r with
        | error e => exact ⟨e, rfl⟩
        | ok o => cases hmsg
      obtain ⟨n, hn, v, hv, hout⟩ := hiff.1 hr'
      refine ⟨n, ((mem_irange _ _ _).1 hn).1, ((mem_irange _ _ _).1 hn).2, v, hv, ?_⟩
      by_contra hcon
      rw [not_or, not_lt, not_le] at hcon
      exact hout hcon
    · rintro ⟨n, hn0, hn1, v, hv, hout⟩
      obtain ⟨msg, hmsg⟩ := hiff.2 ⟨n, (mem_irange _ _ _).2 ⟨hn0, hn1⟩, v, hv, by
        rintro ⟨hlo, hhi⟩
        rcases hout with h | h
        · exact absurd hlo (not_le.2 h)
        · exact absurd hhi (not_lt.2 h)⟩
      exact ⟨msg, by rw [hmsg]; rfl⟩
  · intro n hn0 hn1 hxn hbefore
    rw [h2 n ((mem_irange _ _ _).2 ⟨hn0, hn1⟩) hxn
      (fun m hm hmn => hbefore m ((mem_irange _ _ _).1 hm).1 hmn)]
    rfl

/-- The two-dimensional table with coordinates `0, 1, 4` and `0, 2`: the query
`(4, 1)`, whose first coordinate is exactly at its upper bound `xin(2) = 4`,
aborts; the query `(2, NaN)`, whose first coordinate is in range, returns
`NaN`. -/
theorem Get_errorIfOutOfBound_witness :
    (∃ msg, table2D.Get (1 / 10000000000) 2 3 (fun n => if n = 0 then some 4 else some 1)
      = some (Except.error msg))
    ∧ table2D.Get (1 / 10000000000) 2 3 (fun n => if n = 0 then some 2 else none)
      = some (Except.ok none) := by
  have hdim : ∀ n : ℤ, 0 ≤ n → n < ((2 : ℕ) : ℤ) →
      1 ≤ table2D.dimensions n ∧ table2D.dimensions n ≤ ((3 : ℕ) : ℤ) := by
    intro n h0 h1
    have h1 : n < 2 := h1
    have hn : n = 0 ∨ n = 1 := by omega
    rcases hn with rfl | rfl <;> exact ⟨by decide, by decide⟩
  constructor
  · obtain ⟨r, hr, h1, -⟩ := Get_errorIfOutOfBound table2D (1 / 10000000000) 2 3
      (fun n => if n = 0 then some 4 else some 1) rfl hdim
    obtain ⟨msg, hmsg⟩ := (h1 (fun n _ _ => by
        split_ifs <;> exact Option.some_ne_none _)).2
      ⟨0, le_refl _, by decide, 4, rfl, Or.inr (by norm_num [table2D])⟩
    exact ⟨msg, by rw [hr, hmsg]⟩
  · obtain ⟨r, hr, -, h2⟩ := Get_errorIfOutOfBound table2D (1 / 10000000000) 2 3
      (fun n => if n = 0 then some 2 else none) rfl hdim
    rw [hr, h2 1 (by decide) (by decide) rfl (fun m hm0 hm1 => by
      have hm : m = 0 := by omega
      rw [hm]
      exact ⟨2, rfl, by norm_num [table2D], by norm_num [table2D]⟩)]

/-! ## Lookup table: the multilinear weights -/

/-- The elementary ratio of a bracketing cell with increasing ends is in
`[0, 1]`. -/
theorem ratio_range (this : LookupTableHost) (n i : ℤ) (x_n : real)
    (hinc : this.xin (this.offset n + i) < this.xin (this.offset n + i + 1))
    (hlo : this.xin (this.offset n + i) ≤ x_n) (hhi : x_n ≤ this.xin (this.offset n + i + 1)) :
    0 ≤ this.ratio n i x_n ∧ this.ratio n i x_n ≤ 1 := by
  unfold LookupTableHost.ratio
  have hw : 0 < this.xin (this.offset n + i + 1) - this.xin (this.offset n + i) := by linarith
  exact ⟨div_nonneg (by linarith) hw.le, (div_le_one hw).2 (by linarith)⟩

/-- The first loop of `Get` over an increasing list of axes with strictly
increasing coordinates and fuel for one pass over each axis, for a query whose
coordinates leave the bound checks as `xc`, inside the bounds of every axis: it
returns, every `idx[n]` is the index returned by the search, in
`[0, dimensions(n)-2]`, every `delta[n]` is the ratio of that cell, in `[0, 1]`,
and the entries of the other axes are left alone. -/
theorem locate_inside (this : LookupTableHost) (SMALL_NUMBER : real) (fuel : ℕ)
    (x xc : ℤ → real) :
    ∀ (l : List ℤ) (S : (ℤ → ℤ) × (ℤ → real)), l.Pairwise (fun a b => a < b) →
      (∀ n ∈ l, 1 ≤ this.dimensions n ∧ this.dimensions n ≤ fuel
        ∧ (∀ i, 0 ≤ i → i + 1 < this.dimensions n →
            this.xin (this.offset n + i) < this.xin (this.offset n + i + 1))
        ∧ this.checkBounds SMALL_NUMBER n (x n) = Except.ok (xc n)
        ∧ this.inBounds n (xc n)) →
      ∃ S', this.locate SMALL_NUMBER fuel (fun n => some (x n)) l S = some (Except.ok (some S'))
        ∧ (∀ n ∈ l, this.search fuel n (xc n) = some (S'.1 n)
            ∧ S'.2 n = this.ratio n (S'.1 n) (xc n)
            ∧ (0 ≤ S'.1 n ∧ S'.1 n ≤ this.dimensions n - 2)
            ∧ (this.xin (this.offset n + S'.1 n) ≤ xc n
              ∧ xc n ≤ this.xin (this.offset n + S'.1 n + 1))
            ∧ (0 ≤ S'.2 n ∧ S'.2 n ≤ 1))
        ∧ ∀ n, n ∉ l → S'.1 n = S.1 n ∧ S'.2 n = S.2 n := by
  intro l
  induction l with
  | nil =>
    intro S _ _
    exact ⟨S, rfl, fun n hn => absurd hn (List.not_mem_nil n), fun n _ => ⟨rfl, rfl⟩⟩
  | cons a l ih =>
    intro S hpair hall
    have hlt : ∀ b ∈ l, a < b := (List.pairwise_cons.1 hpair).1
    have hal : a ∉ l := fun h => lt_irrefl a (hlt a h)
    obtain ⟨hd1, hd2, hinc, hcheck, hin⟩ := hall a (List.mem_cons_self _ _)
    obtain ⟨i, hs, hi0, hi1, hb0, hb1⟩ := search_spec this fuel a (xc a) hd1 hd2 hinc hin.1 hin.2
    obtain ⟨S', hS', hprop, hframe⟩ := ih
      (fun m => if m = a then i else S.1 m, set1 S.2 a (this.ratio a i (xc a)))
      (List.pairwise_cons.1 hpair).2 (fun n hn => hall n (List.mem_cons_of_mem _ hn))
    refine ⟨S', ?_, ?_, ?_⟩
    · simp only [LookupTableHost.locate, hcheck, hs]
      exact hS'
    · intro n hn
      rcases List.mem_cons.1 hn with rfl | hn'
      · have h1 : S'.1 n = i := by
          rw [(hframe n hal).1]
          simp
        have h2 : S'.2 n = this.ratio n i (xc n) := by
          rw [(hframe n hal).2]
          simp [set1]
        rw [h1, h2]
        exact ⟨hs, rfl, ⟨hi0, hi1⟩, ⟨hb0, hb1⟩,
          ratio_range this n i (xc n) (hinc i hi0 (by omega)) hb0 hb1⟩
      · exact hprop n hn'
    · intro n hn
      have hna : n ≠ a := fun h => hn (by rw [h]; exact List.mem_cons_self _ _)
      have hnl : n ∉ l := fun h => hn (List.mem_cons_of_mem _ h)
      rw [(hframe n hnl).1, (hframe n hnl).2]
      simp [set1, hna]

/-- The weight of a vertex is in `[0, 1]` when every ratio is. -/
theorem vertex_weight_range (this : LookupTableHost) (kDim : ℕ) (idx : ℤ → ℤ)
    (delta : ℤ → real) (n : ℕ)
    (hdelta : ∀ m : ℕ, m < kDim → 0 ≤ delta m ∧ delta m ≤ 1) :
    0 ≤ (this.vertex kDim idx delta n).2 ∧ (this.vertex kDim idx delta n).2 ≤ 1 := by
  have hgen : ∀ (l : List ℕ) (S : ℤ × real), (∀ m ∈ l, 0 ≤ delta m ∧ delta m ≤ 1) →
      0 ≤ S.2 ∧ S.2 ≤ 1 →
      0 ≤ (l.foldl (fun (S : ℤ × real) (m : ℕ) =>
          let index := S.1 * this.dimensions m
          let myBit := 1 <<< m
          if (n &&& myBit) > 0 then (index + (idx m + 1), S.2 * delta m)
          else (index + idx m, S.2 * (1 - delta m))) S).2
        ∧ (l.foldl (fun (S : ℤ × real) (m : ℕ) =>
          let index := S.1 * this.dimensions m
          let myBit := 1 <<< m
          if (n &&& myBit) > 0 then (index + (idx m + 1), S.2 * delta m)
          else (index + idx m, S.2 * (1 - delta m))) S).2 ≤ 1 := by
    intro l
    induction l with
    | nil =>
      intro S _ hS
      exact hS
    | cons a l ih =>
      intro S hl hS
      rw [List.foldl_cons]
      apply ih _ (fun m hm => hl m (List.mem_cons_of_mem _ hm))
      have hd := hl a (List.mem_cons_self _ _)
      dsimp only
      split_ifs
      · refine ⟨mul_nonneg hS.1 hd.1, ?_⟩
        show S.2 * delta a ≤ 1
        nlinarith [hS.1, hS.2, hd.1, hd.2]
      · refine ⟨mul_nonneg hS.1 (by linarith [hd.2]), ?_⟩
        show S.2 * (1 - delta a) ≤ 1
        nlinarith [hS.1, hS.2, hd.1, hd.2]
  exact hgen (List.range kDim) (0, 1) (fun m hm => hdelta m (List.mem_range.1 hm))
    ⟨zero_le_one, le_refl _⟩

/-- The four vertices of a two-dimensional table: vertex `b0 + 2*b1` is read
at the flat index `(idx[0]+b0)*dimensions(1) + idx[1]+b1`. -/
theorem vertex_kDim_two (this : LookupTableHost) (idx : ℤ → ℤ) (delta : ℤ → real) :
    this.vertex 2 idx delta 0
        = (idx 0 * this.dimensions 1 + idx 1, (1 - delta 0) * (1 - delta 1))
      ∧ this.vertex 2 idx delta 1
        = ((idx 0 + 1) * this.dimensions 1 + idx 1, delta 0 * (1 - delta 1))
      ∧ this.vertex 2 idx delta 2
        = (idx 0 * this.dimensions 1 + (idx 1 + 1), (1 - delta 0) * delta 1)
      ∧ this.vertex 2 idx delta 3
        = ((idx 0 + 1) * this.dimensions 1 + (idx 1 + 1), delta 0 * delta 1) := by
  refine ⟨?_, ?_, ?_, ?_⟩ <;> simp [LookupTableHost.vertex, List.range_succ]

/-- The interpolation sum of a two-dimensional table. -/
theorem interpolate_kDim_two (this : LookupTableHost) (idx : ℤ → ℤ) (delta : ℤ → real) :
    this.interpolate 2 idx delta
      = (1 - delta 0) * (1 - delta 1) * this.data (idx 0 * this.dimensions 1 + idx 1)
        + delta 0 * (1 - delta 1) * this.data ((idx 0 + 1) * this.dimensions 1 + idx 1)
        + (1 - delta 0) * delta 1 * this.data (idx 0 * this.dimensions 1 + (idx 1 + 1))
        + delta 0 * delta 1 * this.data ((idx 0 + 1) * this.dimensions 1 + (idx 1 + 1)) := by
  have h4 : List.range (1 <<< 2) = [0, 1, 2, 3] := by decide
  obtain ⟨h0, h1, h2, h3⟩ := vertex_kDim_two this idx delta
  unfold LookupTableHost.interpolate
  rw [h4]
  simp only [List.foldl_cons, List.foldl_nil, h0, h1, h2, h3]
  ring

/-! ## Lookup table: clamping -/

/-- Truncation of a real in `[m, m+1)` with `0 <= m` is `m`. -/
theorem static_cast_int_eq (q : real) (m : ℤ) (hm : 0 ≤ m) (h0 : (m : real) ≤ q)
    (h1 : q < (m : real) + 1) : static_cast_int q = m := by
  unfold static_cast_int
  have hq : (0 : real) ≤ q := le_trans (by exact_mod_cast hm) h0
  rw [if_pos hq]
  exact Int.floor_eq_iff.2 ⟨h0, h1⟩

/-- Without `errorIfOutOfBound` a coordinate at or above the upper bound, not
below the lower bound, is replaced by `upper*(1 - SMALL_NUMBER)`. -/
theorem checkBounds_clamp_above (this : LookupTableHost) (SMALL_NUMBER : real) (n : ℤ)
    (x_n : real) (herr : this.errorIfOutOfBound = false)
    (hlo : ¬ x_n < this.xin (this.offset n))
    (hhi : x_n ≥ this.xin (this.offset n + this.dimensions n - 1)) :
    this.checkBounds SMALL_NUMBER n x_n
      = Except.ok (this.xin (this.offset n + this.dimensions n - 1) * (1 - SMALL_NUMBER)) := by
  unfold LookupTableHost.checkBounds
  rw [if_neg hlo]
  show (if x_n ≥ this.xin (this.offset n + this.dimensions n - 1) then _ else _) = _
  rw [if_pos hhi, if_neg (by rw [herr]; decide)]

/-- Without `errorIfOutOfBound`, on an axis with at least two strictly
increasing coordinates, a positive upper bound and a lower bound not above
`upper*(1 - SMALL_NUMBER)`, the bound checks replace every coordinate by one
inside the bounds: the lower bound when below, `upper*(1 - SMALL_NUMBER)` when
at or above the upper bound. -/
theorem checkBounds_clamp_inside (this : LookupTableHost) (SMALL_NUMBER : real) (n : ℤ)
    (x_n : real) (herr : this.errorIfOutOfBound = false)
    (h0 : 0 < SMALL_NUMBER)
    (hlt : this.xin (this.offset n) < this.xin (this.offset n + this.dimensions n - 1))
    (hpos : 0 < this.xin (this.offset n + this.dimensions n - 1))
    (hwide : this.xin (this.offset n)
      ≤ this.xin (this.offset n + this.dimensions n - 1) * (1 - SMALL_NUMBER)) :
    ∃ v, this.checkBounds SMALL_NUMBER n x_n = Except.ok v ∧ this.inBounds n v
      ∧ (x_n < this.xin (this.offset n) → v = this.xin (this.offset n))
      ∧ (this.xin (this.offset n + this.dimensions n - 1) ≤ x_n →
          v = this.xin (this.offset n + this.dimensions n - 1) * (1 - SMALL_NUMBER))
      ∧ (this.inBounds n x_n → v = x_n) := by
  have hup : this.xin (this.offset n + this.dimensions n - 1) * (1 - SMALL_NUMBER)
      < this.xin (this.offset n + this.dimensions n - 1) := by nlinarith
  unfold LookupTableHost.checkBounds
  by_cases hlo : x_n < this.xin (this.offset n)
  · rw [if_pos hlo, if_neg (by rw [herr]; decide)]
    refine ⟨this.xin (this.offset n), ?_, ⟨le_refl _, hlt⟩, fun _ => rfl, ?_, ?_⟩
    · show (if this.xin (this.offset n) ≥ this.xin (this.offset n + this.dimensions n - 1)
        then _ else _) = _
      rw [if_neg (not_le.2 hlt)]
    · intro h
      linarith
    · intro h
      exact absurd h.1 (not_le.2 hlo)
  · rw [if_neg hlo]
    by_cases hhi : x_n ≥ this.xin (this.offset n + this.dimensions n - 1)
    · refine ⟨this.xin (this.offset n + this.dimensions n - 1) * (1 - SMALL_NUMBER), ?_,
        ⟨hwide, hup⟩, ?_, fun _ => rfl, ?_⟩
      · show (if x_n ≥ this.xin (this.offset n + this.dimensions n - 1) then _ else _) = _
        rw [if_pos hhi, if_neg (by rw [herr]; decide)]
      · intro h
        exact absurd h hlo
      · intro h
        exact absurd h.2 (not_lt.2 hhi)
    · refine ⟨x_n, ?_, ⟨not_lt.1 hlo, not_le.1 hhi⟩, ?_, ?_, fun _ => rfl⟩
      · show (if x_n ≥ this.xin (this.offset n + this.dimensions n - 1) then _ else _) = _
        rw [if_neg hhi]
      · intro h
        exact absurd h hlo
      · intro h
        exact absurd h hhi

/-- C36. Clamping of `LookupTableHost::Get` with `errorIfOutOfBound = false`
does not keep the query inside a table whose upper bound is negative. On the
table with the coordinates `-2, -1` and the data `0, 1`, for `0 <
SMALL_NUMBER < 1` and the query `x = 0` above the upper bound: the coordinate
is replaced by `-1*(1 - SMALL_NUMBER)`, which is above the upper bound `-1`;
the index is `1 = dimensions(0)-1`, above `dimensions(0)-2`; the acceptance
test reads `xin(2)` and the sum reads `data(2)`, both behind the table; and
`Get` returns `1 - SMALL_NUMBER + SMALL_NUMBER*d` for the value `d` that the
memory holds behind the data, which for `d > 1` is above the largest data
value `1` of the table. -/
theorem Get_clamp_negative_upper_bound (SMALL_NUMBER d : real) (fuel : ℕ)
    (h0 : 0 < SMALL_NUMBER) (h1 : SMALL_NUMBER < 1) :
    (tableNegative d).checkBounds SMALL_NUMBER 0 0 = Except.ok (-1 * (1 - SMALL_NUMBER))
    ∧ (tableNegative d).xin ((tableNegative d).offset 0 + (tableNegative d).dimensions 0 - 1)
        < -1 * (1 - SMALL_NUMBER)
    ∧ (tableNegative d).search fuel 0 (-1 * (1 - SMALL_NUMBER)) = some 1
    ∧ (tableNegative d).dimensions 0 - 2 < 1
    ∧ (tableNegative d).Get SMALL_NUMBER 1 fuel (fun _ => some 0)
        = some (Except.ok (some (1 - SMALL_NUMBER + SMALL_NUMBER * d)))
    ∧ (1 < d → (∀ i : ℤ, 0 ≤ i → i < (tableNegative d).dimensions 0 →
          (tableNegative d).data i < 1 - SMALL_NUMBER + SMALL_NUMBER * d)) := by
  have hcheck : (tableNegative d).checkBounds SMALL_NUMBER 0 0
      = Except.ok (-1 * (1 - SMALL_NUMBER)) := by
    have e0 : (tableNegative d).xin ((tableNegative d).offset 0) = -2 := by
      simp [tableNegative]
    have e1 : (tableNegative d).xin
        ((tableNegative d).offset 0 + (tableNegative d).dimensions 0 - 1) = -1 := by
      simp [tableNegative]
    rw [checkBounds_clamp_above (tableNegative d) SMALL_NUMBER 0 0 rfl
      (by rw [e0]; norm_num) (by rw [e1]; norm_num), e1]
  have hguess : (tableNegative d).guess 0 (-1 * (1 - SMALL_NUMBER)) = 1 := by
    unfold LookupTableHost.guess
    have e0 : (tableNegative d).xin ((tableNegative d).offset 0) = -2 := by
      simp [tableNegative]
    have e1 : (tableNegative d).xin
        ((tableNegative d).offset 0 + (tableNegative d).dimensions 0 - 1) = -1 := by
      simp [tableNegative]
    have e2 : (((tableNegative d).dimensions 0 - 1 : ℤ) : real) = 1 := by
      simp [tableNegative]
    dsimp only
    rw [e0, e1, e2]
    apply static_cast_int_eq _ 1 (by decide)
    · norm_num
      linarith
    · norm_num
      linarith
  have hsearch : (tableNegative d).search fuel 0 (-1 * (1 - SMALL_NUMBER)) = some 1 := by
    unfold LookupTableHost.search
    dsimp only
    rw [hguess]
    have e1 : (tableNegative d).xin ((tableNegative d).offset 0 + 1) = -1 := by
      simp [tableNegative]
    have e2 : (tableNegative d).xin ((tableNegative d).offset 0 + 1 + 1) = 0 := by
      simp [tableNegative]
    rw [e1, e2, if_neg]
    rw [not_or, not_lt, not_lt]
    constructor <;> linarith
  refine ⟨hcheck, ?_, hsearch, by simp [tableNegative], ?_, ?_⟩
  · have e1 : (tableNegative d).xin
        ((tableNegative d).offset 0 + (tableNegative d).dimensions 0 - 1) = -1 := by
      simp [tableNegative]
    rw [e1]
    linarith
  · rw [Get_kDim_one (tableNegative d) SMALL_NUMBER fuel _ 0 (-1 * (1 - SMALL_NUMBER)) 1 rfl
      hcheck hsearch]
    have hr : (tableNegative d).ratio 0 1 (-1 * (1 - SMALL_NUMBER)) = SMALL_NUMBER := by
      unfold LookupTableHost.ratio
      have e1 : (tableNegative d).xin ((tableNegative d).offset 0 + 1) = -1 := by
        simp [tableNegative]
      have e2 : (tableNegative d).xin ((tableNegative d).offset 0 + 1 + 1) = 0 := by
        simp [tableNegative]
      rw [e1, e2]
      ring
    have d1 : (tableNegative d).data 1 = 1 := by simp [tableNegative]
    have d2 : (tableNegative d).data (1 + 1) = d := by simp [tableNegative]
    rw [hr, d1, d2]
    congr 3
    ring
  · intro hd i hi0 hi1
    have hi1 : i < 2 := hi1
    have hi : i = 0 ∨ i = 1 := by omega
    rcases hi with rfl | rfl
    · have : (tableNegative d).data 0 = 0 := by simp [tableNegative]
      rw [this]
      nlinarith
    · have : (tableNegative d).data 1 = 1 := by simp [tableNegative]
      rw [this]
      nlinarith

/-- The failing query with `SMALL_NUMBER = 1e-10` and `100` behind the data:
`Get` returns `1 + 99e-10`, above every data value of the table. -/
theorem Get_clamp_negative_upper_bound_witness :
    (tableNegative 100).Get (1 / 10000000000) 1 2 (fun _ => some 0)
        = some (Except.ok (some (1 - 1 / 10000000000 + 1 / 10000000000 * 100)))
    ∧ (tableNegative 100).search 2 0 (-1 * (1 - 1 / 10000000000)) = some 1 :=
  have h := Get_clamp_negative_upper_bound (1 / 10000000000) 100 2 (by norm_num) (by norm_num)
  ⟨h.2.2.2.2.1, h.2.2.1⟩

/-- Where clamping does work: without `errorIfOutOfBound`, for `0 <
SMALL_NUMBER` and a table whose axes have strictly increasing coordinates, a
positive upper bound and a lower bound not above `upper*(1 - SMALL_NUMBER)`,
every query without `NaN` gets indices with `0 <= idx[n] <= dimensions(n)-2`,
ratios and weights in `[0,1]`, and `Get` returns the interpolation sum. -/
theorem Get_clamp_positive_upper_bound (this : LookupTableHost) (SMALL_NUMBER : real)
    (kDim fuel : ℕ) (x : ℤ → real) (herr : this.errorIfOutOfBound = false)
    (h0 : 0 < SMALL_NUMBER)
    (htable : ∀ n : ℤ, 0 ≤ n → n < kDim → 1 ≤ this.dimensions n ∧ this.dimensions n ≤ fuel
      ∧ (∀ i, 0 ≤ i → i + 1 < this.dimensions n →
          this.xin (this.offset n + i) < this.xin (this.offset n + i + 1))
      ∧ this.xin (this.offset n) < this.xin (this.offset n + this.dimensions n - 1)
      ∧ 0 < this.xin (this.offset n + this.dimensions n - 1)
      ∧ this.xin (this.offset n)
          ≤ this.xin (this.offset n + this.dimensions n - 1) * (1 - SMALL_NUMBER)) :
    ∃ (idx : ℤ → ℤ) (delta : ℤ → real),
      this.Get SMALL_NUMBER kDim fuel (fun n => some (x n))
        = some (Except.ok (some (this.interpolate kDim idx delta)))
      ∧ (∀ n : ℤ, 0 ≤ n → n < kDim →
          (0 ≤ idx n ∧ idx n ≤ this.dimensions n - 2) ∧ (0 ≤ delta n ∧ delta n ≤ 1))
      ∧ ∀ n : ℕ, 0 ≤ (this.vertex kDim idx delta n).2
          ∧ (this.vertex kDim idx delta n).2 ≤ 1 := by
  obtain ⟨S', hS', hprop, -⟩ := locate_inside this SMALL_NUMBER fuel x
    (fun n => if x n < this.xin (this.offset n) then this.xin (this.offset n)
      else if this.xin (this.offset n + this.dimensions n - 1) ≤ x n then
        this.xin (this.offset n + this.dimensions n - 1) * (1 - SMALL_NUMBER)
      else x n)
    (irange 0 kDim) (fun _ => 0, fun _ => 0) (pairwise_irange 0 kDim)
    (fun n hn => by
      obtain ⟨h1, h2, h3, h4, h5, h6⟩ :=
        htable n ((mem_irange _ _ _).1 hn).1 ((mem_irange _ _ _).1 hn).2
      obtain ⟨v, hv, hin, hvlo, hvhi, hvin⟩ :=
        checkBounds_clamp_inside this SMALL_NUMBER n (x n) herr h0 h4 h5 h6
      have hvx : (if x n < this.xin (this.offset n) then this.xin (this.offset n)
          else if this.xin (this.offset n + this.dimensions n - 1) ≤ x n then
            this.xin (this.offset n + this.dimensions n - 1) * (1 - SMALL_NUMBER)
          else x n) = v := by
        by_cases c1 : x n < this.xin (this.offset n)
        · rw [if_pos c1, hvlo c1]
        · rw [if_neg c1]
          by_cases c2 : this.xin (this.offset n + this.dimensions n - 1) ≤ x n
          · rw [if_pos c2, hvhi c2]
          · rw [if_neg c2, hvin ⟨not_lt.1 c1, not_le.1 c2⟩]
      refine ⟨h1, h2, h3, ?_, ?_⟩
      · rw [hv]
        exact congrArg Except.ok hvx.symm
      · dsimp only
        rw [hvx]
        exact hin)
  refine ⟨S'.1, S'.2, ?_, ?_, ?_⟩
  · unfold LookupTableHost.Get
    rw [hS']
    rfl
  · intro n hn0 hn1
    have h := hprop n ((mem_irange _ _ _).2 ⟨hn0, hn1⟩)
    exact ⟨h.2.2.1, h.2.2.2.2⟩
  · intro n
    exact vertex_weight_range this kDim S'.1 S'.2 n (fun m hm =>
      (hprop m ((mem_irange _ _ _).2 ⟨by positivity, by exact_mod_cast hm⟩)).2.2.2.2)

/-- C37. The multilinear weights of `LookupTableHost<kDim>::Get` form a
partition of unity over row-major vertices: for `kDim = 1` and `2` the `2^kDim`
vertex weights (products of `delta[m]` or `1 - delta[m]`) sum to 1, and vertex
`(idx[0]+b0, idx[1]+b1)` is read at the flat index
`(idx[0]+b0)*dimensions(1) + idx[1]+b1`, in C order; hence, for a table with
strictly increasing coordinates, a query inside the bounds of every axis and
fuel for one pass over each axis, `Get` returns the interpolation sum of the
indices and ratios of the first loop, every weight lies in `[0,1]`, every flat
index is inside the table, and a table whose data are all equal to `c` returns
`c`. -/
theorem Get_weights_partition_of_unity (this : LookupTableHost) (SMALL_NUMBER : real)
    (kDim fuel : ℕ) (hk : kDim = 1 ∨ kDim = 2) :
    (∀ (idx : ℤ → ℤ) (delta : ℤ → real),
      ((List.range (1 <<< kDim)).map (fun n => (this.vertex kDim idx delta n).2)).sum = 1)
    ∧ (∀ (idx : ℤ → ℤ) (delta : ℤ → real) (b0 : ℕ), b0 ≤ 1 →
        this.vertex 1 idx delta b0
          = (idx 0 + b0, if b0 = 1 then delta 0 else 1 - delta 0))
    ∧ (∀ (idx : ℤ → ℤ) (delta : ℤ → real) (b0 b1 : ℕ), b0 ≤ 1 → b1 ≤ 1 →
        this.vertex 2 idx delta (b0 + 2 * b1)
          = ((idx 0 + b0) * this.dimensions 1 + (idx 1 + b1),
              (if b0 = 1 then delta 0 else 1 - delta 0)
                * (if b1 = 1 then delta 1 else 1 - delta 1)))
    ∧ ∀ x : ℤ → real,
        (∀ n : ℤ, 0 ≤ n → n < kDim → 1 ≤ this.dimensions n ∧ this.dimensions n ≤ fuel
          ∧ (∀ i, 0 ≤ i → i + 1 < this.dimensions n →
              this.xin (this.offset n + i) < this.xin (this.offset n + i + 1))
          ∧ this.xin (this.offset n) ≤ x n
          ∧ x n < this.xin (this.offset n + this.dimensions n - 1)) →
        ∃ (idx : ℤ → ℤ) (delta : ℤ → real),
          this.locate SMALL_NUMBER fuel (fun n => some (x n)) (irange 0 kDim)
              (fun _ => 0, fun _ => 0) = some (Except.ok (some (idx, delta)))
          ∧ this.Get SMALL_NUMBER kDim fuel (fun n => some (x n))
              = some (Except.ok (some (this.interpolate kDim idx delta)))
          ∧ (∀ n : ℕ, n < 1 <<< kDim →
              (0 ≤ (this.vertex kDim idx delta n).2 ∧ (this.vertex kDim idx delta n).2 ≤ 1)
              ∧ 0 ≤ (this.vertex kDim idx delta n).1
              ∧ (this.vertex kDim idx delta n).1
                  < ∏ m ∈ Finset.range kDim, this.dimensions (m : ℤ))
          ∧ ∀ c : real,
              (∀ i : ℤ, 0 ≤ i → i < ∏ m ∈ Finset.range kDim, this.dimensions (m : ℤ) →
                this.data i = c) →
              this.Get SMALL_NUMBER kDim fuel (fun n => some (x n))
                = some (Except.ok (some c)) := by
  have h2 : List.range (1 <<< 1) = [0, 1] := by decide
  have h4 : List.range (1 <<< 2) = [0, 1, 2, 3] := by decide
  have e2 : (1 <<< 1 : ℕ) = 2 := by decide
  have e4 : (1 <<< 2 : ℕ) = 4 := by decide
  refine ⟨?_, ?_, ?_, ?_⟩
  · intro idx delta
    rcases hk with rfl | rfl
    · rw [h2]
      simp only [List.map_cons, List.map_nil, List.sum_cons, List.sum_nil,
        (vertex_kDim_one this idx delta).1, (vertex_kDim_one this idx delta).2]
      ring
    · obtain ⟨v0, v1, v2, v3⟩ := vertex_kDim_two this idx delta
      rw [h4]
      simp only [List.map_cons, List.map_nil, List.sum_cons, List.sum_nil, v0, v1, v2, v3]
      ring
  · intro idx delta b0 hb0
    have hb : b0 = 0 ∨ b0 = 1 := by omega
    rcases hb with rfl | rfl
    · rw [(vertex_kDim_one this idx delta).1]
      simp
    · rw [(vertex_kDim_one this idx delta).2]
      simp
  · intro idx delta b0 b1 hb0 hb1
    obtain ⟨v0, v1, v2, v3⟩ := vertex_kDim_two this idx delta
    have hb : b0 = 0 ∨ b0 = 1 := by omega
    have hb' : b1 = 0 ∨ b1 = 1 := by omega
    rcases hb with rfl | rfl <;> rcases hb' with rfl | rfl
    · rw [show 0 + 2 * 0 = 0 from rfl, v0]
      simp
    · rw [show 0 + 2 * 1 = 2 from rfl, v2]
      simp
    · rw [show 1 + 2 * 0 = 1 from rfl, v1]
      simp
    · rw [show 1 + 2 * 1 = 3 from rfl, v3]
      simp
  · intro x hx
    obtain ⟨S', hS', hprop, -⟩ := locate_inside this SMALL_NUMBER fuel x x (irange 0 kDim)
      (fun _ => 0, fun _ => 0) (pairwise_irange 0 kDim)
      (fun n hn => by
        obtain ⟨h1, h2, h3, h4, h5⟩ := hx n ((mem_irange _ _ _).1 hn).1 ((mem_irange _ _ _).1 hn).2
        exact ⟨h1, h2, h3, checkBounds_inside this SMALL_NUMBER n (x n) h4 h5, h4, h5⟩)
    have hGet : this.Get SMALL_NUMBER kDim fuel (fun n => some (x n))
        = some (Except.ok (some (this.interpolate kDim S'.1 S'.2))) := by
      unfold LookupTableHost.Get
      rw [hS']
      rfl
    have hdelta : ∀ m : ℕ, m < kDim → 0 ≤ S'.2 m ∧ S'.2 m ≤ 1 := fun m hm =>
      (hprop m ((mem_irange _ _ _).2 ⟨by positivity, by exact_mod_cast hm⟩)).2.2.2.2
    have hidx : ∀ m : ℕ, m < kDim → 0 ≤ S'.1 m ∧ S'.1 m ≤ this.dimensions m - 2 := fun m hm =>
      (hprop m ((mem_irange _ _ _).2 ⟨by positivity, by exact_mod_cast hm⟩)).2.2.1
    have hvert : ∀ n : ℕ, n < 1 <<< kDim →
        (0 ≤ (this.vertex kDim S'.1 S'.2 n).2 ∧ (this.vertex kDim S'.1 S'.2 n).2 ≤ 1)
        ∧ 0 ≤ (this.vertex kDim S'.1 S'.2 n).1
        ∧ (this.vertex kDim S'.1 S'.2 n).1
            < ∏ m ∈ Finset.range kDim, this.dimensions (m : ℤ) := by
      intro n hn
      refine ⟨vertex_weight_range this kDim S'.1 S'.2 n hdelta, ?_⟩
      rcases hk with rfl | rfl
      · have h0 := hidx 0 (by decide)
        simp only [Nat.cast_zero] at h0
        rw [e2] at hn
        rw [Finset.prod_range_one, Nat.cast_zero]
        have hn' : n = 0 ∨ n = 1 := by omega
        rcases hn' with rfl | rfl
        · rw [(vertex_kDim_one this S'.1 S'.2).1]
          dsimp only
          omega
        · rw [(vertex_kDim_one this S'.1 S'.2).2]
          dsimp only
          omega
      · have h0 := hidx 0 (by decide)
        have h1 := hidx 1 (by decide)
        simp only [Nat.cast_zero, Nat.cast_one] at h0 h1
        obtain ⟨v0, v1, v2, v3⟩ := vertex_kDim_two this S'.1 S'.2
        rw [e4] at hn
        rw [Finset.prod_range_succ, Finset.prod_range_one, Nat.cast_zero, Nat.cast_one]
        have hn' : n = 0 ∨ n = 1 ∨ n = 2 ∨ n = 3 := by omega
        rcases hn' with rfl | rfl | rfl | rfl
        · rw [v0]
          dsimp only
          constructor <;> nlinarith [h0.1, h0.2, h1.1, h1.2]
        · rw [v1]
          dsimp only
          constructor <;> nlinarith [h0.1, h0.2, h1.1, h1.2]
        · rw [v2]
          dsimp only
          constructor <;> nlinarith [h0.1, h0.2, h1.1, h1.2]
        · rw [v3]
          dsimp only
          constructor <;> nlinarith [h0.1, h0.2, h1.1, h1.2]
    refine ⟨S'.1, S'.2, hS', hGet, hvert, ?_⟩
    intro c hc
    rw [hGet]
    congr 3
    rcases hk with rfl | rfl
    · have w0 := hvert 0 (by decide)
      have w1 := hvert 1 (by decide)
      rw [(vertex_kDim_one this S'.1 S'.2).1] at w0
      rw [(vertex_kDim_one this S'.1 S'.2).2] at w1
      rw [interpolate_kDim_one, hc _ w0.2.1 w0.2.2, hc _ w1.2.1 w1.2.2]
      ring
    · obtain ⟨v0, v1, v2, v3⟩ := vertex_kDim_two this S'.1 S'.2
      have w0 := hvert 0 (by decide)
      have w1 := hvert 1 (by decide)
      have w2 := hvert 2 (by decide)
      have w3 := hvert 3 (by decide)
      rw [v0] at w0
      rw [v1] at w1
      rw [v2] at w2
      rw [v3] at w3
      rw [interpolate_kDim_two, hc _ w0.2.1 w0.2.2, hc _ w1.2.1 w1.2.2, hc _ w2.2.1 w2.2.2,
        hc _ w3.2.1 w3.2.2]
      ring

/-- The two-dimensional table at the query `(2, 1)`, inside the bounds of both
axes: the four weights sum to 1 and lie in `[0,1]`, and `Get` returns the
interpolation sum. -/
theorem Get_weights_partition_of_unity_witness :
    ((List.range (1 <<< 2)).map
        (fun n => (table2D.vertex 2 (fun _ => 0) (fun _ => 1 / 4) n).2)).sum = 1
    ∧ ∃ (idx : ℤ → ℤ) (delta : ℤ → real),
        table2D.Get (1 / 10000000000) 2 3 (fun n => some (if n = 0 then 2 else 1))
          = some (Except.ok (some (table2D.interpolate 2 idx delta)))
        ∧ ∀ n : ℕ, n < 1 <<< 2 →
            0 ≤ (table2D.vertex 2 idx delta n).2 ∧ (table2D.vertex 2 idx delta n).2 ≤ 1 :=
  have h := Get_weights_partition_of_unity table2D (1 / 10000000000) 2 3 (Or.inr rfl)
  ⟨h.1 _ _,
    let ⟨idx, delta, _, hG, hv, _⟩ := h.2.2.2 (fun n => if n = 0 then 2 else 1)
      (fun n h0 h1 => by
        have h1 : n < 2 := h1
        have hn : n = 0 ∨ n = 1 := by omega
        rcases hn with rfl | rfl
        · refine ⟨by decide, by decide, ?_, by norm_num [table2D], by norm_num [table2D]⟩
          intro i hi0 hi1
          have hi1 : i + 1 < 3 := hi1
          have hi : i = 0 ∨ i = 1 := by omega
          rcases hi with rfl | rfl <;> norm_num [table2D]
        · refine ⟨by decide, by decide, ?_, by norm_num [table2D], by norm_num [table2D]⟩
          intro i hi0 hi1
          have hi1 : i + 1 < 2 := hi1
          have hi : i = 0 := by omega
          rw [hi]
          norm_num [table2D])
    ⟨idx, delta, hG, fun n hn => (hv n hn).1⟩⟩

/-- The flat index `i*size1 + j` determines the line `j` when `0 <= j < size1`. -/
theorem flat_index_line (size1 i i' j j' : ℤ) (hj : 0 ≤ j ∧ j < size1)
    (hj' : 0 ≤ j' ∧ j' < size1) (h : i * size1 + j = i' * size1 + j') : j = j' := by
  have h1 : (i * size1 + j) % size1 = j := by
    rw [add_comm, Int.add_mul_emod_self]
    exact Int.emod_eq_of_lt hj.1 hj.2
  have h2 : (i' * size1 + j') % size1 = j' := by
    rw [add_comm, Int.add_mul_emod_self]
    exact Int.emod_eq_of_lt hj'.1 hj'.2
  rw [← h1, ← h2, h]

/-- The CSV constructor stores column `i` of line `j` at the flat index
`i*size[1] + j`, the index at which `Get` reads vertex `(i, j)`: the first
axis of the table runs along the lines of the file, the second across them. -/
theorem fillData_layout (size1 : ℤ) (dataVector : List (List real)) (data : IdefixArray1D)
    (hsize : (dataVector.length : ℤ) ≤ size1) (j i : ℕ) (hj : j < dataVector.length)
    (hi : i < (dataVector.getD j []).length) :
    LookupTableHost.fillData size1 dataVector data ((i : ℤ) * size1 + (j : ℤ))
      = (dataVector.getD j []).getD i 0 := by
  have hpos : ∀ y : ℕ, y < dataVector.length → (0 : ℤ) ≤ (y : ℤ) ∧ (y : ℤ) < size1 := by
    intro y hy
    have : (y : ℤ) < (dataVector.length : ℤ) := by exact_mod_cast hy
    exact ⟨by positivity, by omega⟩
  have hne : size1 ≠ 0 := by
    have := hpos j hj
    omega
  unfold LookupTableHost.fillData
  have h := foldl_establish
    (fun (j : ℕ) (data : IdefixArray1D) =>
      (List.range (dataVector.getD j []).length).foldl (fun (data : IdefixArray1D) (i : ℕ) =>
        set1 data ((i : ℤ) * size1 + (j : ℤ)) ((dataVector.getD j []).getD i 0)) data)
    (fun (j : ℕ) (data : IdefixArray1D) => ∀ i : ℕ, i < (dataVector.getD j []).length →
      data ((i : ℤ) * size1 + (j : ℤ)) = (dataVector.getD j []).getD i 0)
    (List.range dataVector.length) ?_ ?_ data j (List.mem_range.2 hj) i hi
  · exact h
  · intro y _ s i' hi'
    exact foldl_pointwise
      (fun (i : ℕ) (data : IdefixArray1D) =>
        set1 data ((i : ℤ) * size1 + (y : ℤ)) ((dataVector.getD y []).getD i 0))
      (fun (data : IdefixArray1D) (i : ℕ) => data ((i : ℤ) * size1 + (y : ℤ)))
      (fun i _ => (dataVector.getD y []).getD i 0)
      (fun x s => set1_self _ _ _)
      (fun x z s hxz => set1_ne _ _ _ _ (by
        intro heq
        apply hxz
        have h1 : (z : ℤ) * size1 = (x : ℤ) * size1 := by linarith
        have h2 : (z : ℤ) = (x : ℤ) := mul_right_cancel₀ hne h1
        exact_mod_cast h2.symm))
      (List.range (dataVector.getD y []).length) (List.nodup_range _) s i'
      (List.mem_range.2 hi')
  · apply (List.nodup_range dataVector.length).pairwise_of_forall_ne
    intro y hy x hx hyx s hQ i' hi'
    rw [← hQ i' hi']
    exact foldl_untouched
      (fun (i : ℕ) (data : IdefixArray1D) =>
        set1 data ((i : ℤ) * size1 + (x : ℤ)) ((dataVector.getD x []).getD i 0))
      (fun (data : IdefixArray1D) (k : ℤ) => data k) ((i' : ℤ) * size1 + (y : ℤ))
      (List.range (dataVector.getD x []).length)
      (fun i'' _ s' => set1_ne _ _ _ _ (by
        intro heq
        apply hyx
        have := flat_index_line size1 i' i'' y x (hpos y (List.mem_range.1 hy))
          (hpos x (List.mem_range.1 hx)) heq
        exact_mod_cast this)) s
